import Mathlib

/-!
# Mesh geometry and deformation engine

A shallow embedding of `src/common/geometry.cpp` (with the declarations of
`src/common/renderingUtils.hpp`) and the properties proved about it.

Conventions of the embedding

* `float` is embedded as exact rational arithmetic (`ℚ`); rounding, NaN and
  infinities are outside the model.
* `std::vector` is a `List`.  An unchecked read `v[i]` past the end is undefined
  behaviour in the source; where the model has to stay total such a read yields
  the zero element (`List.getD`), and where a property is about the read itself
  the model returns `none`.  A checked read `v.at(i)` throws in the source and
  yields `none` here.
* `std::map` is an association list kept in key order (`StdMap`).
* `size_t` arithmetic wraps modulo `2 ^ 64`; loop counters of type `int` are
  natural numbers (their overflow needs more than `2 ^ 31` iterations).
* Helpers whose definitions are not part of the translated sources
  (`normalize`, `orthogonalComplement`, `intersectLines`, `curveGroup`,
  `prefix`, `cos`, `sin`, ...) are parameters of the functions that call them.
-/

namespace Shading

/-! ## Vectors (glm) -/

/-- Two-component vector `glm::vec2`. -/
@[ext] structure vec2 where
  x : ℚ
  y : ℚ
deriving DecidableEq

/-- Three-component vector `glm::vec3`. -/
@[ext] structure vec3 where
  x : ℚ
  y : ℚ
  z : ℚ
deriving DecidableEq

/-- Four-component vector `glm::vec4`. -/
@[ext] structure vec4 where
  x : ℚ
  y : ℚ
  z : ℚ
  w : ℚ
deriving DecidableEq

/-- Matrix `glm::mat3`, stored by columns as in glm. -/
@[ext] structure mat3 where
  c0 : vec3
  c1 : vec3
  c2 : vec3
deriving DecidableEq

/-- Fixed-size array `std::array<T, 3>`. -/
@[ext] structure array3 (α : Type) where
  a0 : α
  a1 : α
  a2 : α
deriving DecidableEq

namespace vec2

instance : Zero vec2 := ⟨⟨0, 0⟩⟩
instance : Add vec2 := ⟨fun a b => ⟨a.x + b.x, a.y + b.y⟩⟩
instance : Sub vec2 := ⟨fun a b => ⟨a.x - b.x, a.y - b.y⟩⟩
instance : Neg vec2 := ⟨fun a => ⟨-a.x, -a.y⟩⟩
instance : HMul ℚ vec2 vec2 := ⟨fun c a => ⟨c * a.x, c * a.y⟩⟩
instance : HMul vec2 ℚ vec2 := ⟨fun a c => ⟨a.x * c, a.y * c⟩⟩
instance : HDiv vec2 ℚ vec2 := ⟨fun a c => ⟨a.x / c, a.y / c⟩⟩
instance : Inhabited vec2 := ⟨0⟩

@[simp] theorem v2_zero_x : (0 : vec2).x = 0 := rfl
@[simp] theorem v2_zero_y : (0 : vec2).y = 0 := rfl
@[simp] theorem v2_add_x (a b : vec2) : (a + b).x = a.x + b.x := rfl
@[simp] theorem v2_add_y (a b : vec2) : (a + b).y = a.y + b.y := rfl
@[simp] theorem v2_sub_x (a b : vec2) : (a - b).x = a.x - b.x := rfl
@[simp] theorem v2_sub_y (a b : vec2) : (a - b).y = a.y - b.y := rfl
@[simp] theorem v2_neg_x (a : vec2) : (-a).x = -a.x := rfl
@[simp] theorem v2_neg_y (a : vec2) : (-a).y = -a.y := rfl
@[simp] theorem v2_smul_x (c : ℚ) (a : vec2) : (c * a).x = c * a.x := rfl
@[simp] theorem v2_smul_y (c : ℚ) (a : vec2) : (c * a).y = c * a.y := rfl
@[simp] theorem v2_mul_x (a : vec2) (c : ℚ) : (a * c).x = a.x * c := rfl
@[simp] theorem v2_mul_y (a : vec2) (c : ℚ) : (a * c).y = a.y * c := rfl
@[simp] theorem v2_div_x (a : vec2) (c : ℚ) : (a / c).x = a.x / c := rfl
@[simp] theorem v2_div_y (a : vec2) (c : ℚ) : (a / c).y = a.y / c := rfl

/-- The product `glm::dot` on `vec2`. -/
def dot (a b : vec2) : ℚ := a.x * b.x + a.y * b.y

end vec2

namespace vec3

instance : Zero vec3 := ⟨⟨0, 0, 0⟩⟩
instance : Add vec3 := ⟨fun a b => ⟨a.x + b.x, a.y + b.y, a.z + b.z⟩⟩
instance : Sub vec3 := ⟨fun a b => ⟨a.x - b.x, a.y - b.y, a.z - b.z⟩⟩
instance : Neg vec3 := ⟨fun a => ⟨-a.x, -a.y, -a.z⟩⟩
instance : HMul ℚ vec3 vec3 := ⟨fun c a => ⟨c * a.x, c * a.y, c * a.z⟩⟩
instance : HMul vec3 ℚ vec3 := ⟨fun a c => ⟨a.x * c, a.y * c, a.z * c⟩⟩
instance : HDiv vec3 ℚ vec3 := ⟨fun a c => ⟨a.x / c, a.y / c, a.z / c⟩⟩
instance : Inhabited vec3 := ⟨0⟩

@[simp] theorem v3_zero_x : (0 : vec3).x = 0 := rfl
@[simp] theorem v3_zero_y : (0 : vec3).y = 0 := rfl
@[simp] theorem v3_zero_z : (0 : vec3).z = 0 := rfl
@[simp] theorem v3_add_x (a b : vec3) : (a + b).x = a.x + b.x := rfl
@[simp] theorem v3_add_y (a b : vec3) : (a + b).y = a.y + b.y := rfl
@[simp] theorem v3_add_z (a b : vec3) : (a + b).z = a.z + b.z := rfl
@[simp] theorem v3_sub_x (a b : vec3) : (a - b).x = a.x - b.x := rfl
@[simp] theorem v3_sub_y (a b : vec3) : (a - b).y = a.y - b.y := rfl
@[simp] theorem v3_sub_z (a b : vec3) : (a - b).z = a.z - b.z := rfl
@[simp] theorem v3_neg_x (a : vec3) : (-a).x = -a.x := rfl
@[simp] theorem v3_neg_y (a : vec3) : (-a).y = -a.y := rfl
@[simp] theorem v3_neg_z (a : vec3) : (-a).z = -a.z := rfl
@[simp] theorem v3_smul_x (c : ℚ) (a : vec3) : (c * a).x = c * a.x := rfl
@[simp] theorem v3_smul_y (c : ℚ) (a : vec3) : (c * a).y = c * a.y := rfl
@[simp] theorem v3_smul_z (c : ℚ) (a : vec3) : (c * a).z = c * a.z := rfl
@[simp] theorem v3_mul_x (a : vec3) (c : ℚ) : (a * c).x = a.x * c := rfl
@[simp] theorem v3_mul_y (a : vec3) (c : ℚ) : (a * c).y = a.y * c := rfl
@[simp] theorem v3_mul_z (a : vec3) (c : ℚ) : (a * c).z = a.z * c := rfl
@[simp] theorem v3_div_x (a : vec3) (c : ℚ) : (a / c).x = a.x / c := rfl
@[simp] theorem v3_div_y (a : vec3) (c : ℚ) : (a / c).y = a.y / c := rfl
@[simp] theorem v3_div_z (a : vec3) (c : ℚ) : (a / c).z = a.z / c := rfl

/-- The product `glm::dot` on `vec3`. -/
def dot (a b : vec3) : ℚ := a.x * b.x + a.y * b.y + a.z * b.z

/-- The product `glm::cross`. -/
def cross (a b : vec3) : vec3 :=
  ⟨a.y * b.z - b.y * a.z, a.z * b.x - b.z * a.x, a.x * b.y - b.x * a.y⟩

/-- Component read `coords[i]` of a `glm::vec3`. -/
def get (a : vec3) : Nat → ℚ
  | 0 => a.x
  | 1 => a.y
  | _ => a.z

/-- Two vectors are linearly independent: only the trivial combination vanishes. -/
def LinearIndep (a b : vec3) : Prop :=
  ∀ s t : ℚ, s * a + t * b = 0 → s = 0 ∧ t = 0

end vec3

namespace vec4

instance : Zero vec4 := ⟨⟨0, 0, 0, 0⟩⟩
instance : Inhabited vec4 := ⟨0⟩

/-- Conversion `vec3(v)` of a `vec4`: the first three components. -/
def xyz (a : vec4) : vec3 := ⟨a.x, a.y, a.z⟩

/-- Constructor `vec4(v, w)` from a `vec3` and a scalar. -/
def ofVec3 (v : vec3) (w : ℚ) : vec4 := ⟨v.x, v.y, v.z, w⟩

@[simp] theorem xyz_ofVec3 (v : vec3) (w : ℚ) : (ofVec3 v w).xyz = v := rfl
@[simp] theorem ofVec3_w (v : vec3) (w : ℚ) : (ofVec3 v w).w = w := rfl

end vec4

namespace mat3

/-- Matrix-vector product `M * v` of glm (columns weighted by the components). -/
def mulVec (M : mat3) (v : vec3) : vec3 := v.x * M.c0 + v.y * M.c1 + v.z * M.c2

/-- The identity matrix `mat3(1)`. -/
def one : mat3 := ⟨⟨1, 0, 0⟩, ⟨0, 1, 0⟩, ⟨0, 0, 1⟩⟩

end mat3

namespace array3

/-- Element read `a[i]` of a `std::array<T, 3>`. -/
def get {α : Type} (a : array3 α) : Nat → α
  | 0 => a.a0
  | 1 => a.a1
  | _ => a.a2

/-- Element write `a[i] = v` of a `std::array<T, 3>`. -/
def set {α : Type} (a : array3 α) (i : Nat) (v : α) : array3 α :=
  match i with
  | 0 => { a with a0 := v }
  | 1 => { a with a1 := v }
  | _ => { a with a2 := v }

end array3

/-! ## Ordered maps (`std::map`) and polygroup identifiers -/

/-- Ordered map `std::map<K, V>`: an association list kept in key order. -/
abbrev StdMap (K V : Type) := List (K × V)

namespace StdMap

variable {K V : Type} [DecidableEq K] [LT K] [DecidableRel (fun a b : K => a < b)]

/-- Lookup `m.find(k)`. -/
def find (m : StdMap K V) (k : K) : Option V :=
  match m with
  | [] => none
  | (k', v) :: r => if k' = k then some v else find r k

/-- Membership test `m.contains(k)`. -/
def contains (m : StdMap K V) (k : K) : Bool := (find m k).isSome

/-- Overwrite the value stored under an existing key. -/
def replace (m : StdMap K V) (k : K) (v : V) : StdMap K V :=
  match m with
  | [] => []
  | (k', v') :: r => if k' = k then (k, v) :: r else (k', v') :: replace r k v

/-- Insert a pair for a new key at its place in key order. -/
def insert (m : StdMap K V) (k : K) (v : V) : StdMap K V :=
  match m with
  | [] => [(k, v)]
  | (k', v') :: r => if k < k' then (k, v) :: (k', v') :: r else (k', v') :: insert r k v

/-- Assignment `m[k] = v`: overwrites the value of an existing key, otherwise
inserts the pair at its place in key order. -/
def assign (m : StdMap K V) (k : K) (v : V) : StdMap K V :=
  if contains m k then replace m k v else insert m k v

/-- Read `m[k]`: the stored value, or a default-constructed value `d` that is
inserted into the map when the key is absent. -/
def index (m : StdMap K V) (k : K) (d : V) : V × StdMap K V :=
  match find m k with
  | some v => (v, m)
  | none => (d, assign m k d)

/-- The keys of the map, in iteration order. -/
def keys (m : StdMap K V) : List K := m.map Prod.fst

end StdMap

/-- Polygroup identifier `PolyGroupID = std::variant<int, std::string>`. -/
inductive PolyGroupID where
  | int (i : Int)
  | str (s : String)
deriving DecidableEq

namespace PolyGroupID

/-- Order of `std::variant`: by alternative index first, then by value. -/
def lt : PolyGroupID → PolyGroupID → Prop
  | int a, int b => a < b
  | int _, str _ => True
  | str _, int _ => False
  | str a, str b => a < b

instance : LT PolyGroupID := ⟨lt⟩

instance : DecidableRel (fun a b : PolyGroupID => a < b) := fun a b =>
  match a, b with
  | int a, int b => inferInstanceAs (Decidable (a < b))
  | int _, str _ => isTrue trivial
  | str _, int _ => isFalse not_false
  | str a, str b => inferInstanceAs (Decidable (a < b))

end PolyGroupID

/-! ## Materials -/

/-- Phong material `MaterialPhong`; the texture pointer is kept as a handle. -/
structure MaterialPhong where
  ambientColor : vec4
  diffuseColor : vec4
  specularColor : vec4
  ambientIntensity : ℚ
  diffuseIntensity : ℚ
  specularIntensity : ℚ
  shininess : ℚ
  texture : Option Nat
deriving DecidableEq

namespace MaterialPhong

/-- Default constructor `MaterialPhong::MaterialPhong()`. -/
def default : MaterialPhong :=
  { ambientColor := ⟨1, 0, 0, 1⟩, diffuseColor := ⟨0, 1, 0, 1⟩, specularColor := ⟨1, 1, 1, 1⟩,
    ambientIntensity := 1, diffuseIntensity := 1, specularIntensity := 1, shininess := 50,
    texture := none }

end MaterialPhong

/-! ## Triangle primitive `TriangleR3` -/

/-- Triangle in space: per-vertex arrays (`std::vector`s in the source, so their
length is not fixed by the type), named extra attributes and an optional material. -/
structure TriangleR3 where
  vertices : List vec3
  uvs : List vec2
  normals : List vec3
  vertexColors : List vec4
  extraData : StdMap String (array3 vec4)
  material : Option MaterialPhong

namespace TriangleR3

/-- Default constructor `TriangleR3::TriangleR3()`. -/
def mk0 : TriangleR3 :=
  { vertices := [⟨0, 0, 0⟩, ⟨0, 0, 0⟩, ⟨0, 0, 0⟩],
    normals := [⟨0, 0, 1⟩, ⟨0, 0, 1⟩, ⟨0, 0, 1⟩],
    uvs := [⟨0, 0⟩, ⟨1, 0⟩, ⟨0, 1⟩],
    vertexColors := [⟨0, 0, 0, 1⟩, ⟨0, 0, 0, 1⟩, ⟨0, 0, 0, 1⟩],
    extraData := [],
    material := none }

/-- Constructor `TriangleR3(vertices, normals)`. -/
def mkVN (vertices normals : List vec3) : TriangleR3 :=
  { mk0 with vertices := vertices, normals := normals }

/-- Constructor `TriangleR3(vertices, normals, colors)`. -/
def mkVNC (vertices normals : List vec3) (colors : List vec4) : TriangleR3 :=
  { mkVN vertices normals with vertexColors := colors }

/-- Constructor `TriangleR3(vertices, normals, colors, uvs)`. -/
def mkVNCU (vertices normals : List vec3) (colors : List vec4) (uvs : List vec2) : TriangleR3 :=
  { mkVNC vertices normals colors with uvs := uvs }

/-- Unchecked read `vertices[i]`. -/
def vertex (t : TriangleR3) (i : Nat) : vec3 := t.vertices.getD i 0

/-- Checked read `TriangleR3::operator[]`, i.e. `vertices.at(i)`. -/
def get (t : TriangleR3) (i : Nat) : Option vec3 := t.vertices.get? i

/-- Method `TriangleR3::barycentricToWorld`. -/
def barycentricToWorld (t : TriangleR3) (coords : vec3) : vec3 :=
  coords.get 0 * t.vertex 0 + coords.get 1 * t.vertex 1 + coords.get 2 * t.vertex 2

/-- Method `TriangleR3::worldToBarycentric`, every `float` operation read as the
exact operation on rationals (`worldToBarycentricRounded` rounds them). -/
def worldToBarycentric (t : TriangleR3) (point : vec3) : vec3 :=
  let v0 := t.vertex 1 - t.vertex 0
  let v1 := t.vertex 2 - t.vertex 0
  let v2 := point - t.vertex 0
  let d00 := vec3.dot v0 v0
  let d01 := vec3.dot v0 v1
  let d11 := vec3.dot v1 v1
  let d20 := vec3.dot v2 v0
  let d21 := vec3.dot v2 v1
  let denom := d00 * d11 - d01 * d01
  let v := (d11 * d20 - d01 * d21) / denom
  let w := (d00 * d21 - d01 * d20) / denom
  let u := 1 - v - w
  ⟨u, v, w⟩

/-- Operator `TriangleR3::operator+`: translation by a vector. -/
def add (t : TriangleR3) (v : vec3) : TriangleR3 :=
  let newVertices := [t.vertex 0 + v, t.vertex 1 + v, t.vertex 2 + v]
  mkVNCU newVertices t.normals t.vertexColors t.uvs

/-- Method `TriangleR3::addExtraData`. -/
def addExtraData (t : TriangleR3) (name : String) (data : array3 vec4) : TriangleR3 :=
  { t with extraData := StdMap.assign t.extraData name data }

/-- Method `TriangleR3::getExtraData`: reads `extraData[name]`, which inserts a
zero-initialised array when the name is absent; returns the array and the
triangle after the read. -/
def getExtraData (t : TriangleR3) (name : String) : array3 vec4 × TriangleR3 :=
  let r := StdMap.index t.extraData name ⟨0, 0, 0⟩
  (r.1, { t with extraData := r.2 })

end TriangleR3

/-! ## Loops -/

/-- Counted loop `for (int i = 0; i < n; i++) body`. -/
def forLoop {σ : Type} (n : Nat) (body : Nat → σ → σ) (s : σ) : σ :=
  (List.range n).foldl (fun s i => body i s) s

/-- In-place element update `v[i] = g(v[i])` of a `std::vector`. -/
def modifyAt {α : Type} (l : List α) (i : Nat) (g : α → α) : List α :=
  match l.get? i with
  | some a => l.set i (g a)
  | none => l

/-! ## Mesh container `TriangularMesh` -/

/-- Mesh container: the triangle list and the cached flat buffers.  The
`bufferLocations` / `bufferSizes` bookkeeping for the renderer (addresses and
sizes of the buffers) is not part of the model. -/
structure TriangularMesh where
  triangles : List TriangleR3
  posBuff : List vec3
  normBuff : List vec3
  colorBuff : List vec4
  uvBuff : List vec2
  extraBuff : StdMap String (List vec4)

namespace TriangularMesh

/-- Constructor `TriangularMesh(triangles)`. -/
def ofTriangles (triangles : List TriangleR3) : TriangularMesh :=
  { triangles := triangles, posBuff := [], normBuff := [], colorBuff := [], uvBuff := [],
    extraBuff := [] }

/-- Method `TriangularMesh::translate`. -/
def translate (m : TriangularMesh) (v : vec3) : TriangularMesh :=
  { m with
    triangles := forLoop m.triangles.length (fun i ts => modifyAt ts i (fun t => t.add v))
      m.triangles }

/-- Operator `TriangularMesh::operator+`: a translated copy. -/
def add (m : TriangularMesh) (v : vec3) : TriangularMesh :=
  let newMesh := m
  newMesh.translate v

/-- Body of the loop of `calculatePositionBuffer`: the three `emplace_back` of
the corners `t[0]`, `t[1]`, `t[2]`. -/
def pushCorners (positions : List vec3) (t : TriangleR3) : Option (List vec3) := do
  let p0 ← t.get 0
  let p1 ← t.get 1
  let p2 ← t.get 2
  pure (positions ++ [p0, p1, p2])

/-- Method `TriangularMesh::calculatePositionBuffer`; the corner reads `t[i]` are
checked (`vertices.at(i)`), so the result is `none` when they throw. -/
def calculatePositionBuffer (m : TriangularMesh) : Option (List vec3) :=
  m.triangles.foldlM pushCorners []

/-- Method `TriangularMesh::calculateNormalBuffer`. -/
def calculateNormalBuffer (m : TriangularMesh) : List vec3 :=
  m.triangles.foldl
    (fun normals t => normals ++ [t.normals.getD 0 0, t.normals.getD 1 0, t.normals.getD 2 0])
    []

/-- Method `TriangularMesh::calculateColorBuffer`. -/
def calculateColorBuffer (m : TriangularMesh) : List vec4 :=
  m.triangles.foldl
    (fun clr t =>
      clr ++ [t.vertexColors.getD 0 0, t.vertexColors.getD 1 0, t.vertexColors.getD 2 0])
    []

/-- Method `TriangularMesh::calculateUVBuffer`. -/
def calculateUVBuffer (m : TriangularMesh) : List vec2 :=
  m.triangles.foldl
    (fun uv t => uv ++ [t.uvs.getD 0 0, t.uvs.getD 1 0, t.uvs.getD 2 0])
    []

/-- Body of the inner loop of `applyMap(f, customDomain)` for corner `j` of one
triangle: `shift = vertices[j] - vec3(getExtraData(customDomain)[j])`, then
`vertices[j] = f(vec3(getExtraData(customDomain)[j])) + shift`. -/
def applyMapCorner (f : vec3 → vec3) (customDomain : String) (j : Nat) (t : TriangleR3) :
    TriangleR3 :=
  let r1 := t.getExtraData customDomain
  let shift := r1.2.vertex j - (r1.1.get j).xyz
  let r2 := r1.2.getExtraData customDomain
  { r2.2 with vertices := r2.2.vertices.set j (f (r2.1.get j).xyz + shift) }

/-- Body of the second loop of `applyMap(f, customDomain)` for buffer index `i`. -/
def applyMapBufferStep (f : vec3 → vec3) (customDomain : String) (i : Nat)
    (m : TriangularMesh) : TriangularMesh :=
  let e := StdMap.index m.extraBuff customDomain []
  let a := (e.1.getD i 0).xyz
  let shift := m.posBuff.getD i 0 - a
  { m with
    posBuff := m.posBuff.set i (f a + shift)
    extraBuff := StdMap.assign e.2 customDomain (e.1.set i (vec4.ofVec3 (f a) 0)) }

/-- Method `TriangularMesh::applyMap(f, customDomain)`. -/
def applyMapCustomDomain (f : vec3 → vec3) (customDomain : String) (m : TriangularMesh) :
    TriangularMesh :=
  let m1 : TriangularMesh :=
    { m with
      triangles := forLoop m.triangles.length
        (fun i ts => modifyAt ts i (fun t => forLoop 3 (applyMapCorner f customDomain) t))
        m.triangles }
  forLoop m1.posBuff.length (applyMapBufferStep f customDomain) m1

end TriangularMesh

/-! ## Composite scene mesh `SuperMesh` -/

/-- Flat material channels `MaterialBuffers`. -/
structure MaterialBuffers where
  ambientColors : List vec4
  diffuseColors : List vec4
  specularColors : List vec4
  intencitiesAndShininess : List vec4

/-- Flat standard attribute channels `StdAttributeBuffers`. -/
structure StdAttributeBuffers where
  positions : List vec3
  normals : List vec3
  colors : List vec4
  uvs : List vec2

/-- Ambient map `SpaceEndomorphism`: the map itself (`operator()`) and its
Jacobian `df`.  The class is declared outside the translated sources; the model
keeps the two members `actOnEmbeddedCurve` uses. -/
structure SpaceEndomorphism where
  f : vec3 → vec3
  df : vec3 → mat3

/-- Composite mesh: four role maps keyed by polygroup id, the material map and the
cached buffers.  The `bufferLocations` / `bufferSizes` bookkeeping is not part of
the model. -/
structure SuperMesh where
  triangleGroups : StdMap PolyGroupID (List TriangleR3)
  boundaryGroups : StdMap PolyGroupID (List TriangleR3)
  embedded_curves : StdMap PolyGroupID (List TriangleR3)
  embedded_points : StdMap PolyGroupID (List TriangleR3)
  materials : StdMap PolyGroupID MaterialPhong
  materialBuffers : MaterialBuffers
  stdAttributeBuffers : StdAttributeBuffers
  extraBuff : StdMap String (List vec4)
  extraBufferIndices : StdMap String Int

namespace SuperMesh

/-- Default constructor `SuperMesh::SuperMesh()`. -/
def empty : SuperMesh :=
  { triangleGroups := [], boundaryGroups := [], embedded_curves := [], embedded_points := [],
    materials := [], materialBuffers := ⟨[], [], [], []⟩, stdAttributeBuffers := ⟨[], [], [], []⟩,
    extraBuff := [], extraBufferIndices := [] }

/-- Body of the loop of `SuperMesh::actOnEmbeddedCurve` for buffer index `i`:
the three assignments to `normals[i]`, `positions[i]` and
`extraBuff["curvePoint"][i]`, in that order; every `float` operation is read as
the exact operation on rationals (`actOnEmbeddedCurveStepRounded` rounds them). -/
def actOnEmbeddedCurveStep (f : SpaceEndomorphism) (i : Nat) (m : SuperMesh) : SuperMesh :=
  let e := StdMap.index m.extraBuff "curvePoint" []
  let c := e.1.getD i 0
  let normals := m.stdAttributeBuffers.normals.set i
    (mat3.mulVec (f.df c.xyz) (m.stdAttributeBuffers.normals.getD i 0))
  let positions := m.stdAttributeBuffers.positions.set i
    (f.f c.xyz + m.stdAttributeBuffers.positions.getD i 0 - c.xyz)
  { m with
    stdAttributeBuffers := { m.stdAttributeBuffers with positions := positions, normals := normals }
    extraBuff := StdMap.assign e.2 "curvePoint" (e.1.set i (vec4.ofVec3 (f.f c.xyz) c.w)) }

/-- Method `SuperMesh::actOnEmbeddedCurve`. -/
def actOnEmbeddedCurve (f : SpaceEndomorphism) (m : SuperMesh) : SuperMesh :=
  forLoop m.stdAttributeBuffers.positions.length (actOnEmbeddedCurveStep f) m

/-- Closed form of the state of `actOnEmbeddedCurve` after its first `k`
iterations, for a mesh whose `"curvePoint"` buffer is `e`: the first `k` entries
of the three buffers carry their final values, the others are untouched. -/
def actOnEmbeddedCurvePartial (f : SpaceEndomorphism) (m : SuperMesh) (e : List vec4)
    (k : Nat) : SuperMesh :=
  { m with
    stdAttributeBuffers :=
      { m.stdAttributeBuffers with
        positions :=
          (List.zipWith (fun p c => f.f c.xyz + p - c.xyz) m.stdAttributeBuffers.positions e).take k
            ++ m.stdAttributeBuffers.positions.drop k
        normals :=
          (List.zipWith (fun n c => mat3.mulVec (f.df c.xyz) n) m.stdAttributeBuffers.normals e).take k
            ++ m.stdAttributeBuffers.normals.drop k }
    extraBuff := StdMap.assign m.extraBuff "curvePoint"
      ((e.map (fun c => vec4.ofVec3 (f.f c.xyz) c.w)).take k ++ e.drop k) }

end SuperMesh

/-! ## Planar triangles and the planar contour engine -/

/-- Triangle in the plane `TriangleR2`. -/
structure TriangleR2 where
  vertices : List vec2
  uvs : List vec2
  vertexColors : List vec4

namespace TriangleR2

/-- Constructor `TriangleR2(v1, v2, v3)`. -/
def mk3 (v1 v2 v3 : vec2) : TriangleR2 :=
  { vertices := [v1, v2, v3],
    vertexColors := [⟨1, 1, 1, 1⟩, ⟨1, 1, 1, 1⟩, ⟨1, 1, 1, 1⟩],
    uvs := [v1, v2, v3] }

/-- Constructor `TriangleR2(vertices)`. -/
def ofVertices (vertices : List vec2) : TriangleR2 :=
  { vertices := vertices,
    vertexColors := [⟨1, 1, 1, 1⟩, ⟨1, 1, 1, 1⟩, ⟨1, 1, 1, 1⟩],
    uvs := vertices }

end TriangleR2

/-- Planar helpers that `geometry.cpp` calls but that are defined outside the
translated sources: `normalize` on `vec2`, `orthogonalComplement` and
`intersectLines(p1, p2, q1, q2)` (the intersection of the line through `p1`, `p2`
with the line through `q1`, `q2`). -/
structure PlanarOps where
  normalize : vec2 → vec2
  orthogonalComplement : vec2 → vec2
  intersectLines : vec2 → vec2 → vec2 → vec2 → vec2

/-- Conversion of an `int` value to `size_t` (64 bits): reduction modulo `2 ^ 64`. -/
def toSizeT (i : Int) : Nat := (i % (2 ^ 64 : Int)).toNat

/-- Planar patch with boundary contours `PlanarMeshWithBoundary`. -/
structure PlanarMeshWithBoundary where
  triangles : List TriangleR2
  boundaries : List (List vec2)
  boundaryCyclic : List Bool
  encodesVectorField : Bool

namespace PlanarMeshWithBoundary

/-- Constructor `PlanarMeshWithBoundary(triangles, boundaries, boundaryCyclic)`. -/
def mk3 (triangles : List TriangleR2) (boundaries : List (List vec2))
    (boundaryCyclic : List Bool) : PlanarMeshWithBoundary :=
  { triangles := triangles, boundaries := boundaries, boundaryCyclic := boundaryCyclic,
    encodesVectorField := false }

/-- Index expression `(i - 1) % bd.size()` of `offsetBoundaryMesh`: `i - 1` is an
`int`, converted to `size_t` for the unsigned remainder. -/
def prevIndex (i size : Nat) : Nat := toSizeT ((i : Int) - 1) % size

/-- Index expression `(i + 1) % bd.size()` of `offsetBoundaryMesh`. -/
def nextIndex (i size : Nat) : Nat := toSizeT ((i : Int) + 1) % size

/-- The miter points computed for index `i` of a contour (both branches of
`offsetBoundaryMesh` use the same seven statements): `(pOuter, pInner)`. -/
def miterPoints (ops : PlanarOps) (w : ℚ) (bd : List vec2) (i : Nat) : vec2 × vec2 :=
  let v1 := bd.getD (prevIndex i bd.length) 0
  let v2 := bd.getD i 0
  let v3 := bd.getD (nextIndex i bd.length) 0
  let n1 := ops.normalize (ops.orthogonalComplement (v2 - v1))
  let n2 := ops.normalize (ops.orthogonalComplement (v3 - v2))
  let pOuter := ops.intersectLines (v1 + n1 * w) (v2 + n1 * w) (v2 + n2 * w) (v3 + n2 * w)
  let pInner := ops.intersectLines (v1 - n1 * w) (v2 - n1 * w) (v2 - n2 * w) (v3 - n2 * w)
  (pOuter, pInner)

/-- First loop of the cyclic branch: the lists `(outerPts, innerPts)`. -/
def cyclicPoints (ops : PlanarOps) (w : ℚ) (bd : List vec2) : List vec2 × List vec2 :=
  forLoop bd.length
    (fun i s => (s.1 ++ [(miterPoints ops w bd i).1], s.2 ++ [(miterPoints ops w bd i).2]))
    ([], [])

/-- Second loop of the cyclic branch: the two triangles pushed for every `i`. -/
def cyclicTriangles (bd outerPts innerPts : List vec2) : List TriangleR2 :=
  forLoop outerPts.length
    (fun i triang =>
      triang ++
        [TriangleR2.mk3 (outerPts.getD i 0) (outerPts.getD (nextIndex i bd.length) 0)
            (innerPts.getD (nextIndex i bd.length) 0),
         TriangleR2.mk3 (outerPts.getD i 0) (innerPts.getD i 0)
            (innerPts.getD (nextIndex i bd.length) 0)])
    []

/-- The cyclic branch of `offsetBoundaryMesh` for one contour: the triangles
pushed to `triang`, the contours pushed to `newBoundaries` and the flags pushed to
`cyclics`. -/
def offsetCyclic (ops : PlanarOps) (w : ℚ) (bd : List vec2) :
    List TriangleR2 × List (List vec2) × List Bool :=
  let pts := cyclicPoints ops w bd
  (cyclicTriangles bd pts.1 pts.2, [pts.1, pts.2], [true, true])

/-- The open branch of `offsetBoundaryMesh` for one contour with at least two
points (every read is then in bounds and `outerPts.size() - 1` does not wrap). -/
def offsetOpenCore (ops : PlanarOps) (w : ℚ) (bd : List vec2) :
    List TriangleR2 × List (List vec2) × List Bool :=
  let endingDir := ops.normalize (bd.getD 0 0 - bd.getD 1 0)
  let n1 := ops.orthogonalComplement endingDir
  let p1 := bd.getD 0 0 + n1 * w
  let p2 := p1 + endingDir * w
  let p4 := bd.getD 0 0 - n1 * w
  let p3 := p4 + endingDir * w
  let triang0 := [TriangleR2.ofVertices [p1, p2, p3], TriangleR2.ofVertices [p1, p3, p4]]
  let entire0 := [p1, p2, p3, p4]
  -- for (int i = 1; i < bd.size(); i++)
  let s1 := forLoop (bd.length - 1)
    (fun k (s : List vec2 × List vec2 × List vec2) =>
      let pt := miterPoints ops w bd (k + 1)
      (s.1 ++ [pt.1], s.2.1 ++ [pt.2], s.2.2 ++ [pt.2]))
    ([], [], entire0)
  let outerPts := s1.1
  let innerPts := s1.2.1
  let entire1 := s1.2.2
  -- for (int i = 0; i < outerPts.size() - 1; i++)
  let triang1 := forLoop (outerPts.length - 1)
    (fun i triang =>
      triang ++
        [TriangleR2.mk3 (outerPts.getD i 0) (outerPts.getD (i + 1) 0) (innerPts.getD (i + 1) 0),
         TriangleR2.mk3 (outerPts.getD i 0) (innerPts.getD i 0) (innerPts.getD (i + 1) 0)])
    triang0
  let endingDir2 := ops.normalize (bd.getD (bd.length - 1) 0 - bd.getD (bd.length - 2) 0)
  -- `vec2 n2 = orthogonalComplement(endingDir)` is computed here and never read:
  -- the four corners below use `n1`, the normal of the near end
  let q1 := bd.getD (bd.length - 1) 0 - n1 * w
  let q2 := q1 + endingDir2 * w
  let q4 := bd.getD (bd.length - 1) 0 + n1 * w
  let q3 := q4 + endingDir2 * w
  let triang2 := triang1 ++ [TriangleR2.mk3 q1 q2 q3, TriangleR2.mk3 q1 q3 q4]
  let entire2 := entire1 ++ [q1, q2, q3, q4]
  -- for (int i = outerPts.size() - 1; i >= 0; i--)
  let entire3 := forLoop outerPts.length
    (fun k entire => entire ++ [outerPts.getD (outerPts.length - 1 - k) 0])
    entire2
  (triang2, [entire3], [true])

/-- The open branch of `offsetBoundaryMesh`: with fewer than two points the
source reads `bd[1]` past the end (undefined behaviour), the model gives `none`. -/
def offsetOpen (ops : PlanarOps) (w : ℚ) (bd : List vec2) :
    Option (List TriangleR2 × List (List vec2) × List Bool) :=
  if bd.length < 2 then none else some (offsetOpenCore ops w bd)

/-- Body of the contour loop of `offsetBoundaryMesh` for contour `j`; the read
`boundaryCyclic[j]` past the end is undefined behaviour and gives `none`. -/
def offsetContourStep (ops : PlanarOps) (w : ℚ) (m : PlanarMeshWithBoundary) (j : Nat)
    (acc : Option (List TriangleR2 × List (List vec2) × List Bool)) :
    Option (List TriangleR2 × List (List vec2) × List Bool) := do
  let s ← acc
  let bd := m.boundaries.getD j []
  let cyc ← m.boundaryCyclic.get? j
  let r ← if cyc then some (offsetCyclic ops w bd) else offsetOpen ops w bd
  pure (s.1 ++ r.1, s.2.1 ++ r.2.1, s.2.2 ++ r.2.2)

/-- What one contour contributes to the result of `offsetBoundaryMesh`, as a
total function of the contour and its flag. -/
def contourResult (ops : PlanarOps) (w : ℚ) (p : List vec2 × Bool) :
    List TriangleR2 × List (List vec2) × List Bool :=
  if p.2 then offsetCyclic ops w p.1 else offsetOpenCore ops w p.1

/-- Method `PlanarMeshWithBoundary::offsetBoundaryMesh`. -/
def offsetBoundaryMesh (ops : PlanarOps) (w : ℚ) (m : PlanarMeshWithBoundary) :
    Option PlanarMeshWithBoundary :=
  (forLoop m.boundaries.length (offsetContourStep ops w m) (some ([], [], []))).map
    (fun s => mk3 s.1 s.2.1 s.2.2)

end PlanarMeshWithBoundary

namespace StdMap

/-- Range-for loop `for (auto &pair : other) m[rename(pair.first)] = pair.second`. -/
def assignAll {K V : Type} [DecidableEq K] [LT K] [DecidableRel (fun a b : K => a < b)]
    (rename : K → K) (m other : StdMap K V) : StdMap K V :=
  other.foldl (fun acc pair => assign acc (rename pair.1) pair.2) m

/-- Total number of triangles held by the groups of a role map. -/
def totalTriangles {K T : Type} (m : StdMap K (List T)) : Nat :=
  (m.map (fun pair => pair.2.length)).sum

end StdMap

namespace SuperMesh

/-- Method `SuperMesh::addEmbeddedCurve(id, triangles, material)`. -/
def addEmbeddedCurveWithId (m : SuperMesh) (id : PolyGroupID) (triangles : List TriangleR3)
    (material : MaterialPhong) : SuperMesh :=
  { m with
    embedded_curves := StdMap.assign m.embedded_curves id triangles
    materials := StdMap.assign m.materials id material }

/-- Method `SuperMesh::addEmbeddedCurve(triangles, material)`; `curveGroup` is
declared outside the translated sources and is a parameter. -/
def addEmbeddedCurve (curveGroup : Nat → PolyGroupID) (m : SuperMesh)
    (triangles : List TriangleR3) (material : MaterialPhong) : SuperMesh :=
  m.addEmbeddedCurveWithId (curveGroup m.embedded_curves.length) triangles material

/-- Method `SuperMesh::merge`.  The helper `prefix(id, s)` is declared outside the
translated sources and is the parameter `prefixed`; `prefix_rand` is the string
drawn by `randomString()`.  Only the caches of `this` are cleared (`other` is a
`const` reference). -/
def merge (prefixed : PolyGroupID → String → PolyGroupID) (prefix_rand : String)
    (m other : SuperMesh) : SuperMesh :=
  { triangleGroups :=
      StdMap.assignAll (fun id => prefixed id prefix_rand) m.triangleGroups other.triangleGroups
    boundaryGroups :=
      StdMap.assignAll (fun id => prefixed id prefix_rand) m.boundaryGroups other.boundaryGroups
    embedded_curves :=
      StdMap.assignAll (fun id => prefixed id prefix_rand) m.embedded_curves other.embedded_curves
    embedded_points :=
      StdMap.assignAll (fun id => prefixed id prefix_rand) m.embedded_points other.embedded_points
    materials :=
      StdMap.assignAll (fun id => prefixed id prefix_rand) m.materials other.materials
    extraBuff := StdMap.assignAll (fun name => name) m.extraBuff other.extraBuff
    extraBufferIndices :=
      StdMap.assignAll (fun name => name) m.extraBufferIndices other.extraBufferIndices
    stdAttributeBuffers := ⟨[], [], [], []⟩
    materialBuffers := ⟨[], [], [], []⟩ }

end SuperMesh

/-- Modelled from the spec: the helper `prefix(id, s)` that `SuperMesh::merge`
calls is not defined in the translated sources.  The spec (section 4.4) says that
every polygroup id of the other mesh is rewritten with the per-merge string put in
front of it; for an integer id the string is put in front of its decimal digits. -/
def prefixedModel (id : PolyGroupID) (s : String) : PolyGroupID :=
  match id with
  | PolyGroupID.int i => PolyGroupID.str (s ++ toString i)
  | PolyGroupID.str t => PolyGroupID.str (s ++ t)

/-! ## Curve tessellation -/

/-- Parametric curve `SmoothParametricCurve`: the members `sampleCurve` uses
(`operator()`, `tangent`, `normal`); the class is declared outside the translated
sources. -/
structure SmoothParametricCurve where
  pos : ℚ → vec3
  tangent : ℚ → vec3
  normal : ℚ → vec3

/-- Curve sample `CurveSample`. -/
structure CurveSample where
  position : vec3
  normal : vec3
  tangent : vec3
  material : MaterialPhong
  width : ℚ
  extraInfo : vec4

namespace CurveSample

/-- Constructor `CurveSample(position, normal, tangent, material, width)`. -/
def mk5 (position normal tangent : vec3) (material : MaterialPhong) (width : ℚ) : CurveSample :=
  { position := position, normal := normal, tangent := tangent, material := material,
    width := width, extraInfo := ⟨0, 0, 0, 0⟩ }

/-- Getter `CurveSample::getBinormal`. -/
def getBinormal (s : CurveSample) : vec3 := vec3.cross s.tangent s.normal

/-- Getter `CurveSample::readExtraLast`. -/
def readExtraLast (s : CurveSample) : ℚ := s.extraInfo.w

/-- Modelled from the spec: `CurveSample::addExtra(t)` is called by `sampleCurve`
but not defined in the translated sources.  The spec (section 4.5) says that each
sample stores its source parameter `t` as an extra scalar; the header keeps one
`vec4 extraInfo` whose last component `readExtraLast` reads back. -/
def addExtra (s : CurveSample) (t : ℚ) : CurveSample :=
  { s with extraInfo := { s.extraInfo with w := t } }

end CurveSample

/-- The sample `sampleCurve` stores for parameter `t`. -/
def sampleAt (curve : SmoothParametricCurve) (width : ℚ → ℚ) (material : ℚ → MaterialPhong)
    (t : ℚ) : CurveSample :=
  (CurveSample.mk5 (curve.pos t) (curve.normal t) (curve.tangent t) (material t)
    (width t)).addExtra t

/-- The loop of `sampleCurve`: for every `i < n` push the sample for
`t = t0 + (t1 - t0) * i / n` and store `t` in it (`samples.at(i).addExtra(t)`, an
access that is always in range). -/
def sampleLoop (curve : SmoothParametricCurve) (width : ℚ → ℚ) (material : ℚ → MaterialPhong)
    (t0 t1 : ℚ) (n : Int) : List CurveSample :=
  forLoop n.toNat
    (fun i samples =>
      let t := t0 + (t1 - t0) * (i : ℚ) / (n : ℚ)
      let pushed := samples ++
        [CurveSample.mk5 (curve.pos t) (curve.normal t) (curve.tangent t) (material t)
          (width t)]
      modifyAt pushed i (fun c => c.addExtra t))
    []

/-- Function `sampleCurve(curve, width, material, t0, t1, n, periodic)`.  For a
negative `n` the call `samples.reserve(n)` throws (the size converts to a value
above `max_size`), which gives `none`; so does the checked access `samples.at(n)`
of the periodic case when `n` is not an index. -/
def sampleCurve (curve : SmoothParametricCurve) (width : ℚ → ℚ) (material : ℚ → MaterialPhong)
    (t0 t1 : ℚ) (n : Int) (periodic : Bool) : Option (List CurveSample) :=
  if n < 0 then none
  else
    let samples := sampleLoop curve width material t0 t1 n
    if periodic then
      let pushed := samples ++
        [CurveSample.mk5 (curve.pos t0) (curve.normal t0) (curve.tangent t0) (material t0)
          (width t0)]
      if n.toNat < pushed.length then
        some (modifyAt pushed n.toNat (fun c => c.addExtra t0))
      else none
    else some samples

/-- Trigonometry used by `SuperCurve::mesh`: the constant `TAU` and the functions
`cos`, `sin` (not rational functions; parameters of the model). -/
structure TrigOps where
  TAU : ℚ
  cos : ℚ → ℚ
  sin : ℚ → ℚ

/-- Sampled curve `SuperCurve`. -/
structure SuperCurve where
  t0 : ℚ
  t1 : ℚ
  samples : List CurveSample
  _mesh : Option SuperMesh

/-- The value of `v.size() - 1` in `size_t` arithmetic for a vector of `n`
elements: it wraps to `2 ^ 64 - 1` when the vector is empty. -/
def sizeMinusOne (n : Nat) : Nat := if n = 0 then 2 ^ 64 - 1 else n - 1

namespace SuperCurve

/-- Constructor `SuperCurve(curve, width, material, t0, t1, segments, periodic)`. -/
def ofCurve (curve : SmoothParametricCurve) (width : ℚ → ℚ) (material : ℚ → MaterialPhong)
    (t0 t1 : ℚ) (segments : Int) (periodic : Bool) : Option SuperCurve :=
  (sampleCurve curve width material t0 t1 segments periodic).map
    (fun samples => { t0 := t0, t1 := t1, samples := samples, _mesh := none })

/-- Body of the inner loop of `SuperCurve::mesh` for sample index `i` and radial
step `j`; the reads `samples[i]`, `samples[i + 1]` past the end give `none`. -/
def meshStep (trig : TrigOps) (curveGroup : Nat → PolyGroupID) (c : SuperCurve)
    (radialSegments : Int) (i j : Nat) (mesh : SuperMesh) : Option SuperMesh := do
  let sa ← c.samples.get? i
  let sb ← c.samples.get? (i + 1)
  let theta0 := trig.TAU * (j : ℚ) / (radialSegments : ℚ)
  let theta1 := trig.TAU * ((j : ℚ) + 1) / (radialSegments : ℚ)
  let n0a := trig.cos theta0 * sa.normal + trig.sin theta0 * sa.getBinormal
  let n1a := trig.cos theta1 * sa.normal + trig.sin theta1 * sa.getBinormal
  let n0b := trig.cos theta0 * sb.normal + trig.sin theta0 * sb.getBinormal
  let n1b := trig.cos theta1 * sb.normal + trig.sin theta1 * sb.getBinormal
  let pos_a := sa.position
  let pos_b := sb.position
  let p0a := pos_a + sa.width * n0a
  let p0b := pos_b + sb.width * n0b
  let p1b := pos_b + sb.width * n1b
  let p1a := pos_a + sa.width * n1a
  let t_a := c.t0 + (c.t1 - c.t0) * (i : ℚ) / (c.samples.length : ℚ)
  let t_b := t_a + (c.t1 - c.t0) / (c.samples.length : ℚ)
  let tr1 := (TriangleR3.mkVN [p0a, p1a, p0b] [n0a, n1a, n0b]).addExtraData "curvePoint"
    ⟨vec4.ofVec3 pos_a t_a, vec4.ofVec3 pos_a t_a, vec4.ofVec3 pos_b t_b⟩
  let tr2 := (TriangleR3.mkVN [p0b, p1a, p1b] [n0b, n1a, n1b]).addExtraData "curvePoint"
    ⟨vec4.ofVec3 pos_b t_b, vec4.ofVec3 pos_a t_a, vec4.ofVec3 pos_b t_b⟩
  pure (mesh.addEmbeddedCurve curveGroup [tr1, tr2] sa.material)

/-- Method `SuperCurve::mesh(radialSegments)`: the outer loop runs while
`i < samples.size() - 1` in `size_t` arithmetic, the inner loop while
`j < radialSegments`. -/
def mesh (trig : TrigOps) (curveGroup : Nat → PolyGroupID) (c : SuperCurve)
    (radialSegments : Int) : Option SuperMesh :=
  forLoop (sizeMinusOne c.samples.length)
    (fun i acc =>
      forLoop radialSegments.toNat
        (fun j acc => acc.bind (meshStep trig curveGroup c radialSegments i j))
        acc)
    (some SuperMesh.empty)

end SuperCurve

/-- Invariant of the loops of `SuperCurve::mesh`: the mesh built so far holds
exactly `k` embedded-curve groups, keyed by `curveGroup j` for `j < k`, each
with two triangles. -/
def CurveGroupsInv (curveGroup : Nat → PolyGroupID) (k : Nat) (acc : Option SuperMesh) : Prop :=
  ∃ M, acc = some M ∧ M.embedded_curves.length = k ∧
    (∀ p ∈ M.embedded_curves, ∃ j, j < k ∧ p.1 = curveGroup j) ∧
    (∀ p ∈ M.embedded_curves, p.2.length = 2)

/-- Precondition under which merging the map `b` into the map `a` cannot collide:
`b` has each id once (it is a `std::map`), renaming with the drawn string does not
identify two ids of `b`, and no id of `a` is the renamed form of an id of `b`. -/
def MergeFresh {V : Type} (prefixed : PolyGroupID → String → PolyGroupID) (s : String)
    (a b : StdMap PolyGroupID V) : Prop :=
  (StdMap.keys b).Nodup ∧
  (∀ k1 ∈ StdMap.keys b, ∀ k2 ∈ StdMap.keys b, prefixed k1 s = prefixed k2 s → k1 = k2) ∧
  (∀ k ∈ StdMap.keys b, StdMap.find a (prefixed k s) = none)

/-- The merged map `r` keeps every entry of `a` under its id, holds every entry of
`b` under its renamed id, and has as many entries as `a` and `b` together. -/
def MergedDisjoint {V : Type} (prefixed : PolyGroupID → String → PolyGroupID) (s : String)
    (a b r : StdMap PolyGroupID V) : Prop :=
  (∀ k v, StdMap.find a k = some v → StdMap.find r k = some v) ∧
  (∀ k v, StdMap.find b k = some v → StdMap.find r (prefixed k s) = some v) ∧
  r.length = a.length + b.length

namespace TriangularMesh

/-- Closed form of the state of the buffer loop of `applyMap(f, customDomain)`
after its first `k` iterations, for a mesh whose buffer `extraBuff[customDomain]`
is `e`. -/
def applyMapBufferPartial (f : vec3 → vec3) (customDomain : String) (m : TriangularMesh)
    (e : List vec4) (k : Nat) : TriangularMesh :=
  { m with
    posBuff := (List.zipWith (fun p c => f c.xyz + (p - c.xyz)) m.posBuff e).take k
      ++ m.posBuff.drop k
    extraBuff := StdMap.assign m.extraBuff customDomain
      ((e.map (fun c => vec4.ofVec3 (f c.xyz) 0)).take k ++ e.drop k) }

end TriangularMesh

/-! ## Buffer cache policy and map application of `TriangularMesh` -/

/-- The data-model invariant of a triangle: the four per-vertex arrays have
length 3. -/
def TriangleR3.WellFormed (t : TriangleR3) : Prop :=
  t.vertices.length = 3 ∧ t.normals.length = 3 ∧ t.uvs.length = 3 ∧ t.vertexColors.length = 3

namespace TriangularMesh

/-- Method `TriangularMesh::recomputeBuffers(pos, norm, color, uv)`; `none` when
`calculatePositionBuffer` throws. -/
def recomputeBuffersSel (m : TriangularMesh) (pos norm color uv : Bool) :
    Option TriangularMesh := do
  let m1 ← if pos then (m.calculatePositionBuffer).map (fun b => { m with posBuff := b })
           else some m
  let m2 := if norm then { m1 with normBuff := m1.calculateNormalBuffer } else m1
  let m3 := if color then { m2 with colorBuff := m2.calculateColorBuffer } else m2
  let m4 := if uv then { m3 with uvBuff := m3.calculateUVBuffer } else m3
  pure m4

/-- Method `TriangularMesh::recomputeBuffers()`. -/
def recomputeBuffers (m : TriangularMesh) : Option TriangularMesh :=
  m.recomputeBuffersSel true true true true

/-- Method `TriangularMesh::precomputeBuffers`. -/
def precomputeBuffers (m : TriangularMesh) : Option TriangularMesh :=
  if !m.posBuff.isEmpty then some m else m.recomputeBuffers

/-- Method `TriangularMesh::applyMap(f)`. -/
def applyMap (f : vec3 → vec3) (m : TriangularMesh) : TriangularMesh :=
  let m1 : TriangularMesh :=
    { m with
      triangles := forLoop m.triangles.length
        (fun i ts => modifyAt ts i (fun t =>
          forLoop 3 (fun j t => { t with vertices := t.vertices.set j (f (t.vertex j)) }) t))
        m.triangles }
  forLoop m1.posBuff.length
    (fun i m => { m with posBuff := m.posBuff.set i (f (m.posBuff.getD i 0)) }) m1

/-- Body of the inner loop of `applyMap(f, f_normal)` for corner `j`: the vertex is
overwritten first, and the normal is computed from the vertex as it then is. -/
def applyMapNormalCorner (f : vec3 → vec3) (f_normal : vec3 → vec3 → vec3) (j : Nat)
    (t : TriangleR3) : TriangleR3 :=
  let t1 : TriangleR3 := { t with vertices := t.vertices.set j (f (t.vertex j)) }
  { t1 with normals := t1.normals.set j (f_normal (t1.vertex j) (t1.normals.getD j 0)) }

/-- Body of the second loop of `applyMap(f, f_normal)` for buffer index `i`: the
cached normal is computed from the cached position before that is overwritten. -/
def applyMapNormalBufferStep (f : vec3 → vec3) (f_normal : vec3 → vec3 → vec3) (i : Nat)
    (m : TriangularMesh) : TriangularMesh :=
  let m1 : TriangularMesh :=
    { m with normBuff := m.normBuff.set i (f_normal (m.posBuff.getD i 0) (m.normBuff.getD i 0)) }
  { m1 with posBuff := m1.posBuff.set i (f (m1.posBuff.getD i 0)) }

/-- Method `TriangularMesh::applyMap(f, f_normal)`. -/
def applyMapNormal (f : vec3 → vec3) (f_normal : vec3 → vec3 → vec3) (m : TriangularMesh) :
    TriangularMesh :=
  let m1 : TriangularMesh :=
    { m with
      triangles := forLoop m.triangles.length
        (fun i ts => modifyAt ts i (fun t => forLoop 3 (applyMapNormalCorner f f_normal) t))
        m.triangles }
  forLoop m1.posBuff.length (applyMapNormalBufferStep f f_normal) m1

/-- Method `TriangularMesh::applyMap(f, f_normal, customDomain)`: its body is
empty. -/
def applyMapNormalCustomDomain (_f : vec3 → vec3) (_f_normal : vec3 → vec3 → vec3)
    (_customDomain : String) (m : TriangularMesh) : TriangularMesh := m

end TriangularMesh

/-! ## Deformation operators -/

/-- One-parameter mesh family `MeshFamily1P`; the shared mesh is part of the
state. -/
structure MeshFamily1P where
  _t : ℚ
  mesh : TriangularMesh
  time_operator : ℚ → ℚ → vec3 → vec3
  time_operator_normal : ℚ → ℚ → vec3 → vec3 → vec3
  planar : Bool

namespace MeshFamily1P

/-- Constructor `MeshFamily1P(mesh, time_operator, time_operator_normal, t)`. -/
def ofOperators (mesh : TriangularMesh) (time_operator : ℚ → ℚ → vec3 → vec3)
    (time_operator_normal : ℚ → ℚ → vec3 → vec3 → vec3) (t : ℚ) : MeshFamily1P :=
  { _t := t, mesh := mesh, time_operator := time_operator,
    time_operator_normal := time_operator_normal, planar := false }

/-- Method `MeshFamily1P::time`. -/
def time (F : MeshFamily1P) : ℚ := F._t

/-- Method `MeshFamily1P::transformMesh`. -/
def transformMesh (F : MeshFamily1P) (new_t : ℚ) : MeshFamily1P :=
  let mesh :=
    if F.planar then F.mesh.applyMap (F.time_operator F._t new_t)
    else F.mesh.applyMapNormal (F.time_operator F._t new_t) (F.time_operator_normal F._t new_t)
  { F with mesh := mesh, _t := new_t }

/-- Method `MeshFamily1P::meshDeformation`. -/
def meshDeformation (F : MeshFamily1P) (dt : ℚ) : MeshFamily1P :=
  F.transformMesh (F._t + dt)

end MeshFamily1P

namespace TriangleR3

/-- The three positions `calculatePositionBuffer` pushes for a triangle. -/
def cornerPositions (t : TriangleR3) : List vec3 := [t.vertex 0, t.vertex 1, t.vertex 2]

/-- The three normals `calculateNormalBuffer` pushes for a triangle. -/
def cornerNormals (t : TriangleR3) : List vec3 :=
  [t.normals.getD 0 0, t.normals.getD 1 0, t.normals.getD 2 0]

/-- The three colors `calculateColorBuffer` pushes for a triangle. -/
def cornerColors (t : TriangleR3) : List vec4 :=
  [t.vertexColors.getD 0 0, t.vertexColors.getD 1 0, t.vertexColors.getD 2 0]

/-- The three uvs `calculateUVBuffer` pushes for a triangle. -/
def cornerUVs (t : TriangleR3) : List vec2 := [t.uvs.getD 0 0, t.uvs.getD 1 0, t.uvs.getD 2 0]

end TriangleR3

/-! ## More of the triangle primitive -/

/-- Matrix `glm::mat4`, stored by columns as in glm. -/
@[ext] structure mat4 where
  c0 : vec4
  c1 : vec4
  c2 : vec4
  c3 : vec4

/-- Matrix-vector product `M * v` of glm for `mat4` and `vec4`. -/
def mat4.mulVec (M : mat4) (v : vec4) : vec4 :=
  ⟨v.x * M.c0.x + v.y * M.c1.x + v.z * M.c2.x + v.w * M.c3.x,
   v.x * M.c0.y + v.y * M.c1.y + v.z * M.c2.y + v.w * M.c3.y,
   v.x * M.c0.z + v.y * M.c1.z + v.z * M.c2.z + v.w * M.c3.z,
   v.x * M.c0.w + v.y * M.c1.w + v.z * M.c2.w + v.w * M.c3.w⟩

/-- The functions that take square roots, which are not rational functions and
are parameters of the model: the helper `norm` on `vec3`, called by
`TriangleR3::area` and defined outside the translated sources, and
`glm::inversesqrt`. -/
structure RealOps where
  norm : vec3 → ℚ
  inversesqrt : ℚ → ℚ

/-- The parameter `norm` returns the Euclidean norm of `c`: the non-negative
number whose square is `dot(c, c)`. -/
def RealOps.EuclideanAt (ops : RealOps) (c : vec3) : Prop :=
  0 ≤ ops.norm c ∧ ops.norm c * ops.norm c = vec3.dot c c

/-- Function `glm::normalize` on `vec3`: `v * inversesqrt(dot(v, v))`. -/
def normalize (ops : RealOps) (v : vec3) : vec3 := v * ops.inversesqrt (vec3.dot v v)

/-- Modelled from the spec: the helper `normalise`, called by
`TriangleR3::recalculateNormal` and not defined in the translated sources.  The
spec speaks of normalising a vector (to a unit vector): the vector divided by its
norm.  The division is the one of the rationals, in which a quotient by zero is
zero; where the norm is zero the source divides zero by zero (NaN), which
`normaliseIn` below keeps apart. -/
def normalise (ops : RealOps) (v : vec3) : vec3 := v / ops.norm v

namespace TriangleR3

/-- Constructor `TriangleR3(vertices)`. -/
def mkV (ops : RealOps) (vertices : List vec3) : TriangleR3 :=
  let n := normalize ops
    (vec3.cross (vertices.getD 1 0 - vertices.getD 0 0) (vertices.getD 2 0 - vertices.getD 0 0))
  { mk0 with vertices := vertices, normals := [n, n, n] }

/-- Constructor `TriangleR3(vertices, colors)` with a vector of colors. -/
def mkVC (ops : RealOps) (vertices : List vec3) (colors : List vec4) : TriangleR3 :=
  { mkV ops vertices with vertexColors := colors }

/-- Constructor `TriangleR3(vertices, normal)` with one normal. -/
def mkVn (ops : RealOps) (vertices : List vec3) (normal : vec3) : TriangleR3 :=
  { mkV ops vertices with normals := [normal, normal, normal] }

/-- Constructor `TriangleR3(vertices, uvs)`. -/
def mkVU (ops : RealOps) (vertices : List vec3) (uvs : List vec2) : TriangleR3 :=
  { mkVn ops vertices ⟨0, 0, 1⟩ with uvs := uvs }

/-- Constructor `TriangleR3(vertices, color)` with one color. -/
def mkVc (ops : RealOps) (vertices : List vec3) (color : vec4) : TriangleR3 :=
  { mkVn ops vertices ⟨0, 0, 1⟩ with vertexColors := [color, color, color] }

/-- Constructor `TriangleR3(vertices, normals, color)`. -/
def mkVNc (vertices normals : List vec3) (color : vec4) : TriangleR3 :=
  { mkVN vertices normals with vertexColors := [color, color, color] }

/-- Constructor `TriangleR3(vertices, normal, color)`. -/
def mkVnc (ops : RealOps) (vertices : List vec3) (normal : vec3) (color : vec4) : TriangleR3 :=
  { mkVn ops vertices normal with vertexColors := [color, color, color] }

/-- Constructor `TriangleR3(vertices, normal, colors)`. -/
def mkVnC (ops : RealOps) (vertices : List vec3) (normal : vec3) (colors : List vec4) :
    TriangleR3 :=
  { mkVn ops vertices normal with vertexColors := colors }

/-- Constructor `TriangleR3(vertices, normals, color, uvs)`. -/
def mkVNcU (vertices normals : List vec3) (color : vec4) (uvs : List vec2) : TriangleR3 :=
  { mkVNc vertices normals color with uvs := uvs }

/-- Constructor `TriangleR3(vertices, normal, color, uvs)`. -/
def mkVncU (ops : RealOps) (vertices : List vec3) (normal : vec3) (color : vec4)
    (uvs : List vec2) : TriangleR3 :=
  { mkVnc ops vertices normal color with uvs := uvs }

/-- Constructor `TriangleR3(vertices, normal, colors, uvs)`. -/
def mkVnCU (ops : RealOps) (vertices : List vec3) (normal : vec3) (colors : List vec4)
    (uvs : List vec2) : TriangleR3 :=
  { mkVnC ops vertices normal colors with uvs := uvs }

/-- Constructor `TriangleR3(vertices, normals, colors, uvs, material)`. -/
def mkVNCUM (vertices normals : List vec3) (colors : List vec4) (uvs : List vec2)
    (material : MaterialPhong) : TriangleR3 :=
  { mkVNCU vertices normals colors uvs with material := some material }

/-- The members as they are when a constructor neither delegates nor assigns:
empty vectors, no extra data, no material. -/
def uninitialised : TriangleR3 :=
  { vertices := [], uvs := [], normals := [], vertexColors := [], extraData := [],
    material := none }

/-- Constructor `TriangleR3(vertices, normal, material)` with a vector `normal`:
its body is empty and it delegates to no other constructor. -/
def mkVNM (_vertices _normal : List vec3) (_material : MaterialPhong) : TriangleR3 :=
  uninitialised

/-- Constructor `TriangleR3(vertices, material)`: its body is empty and it
delegates to no other constructor. -/
def mkVM (_vertices : List vec3) (_material : MaterialPhong) : TriangleR3 :=
  uninitialised

/-- Method `TriangleR3::hasMaterial`. -/
def hasMaterial (t : TriangleR3) : Bool := t.material.isSome

/-- Method `TriangleR3::addMaterial`. -/
def addMaterial (t : TriangleR3) (material : MaterialPhong) : TriangleR3 :=
  { t with material := some material }

/-- Method `TriangleR3::barycenter`. -/
def barycenter (t : TriangleR3) : vec3 := (t.vertex 0 + t.vertex 1 + t.vertex 2) / (3 : ℚ)

/-- Method `TriangleR3::area`. -/
def area (ops : RealOps) (t : TriangleR3) : ℚ :=
  (1 / 2) * ops.norm (vec3.cross (t.vertex 1 - t.vertex 0) (t.vertex 2 - t.vertex 0))

/-- Operator `TriangleR3::operator*` with a `mat4`. -/
def mul (t : TriangleR3) (M : mat4) : TriangleR3 :=
  let newVertices := (List.range 3).map
    (fun i => (M.mulVec (vec4.ofVec3 (t.vertex i) 1)).xyz)
  let newNormals := (List.range 3).map
    (fun i => (M.mulVec (vec4.ofVec3 (t.normals.getD i 0) 0)).xyz)
  mkVNCU newVertices newNormals t.vertexColors t.uvs

/-- Lexicographic comparison of two `std::vector<float>` (`operator<`). -/
def lexLt : List ℚ → List ℚ → Bool
  | [], [] => false
  | [], _ :: _ => true
  | _ :: _, [] => false
  | a :: as, b :: bs => if a < b then true else if b < a then false else lexLt as bs

/-- Operator `TriangleR3::operator<`.  The conversion `vecToVecHeHe` (to a
`std::vector<float>`) is declared in the header and defined outside the
translated sources; it is a parameter.  Without braces, the second `return` is
reached whenever one of the two equalities fails; the third is never reached. -/
def lt (vecToVecHeHe : vec3 → List ℚ) (a b : TriangleR3) : Bool :=
  if a.vertex 0 = b.vertex 0 then
    if a.vertex 1 = b.vertex 1 then
      lexLt (vecToVecHeHe (a.vertex 2)) (vecToVecHeHe (b.vertex 2))
    else lexLt (vecToVecHeHe (a.vertex 1)) (vecToVecHeHe (b.vertex 1))
  else lexLt (vecToVecHeHe (a.vertex 1)) (vecToVecHeHe (b.vertex 1))

/-- Method `TriangleR3::recalculateNormal`, in rational arithmetic (see
`normalise` for a cross product of norm zero, and `recalculateNormalIn`). -/
def recalculateNormal (ops : RealOps) (t : TriangleR3) : TriangleR3 :=
  let faceNormal := normalise ops
    (vec3.cross (t.vertex 0 - t.vertex 1) (t.vertex 0 - t.vertex 2))
  { t with normals := [faceNormal, faceNormal, faceNormal] }

/-- Method `TriangleR3::flipNormals`. -/
def flipNormals (t : TriangleR3) : TriangleR3 :=
  { t with normals := [-(t.normals.getD 0 0), -(t.normals.getD 1 0), -(t.normals.getD 2 0)] }

/-- The order the specification describes: the vertex triples compared
lexicographically, each vertex by its components `x`, `y`, `z`. -/
def lexPrecedes (a b : TriangleR3) : Bool :=
  lexLt
    [(a.vertex 0).x, (a.vertex 0).y, (a.vertex 0).z, (a.vertex 1).x, (a.vertex 1).y,
      (a.vertex 1).z, (a.vertex 2).x, (a.vertex 2).y, (a.vertex 2).z]
    [(b.vertex 0).x, (b.vertex 0).y, (b.vertex 0).z, (b.vertex 1).x, (b.vertex 1).y,
      (b.vertex 1).z, (b.vertex 2).x, (b.vertex 2).y, (b.vertex 2).z]

end TriangleR3

namespace TriangularMesh

/-- Method `TriangularMesh::flipNormals`. -/
def flipNormals (m : TriangularMesh) : TriangularMesh :=
  { m with
    triangles := forLoop m.triangles.length
      (fun i ts => modifyAt ts i (fun t => t.flipNormals)) m.triangles }

/-- Method `TriangularMesh::recalculateNormals`. -/
def recalculateNormals (ops : RealOps) (m : TriangularMesh) : TriangularMesh :=
  { m with
    triangles := forLoop m.triangles.length
      (fun i ts => modifyAt ts i (fun t => t.recalculateNormal ops)) m.triangles }

/-- Method `TriangularMesh::transform`. -/
def transform (m : TriangularMesh) (M : mat4) : TriangularMesh :=
  { m with
    triangles := forLoop m.triangles.length
      (fun i ts => modifyAt ts i (fun t => t.mul M)) m.triangles }

end TriangularMesh

/-- The two objects after `a.merge(b)`: `this` as `merge` leaves it, and `other`,
which is passed by `const` reference and is therefore as it was (the two are
distinct objects). -/
def SuperMesh.mergeStates (prefixed : PolyGroupID → String → PolyGroupID)
    (prefix_rand : String) (a b : SuperMesh) : SuperMesh × SuperMesh :=
  (SuperMesh.merge prefixed prefix_rand a b, b)

/-- The shoelace value of a triangle read in the plane `z = 0`:
`(x1 − x0)(y2 − y0) − (x2 − x0)(y1 − y0)`. -/
def TriangleR3.shoelace (t : TriangleR3) : ℚ :=
  ((t.vertex 1).x - (t.vertex 0).x) * ((t.vertex 2).y - (t.vertex 0).y)
    - ((t.vertex 2).x - (t.vertex 0).x) * ((t.vertex 1).y - (t.vertex 0).y)

/-- The vector that `TriangleR3::recalculateNormal` normalises:
`cross(v0 - v1, v0 - v2)`. -/
def TriangleR3.faceCross (t : TriangleR3) : vec3 :=
  vec3.cross (t.vertex 0 - t.vertex 1) (t.vertex 0 - t.vertex 2)

/-! ## Buffers of the composite mesh -/

namespace SuperMesh

/-- The function that `precomputeBuffers` hands to `doPerTriangle`: the three
corners of `tr` are pushed to the four standard buffers (unchecked reads
`tr.vertices[i]`, `tr.normals[i]`, `tr.vertexColors[i]`, `tr.uvs[i]`). -/
def pushTriangle (tr : TriangleR3) (b : StdAttributeBuffers) : StdAttributeBuffers :=
  forLoop 3 (fun i b =>
    { positions := b.positions ++ [tr.vertex i]
      normals := b.normals ++ [tr.normals.getD i 0]
      colors := b.colors ++ [tr.vertexColors.getD i 0]
      uvs := b.uvs ++ [tr.uvs.getD i 0] }) b

/-- One of the four loops of `SuperMesh::doPerTriangle(f)`: the groups of a role
in map order, the triangles of a group in stored order.  The state `s` stands
for what `f` writes to. -/
def doPerRole {σ : Type} (groups : StdMap PolyGroupID (List TriangleR3))
    (f : TriangleR3 → σ → σ) (s : σ) : σ :=
  groups.foldl (fun s pair => pair.2.foldl (fun s tr => f tr s) s) s

/-- Method `SuperMesh::doPerTriangle(f)`: surface groups, then boundary groups,
then embedded curves, then embedded points. -/
def doPerTriangle {σ : Type} (m : SuperMesh) (f : TriangleR3 → σ → σ) (s : σ) : σ :=
  doPerRole m.embedded_points f
    (doPerRole m.embedded_curves f (doPerRole m.boundaryGroups f (doPerRole m.triangleGroups f s)))

/-- The four `push_back` of one iteration of the material loops. -/
def pushMaterial (material : MaterialPhong) (b : MaterialBuffers) : MaterialBuffers :=
  { ambientColors := b.ambientColors ++ [material.ambientColor]
    diffuseColors := b.diffuseColors ++ [material.diffuseColor]
    specularColors := b.specularColors ++ [material.specularColor]
    intencitiesAndShininess := b.intencitiesAndShininess ++
      [⟨material.ambientIntensity, material.diffuseIntensity, material.specularIntensity,
        material.shininess⟩] }

/-- One of the four material loops of `precomputeBuffers`, over the groups of a
role.  The state is the material map, which the read `materials[id]` extends
with a default material when `id` has none, and the material buffers. -/
def materialRole (groups : StdMap PolyGroupID (List TriangleR3))
    (s : StdMap PolyGroupID MaterialPhong × MaterialBuffers) :
    StdMap PolyGroupID MaterialPhong × MaterialBuffers :=
  groups.foldl (fun s pair =>
    let r := StdMap.index s.1 pair.1 MaterialPhong.default
    (r.2, forLoop (3 * pair.2.length) (fun _ b => pushMaterial r.1 b) s.2)) s

/-- Method `SuperMesh::precomputeBuffers(materials, extra)`; the argument `extra`
is not read by the body. -/
def precomputeBuffers (m : SuperMesh) (materials : Bool) (_extra : Bool) : SuperMesh :=
  let m1 :=
    if m.stdAttributeBuffers.positions.length = 0 then
      { m with stdAttributeBuffers := m.doPerTriangle pushTriangle ⟨[], [], [], []⟩ }
    else m
  if materials && decide (m1.materialBuffers.ambientColors.length = 0) then
    let s := materialRole m1.embedded_points
      (materialRole m1.embedded_curves
        (materialRole m1.boundaryGroups
          (materialRole m1.triangleGroups (m1.materials, ⟨[], [], [], []⟩))))
    { m1 with materials := s.1, materialBuffers := s.2 }
  else m1

/-- The groups of the four roles in the order in which `doPerTriangle` and the
material loops visit them. -/
def allGroups (m : SuperMesh) : List (PolyGroupID × List TriangleR3) :=
  m.triangleGroups ++ m.boundaryGroups ++ m.embedded_curves ++ m.embedded_points

/-- Total number of triangles over the four roles. -/
def totalTriangles (m : SuperMesh) : Nat :=
  StdMap.totalTriangles m.triangleGroups + StdMap.totalTriangles m.boundaryGroups
    + StdMap.totalTriangles m.embedded_curves + StdMap.totalTriangles m.embedded_points

/-- The material that the read `materials[id]` gives for the polygroup `id`: the
registered one, or the default material when none is registered. -/
def registeredMaterial (m : SuperMesh) (id : PolyGroupID) : MaterialPhong :=
  (StdMap.index m.materials id MaterialPhong.default).1

end SuperMesh

/-- The fourth material channel of a material: the three intensities and the
shininess packed in a `vec4`. -/
def MaterialPhong.packedIntensities (material : MaterialPhong) : vec4 :=
  ⟨material.ambientIntensity, material.diffuseIntensity, material.specularIntensity,
    material.shininess⟩

/-! ## The pieces of an open offset contour -/

namespace PlanarMeshWithBoundary

/-- The four corners `p1, p2, p3, p4` of the near end-cap that the open branch of
`offsetBoundaryMesh` pushes first. -/
def openNearCap (ops : PlanarOps) (w : ℚ) (bd : List vec2) : List vec2 :=
  let endingDir := ops.normalize (bd.getD 0 0 - bd.getD 1 0)
  let n1 := ops.orthogonalComplement endingDir
  let p1 := bd.getD 0 0 + n1 * w
  let p4 := bd.getD 0 0 - n1 * w
  [p1, p1 + endingDir * w, p4 + endingDir * w, p4]

/-- The four corners `q1, q2, q3, q4` of the far end-cap that the open branch of
`offsetBoundaryMesh` pushes; they use the normal `n1` of the near end. -/
def openFarCap (ops : PlanarOps) (w : ℚ) (bd : List vec2) : List vec2 :=
  let n1 := ops.orthogonalComplement (ops.normalize (bd.getD 0 0 - bd.getD 1 0))
  let endingDir := ops.normalize (bd.getD (bd.length - 1) 0 - bd.getD (bd.length - 2) 0)
  let q1 := bd.getD (bd.length - 1) 0 - n1 * w
  let q4 := bd.getD (bd.length - 1) 0 + n1 * w
  [q1, q1 + endingDir * w, q4 + endingDir * w, q4]

end PlanarMeshWithBoundary

/-! ## Kerb extrusion of the boundary -/

/-- Helpers of `kerbBoundaryEmbedding` that are defined outside the translated
sources: the planar helpers (of which `orthogonalComplement` is used), the helper
`normalise` on `vec2`, and the norms used by the triangle constructor and by
`recalculateNormal`. -/
structure KerbOps where
  planar : PlanarOps
  normalise : vec2 → vec2
  real : RealOps

/-- Embedding style tag `BoundaryEmbeddingType`. -/
inductive BoundaryEmbeddingType where
  | KERB
  | PIPE
  | FLAT
  | CURVE
deriving DecidableEq

/-- Embedding style `BoundaryEmbeddingStyle`. -/
structure BoundaryEmbeddingStyle where
  type : BoundaryEmbeddingType
  width : ℚ
  height : ℚ
  outerMargin : ℚ
  skewness : ℚ
  width_middle : ℚ
  height_middle : ℚ
  width_side : ℚ
  nSegments : Int

namespace PlanarMeshWithBoundary

/-- Index expression `i == 0 ? bd.size() - 1 : i - 1` of `kerbBoundaryEmbedding`. -/
def kerbPrevIndex (i size : Nat) : Nat := if i = 0 then size - 1 else i - 1

/-- Index expression `i % bd.size()` of `kerbBoundaryEmbedding` for an `int` `i`. -/
def wrapIndex (i size : Nat) : Nat := toSizeT (i : Int) % size

/-- The direction `n` that the first loop of `kerbBoundaryEmbedding` computes for
contour index `i`: the normalised sum of the perpendiculars of the two adjacent
edges, negated when `dot(cross(vec3(n, 0), vec3(pt - prev, 0)), vec3(0, 0, 1)) < 0`. -/
def kerbDirection (ops : KerbOps) (bd : List vec2) (i : Nat) : vec2 :=
  let prev := bd.getD (kerbPrevIndex i bd.length) 0
  let pt := bd.getD (wrapIndex i bd.length) 0
  let next := bd.getD (nextIndex i bd.length) 0
  let n1 := ops.planar.orthogonalComplement (pt - prev)
  let n2 := ops.planar.orthogonalComplement (next - pt)
  let n := ops.normalise (n1 + n2)
  if vec3.dot (vec3.cross ⟨n.x, n.y, 0⟩ ⟨(pt - prev).x, (pt - prev).y, 0⟩) ⟨0, 0, 1⟩ < 0 then -n
  else n

/-- The four points `(p1, p2, p3, p4)` that the first loop of
`kerbBoundaryEmbedding` pushes to the rows for contour index `i`. -/
def kerbRowPoints (ops : KerbOps) (w h outerMargin skewness : ℚ) (bd : List vec2) (i : Nat) :
    vec3 × vec3 × vec3 × vec3 :=
  let pt := bd.getD (wrapIndex i bd.length) 0
  let n := kerbDirection ops bd i
  let nv : vec3 := ⟨n.x, n.y, 0⟩
  let p1 := (⟨pt.x, pt.y, h⟩ : vec3) + nv * h * skewness
  let p2 := p1 + nv * w
  let p3 := p2 - ⟨0, 0, h⟩ + nv * h * skewness
  let p4 := p3 + nv * outerMargin
  (p1, p2, p3, p4)

/-- First loop of `kerbBoundaryEmbedding`: the rows `(row1, row2, row3, row4)`. -/
def kerbRows (ops : KerbOps) (w h outerMargin skewness : ℚ) (bd : List vec2) :
    List vec3 × List vec3 × List vec3 × List vec3 :=
  forLoop bd.length
    (fun i rows =>
      let p := kerbRowPoints ops w h outerMargin skewness bd i
      (rows.1 ++ [p.1], rows.2.1 ++ [p.2.1], rows.2.2.1 ++ [p.2.2.1], rows.2.2.2 ++ [p.2.2.2]))
    ([], [], [], [])

/-- Body of the second loop of `kerbBoundaryEmbedding`: the eight triangles
pushed for the contour vertices `i` and `next = (i + 1) % bd.size()`. -/
def kerbBand (ops : KerbOps) (bd : List vec2) (rows : List vec3 × List vec3 × List vec3 × List vec3)
    (i : Nat) : List TriangleR3 :=
  let row1 := rows.1
  let row2 := rows.2.1
  let row3 := rows.2.2.1
  let row4 := rows.2.2.2
  let p0 : vec3 :=
    ⟨(bd.getD (wrapIndex i bd.length) 0).x, (bd.getD (wrapIndex i bd.length) 0).y, 0⟩
  let q0 : vec3 :=
    ⟨(bd.getD (nextIndex i bd.length) 0).x, (bd.getD (nextIndex i bd.length) 0).y, 0⟩
  let next := nextIndex i bd.length
  [TriangleR3.mkV ops.real [p0, q0, row1.getD next 0],
   TriangleR3.mkV ops.real [p0, row1.getD i 0, row1.getD next 0],
   TriangleR3.mkV ops.real [row1.getD i 0, row1.getD next 0, row2.getD next 0],
   TriangleR3.mkV ops.real [row1.getD i 0, row2.getD i 0, row2.getD next 0],
   TriangleR3.mkV ops.real [row2.getD i 0, row3.getD next 0, row2.getD next 0],
   TriangleR3.mkV ops.real [row3.getD i 0, row2.getD i 0, row3.getD next 0],
   TriangleR3.mkV ops.real [row3.getD i 0, row3.getD next 0, row4.getD next 0],
   TriangleR3.mkV ops.real [row3.getD i 0, row4.getD i 0, row4.getD next 0]]

/-- The eight triangles that `kerbBoundaryEmbedding` pushes after the second
loop, joining the last contour vertex to the first. -/
def kerbClosing (ops : KerbOps) (bd : List vec2)
    (rows : List vec3 × List vec3 × List vec3 × List vec3) : List TriangleR3 :=
  let row1 := rows.1
  let row2 := rows.2.1
  let row3 := rows.2.2.1
  let row4 := rows.2.2.2
  let last := row1.length - 1
  let p0 : vec3 := ⟨(bd.getD last 0).x, (bd.getD last 0).y, 0⟩
  let q0 : vec3 := ⟨(bd.getD 0 0).x, (bd.getD 0 0).y, 0⟩
  [TriangleR3.mkV ops.real [p0, q0, row1.getD 0 0],
   TriangleR3.mkV ops.real [p0, row1.getD last 0, row1.getD 0 0],
   TriangleR3.mkV ops.real [row1.getD last 0, row1.getD 0 0, row2.getD 0 0],
   TriangleR3.mkV ops.real [row1.getD last 0, row2.getD last 0, row2.getD 0 0],
   TriangleR3.mkV ops.real [row2.getD last 0, row2.getD 0 0, row3.getD 0 0],
   TriangleR3.mkV ops.real [row2.getD last 0, row3.getD last 0, row3.getD 0 0],
   TriangleR3.mkV ops.real [row3.getD last 0, row3.getD 0 0, row4.getD 0 0],
   TriangleR3.mkV ops.real [row3.getD last 0, row4.getD last 0, row4.getD 0 0]]

/-- Body of the last loop of `kerbBoundaryEmbedding`: `recalculateNormal`, then
`flipNormals` when `dot(normals[0], vec3(0, 0, 1)) < 0`.  The comparison is the
one of the rationals; for a triangle whose recomputed normal has no value (NaN,
see `normaliseIn`) the comparison of the source is false and nothing is flipped. -/
def kerbFixNormal (ops : KerbOps) (t : TriangleR3) : TriangleR3 :=
  let t1 := t.recalculateNormal ops.real
  if vec3.dot (t1.normals.getD 0 0) ⟨0, 0, 1⟩ < 0 then t1.flipNormals else t1

/-- The triangles that `kerbBoundaryEmbedding` builds for a contour with at least
one point, before the normals are fixed: the second loop runs while
`i < row1.size() - 1`. -/
def kerbTriangles (ops : KerbOps) (w h outerMargin skewness : ℚ) (bd : List vec2) :
    List TriangleR3 :=
  let rows := kerbRows ops w h outerMargin skewness bd
  forLoop (rows.1.length - 1) (fun i triang => triang ++ kerbBand ops bd rows i) []
    ++ kerbClosing ops bd rows

/-- Body of the contour loop of `kerbBoundaryEmbedding` for one contour.  For an
empty contour `row1.size() - 1` wraps in `size_t` arithmetic and the second loop
reads past the end of the empty vectors (undefined behaviour): the model gives
`none`. -/
def kerbContour (ops : KerbOps) (w h outerMargin skewness : ℚ) (bd : List vec2) :
    Option TriangularMesh :=
  if bd.length = 0 then none
  else
    let triang := kerbTriangles ops w h outerMargin skewness bd
    some (TriangularMesh.ofTriangles
      (forLoop triang.length (fun i ts => modifyAt ts i (kerbFixNormal ops)) triang))

/-- Method `PlanarMeshWithBoundary::kerbBoundaryEmbedding`. -/
def kerbBoundaryEmbedding (ops : KerbOps) (w h outerMargin skewness : ℚ)
    (m : PlanarMeshWithBoundary) : Option (List TriangularMesh) :=
  forLoop m.boundaries.length
    (fun j acc => do
      let autMeshes ← acc
      let mesh ← kerbContour ops w h outerMargin skewness (m.boundaries.getD j [])
      pure (autMeshes ++ [mesh]))
    (some [])

/-- Method `PlanarMeshWithBoundary::stylisedBoundaryEmbedding`: the field
`style.type` is not read. -/
def stylisedBoundaryEmbedding (ops : KerbOps) (style : BoundaryEmbeddingStyle)
    (m : PlanarMeshWithBoundary) : Option (List TriangularMesh) :=
  kerbBoundaryEmbedding ops style.width style.height style.outerMargin style.skewness m

end PlanarMeshWithBoundary

/-- The two triangles `tr1`, `tr2` that one iteration of the inner loop of
`SuperCurve::mesh` builds from the samples `sa = samples[i]` and
`sb = samples[i + 1]` at radial step `j`, with their `"curvePoint"` extras. -/
def SuperCurve.stepTriangles (trig : TrigOps) (c : SuperCurve) (radialSegments : Int)
    (i j : Nat) (sa sb : CurveSample) : List TriangleR3 :=
  let theta0 := trig.TAU * (j : ℚ) / (radialSegments : ℚ)
  let theta1 := trig.TAU * ((j : ℚ) + 1) / (radialSegments : ℚ)
  let n0a := trig.cos theta0 * sa.normal + trig.sin theta0 * sa.getBinormal
  let n1a := trig.cos theta1 * sa.normal + trig.sin theta1 * sa.getBinormal
  let n0b := trig.cos theta0 * sb.normal + trig.sin theta0 * sb.getBinormal
  let n1b := trig.cos theta1 * sb.normal + trig.sin theta1 * sb.getBinormal
  let pos_a := sa.position
  let pos_b := sb.position
  let p0a := pos_a + sa.width * n0a
  let p0b := pos_b + sb.width * n0b
  let p1b := pos_b + sb.width * n1b
  let p1a := pos_a + sa.width * n1a
  let t_a := c.t0 + (c.t1 - c.t0) * (i : ℚ) / (c.samples.length : ℚ)
  let t_b := t_a + (c.t1 - c.t0) / (c.samples.length : ℚ)
  [(TriangleR3.mkVN [p0a, p1a, p0b] [n0a, n1a, n0b]).addExtraData "curvePoint"
      ⟨vec4.ofVec3 pos_a t_a, vec4.ofVec3 pos_a t_a, vec4.ofVec3 pos_b t_b⟩,
   (TriangleR3.mkVN [p0b, p1a, p1b] [n0b, n1a, n1b]).addExtraData "curvePoint"
      ⟨vec4.ofVec3 pos_b t_b, vec4.ofVec3 pos_a t_a, vec4.ofVec3 pos_b t_b⟩]

/-- The `"curvePoint"` extras stored in a list of triangles, as
`(anchor position, parameter)` pairs per corner. -/
def curvePointExtras (ts : List TriangleR3) : List (Option (array3 vec4)) :=
  ts.map (fun t => StdMap.find t.extraData "curvePoint")

/-! ## Planar and extra-domain deformation families -/

/-- Invertible map of the plane `PlaneAutomorphism`.  The class is declared
outside the translated sources; the model keeps what the constructors of
`MeshFamily1P` use, the map itself (`operator()`) and its inverse `f_inv`. -/
structure PlaneAutomorphism where
  f : vec2 → vec2
  f_inv : vec2 → vec2

namespace MeshFamily1P

/-- The map of space that the planar constructors store for a map `q` of the
plane: `w ↦ vec3(q(p).x, q(p).y, 0) + embedding_shift` with `v = w - embedding_shift`
and `p = vec2(v.x, v.y)`. -/
def planarLift (q : vec2 → vec2) (embedding_shift : vec3) (w : vec3) : vec3 :=
  let v := w - embedding_shift
  let p : vec2 := ⟨v.x, v.y⟩
  (⟨(q p).x, (q p).y, 0⟩ : vec3) + embedding_shift

/-- Constructor `MeshFamily1P(embedded_mesh, time_operator, embedding_shift, t)`
for a family of maps of the plane.  `PlaneSmoothEndomorphism` is declared outside
the translated sources; only its call operator is used, so the family is taken as
a family of maps `vec2 → vec2`. -/
def ofPlanar (embedded_mesh : TriangularMesh) (time_operator : ℚ → ℚ → vec2 → vec2)
    (embedding_shift : vec3) (t : ℚ) : MeshFamily1P :=
  { _t := t, mesh := embedded_mesh,
    time_operator := fun t s => planarLift (time_operator t s) embedding_shift,
    time_operator_normal := fun _ _ _ n => n,
    planar := true }

/-- Constructor `MeshFamily1P(embedded_mesh, time_operator_from0, embedding_shift)`. -/
def ofPlanarFrom0 (embedded_mesh : TriangularMesh) (time_operator_from0 : ℚ → PlaneAutomorphism)
    (embedding_shift : vec3) : MeshFamily1P :=
  { _t := 0, mesh := embedded_mesh,
    time_operator := fun t s =>
      planarLift (fun p => (time_operator_from0 s).f ((time_operator_from0 t).f_inv p))
        embedding_shift,
    time_operator_normal := fun _ _ _ n => n,
    planar := true }

end MeshFamily1P

/-- Mesh family acting through a named anchor attribute,
`MeshFamily1PExtraDomain`. -/
structure MeshFamily1PExtraDomain extends MeshFamily1P where
  domain : String

namespace MeshFamily1PExtraDomain

/-- Constructor `MeshFamily1PExtraDomain(mesh, domain, time_operator,
time_operator_normal, t)`. -/
def ofOperators (mesh : TriangularMesh) (domain : String)
    (time_operator : ℚ → ℚ → vec3 → vec3) (time_operator_normal : ℚ → ℚ → vec3 → vec3 → vec3)
    (t : ℚ) : MeshFamily1PExtraDomain :=
  { MeshFamily1P.ofOperators mesh time_operator time_operator_normal t with domain := domain }

/-- Constructor `MeshFamily1PExtraDomain(embedded_mesh, domain, time_operator,
embedding_shift, t)` for a family of maps of the plane. -/
def ofPlanar (embedded_mesh : TriangularMesh) (domain : String)
    (time_operator : ℚ → ℚ → vec2 → vec2) (embedding_shift : vec3) (t : ℚ) :
    MeshFamily1PExtraDomain :=
  { MeshFamily1P.ofPlanar embedded_mesh time_operator embedding_shift t with domain := domain }

/-- Constructor `MeshFamily1PExtraDomain(embedded_mesh, domain, time_operator_from0,
embedding_shift)`. -/
def ofPlanarFrom0 (embedded_mesh : TriangularMesh) (domain : String)
    (time_operator_from0 : ℚ → PlaneAutomorphism) (embedding_shift : vec3) :
    MeshFamily1PExtraDomain :=
  { MeshFamily1P.ofPlanarFrom0 embedded_mesh time_operator_from0 embedding_shift with
    domain := domain }

/-- Method `MeshFamily1PExtraDomain::transformMesh`. -/
def transformMesh (F : MeshFamily1PExtraDomain) (new_t : ℚ) : MeshFamily1PExtraDomain :=
  let mesh :=
    if F.planar then F.mesh.applyMapCustomDomain (F.time_operator F._t new_t) F.domain
    else F.mesh.applyMapNormalCustomDomain (F.time_operator F._t new_t)
      (F.time_operator_normal F._t new_t) F.domain
  { F with mesh := mesh, _t := new_t }

/-- Method `MeshFamily1PExtraDomain::meshDeformation`. -/
def meshDeformation (F : MeshFamily1PExtraDomain) (dt : ℚ) : MeshFamily1PExtraDomain :=
  F.transformMesh (F._t + dt)

end MeshFamily1PExtraDomain

/-! ## Explicit-id groups and the pencil curve -/

namespace SuperMesh

/-- Method `SuperMesh::addPolyGroup(id, triangles, material)`. -/
def addPolyGroupWithId (m : SuperMesh) (id : PolyGroupID) (triangles : List TriangleR3)
    (material : MaterialPhong) : SuperMesh :=
  { m with
    triangleGroups := StdMap.assign m.triangleGroups id triangles
    materials := StdMap.assign m.materials id material }

/-- Method `SuperMesh::addBdGroup(id, triangles, material)`. -/
def addBdGroupWithId (m : SuperMesh) (id : PolyGroupID) (triangles : List TriangleR3)
    (material : MaterialPhong) : SuperMesh :=
  { m with
    boundaryGroups := StdMap.assign m.boundaryGroups id triangles
    materials := StdMap.assign m.materials id material }

/-- Method `SuperMesh::addEmbeddedPoint(id, triangles, material)`. -/
def addEmbeddedPointWithId (m : SuperMesh) (id : PolyGroupID) (triangles : List TriangleR3)
    (material : MaterialPhong) : SuperMesh :=
  { m with
    embedded_points := StdMap.assign m.embedded_points id triangles
    materials := StdMap.assign m.materials id material }

end SuperMesh

namespace SuperCurve

/-- Method `SuperCurve::transformMeshByAmbientMap`: acts on the associated mesh,
if there is one. -/
def transformMeshByAmbientMap (c : SuperCurve) (f : SpaceEndomorphism) : SuperCurve :=
  { c with _mesh := c._mesh.map (fun mesh => mesh.actOnEmbeddedCurve f) }

/-- Method `SuperCurve::updateCurveMeshOnly`: the only statement of its body is
commented out. -/
def updateCurveMeshOnly (c : SuperCurve) (_new_curve : SmoothParametricCurve) : SuperCurve := c

/-- Method `SuperCurve::updateCurve`. -/
def updateCurve (c : SuperCurve) (new_curve : SmoothParametricCurve) : SuperCurve :=
  updateCurveMeshOnly
    { c with
      samples := c.samples.map (fun sample =>
        let t := sample.readExtraLast
        { sample with
          position := new_curve.pos t
          tangent := new_curve.tangent t
          normal := new_curve.normal t }) }
    new_curve

end SuperCurve

/-- Curve with deformation operators `SuperPencilCurve`; `End2P` is a family of
ambient maps indexed by two times. -/
structure SuperPencilCurve extends SuperCurve where
  _t : ℚ
  _ambient_operator : Option (ℚ → ℚ → SpaceEndomorphism)
  _parametric_operator : Option (ℚ → SmoothParametricCurve)

namespace SuperPencilCurve

/-- Constructor `SuperPencilCurve(other)` from a `SuperCurve`. -/
def ofSuperCurve (other : SuperCurve) : SuperPencilCurve :=
  { other with _t := 0, _ambient_operator := none, _parametric_operator := none }

/-- Method `SuperPencilCurve::addAmbientDeformation`. -/
def addAmbientDeformation (c : SuperPencilCurve) (_ambient_operator : ℚ → ℚ → SpaceEndomorphism)
    (t : ℚ) : SuperPencilCurve :=
  { c with _ambient_operator := some _ambient_operator, _t := t }

/-- Method `SuperPencilCurve::addPencil`. -/
def addPencil (c : SuperPencilCurve) (family : ℚ → SmoothParametricCurve) (t : ℚ) :
    SuperPencilCurve :=
  { c with _parametric_operator := some family, _t := t }

/-- Method `SuperPencilCurve::time`. -/
def time (c : SuperPencilCurve) : ℚ := c._t

/-- Method `SuperPencilCurve::transformMesh`. -/
def transformMesh (c : SuperPencilCurve) (new_t : ℚ) : SuperPencilCurve :=
  let c1 : SuperCurve :=
    match c._ambient_operator with
    | some op => c.toSuperCurve.transformMeshByAmbientMap (op c._t new_t)
    | none => c.toSuperCurve
  let c2 : SuperCurve :=
    match c._parametric_operator with
    | some family => c1.updateCurve (family new_t)
    | none => c1
  { c with toSuperCurve := c2, _t := new_t }

end SuperPencilCurve

/-- The far end-cap as the specification describes it: the square at the last
point `b` of the contour built from the far end tangent
`d = normalize(b_{m-1} - b_{m-2})` and its own perpendicular
`n = orthogonalComplement(d)`, with corners `b - w·n`, `b - w·n + w·d`,
`b + w·n + w·d`, `b + w·n`. -/
def PlanarMeshWithBoundary.specFarCap (ops : PlanarOps) (w : ℚ) (bd : List vec2) : List vec2 :=
  let d := ops.normalize (bd.getD (bd.length - 1) 0 - bd.getD (bd.length - 2) 0)
  let n := ops.orthogonalComplement d
  let b := bd.getD (bd.length - 1) 0
  [b - n * w, b - n * w + d * w, b + n * w + d * w, b + n * w]

/-! ## Per-group traversal, id-less groups and the planar pencil -/

namespace SuperMesh

/-- The loop `for (TriangleR3 &tr : groups[id]) f(tr)`: the read `groups[id]`
inserts an empty group when `id` is absent, and `f` rewrites each triangle of the
group in place. -/
def applyToGroup (groups : StdMap PolyGroupID (List TriangleR3)) (id : PolyGroupID)
    (f : TriangleR3 → TriangleR3) : StdMap PolyGroupID (List TriangleR3) :=
  let r := StdMap.index groups id []
  StdMap.assign r.2 id (r.1.map f)

/-- Method `SuperMesh::doPerTriangle(id, f)`: each of the four tests looks `id`
up in its own role map, and each of the four loops runs over
`triangleGroups[id]`. -/
def doPerTriangleId (m : SuperMesh) (id : PolyGroupID) (f : TriangleR3 → TriangleR3) :
    SuperMesh :=
  let m1 :=
    if StdMap.contains m.triangleGroups id then
      { m with triangleGroups := applyToGroup m.triangleGroups id f }
    else m
  let m2 :=
    if StdMap.contains m1.boundaryGroups id then
      { m1 with triangleGroups := applyToGroup m1.triangleGroups id f }
    else m1
  let m3 :=
    if StdMap.contains m2.embedded_curves id then
      { m2 with triangleGroups := applyToGroup m2.triangleGroups id f }
    else m2
  if StdMap.contains m3.embedded_points id then
    { m3 with triangleGroups := applyToGroup m3.triangleGroups id f }
  else m3

/-- Method `SuperMesh::addPolyGroup(triangles, material)`: the id is
`static_cast<int>(triangleGroups.size())`. -/
def addPolyGroup (m : SuperMesh) (triangles : List TriangleR3) (material : MaterialPhong) :
    SuperMesh :=
  m.addPolyGroupWithId (PolyGroupID.int (m.triangleGroups.length : Int)) triangles material

/-- Method `SuperMesh::doPerTriangle(f)` for an `f` that rewrites the triangle it
is given and nothing else: every triangle of every group of the four roles is
replaced by its image. -/
def mapPerTriangle (m : SuperMesh) (f : TriangleR3 → TriangleR3) : SuperMesh :=
  { m with
    triangleGroups := m.triangleGroups.map (fun pair => (pair.1, pair.2.map f))
    boundaryGroups := m.boundaryGroups.map (fun pair => (pair.1, pair.2.map f))
    embedded_curves := m.embedded_curves.map (fun pair => (pair.1, pair.2.map f))
    embedded_points := m.embedded_points.map (fun pair => (pair.1, pair.2.map f)) }

/-- Method `SuperMesh::actAtEmbeddedPlane(f)` for a map `f` of the plane: the `x`
and `y` of every triangle corner and of every cached position are mapped, `z` is
kept (unchecked corner reads `tr.vertices[i]`, `i < 3`). -/
def actAtEmbeddedPlane (m : SuperMesh) (f : vec2 → vec2) : SuperMesh :=
  let ff : vec3 → vec3 := fun w => ⟨(f ⟨w.x, w.y⟩).x, (f ⟨w.x, w.y⟩).y, w.z⟩
  let m1 := m.mapPerTriangle (fun tr =>
    forLoop 3 (fun i (tr : TriangleR3) => { tr with vertices := tr.vertices.set i (ff (tr.vertex i)) })
      tr)
  forLoop m1.stdAttributeBuffers.positions.length
    (fun i (m : SuperMesh) =>
      { m with
        stdAttributeBuffers :=
          { m.stdAttributeBuffers with
            positions := m.stdAttributeBuffers.positions.set i
              (ff (m.stdAttributeBuffers.positions.getD i 0)) } })
    m1

end SuperMesh

/-- Invertible holomorphic map `Biholomorphism`, as a map of the plane.  The
class is declared outside the translated sources. -/
structure Biholomorphism where
  f : vec2 → vec2
  f_inv : vec2 → vec2

/-- The members `compose` and `inv` of `Biholomorphism`, which are defined
outside the translated sources and are parameters of the model. -/
structure BiholomorphismOps where
  compose : Biholomorphism → Biholomorphism → Biholomorphism
  inv : Biholomorphism → Biholomorphism

/-- Composite mesh with a planar time operator, `SuperPencilPlanar`. -/
structure SuperPencilPlanar extends SuperMesh where
  _t : ℚ
  _time_operator : ℚ → Biholomorphism

namespace SuperPencilPlanar

/-- Method `SuperPencilPlanar::makePencil`. -/
def makePencil (P : SuperPencilPlanar) (_time_operator : ℚ → Biholomorphism) (t : ℚ) :
    SuperPencilPlanar :=
  { P with _time_operator := _time_operator, _t := t }

/-- Method `SuperPencilPlanar::transformMesh`. -/
def transformMesh (ops : BiholomorphismOps) (P : SuperPencilPlanar) (new_t : ℚ) :
    SuperPencilPlanar :=
  { P with
    toSuperMesh := P.toSuperMesh.actAtEmbeddedPlane
      (ops.compose (P._time_operator new_t) (ops.inv (P._time_operator P._t))).f
    _t := new_t }

/-- Method `SuperPencilPlanar::deformMesh`: `transformMesh(_t + dt)` followed by
`_t += dt`. -/
def deformMesh (ops : BiholomorphismOps) (P : SuperPencilPlanar) (dt : ℚ) : SuperPencilPlanar :=
  let P1 := transformMesh ops P (P._t + dt)
  { P1 with _t := P1._t + dt }

end SuperPencilPlanar

/-! ## Ribbon construction from a planar curve -/

/-- Class `Complex`, a point of the plane; the ribbon constructor reads its
field `z`. -/
structure Complex where
  z : vec2

/-- Class `ComplexCurve`, as far as the ribbon constructor reads it: the method
`sample` and the flag `cyclic`. -/
structure ComplexCurve where
  sample : Int → List Complex
  cyclic : Bool

/-- Helpers of the ribbon constructor that are defined outside the translated
sources: the planar helpers (`normalize`, `orthogonalComplement`), the norms used
by the triangle constructor and by `recalculateNormal`, and the operators `+` and
`-` of `Complex`. -/
structure RibbonOps where
  planar : PlanarOps
  real : RealOps
  cadd : Complex → Complex → Complex
  csub : Complex → Complex → Complex

namespace TriangularMesh

/-- Conversion `vec3(p, z)` of a planar point and a height. -/
def liftPoint (p : vec2) (z : ℚ) : vec3 := ⟨p.x, p.y, z⟩

/-- The padding of the sample points in the ribbon constructor: a cyclic curve
gets `points.at(0)` and then `points.at(1)` appended, an open curve gets
`points.at(0) - points.at(1) + points.at(0)` inserted in front and then
`points.at(size-1) + points.at(size-1) - points.at(size-2)` appended.  A failing
`at` gives `none`. -/
def ribbonPoints (ops : RibbonOps) (curve : ComplexCurve) (nSegments : Int) :
    Option (List Complex) :=
  let points := curve.sample nSegments
  if curve.cyclic then
    (points.get? 0).bind (fun p0 =>
      let points1 := points ++ [p0]
      (points1.get? 1).bind (fun p1 => some (points1 ++ [p1])))
  else
    (points.get? 0).bind (fun a0 =>
      (points.get? 1).bind (fun a1 =>
        let points1 := ops.cadd (ops.csub a0 a1) a0 :: points
        (points1.get? (points1.length - 1)).bind (fun e1 =>
          (points1.get? (points1.length - 2)).bind (fun e2 =>
            some (points1 ++ [ops.csub (ops.cadd e1 e1) e2])))))

/-- The six triangles that one iteration of the loop of the ribbon constructor
pushes, from the four points `points.at(i-1)`, `points.at(i)`, `points.at(i+1)` and
`points.at(i+2)` it reads: the strip between `a = points.at(i)` and
`b = points.at(i+1)`. -/
def segmentSextet (ops : RibbonOps) (h_middle w_middle w_side : ℚ)
    (before a b after : Complex) : List TriangleR3 :=
  let n1 := ops.planar.orthogonalComplement (a.z - before.z)
  let n2 := ops.planar.orthogonalComplement (b.z - a.z)
  let n3 := ops.planar.orthogonalComplement (after.z - b.z)
  let N1 := ops.planar.normalize (n1 + n2)
  let N2 := ops.planar.normalize (n2 + n3)
  let w := w_middle / 2 + w_side
  let p0 := a.z + N1 * w
  let p3 := a.z - N1 * w
  let p1 := a.z + N1 * w_middle / (2 : ℚ)
  let p2 := a.z - N1 * w_middle / (2 : ℚ)
  let q0 := b.z + N2 * w
  let q3 := b.z - N2 * w
  let q1 := b.z + N2 * w_middle / (2 : ℚ)
  let q2 := b.z - N2 * w_middle / (2 : ℚ)
  [ TriangleR3.mkVU ops.real [liftPoint p0 0, liftPoint q0 0, liftPoint q1 h_middle] [p0, q0, q1],
    TriangleR3.mkVU ops.real [liftPoint p0 0, liftPoint q1 h_middle, liftPoint p1 h_middle]
      [p0, q1, p1],
    TriangleR3.mkVU ops.real
      [liftPoint p1 h_middle, liftPoint q1 h_middle, liftPoint p2 h_middle] [p1, q1, p2],
    TriangleR3.mkVU ops.real
      [liftPoint q1 h_middle, liftPoint q2 h_middle, liftPoint p2 h_middle] [q1, q2, p2],
    TriangleR3.mkVU ops.real [liftPoint p2 h_middle, liftPoint q2 h_middle, liftPoint p3 0]
      [p2, q2, p3],
    TriangleR3.mkVU ops.real [liftPoint q2 h_middle, liftPoint q3 0, liftPoint p3 0] [q2, q3, p3] ]

/-- One iteration of the loop of the ribbon constructor, at the index `i`: the
four reads `points.at(i-1)` … `points.at(i+2)` and the sextet built from them.  A
failing `at` gives `none`. -/
def ribbonSextet (ops : RibbonOps) (h_middle w_middle w_side : ℚ) (points : List Complex)
    (i : Nat) : Option (List TriangleR3) :=
  (points.get? (i - 1)).bind (fun before =>
    (points.get? i).bind (fun a =>
      (points.get? (i + 1)).bind (fun b =>
        (points.get? (i + 2)).bind (fun after =>
          some (segmentSextet ops h_middle w_middle w_side before a b after)))))

/-- The loop `for (int i = 1; i < points.size() - 2; i++)` of the ribbon
constructor, pushing one sextet per iteration.  The padded list has at least three
points whenever the padding succeeded, so `points.size() - 2` does not wrap and
the loop runs `points.size() - 3` times, the iteration number `k` at `i = k + 1`. -/
def ribbonTriangles (ops : RibbonOps) (h_middle w_middle w_side : ℚ) (points : List Complex) :
    Option (List TriangleR3) :=
  forLoop (points.length - 3)
    (fun k acc => acc.bind (fun ts =>
      (ribbonSextet ops h_middle w_middle w_side points (k + 1)).map (fun s => ts ++ s)))
    (some [])

/-- Constructor `TriangularMesh(curve, nSegments, h_middle, w_middle, w_side)`.
`reserve(4 * nSegments + 4)` fails for a negative argument (it is converted to a
size above `max_size`); the local `middleRatio` is not used.  The `int`
arithmetic is taken without overflow. -/
def ofComplexCurve (ops : RibbonOps) (curve : ComplexCurve) (nSegments : Int)
    (h_middle w_middle w_side : ℚ) : Option TriangularMesh :=
  if 4 * nSegments + 4 < 0 then none
  else
    (ribbonPoints ops curve nSegments).bind (fun points =>
      (ribbonTriangles ops h_middle w_middle w_side points).map (fun ts =>
        (ofTriangles ts).recalculateNormals ops.real))

end TriangularMesh

/-! ## Arithmetic in `float`

The definitions above read every `float` operation as the exact operation on
rationals.  The definitions of this section round the result of each operation;
they are used where a statement depends on the rounding. -/

/-- Rounding of a rational to the nearest integer, a tie going to the even
neighbour. -/
def roundHalfEven (y : ℚ) : Int :=
  if y - ⌊y⌋ < 1 / 2 then ⌊y⌋
  else if 1 / 2 < y - ⌊y⌋ then ⌊y⌋ + 1
  else if ⌊y⌋ % 2 = 0 then ⌊y⌋ else ⌊y⌋ + 1

/-- The spacing of the `float` values around `x` (IEEE 754 binary32: 24
significant bits, least normal exponent `-126`): `2 ^ (e - 23)` for
`2 ^ e ≤ |x| < 2 ^ (e + 1)`, and the subnormal spacing `2 ^ (-149)` below
`2 ^ (-126)`. -/
def floatSpacing (x : ℚ) : ℚ := 2 ^ (max (Int.log 2 |x|) (-126) - 23)

/-- The `float` nearest to `x`, a tie going to the value with the even
significand (the default rounding mode of IEEE 754), for `|x| < 2 ^ 128`.  Larger
magnitudes overflow to an infinity, which the rationals do not hold; no statement
below rounds such a number. -/
def roundFloat (x : ℚ) : ℚ := roundHalfEven (x / floatSpacing x) * floatSpacing x

namespace vec3

/-- The sum `a + b` of glm with each component rounded by `rnd`. -/
def addRounded (rnd : ℚ → ℚ) (a b : vec3) : vec3 :=
  ⟨rnd (a.x + b.x), rnd (a.y + b.y), rnd (a.z + b.z)⟩

/-- The difference `a - b` of glm with each component rounded by `rnd`. -/
def subRounded (rnd : ℚ → ℚ) (a b : vec3) : vec3 :=
  ⟨rnd (a.x - b.x), rnd (a.y - b.y), rnd (a.z - b.z)⟩

/-- The multiple `c * a` of glm with each component rounded by `rnd`. -/
def scaleRounded (rnd : ℚ → ℚ) (c : ℚ) (a : vec3) : vec3 :=
  ⟨rnd (c * a.x), rnd (c * a.y), rnd (c * a.z)⟩

/-- The product `glm::dot` with every operation rounded by `rnd`: the three
products, then the sum `(x + y) + z`, each operation on its own (no fused
multiply-add). -/
def dotRounded (rnd : ℚ → ℚ) (a b : vec3) : ℚ :=
  rnd (rnd (rnd (a.x * b.x) + rnd (a.y * b.y)) + rnd (a.z * b.z))

end vec3

/-- The matrix-vector product `M * v` of glm with every operation rounded by
`rnd`. -/
def mat3.mulVecRounded (rnd : ℚ → ℚ) (M : mat3) (v : vec3) : vec3 :=
  vec3.addRounded rnd
    (vec3.addRounded rnd (vec3.scaleRounded rnd v.x M.c0) (vec3.scaleRounded rnd v.y M.c1))
    (vec3.scaleRounded rnd v.z M.c2)

/-- Method `TriangleR3::worldToBarycentric` with the result of every `float`
operation rounded by `rnd`, each operation on its own. -/
def TriangleR3.worldToBarycentricRounded (rnd : ℚ → ℚ) (t : TriangleR3) (point : vec3) : vec3 :=
  let v0 := vec3.subRounded rnd (t.vertex 1) (t.vertex 0)
  let v1 := vec3.subRounded rnd (t.vertex 2) (t.vertex 0)
  let v2 := vec3.subRounded rnd point (t.vertex 0)
  let d00 := vec3.dotRounded rnd v0 v0
  let d01 := vec3.dotRounded rnd v0 v1
  let d11 := vec3.dotRounded rnd v1 v1
  let d20 := vec3.dotRounded rnd v2 v0
  let d21 := vec3.dotRounded rnd v2 v1
  let denom := rnd (rnd (d00 * d11) - rnd (d01 * d01))
  let v := rnd (rnd (rnd (d11 * d20) - rnd (d01 * d21)) / denom)
  let w := rnd (rnd (rnd (d00 * d21) - rnd (d01 * d20)) / denom)
  let u := rnd (rnd (1 - v) - w)
  ⟨u, v, w⟩

namespace SuperMesh

/-- Body of the loop of `SuperMesh::actOnEmbeddedCurve` for buffer index `i` with
the result of every `float` operation rounded by `rnd`: the product
`f.df(a) * normals[i]`, and the position `(f(a) + positions[i]) - a`, a sum and
then a difference.  The values of `f` and `f.df` are taken as they are given. -/
def actOnEmbeddedCurveStepRounded (rnd : ℚ → ℚ) (f : SpaceEndomorphism) (i : Nat)
    (m : SuperMesh) : SuperMesh :=
  let e := StdMap.index m.extraBuff "curvePoint" []
  let c := e.1.getD i 0
  let normals := m.stdAttributeBuffers.normals.set i
    (mat3.mulVecRounded rnd (f.df c.xyz) (m.stdAttributeBuffers.normals.getD i 0))
  let positions := m.stdAttributeBuffers.positions.set i
    (vec3.subRounded rnd
      (vec3.addRounded rnd (f.f c.xyz) (m.stdAttributeBuffers.positions.getD i 0)) c.xyz)
  { m with
    stdAttributeBuffers := { m.stdAttributeBuffers with positions := positions, normals := normals }
    extraBuff := StdMap.assign e.2 "curvePoint" (e.1.set i (vec4.ofVec3 (f.f c.xyz) c.w)) }

/-- Method `SuperMesh::actOnEmbeddedCurve` with the result of every `float`
operation rounded by `rnd`. -/
def actOnEmbeddedCurveRounded (rnd : ℚ → ℚ) (f : SpaceEndomorphism) (m : SuperMesh) :
    SuperMesh :=
  forLoop m.stdAttributeBuffers.positions.length (actOnEmbeddedCurveStepRounded rnd f) m

end SuperMesh

/-! ## Normalisation with the division made explicit

`normalise` above reads the division of a vector by its norm in the rationals,
where a division by zero gives zero.  The definitions of this section keep the
two things apart that this reading merges: the norm may take its values in a
field larger than the rationals (the Euclidean norm is a square root), and the
division by a zero norm, `0 / 0` in each component and a NaN in `float`, has no
value. -/

/-- A vector of space with components in `K`. -/
structure vec3Over (K : Type) where
  x : K
  y : K
  z : K

/-- The function `norm`, with values in `K`, returns the Euclidean norm of `c`:
the non-negative number whose square is `dot(c, c)`. -/
def EuclideanNormAt (K : Type) [LinearOrderedField K] (norm : vec3 → K) (c : vec3) : Prop :=
  0 ≤ norm c ∧ norm c * norm c = ((vec3.dot c c : ℚ) : K)

/-- Modelled from the spec: the helper `normalise`, called by
`TriangleR3::recalculateNormal` and not defined in the translated sources, as the
vector divided by its norm.  The norm is a parameter with values in a field `K`
that contains the rationals; when it is zero the division has no value (`none`:
the components are NaN in `float`). -/
def normaliseIn (K : Type) [Field K] [DecidableEq K] (norm : vec3 → K) (v : vec3) :
    Option (vec3Over K) :=
  if norm v = 0 then none
  else some ⟨(v.x : K) / norm v, (v.y : K) / norm v, (v.z : K) / norm v⟩

/-- Method `TriangleR3::recalculateNormal` with `normaliseIn` for `normalise`: the
new value of the member `normals`, or `none` when the face normal has no value
(the three stored normals are NaN). -/
def TriangleR3.recalculateNormalIn (K : Type) [Field K] [DecidableEq K] (norm : vec3 → K)
    (t : TriangleR3) : Option (List (vec3Over K)) :=
  (normaliseIn K norm (vec3.cross (t.vertex 0 - t.vertex 1) (t.vertex 0 - t.vertex 2))).map
    (fun faceNormal => [faceNormal, faceNormal, faceNormal])

/-! ## Example inputs -/

/-- The triangle with corners `(0,0,0)`, `(1,0,0)`, `(0,1,0)`. -/
def unitTriangle : TriangleR3 :=
  TriangleR3.mkVN [⟨0, 0, 0⟩, ⟨1, 0, 0⟩, ⟨0, 1, 0⟩] [⟨0, 0, 1⟩, ⟨0, 0, 1⟩, ⟨0, 0, 1⟩]

/-- Translation by one unit along `x`. -/
def shiftX (p : vec3) : vec3 := p + ⟨1, 0, 0⟩

/-- A triangle with corners `(0,0,0)`, `(1,0,0)`, `(0,1,0)` whose three anchors
under the name `"anchor"` are all the origin. -/
def anchoredTriangle : TriangleR3 :=
  (TriangleR3.mkVN [⟨0, 0, 0⟩, ⟨1, 0, 0⟩, ⟨0, 1, 0⟩] [⟨0, 0, 1⟩, ⟨0, 0, 1⟩, ⟨0, 0, 1⟩]).addExtraData
    "anchor" ⟨⟨0, 0, 0, 0⟩, ⟨0, 0, 0, 0⟩, ⟨0, 0, 0, 0⟩⟩

/-- A mesh holding `anchoredTriangle` and no cached buffers. -/
def anchoredMesh : TriangularMesh := TriangularMesh.ofTriangles [anchoredTriangle]

/-- A mesh without triangles whose cache holds one position with the anchor
`(0, 0, 0, 1)`: the fourth component carries data (for `"curvePoint"` anchors
it is the curve parameter). -/
def cachedAnchorMesh : TriangularMesh :=
  { triangles := [], posBuff := [⟨0, 0, 0⟩], normBuff := [⟨0, 0, 1⟩],
    colorBuff := [⟨0, 0, 0, 1⟩], uvBuff := [⟨0, 0⟩],
    extraBuff := [("anchor", [⟨0, 0, 0, 1⟩])] }

/-- A composite mesh with one cached embedded-curve vertex: position `(1, 0, 0)`,
normal `(0, 0, 1)` and anchor `(0, 0, 0)` with curve parameter `1/2`. -/
def cachedCurveMesh : SuperMesh :=
  { SuperMesh.empty with
    stdAttributeBuffers := ⟨[⟨1, 0, 0⟩], [⟨0, 0, 1⟩], [⟨0, 0, 0, 1⟩], [⟨0, 0⟩]⟩
    extraBuff := [("curvePoint", [⟨0, 0, 0, 1/2⟩])] }

/-- The ambient translation by one unit along `x`, with the identity Jacobian. -/
def shiftXEndomorphism : SpaceEndomorphism := ⟨shiftX, fun _ => mat3.one⟩

/-- The unit square as one cyclic contour, without triangles. -/
def unitSquarePatch : PlanarMeshWithBoundary :=
  PlanarMeshWithBoundary.mk3 [] [[⟨0, 0⟩, ⟨1, 0⟩, ⟨1, 1⟩, ⟨0, 1⟩]] [true]

/-- Exact planar helpers for axis-parallel input, used to run examples: the
perpendicular `(x, y) ↦ (-y, x)`, normalisation by the sum of the absolute
components (the Euclidean length when one component is zero), and the
intersection of two lines by Cramer's rule. -/
def axisOps : PlanarOps :=
  { normalize := fun v => v / (|v.x| + |v.y|)
    orthogonalComplement := fun v => ⟨-v.y, v.x⟩
    intersectLines := fun p1 p2 q1 q2 =>
      let d1 := p2 - p1
      let d2 := q2 - q1
      let den := d1.x * d2.y - d1.y * d2.x
      let t := ((q1.x - p1.x) * d2.y - (q1.y - p1.y) * d2.x) / den
      p1 + d1 * t }

/-- A curve for examples: the straight line `t ↦ (t, 0, 0)` with constant frame. -/
def lineCurve : SmoothParametricCurve :=
  { pos := fun t => ⟨t, 0, 0⟩, tangent := fun _ => ⟨1, 0, 0⟩, normal := fun _ => ⟨0, 1, 0⟩ }

/-- A sampled curve with two samples of `lineCurve`. -/
def twoSampleCurve : SuperCurve :=
  { t0 := 0, t1 := 1,
    samples := [sampleAt lineCurve (fun _ => 1) (fun _ => MaterialPhong.default) 0,
                sampleAt lineCurve (fun _ => 1) (fun _ => MaterialPhong.default) 0],
    _mesh := none }

/-- Stand-ins for the trigonometric helpers, for running examples. -/
def linearTrig : TrigOps := { TAU := 6, cos := fun x => 1 - x, sin := fun x => x }

/-- A composite mesh with one surface group `"ab0"` holding `unitTriangle`. -/
def collidingA : SuperMesh :=
  { SuperMesh.empty with
    triangleGroups := [(PolyGroupID.str "ab0", [unitTriangle])]
    materials := [(PolyGroupID.str "ab0", MaterialPhong.default)] }

/-- A composite mesh with one empty surface group `"0"`. -/
def collidingB : SuperMesh :=
  { SuperMesh.empty with
    triangleGroups := [(PolyGroupID.str "0", [])]
    materials := [(PolyGroupID.str "0", MaterialPhong.default)] }

/-- A composite mesh with one surface group `0` holding `unitTriangle`. -/
def singleGroupMesh : SuperMesh :=
  { SuperMesh.empty with
    triangleGroups := [(PolyGroupID.int 0, [unitTriangle])]
    materials := [(PolyGroupID.int 0, MaterialPhong.default)] }

/-- A mesh holding `unitTriangle` and no cached buffers. -/
def unitMesh : TriangularMesh := TriangularMesh.ofTriangles [unitTriangle]

/-- The mesh `unitMesh` with its four buffers built. -/
def cachedUnitMesh : TriangularMesh :=
  { unitMesh with
    posBuff := [⟨0, 0, 0⟩, ⟨1, 0, 0⟩, ⟨0, 1, 0⟩]
    normBuff := [⟨0, 0, 1⟩, ⟨0, 0, 1⟩, ⟨0, 0, 1⟩]
    colorBuff := [⟨0, 0, 0, 1⟩, ⟨0, 0, 0, 1⟩, ⟨0, 0, 0, 1⟩]
    uvBuff := [⟨0, 0⟩, ⟨1, 0⟩, ⟨0, 1⟩] }

/-- The time operator translating along `x` by the elapsed time. -/
def slideOperator (t s : ℚ) (p : vec3) : vec3 := p + ⟨s - t, 0, 0⟩

/-- The normal operator that keeps every normal. -/
def keepNormal (_t _s : ℚ) (_p n : vec3) : vec3 := n

/-- The triangle with corners `(1,0,0)`, `(0,0,0)`, `(0,0,0)`: it differs from the
default triangle in its first corner only. -/
def movedFirstCorner : TriangleR3 :=
  TriangleR3.mkVN [⟨1, 0, 0⟩, ⟨0, 0, 0⟩, ⟨0, 0, 0⟩] [⟨0, 0, 1⟩, ⟨0, 0, 1⟩, ⟨0, 0, 1⟩]

/-- The triangle with corners `(0,0,0)`, `(0,0,0)`, `(0,0,1)`: it differs from the
default triangle in its third corner only. -/
def movedThirdCorner : TriangleR3 :=
  TriangleR3.mkVN [⟨0, 0, 0⟩, ⟨0, 0, 0⟩, ⟨0, 0, 1⟩] [⟨0, 0, 1⟩, ⟨0, 0, 1⟩, ⟨0, 0, 1⟩]

/-- The conversion of a `vec3` to the vector of its components. -/
def components (v : vec3) : List ℚ := [v.x, v.y, v.z]

/-- Stand-ins for the norm and the inverse square root that are exact on unit
vectors: both are constantly `1`. -/
def constantOneOps : RealOps := ⟨fun _ => 1, fun _ => 1⟩

/-- A norm for running examples on vectors along an axis, the zero vector
included: the sum of the absolute components, which is the Euclidean norm there. -/
def axisNormOps : RealOps := ⟨fun v => |v.x| + |v.y| + |v.z|, fun _ => 1⟩

/-- A material whose ambient color is blue. -/
def blueMaterial : MaterialPhong := { MaterialPhong.default with ambientColor := ⟨0, 0, 1, 1⟩ }

/-- A composite mesh with the surface group `0` holding `unitTriangle`, with the
material `blueMaterial`, and the boundary group `1` holding `movedThirdCorner`,
without a registered material; no buffer is built. -/
def twoRoleMesh : SuperMesh :=
  { SuperMesh.empty with
    triangleGroups := [(PolyGroupID.int 0, [unitTriangle])]
    boundaryGroups := [(PolyGroupID.int 1, [movedThirdCorner])]
    materials := [(PolyGroupID.int 0, blueMaterial)] }

/-- Exact helpers for running the kerb extrusion on axis-parallel input: the
planar helpers `axisOps`, normalisation by the sum of the absolute components,
and the norms `axisNormOps`. -/
def axisKerbOps : KerbOps :=
  { planar := axisOps, normalise := fun v => v / (|v.x| + |v.y|), real := axisNormOps }

/-- A style of the unsupported variant `PIPE`, with the dimensions of a kerb. -/
def pipeStyle : BoundaryEmbeddingStyle :=
  { type := BoundaryEmbeddingType.PIPE, width := 1, height := 1, outerMargin := 1, skewness := 0,
    width_middle := 0, height_middle := 0, width_side := 0, nSegments := 60 }

/-- A mesh holding one triangle with corners `(0,0,0)`, `(0,0,0)`, `(0,0,1)`: its
third corner lies off the plane `z = 0`. -/
def raisedMesh : TriangularMesh := TriangularMesh.ofTriangles [movedThirdCorner]

/-- The family of maps of the plane that moves nothing. -/
def keepPlanePoint (_t _s : ℚ) (p : vec2) : vec2 := p

/-- The composite mesh `singleGroupMesh` (one surface group, no embedded curve)
with the buffers that `precomputeBuffers` builds for it and a `"curvePoint"`
buffer with the three entries `c0`, `c1`, `c2` (`precomputeExtraBuffer` gives
three zero entries for a triangle without that extra). -/
def cachedSurfaceMesh (c0 c1 c2 : vec4) : SuperMesh :=
  { singleGroupMesh with
    stdAttributeBuffers :=
      ⟨[⟨0, 0, 0⟩, ⟨1, 0, 0⟩, ⟨0, 1, 0⟩], [⟨0, 0, 1⟩, ⟨0, 0, 1⟩, ⟨0, 0, 1⟩],
       [⟨0, 0, 0, 1⟩, ⟨0, 0, 0, 1⟩, ⟨0, 0, 0, 1⟩], [⟨0, 0⟩, ⟨1, 0⟩, ⟨0, 1⟩]⟩
    extraBuff := [("curvePoint", [c0, c1, c2])] }

/-- The family of ambient maps that is the translation `shiftXEndomorphism` for
every pair of times. -/
def shiftXFamily (_t _s : ℚ) : SpaceEndomorphism := shiftXEndomorphism

/-- The pencil curve over `twoSampleCurve` with only the ambient family
`shiftXFamily` installed, at time `0`. -/
def shiftedPencil : SuperPencilCurve :=
  (SuperPencilCurve.ofSuperCurve twoSampleCurve).addAmbientDeformation shiftXFamily 0

/-- An open contour with a right-angle bend: `(0,0)`, `(1,0)`, `(1,1)`. -/
def bentContour : List vec2 := [⟨0, 0⟩, ⟨1, 0⟩, ⟨1, 1⟩]

/-- A normal operator that returns the position it is given. -/
def positionAsNormal (p _n : vec3) : vec3 := p

/-- The triangle `(0,0,0)`, `(1,0,0)`, `(0,1,0)` with `"curvePoint"` anchors at
the origin and curve parameter `1/2`. -/
def curveAnchoredTriangle : TriangleR3 :=
  unitTriangle.addExtraData "curvePoint" ⟨⟨0, 0, 0, 1/2⟩, ⟨0, 0, 0, 1/2⟩, ⟨0, 0, 0, 1/2⟩⟩

/-- A composite mesh with one embedded-curve group holding
`curveAnchoredTriangle`, and caches that agree with the triangle: its three
positions and normals, and its three anchors in the `"curvePoint"` buffer. -/
def cachedTubeMesh : SuperMesh :=
  { SuperMesh.empty with
    embedded_curves := [(PolyGroupID.str "curve0", [curveAnchoredTriangle])]
    materials := [(PolyGroupID.str "curve0", MaterialPhong.default)]
    stdAttributeBuffers :=
      ⟨[⟨0, 0, 0⟩, ⟨1, 0, 0⟩, ⟨0, 1, 0⟩], [⟨0, 0, 1⟩, ⟨0, 0, 1⟩, ⟨0, 0, 1⟩],
       [⟨0, 0, 0, 1⟩, ⟨0, 0, 0, 1⟩, ⟨0, 0, 0, 1⟩], [⟨0, 0⟩, ⟨1, 0⟩, ⟨0, 1⟩]⟩
    extraBuff := [("curvePoint", [⟨0, 0, 0, 1/2⟩, ⟨0, 0, 0, 1/2⟩, ⟨0, 0, 0, 1/2⟩])] }

/-- The translation of a triangle by one unit along `x`. -/
def shiftTriangle (t : TriangleR3) : TriangleR3 := t.add ⟨1, 0, 0⟩

/-- A composite mesh whose only group is the boundary group `"bd0"` holding
`unitTriangle`. -/
def boundaryOnlyMesh : SuperMesh :=
  { SuperMesh.empty with
    boundaryGroups := [(PolyGroupID.str "bd0", [unitTriangle])]
    materials := [(PolyGroupID.str "bd0", MaterialPhong.default)] }

/-- A composite mesh with the surface group `0` holding `unitTriangle` and a
boundary group with the same id `0` holding `movedThirdCorner`. -/
def sharedIdMesh : SuperMesh :=
  { SuperMesh.empty with
    triangleGroups := [(PolyGroupID.int 0, [unitTriangle])]
    boundaryGroups := [(PolyGroupID.int 0, [movedThirdCorner])]
    materials := [(PolyGroupID.int 0, MaterialPhong.default)] }

/-- A composite mesh with one surface group, registered under the id `1`. -/
def oneGroupAtOne : SuperMesh :=
  SuperMesh.empty.addPolyGroupWithId (PolyGroupID.int 1) [unitTriangle] MaterialPhong.default

/-- Composition and inversion of maps of the plane, for running examples. -/
def plainBiholomorphismOps : BiholomorphismOps :=
  { compose := fun a b => ⟨fun p => a.f (b.f p), fun p => b.f_inv (a.f_inv p)⟩
    inv := fun a => ⟨a.f_inv, a.f⟩ }

/-- A planar pencil without triangles at time `0`, whose time operator is the
identity at every time. -/
def restingPencil : SuperPencilPlanar :=
  { SuperMesh.empty with _t := 0, _time_operator := fun _ => ⟨fun p => p, fun p => p⟩ }

/-- The sample point `(0,0)`. -/
def cornerA : Complex := ⟨⟨0, 0⟩⟩

/-- The sample point `(1,0)`. -/
def cornerB : Complex := ⟨⟨1, 0⟩⟩

/-- The sample point `(0,1)`. -/
def cornerC : Complex := ⟨⟨0, 1⟩⟩

/-- A closed curve whose sampling returns the three points `cornerA`, `cornerB`,
`cornerC`, whatever the number of segments asked for. -/
def triangleLoop : ComplexCurve := { sample := fun _ => [cornerA, cornerB, cornerC], cyclic := true }

/-- The open curve with the same three sample points. -/
def triangleArc : ComplexCurve := { sample := fun _ => [cornerA, cornerB, cornerC], cyclic := false }


/-- A family of curves: at time `s` the straight line `t ↦ (t, s, 0)` with
constant frame. -/
def raisedLineFamily (s : ℚ) : SmoothParametricCurve :=
  { pos := fun t => ⟨t, s, 0⟩, tangent := fun _ => ⟨1, 0, 0⟩, normal := fun _ => ⟨0, 1, 0⟩ }

/-- The pencil curve over `twoSampleCurve` with both the ambient family
`shiftXFamily` and the parametric family `raisedLineFamily` installed, at time
`0`. -/
def doublePencil : SuperPencilCurve := shiftedPencil.addPencil raisedLineFamily 0

/-- The identity map of space with the identity matrix as its Jacobian. -/
def identityEndomorphism : SpaceEndomorphism := ⟨fun v => v, fun _ => mat3.one⟩

/-- A composite mesh with one cached vertex at `(1, 0, 0)`, normal `(0, 0, 1)`,
whose `"curvePoint"` anchor is `(2 ^ 24, 0, 0)` with parameter `0`; all these
numbers are `float` values. -/
def farAnchorMesh : SuperMesh :=
  { SuperMesh.empty with
    stdAttributeBuffers := ⟨[⟨1, 0, 0⟩], [⟨0, 0, 1⟩], [⟨0, 0, 0, 1⟩], [⟨0, 0⟩]⟩
    extraBuff := [("curvePoint", [⟨16777216, 0, 0, 0⟩])] }

/-- The triangle `(1,1,0)`, `(2,1,0)`, `(1,4,0)` with normals `(0,0,1)`; its edges
from the first corner are `(1,0,0)` and `(0,3,0)`. -/
def tallTriangle : TriangleR3 :=
  TriangleR3.mkVN [⟨1, 1, 0⟩, ⟨2, 1, 0⟩, ⟨1, 4, 0⟩] [⟨0, 0, 1⟩, ⟨0, 0, 1⟩, ⟨0, 0, 1⟩]

/-- The triangle `(0,0,0)`, `(-1,0,0)`, `(0,-1,-1)` with normals `(0,0,1)`; the
cross product `cross(v0 - v1, v0 - v2)` is `(0,-1,1)`, of Euclidean norm `√2`. -/
def slantTriangle : TriangleR3 :=
  TriangleR3.mkVN [⟨0, 0, 0⟩, ⟨-1, 0, 0⟩, ⟨0, -1, -1⟩] [⟨0, 0, 1⟩, ⟨0, 0, 1⟩, ⟨0, 0, 1⟩]

/-! ## Properties -/

theorem vec3.cross_ne_zero_of_linearIndep {a b : vec3} (h : vec3.LinearIndep a b) :
    vec3.cross a b ≠ 0 := by
  intro hc
  have hx : a.y * b.z - b.y * a.z = 0 := congrArg vec3.x hc
  have hy : a.z * b.x - b.z * a.x = 0 := congrArg vec3.y hc
  have hz : a.x * b.y - b.x * a.y = 0 := congrArg vec3.z hc
  by_cases h1 : a.x = 0
  · by_cases h2 : a.y = 0
    · by_cases h3 : a.z = 0
      · have := h 1 0 (by ext <;> simp [h1, h2, h3])
        exact one_ne_zero this.1
      · have := h (-b.z) a.z (by ext <;> simp <;> linarith)
        exact h3 this.2
    · have := h (-b.y) a.y (by ext <;> simp <;> linarith)
      exact h2 this.2
  · have := h (-b.x) a.x (by ext <;> simp <;> linarith)
    exact h1 this.2

theorem vec3.lagrange (a b : vec3) :
    vec3.dot a a * vec3.dot b b - vec3.dot a b * vec3.dot a b
      = vec3.dot (vec3.cross a b) (vec3.cross a b) := by
  simp only [vec3.dot, vec3.cross]; ring

theorem vec3.dot_self_pos {a : vec3} (h : a ≠ 0) : 0 < vec3.dot a a := by
  have hne : a.x ≠ 0 ∨ a.y ≠ 0 ∨ a.z ≠ 0 := by
    by_contra hcon
    push_neg at hcon
    exact h (by ext <;> simp [hcon.1, hcon.2.1, hcon.2.2])
  simp only [vec3.dot]
  rcases hne with h1 | h1 | h1
  · have := mul_self_pos.mpr h1; nlinarith [mul_self_nonneg a.y, mul_self_nonneg a.z]
  · have := mul_self_pos.mpr h1; nlinarith [mul_self_nonneg a.x, mul_self_nonneg a.z]
  · have := mul_self_pos.mpr h1; nlinarith [mul_self_nonneg a.x, mul_self_nonneg a.y]

/-- C1: for a triangle whose edge vectors `v1 - v0` and `v2 - v0` are linearly
independent and barycentric coordinates `b` with `b0 + b1 + b2 = 1`,
`worldToBarycentric (barycentricToWorld b) = b` in exact arithmetic. -/
theorem worldToBarycentric_barycentricToWorld (t : TriangleR3) (b : vec3)
    (hnd : vec3.LinearIndep (t.vertex 1 - t.vertex 0) (t.vertex 2 - t.vertex 0))
    (hb : b.x + b.y + b.z = 1) :
    t.worldToBarycentric (t.barycentricToWorld b) = b := by
  have hden := vec3.dot_self_pos (vec3.cross_ne_zero_of_linearIndep hnd)
  rw [← vec3.lagrange] at hden
  have hden' := ne_of_gt hden
  have hbx : b.x = 1 - b.y - b.z := by linarith
  simp only [vec3.dot, vec3.v3_sub_x, vec3.v3_sub_y, vec3.v3_sub_z] at hden'
  ext
  · simp only [TriangleR3.worldToBarycentric, TriangleR3.barycentricToWorld, vec3.get, vec3.dot,
      vec3.v3_sub_x, vec3.v3_sub_y, vec3.v3_sub_z, vec3.v3_add_x, vec3.v3_add_y, vec3.v3_add_z,
      vec3.v3_smul_x, vec3.v3_smul_y, vec3.v3_smul_z]
    rw [hbx]
    field_simp
    ring
  · simp only [TriangleR3.worldToBarycentric, TriangleR3.barycentricToWorld, vec3.get, vec3.dot,
      vec3.v3_sub_x, vec3.v3_sub_y, vec3.v3_sub_z, vec3.v3_add_x, vec3.v3_add_y, vec3.v3_add_z,
      vec3.v3_smul_x, vec3.v3_smul_y, vec3.v3_smul_z]
    rw [hbx]
    field_simp
    ring
  · simp only [TriangleR3.worldToBarycentric, TriangleR3.barycentricToWorld, vec3.get, vec3.dot,
      vec3.v3_sub_x, vec3.v3_sub_y, vec3.v3_sub_z, vec3.v3_add_x, vec3.v3_add_y, vec3.v3_add_z,
      vec3.v3_smul_x, vec3.v3_smul_y, vec3.v3_smul_z]
    rw [hbx]
    field_simp
    ring

theorem unitTriangle_linearIndep :
    vec3.LinearIndep (unitTriangle.vertex 1 - unitTriangle.vertex 0)
      (unitTriangle.vertex 2 - unitTriangle.vertex 0) := by
  intro s t h
  have hx := congrArg vec3.x h
  have hy := congrArg vec3.y h
  simp [unitTriangle, TriangleR3.vertex, TriangleR3.mkVN, TriangleR3.mk0] at hx hy
  exact ⟨hx, hy⟩

theorem worldToBarycentric_barycentricToWorld_witness :
    vec3.LinearIndep (unitTriangle.vertex 1 - unitTriangle.vertex 0)
      (unitTriangle.vertex 2 - unitTriangle.vertex 0) ∧
    ((⟨1/4, 1/4, 1/2⟩ : vec3).x + (⟨1/4, 1/4, 1/2⟩ : vec3).y + (⟨1/4, 1/4, 1/2⟩ : vec3).z = 1) ∧
    unitTriangle.worldToBarycentric (unitTriangle.barycentricToWorld ⟨1/4, 1/4, 1/2⟩)
      = ⟨1/4, 1/4, 1/2⟩ :=
  ⟨unitTriangle_linearIndep, by norm_num,
    worldToBarycentric_barycentricToWorld unitTriangle ⟨1/4, 1/4, 1/2⟩
      unitTriangle_linearIndep (by norm_num)⟩

/-! ### Loops -/

theorem forLoop_zero {σ : Type} (body : Nat → σ → σ) (s : σ) : forLoop 0 body s = s := rfl

theorem forLoop_succ {σ : Type} (n : Nat) (body : Nat → σ → σ) (s : σ) :
    forLoop (n + 1) body s = body n (forLoop n body s) := by
  simp [forLoop, List.range_succ, List.foldl_append]

/-- Loop invariants: an invariant that holds initially and is carried by every
iteration holds after the loop. -/
theorem forLoop_invariant {σ : Type} (Inv : Nat → σ → Prop) (body : Nat → σ → σ) (s : σ)
    (n : Nat) (h0 : Inv 0 s) (hstep : ∀ i s, i < n → Inv i s → Inv (i + 1) (body i s)) :
    Inv n (forLoop n body s) := by
  have key : ∀ k, k ≤ n → Inv k (forLoop k body s) := by
    intro k
    induction k with
    | zero => intro _; exact h0
    | succ k ih =>
      intro hk
      rw [forLoop_succ]
      exact hstep k _ hk (ih (Nat.le_of_lt hk))
  exact key n (le_refl n)

theorem modifyAt_append_cons {α : Type} (l1 : List α) (a : α) (l2 : List α) (g : α → α) :
    modifyAt (l1 ++ a :: l2) l1.length g = l1 ++ g a :: l2 := by
  have h : (l1 ++ a :: l2).get? l1.length = some a := by
    rw [List.get?_eq_getElem?, List.getElem?_append_right (le_refl _)]; simp
  simp only [modifyAt, h]
  rw [List.set_append_right _ _ (le_refl _)]
  simp

theorem forLoop_modifyAt_front {α : Type} (g : α → α) (l : List α) :
    ∀ n, n ≤ l.length →
      forLoop n (fun i l => modifyAt l i g) l = (l.take n).map g ++ l.drop n := by
  intro n
  induction n with
  | zero => intro _; simp [forLoop_zero]
  | succ n ih =>
    intro hn
    have hlt : n < l.length := hn
    rw [forLoop_succ, ih (Nat.le_of_lt hlt)]
    have hd : l.drop n = l[n] :: l.drop (n + 1) := List.drop_eq_getElem_cons hlt
    have hlen : ((l.take n).map g).length = n := by simp [Nat.le_of_lt hlt]
    rw [hd]
    have := modifyAt_append_cons ((l.take n).map g) l[n] (l.drop (n + 1)) g
    rw [hlen] at this
    rw [this]
    have ht : l.take (n + 1) = l.take n ++ [l[n]] := by
      rw [List.take_succ, List.getElem?_eq_getElem hlt]; rfl
    rw [ht, List.map_append, List.append_assoc]
    rfl

/-- A loop that updates every element in place computes `List.map`. -/
theorem forLoop_modifyAt {α : Type} (g : α → α) (l : List α) :
    forLoop l.length (fun i l => modifyAt l i g) l = l.map g := by
  rw [forLoop_modifyAt_front g l l.length (le_refl _)]
  simp

/-! ### Ordered maps -/

theorem StdMap.find_replace_same {K V : Type} [DecidableEq K] (m : StdMap K V) (k : K) (v : V)
    (h : StdMap.contains m k = true) : StdMap.find (StdMap.replace m k v) k = some v := by
  induction m with
  | nil => simp [StdMap.contains, StdMap.find] at h
  | cons p r ih =>
    obtain ⟨k', v'⟩ := p
    by_cases h1 : k' = k
    · simp [StdMap.replace, StdMap.find, h1]
    · have h2 : StdMap.contains r k = true := by
        simpa [StdMap.contains, StdMap.find, h1] using h
      simp [StdMap.replace, StdMap.find, h1, ih h2]

theorem StdMap.find_insert_same {K V : Type} [DecidableEq K] [LT K]
    [DecidableRel (fun a b : K => a < b)] (m : StdMap K V) (k : K) (v : V)
    (h : StdMap.find m k = none) : StdMap.find (StdMap.insert m k v) k = some v := by
  induction m with
  | nil => simp [StdMap.insert, StdMap.find]
  | cons p r ih =>
    obtain ⟨k', v'⟩ := p
    have h1 : k' ≠ k := by
      intro hk; simp [StdMap.find, hk] at h
    have h3 : StdMap.find r k = none := by simpa [StdMap.find, h1] using h
    by_cases h2 : k < k' <;> simp [StdMap.insert, StdMap.find, h1, h2, ih h3]

theorem StdMap.find_replace_other {K V : Type} [DecidableEq K] (m : StdMap K V) (k k2 : K)
    (v : V) (hne : k ≠ k2) : StdMap.find (StdMap.replace m k v) k2 = StdMap.find m k2 := by
  induction m with
  | nil => simp [StdMap.replace]
  | cons p r ih =>
    obtain ⟨k', v'⟩ := p
    by_cases h1 : k' = k
    · subst h1; simp [StdMap.replace, StdMap.find, hne]
    · simp [StdMap.replace, StdMap.find, h1, ih]

theorem StdMap.find_insert_other {K V : Type} [DecidableEq K] [LT K]
    [DecidableRel (fun a b : K => a < b)] (m : StdMap K V) (k k2 : K) (v : V) (hne : k ≠ k2) :
    StdMap.find (StdMap.insert m k v) k2 = StdMap.find m k2 := by
  induction m with
  | nil => simp [StdMap.insert, StdMap.find, hne]
  | cons p r ih =>
    obtain ⟨k', v'⟩ := p
    by_cases h2 : k < k' <;> simp [StdMap.insert, StdMap.find, h2, hne, ih]

theorem StdMap.find_assign_same {K V : Type} [DecidableEq K] [LT K]
    [DecidableRel (fun a b : K => a < b)] (m : StdMap K V) (k : K) (v : V) :
    StdMap.find (StdMap.assign m k v) k = some v := by
  unfold StdMap.assign
  split_ifs with h
  · exact StdMap.find_replace_same m k v h
  · exact StdMap.find_insert_same m k v (by simpa [StdMap.contains] using h)

theorem StdMap.find_assign_other {K V : Type} [DecidableEq K] [LT K]
    [DecidableRel (fun a b : K => a < b)] (m : StdMap K V) (k k2 : K) (v : V) (hne : k ≠ k2) :
    StdMap.find (StdMap.assign m k v) k2 = StdMap.find m k2 := by
  unfold StdMap.assign
  split_ifs with h
  · exact StdMap.find_replace_other m k k2 v hne
  · exact StdMap.find_insert_other m k k2 v hne

theorem StdMap.replace_of_find {K V : Type} [DecidableEq K] (m : StdMap K V) (k : K) (v : V)
    (h : StdMap.find m k = some v) : StdMap.replace m k v = m := by
  induction m with
  | nil => rfl
  | cons p r ih =>
    obtain ⟨k', v'⟩ := p
    by_cases h1 : k' = k
    · subst h1
      have : v' = v := by simpa [StdMap.find] using h
      simp [StdMap.replace, this]
    · have h2 : StdMap.find r k = some v := by simpa [StdMap.find, h1] using h
      simp [StdMap.replace, h1, ih h2]

theorem StdMap.replace_replace {K V : Type} [DecidableEq K] (m : StdMap K V) (k : K) (a b : V) :
    StdMap.replace (StdMap.replace m k a) k b = StdMap.replace m k b := by
  induction m with
  | nil => rfl
  | cons p r ih =>
    obtain ⟨k', v'⟩ := p
    by_cases h1 : k' = k
    · simp [StdMap.replace, h1]
    · simp [StdMap.replace, h1, ih]

theorem StdMap.replace_insert {K V : Type} [DecidableEq K] [LT K]
    [DecidableRel (fun a b : K => a < b)] (m : StdMap K V) (k : K) (a b : V)
    (h : StdMap.find m k = none) :
    StdMap.replace (StdMap.insert m k a) k b = StdMap.insert m k b := by
  induction m with
  | nil => simp [StdMap.insert, StdMap.replace]
  | cons p r ih =>
    obtain ⟨k', v'⟩ := p
    have h1 : k' ≠ k := by
      intro hk; simp [StdMap.find, hk] at h
    have h2 : StdMap.find r k = none := by simpa [StdMap.find, h1] using h
    by_cases h3 : k < k'
    · simp [StdMap.insert, StdMap.replace, h3]
    · simp [StdMap.insert, StdMap.replace, h3, h1, ih h2]

theorem StdMap.contains_assign {K V : Type} [DecidableEq K] [LT K]
    [DecidableRel (fun a b : K => a < b)] (m : StdMap K V) (k : K) (v : V) :
    StdMap.contains (StdMap.assign m k v) k = true := by
  simp [StdMap.contains, StdMap.find_assign_same]

/-- Assigning twice to the same key keeps only the second value. -/
theorem StdMap.assign_assign {K V : Type} [DecidableEq K] [LT K]
    [DecidableRel (fun a b : K => a < b)] (m : StdMap K V) (k : K) (a b : V) :
    StdMap.assign (StdMap.assign m k a) k b = StdMap.assign m k b := by
  have hc := StdMap.contains_assign m k a
  have e1 : StdMap.assign (StdMap.assign m k a) k b
      = StdMap.replace (StdMap.assign m k a) k b := if_pos hc
  rw [e1]
  unfold StdMap.assign
  split_ifs with h
  · exact StdMap.replace_replace m k a b
  · have hn : StdMap.find m k = none := by
      simpa [StdMap.contains] using h
    exact StdMap.replace_insert m k a b hn

/-- Assigning the value a key already has changes nothing. -/
theorem StdMap.assign_of_find {K V : Type} [DecidableEq K] [LT K]
    [DecidableRel (fun a b : K => a < b)] (m : StdMap K V) (k : K) (v : V)
    (h : StdMap.find m k = some v) : StdMap.assign m k v = m := by
  unfold StdMap.assign
  rw [if_pos (by simp [StdMap.contains, h])]
  exact StdMap.replace_of_find m k v h

theorem StdMap.index_of_find {K V : Type} [DecidableEq K] [LT K]
    [DecidableRel (fun a b : K => a < b)] (m : StdMap K V) (k : K) (d v : V)
    (h : StdMap.find m k = some v) : StdMap.index m k d = (v, m) := by
  simp [StdMap.index, h]

/-! ### `TriangularMesh::applyMap(f, customDomain)` -/

theorem StdMap.find_index {K V : Type} [DecidableEq K] [LT K]
    [DecidableRel (fun a b : K => a < b)] (m : StdMap K V) (k : K) (d : V) :
    StdMap.find (StdMap.index m k d).2 k = some (StdMap.index m k d).1 := by
  unfold StdMap.index
  cases h : StdMap.find m k with
  | none => simp [StdMap.find_assign_same]
  | some v => simp [h]

theorem TriangleR3.getExtraData_getExtraData (t : TriangleR3) (name : String) :
    (t.getExtraData name).2.getExtraData name = t.getExtraData name := by
  have h := StdMap.find_index t.extraData name (⟨0, 0, 0⟩ : array3 vec4)
  simp only [TriangleR3.getExtraData]
  rw [StdMap.index_of_find _ _ _ _ h]

theorem TriangularMesh.applyMapCorner_getExtraData (f : vec3 → vec3) (d : String) (j : Nat)
    (t : TriangleR3) :
    (TriangularMesh.applyMapCorner f d j t).getExtraData d
      = ((t.getExtraData d).1, TriangularMesh.applyMapCorner f d j t) := by
  have h := StdMap.find_index t.extraData d (⟨0, 0, 0⟩ : array3 vec4)
  simp only [TriangularMesh.applyMapCorner, TriangleR3.getExtraData]
  rw [StdMap.index_of_find _ _ _ _ h]
  simp only []
  rw [StdMap.index_of_find _ _ _ _ h]

/-- The triangle loop of `applyMap(f, customDomain)` leaves the anchors stored in
the triangles as they were: the value read by `getExtraData` is the same before
and after the three corner updates. -/
theorem TriangularMesh.applyMap_triangle_anchor_unchanged (f : vec3 → vec3) (d : String)
    (t : TriangleR3) :
    ((forLoop 3 (TriangularMesh.applyMapCorner f d) t).getExtraData d).1
      = (t.getExtraData d).1 := by
  simp only [forLoop_succ, forLoop_zero, TriangularMesh.applyMapCorner_getExtraData]

theorem TriangularMesh.applyMapBufferStep_triangles (f : vec3 → vec3) (d : String) (n : Nat)
    (m : TriangularMesh) :
    (forLoop n (TriangularMesh.applyMapBufferStep f d) m).triangles = m.triangles := by
  induction n with
  | zero => rfl
  | succ n ih => rw [forLoop_succ]; exact ih

/-- The triangles after `applyMap(f, customDomain)`: every triangle has its three
corners updated, nothing else. -/
theorem TriangularMesh.applyMapCustomDomain_triangles (f : vec3 → vec3) (d : String)
    (m : TriangularMesh) :
    (TriangularMesh.applyMapCustomDomain f d m).triangles
      = m.triangles.map (fun t => forLoop 3 (TriangularMesh.applyMapCorner f d) t) := by
  simp only [TriangularMesh.applyMapCustomDomain, TriangularMesh.applyMapBufferStep_triangles,
    forLoop_modifyAt]

/-- C2 (evaluation at the failing input): translating `anchoredMesh` by one unit
through its `"anchor"` attribute moves the corners but leaves the anchors stored
in the triangle at the origin, so neither `anchor = f(anchor)` nor
`position - anchor` unchanged holds for the triangle. -/
theorem applyMapCustomDomain_triangle_anchor_stale :
    (TriangularMesh.applyMapCustomDomain shiftX "anchor" anchoredMesh).triangles.map
        (fun t => (t.vertices, StdMap.find t.extraData "anchor"))
      = [([⟨1, 0, 0⟩, ⟨2, 0, 0⟩, ⟨1, 1, 0⟩],
          some ⟨⟨0, 0, 0, 0⟩, ⟨0, 0, 0, 0⟩, ⟨0, 0, 0, 0⟩⟩)] := by
  rw [TriangularMesh.applyMapCustomDomain_triangles]
  simp [anchoredMesh, anchoredTriangle, TriangularMesh.ofTriangles, forLoop_succ, forLoop_zero,
    TriangularMesh.applyMapCorner, TriangleR3.getExtraData, TriangleR3.addExtraData,
    TriangleR3.mkVN, TriangleR3.mk0, TriangleR3.vertex, StdMap.index, StdMap.find,
    StdMap.assign, array3.get, vec4.xyz, shiftX, vec3.ext_iff]
  norm_num

/-- C3 (evaluation at the failing input): applying the identity map to
`cachedAnchorMesh` through its `"anchor"` attribute resets the fourth component of
the cached anchor from `1` to `0`. -/
theorem applyMapCustomDomain_id_resets_w :
    StdMap.find cachedAnchorMesh.extraBuff "anchor" = some [⟨0, 0, 0, 1⟩] ∧
    StdMap.find (TriangularMesh.applyMapCustomDomain (fun p => p) "anchor"
        cachedAnchorMesh).extraBuff "anchor" = some [⟨0, 0, 0, 0⟩] := by
  simp [cachedAnchorMesh, TriangularMesh.applyMapCustomDomain, forLoop_succ, forLoop_zero,
    TriangularMesh.applyMapBufferStep, StdMap.index, StdMap.find, StdMap.assign, vec4.xyz,
    vec4.ofVec3]

/-! ### Lists updated in place from the front -/

theorem getD_take_append_drop {α : Type} (final orig : List α) (k : Nat)
    (hk : k ≤ final.length) (d : α) :
    (final.take k ++ orig.drop k).getD k d = orig.getD k d := by
  have hl : (final.take k).length = k := by simp [hk]
  simp only [List.getD_eq_getElem?_getD]
  rw [List.getElem?_append_right (by rw [hl]), hl]
  simp

theorem set_take_append_drop {α : Type} (final orig : List α) (k : Nat) (v : α)
    (hv : final[k]? = some v) (hko : k < orig.length) :
    (final.take k ++ orig.drop k).set k v = final.take (k + 1) ++ orig.drop (k + 1) := by
  have hkf : k < final.length := by
    by_contra hcon
    rw [List.getElem?_eq_none (Nat.le_of_not_lt hcon)] at hv
    exact Option.noConfusion hv
  have hl : (final.take k).length = k := by simp [Nat.le_of_lt hkf]
  have hd : orig.drop k = orig[k] :: orig.drop (k + 1) := List.drop_eq_getElem_cons hko
  have hset := List.set_append_right (s := final.take k) (t := orig.drop k) k v (by rw [hl])
  have ht : final.take (k + 1) = final.take k ++ [v] := by
    rw [List.take_succ, hv]; rfl
  rw [hset, hl, Nat.sub_self, ht, List.append_assoc]
  congr 1
  rw [hd]
  rfl

theorem take_length_append_drop {α : Type} (final orig : List α)
    (h : final.length = orig.length) :
    final.take orig.length ++ orig.drop orig.length = final := by
  rw [← h, List.take_length, List.drop_eq_nil_of_le (by rw [h]), List.append_nil]

/-! ### `SuperMesh::actOnEmbeddedCurve` -/

theorem SuperMesh.actOnEmbeddedCurveStep_partial (f : SpaceEndomorphism) (m : SuperMesh)
    (e : List vec4) (k : Nat)
    (hlen : e.length = m.stdAttributeBuffers.positions.length)
    (hn : m.stdAttributeBuffers.normals.length = m.stdAttributeBuffers.positions.length)
    (hk : k < m.stdAttributeBuffers.positions.length) :
    SuperMesh.actOnEmbeddedCurveStep f k (SuperMesh.actOnEmbeddedCurvePartial f m e k)
      = SuperMesh.actOnEmbeddedCurvePartial f m e (k + 1) := by
  have hke : k < e.length := by omega
  have hkn : k < m.stdAttributeBuffers.normals.length := by omega
  have hce : e[k]? = some e[k] := List.getElem?_eq_getElem hke
  have hcp : m.stdAttributeBuffers.positions[k]? = some m.stdAttributeBuffers.positions[k] :=
    List.getElem?_eq_getElem hk
  have hcn : m.stdAttributeBuffers.normals[k]? = some m.stdAttributeBuffers.normals[k] :=
    List.getElem?_eq_getElem hkn
  have hfind := StdMap.find_assign_same m.extraBuff "curvePoint"
    ((e.map (fun c => vec4.ofVec3 (f.f c.xyz) c.w)).take k ++ e.drop k)
  have hge : ((e.map (fun c => vec4.ofVec3 (f.f c.xyz) c.w)).take k ++ e.drop k).getD k 0
      = e[k] := by
    rw [getD_take_append_drop _ _ _ (by simp; omega)]
    simp [hce]
  have hgp : ((List.zipWith (fun p c => f.f c.xyz + p - c.xyz) m.stdAttributeBuffers.positions
      e).take k ++ m.stdAttributeBuffers.positions.drop k).getD k 0
      = m.stdAttributeBuffers.positions[k] := by
    rw [getD_take_append_drop _ _ _ (by simp; omega)]
    simp [hcp]
  have hgn : ((List.zipWith (fun n c => mat3.mulVec (f.df c.xyz) n) m.stdAttributeBuffers.normals
      e).take k ++ m.stdAttributeBuffers.normals.drop k).getD k 0
      = m.stdAttributeBuffers.normals[k] := by
    rw [getD_take_append_drop _ _ _ (by simp; omega)]
    simp [hcn]
  have hse := set_take_append_drop (e.map (fun c => vec4.ofVec3 (f.f c.xyz) c.w)) e k
    (vec4.ofVec3 (f.f e[k].xyz) e[k].w) (by simp [hce]) hke
  have hsp := set_take_append_drop
    (List.zipWith (fun p c => f.f c.xyz + p - c.xyz) m.stdAttributeBuffers.positions e)
    m.stdAttributeBuffers.positions k
    (f.f e[k].xyz + m.stdAttributeBuffers.positions[k] - e[k].xyz)
    (by simp [List.getElem?_zipWith, hce, hcp]) hk
  have hsn := set_take_append_drop
    (List.zipWith (fun n c => mat3.mulVec (f.df c.xyz) n) m.stdAttributeBuffers.normals e)
    m.stdAttributeBuffers.normals k
    (mat3.mulVec (f.df e[k].xyz) m.stdAttributeBuffers.normals[k])
    (by simp [List.getElem?_zipWith, hce, hcn]) hkn
  simp only [SuperMesh.actOnEmbeddedCurveStep, SuperMesh.actOnEmbeddedCurvePartial]
  rw [StdMap.index_of_find _ _ _ _ hfind]
  simp only [hge, hgp, hgn, hse, hsp, hsn, StdMap.assign_assign]

theorem SuperMesh.actOnEmbeddedCurve_loop (f : SpaceEndomorphism) (m : SuperMesh)
    (e : List vec4) (he : StdMap.find m.extraBuff "curvePoint" = some e)
    (hlen : e.length = m.stdAttributeBuffers.positions.length)
    (hn : m.stdAttributeBuffers.normals.length = m.stdAttributeBuffers.positions.length) :
    ∀ k, k ≤ m.stdAttributeBuffers.positions.length →
      forLoop k (SuperMesh.actOnEmbeddedCurveStep f) m
        = SuperMesh.actOnEmbeddedCurvePartial f m e k := by
  intro k
  induction k with
  | zero =>
    intro _
    simp [forLoop_zero, SuperMesh.actOnEmbeddedCurvePartial, StdMap.assign_of_find _ _ _ he]
  | succ k ih =>
    intro hk
    rw [forLoop_succ, ih (Nat.le_of_lt hk)]
    exact SuperMesh.actOnEmbeddedCurveStep_partial f m e k hlen hn hk

/-- The state after `actOnEmbeddedCurve`, in closed form: the three buffers are
updated entry by entry from the old entries at the same index. -/
theorem SuperMesh.actOnEmbeddedCurve_eq (f : SpaceEndomorphism) (m : SuperMesh)
    (e : List vec4) (he : StdMap.find m.extraBuff "curvePoint" = some e)
    (hlen : e.length = m.stdAttributeBuffers.positions.length)
    (hn : m.stdAttributeBuffers.normals.length = m.stdAttributeBuffers.positions.length) :
    m.actOnEmbeddedCurve f =
      { m with
        stdAttributeBuffers :=
          { m.stdAttributeBuffers with
            positions := List.zipWith (fun p c => f.f c.xyz + p - c.xyz)
              m.stdAttributeBuffers.positions e
            normals := List.zipWith (fun n c => mat3.mulVec (f.df c.xyz) n)
              m.stdAttributeBuffers.normals e }
        extraBuff := StdMap.assign m.extraBuff "curvePoint"
          (e.map (fun c => vec4.ofVec3 (f.f c.xyz) c.w)) } := by
  unfold SuperMesh.actOnEmbeddedCurve
  rw [SuperMesh.actOnEmbeddedCurve_loop f m e he hlen hn _ (le_refl _)]
  have h1 := take_length_append_drop
    (List.zipWith (fun p c => f.f c.xyz + p - c.xyz) m.stdAttributeBuffers.positions e)
    m.stdAttributeBuffers.positions (by simp [hlen])
  have h2 := take_length_append_drop
    (List.zipWith (fun n c => mat3.mulVec (f.df c.xyz) n) m.stdAttributeBuffers.normals e)
    m.stdAttributeBuffers.normals (by simp [hlen, hn])
  have h3 := take_length_append_drop (e.map (fun c => vec4.ofVec3 (f.f c.xyz) c.w)) e (by simp)
  rw [hn] at h2
  rw [hlen] at h3
  simp only [SuperMesh.actOnEmbeddedCurvePartial, h1, h2, h3]

theorem vec3.add_sub_assoc_v (a p c : vec3) : a + p - c = a + (p - c) := by
  ext <;> simp <;> ring

theorem vec3.add_sub_cancel_v (a p c : vec3) : a + (p - c) - a = p - c := by
  ext <;> simp

theorem vec3.self_add_sub_v (p c : vec3) : c + p - c = p := by
  ext <;> simp

theorem mat3.one_mulVec (v : vec3) : mat3.mulVec mat3.one v = v := by
  ext <;> simp [mat3.mulVec, mat3.one]

theorem vec4.ofVec3_xyz_w (c : vec4) : vec4.ofVec3 c.xyz c.w = c := rfl

theorem zipWith_left_of_le {α β : Type} :
    ∀ (l1 : List α) (l2 : List β), l1.length ≤ l2.length →
      List.zipWith (fun a _ => a) l1 l2 = l1
  | [], _, _ => by simp
  | a :: l1, [], h => by simp at h
  | a :: l1, b :: l2, h => by
    simp only [List.zipWith_cons_cons, List.cons.injEq, true_and]
    exact zipWith_left_of_le l1 l2 (by simpa using h)

/-- Claim C4 (amended), in exact arithmetic, every operation without rounding:
`actOnEmbeddedCurve(f)`, for a mesh whose `"curvePoint"` buffer has the
length of the position buffer: at every buffer index `i` with anchor `c = (a, w)`,
position `p` and normal `n` before the call, afterwards `positions[i] = f(a) + (p - a)`,
`normals[i] = df(a) * n` and the anchor buffer entry is `(f(a), w)`; the offset
`position - anchor` is the same as before; and for the identity map with the
identity Jacobian the mesh is unchanged. -/
theorem actOnEmbeddedCurve_anchor_offset (f : SpaceEndomorphism) (m : SuperMesh)
    (e : List vec4) (he : StdMap.find m.extraBuff "curvePoint" = some e)
    (hlen : e.length = m.stdAttributeBuffers.positions.length)
    (hn : m.stdAttributeBuffers.normals.length = m.stdAttributeBuffers.positions.length) :
    (StdMap.find (m.actOnEmbeddedCurve f).extraBuff "curvePoint"
        = some (e.map (fun c => vec4.ofVec3 (f.f c.xyz) c.w))) ∧
    (∀ (i : Nat) (p n : vec3) (c : vec4), m.stdAttributeBuffers.positions[i]? = some p →
        m.stdAttributeBuffers.normals[i]? = some n → e[i]? = some c →
        (m.actOnEmbeddedCurve f).stdAttributeBuffers.positions[i]?
            = some (f.f c.xyz + (p - c.xyz)) ∧
        (m.actOnEmbeddedCurve f).stdAttributeBuffers.normals[i]?
            = some (mat3.mulVec (f.df c.xyz) n) ∧
        (e.map (fun c => vec4.ofVec3 (f.f c.xyz) c.w))[i]?
            = some (vec4.ofVec3 (f.f c.xyz) c.w) ∧
        f.f c.xyz + (p - c.xyz) - (vec4.ofVec3 (f.f c.xyz) c.w).xyz = p - c.xyz) ∧
    ((∀ v, f.f v = v) → (∀ v, f.df v = mat3.one) → m.actOnEmbeddedCurve f = m) := by
  rw [SuperMesh.actOnEmbeddedCurve_eq f m e he hlen hn]
  refine ⟨?_, ?_, ?_⟩
  · exact StdMap.find_assign_same _ _ _
  · intro i p n c hp hnn hc
    refine ⟨?_, ?_, ?_, ?_⟩
    · simp [List.getElem?_zipWith, hp, hc, vec3.add_sub_assoc_v]
    · simp [List.getElem?_zipWith, hnn, hc]
    · simp [hc]
    · simp [vec3.add_sub_cancel_v]
  · intro hf hdf
    have e1 : (fun (p : vec3) (c : vec4) => f.f c.xyz + p - c.xyz) = (fun p _ => p) := by
      funext p c; rw [hf]; exact vec3.self_add_sub_v p c.xyz
    have e2 : (fun (n : vec3) (c : vec4) => mat3.mulVec (f.df c.xyz) n) = (fun n _ => n) := by
      funext n c; rw [hdf]; exact mat3.one_mulVec n
    have e3 : e.map (fun c => vec4.ofVec3 (f.f c.xyz) c.w) = e :=
      List.map_id'' (fun c => by rw [hf]; rfl) e
    rw [e1, e2, e3, zipWith_left_of_le _ _ (by omega), zipWith_left_of_le _ _ (by omega),
      StdMap.assign_of_find _ _ _ he]

theorem actOnEmbeddedCurve_anchor_offset_witness :
    StdMap.find cachedCurveMesh.extraBuff "curvePoint" = some [⟨0, 0, 0, 1/2⟩] ∧
    (StdMap.find (cachedCurveMesh.actOnEmbeddedCurve shiftXEndomorphism).extraBuff "curvePoint"
      = some [vec4.ofVec3 (shiftX (vec4.xyz ⟨0, 0, 0, 1/2⟩)) (1/2)]) :=
  ⟨rfl,
   (actOnEmbeddedCurve_anchor_offset shiftXEndomorphism cachedCurveMesh [⟨0, 0, 0, 1/2⟩]
      rfl rfl rfl).1⟩

/-! ### `PlanarMeshWithBoundary::offsetBoundaryMesh` -/

/-- For a contour of four points the predecessor index of `0` is `3`. -/
theorem prevIndex_zero_four : PlanarMeshWithBoundary.prevIndex 0 4 = 3 := by decide

/-- C5 (evaluation at the failing inputs): for every cyclic contour of three
points `A, B, C` the index `(i - 1) % bd.size()` at `i = 0` is `0`, not `2`, so
the miter points of the first vertex are computed from the pair `(A, A)` and
the edge `(A, B)` instead of the edges `(C, A)` and `(A, B)`: the first line
handed to `intersectLines` goes through one point twice. -/
theorem miterPoints_first_of_three (ops : PlanarOps) (w : ℚ) (A B C : vec2) :
    PlanarMeshWithBoundary.prevIndex 0 3 = 0 ∧
    PlanarMeshWithBoundary.miterPoints ops w [A, B, C] 0 =
      (ops.intersectLines
          (A + ops.normalize (ops.orthogonalComplement (A - A)) * w)
          (A + ops.normalize (ops.orthogonalComplement (A - A)) * w)
          (A + ops.normalize (ops.orthogonalComplement (B - A)) * w)
          (B + ops.normalize (ops.orthogonalComplement (B - A)) * w),
       ops.intersectLines
          (A - ops.normalize (ops.orthogonalComplement (A - A)) * w)
          (A - ops.normalize (ops.orthogonalComplement (A - A)) * w)
          (A - ops.normalize (ops.orthogonalComplement (B - A)) * w)
          (B - ops.normalize (ops.orthogonalComplement (B - A)) * w)) ∧
    (PlanarMeshWithBoundary.offsetCyclic ops w [A, B, C]).2.1.map List.head?
      = [some (PlanarMeshWithBoundary.miterPoints ops w [A, B, C] 0).1,
         some (PlanarMeshWithBoundary.miterPoints ops w [A, B, C] 0).2] := by
  have h0 : PlanarMeshWithBoundary.prevIndex 0 3 = 0 := by decide
  have h1 : PlanarMeshWithBoundary.nextIndex 0 3 = 1 := by decide
  refine ⟨h0, ?_, ?_⟩
  · simp [PlanarMeshWithBoundary.miterPoints, h0, h1]
  · simp [PlanarMeshWithBoundary.offsetCyclic, PlanarMeshWithBoundary.cyclicPoints,
      forLoop_succ, forLoop_zero]

theorem PlanarMeshWithBoundary.cyclicPoints_length (ops : PlanarOps) (w : ℚ) (bd : List vec2) :
    (PlanarMeshWithBoundary.cyclicPoints ops w bd).1.length = bd.length ∧
    (PlanarMeshWithBoundary.cyclicPoints ops w bd).2.length = bd.length := by
  unfold PlanarMeshWithBoundary.cyclicPoints
  apply forLoop_invariant (fun k (s : List vec2 × List vec2) => s.1.length = k ∧ s.2.length = k)
  · exact ⟨rfl, rfl⟩
  · intro i s _ h
    simp [h.1, h.2]

theorem PlanarMeshWithBoundary.cyclicTriangles_length (bd outerPts innerPts : List vec2) :
    (PlanarMeshWithBoundary.cyclicTriangles bd outerPts innerPts).length
      = 2 * outerPts.length := by
  unfold PlanarMeshWithBoundary.cyclicTriangles
  apply forLoop_invariant (fun k (t : List TriangleR2) => t.length = 2 * k)
  · rfl
  · intro i t _ h
    simp [h]; ring

theorem PlanarMeshWithBoundary.offsetContour_loop (ops : PlanarOps) (w : ℚ)
    (m : PlanarMeshWithBoundary)
    (hflags : m.boundaries.length ≤ m.boundaryCyclic.length)
    (hopen : ∀ (j : Nat) (bd : List vec2), m.boundaries[j]? = some bd →
      m.boundaryCyclic[j]? = some false → 2 ≤ bd.length) :
    ∀ k, k ≤ m.boundaries.length →
      forLoop k (PlanarMeshWithBoundary.offsetContourStep ops w m) (some ([], [], []))
        = some
          (((m.boundaries.zip m.boundaryCyclic).take k).flatMap
              (fun p => (PlanarMeshWithBoundary.contourResult ops w p).1),
           ((m.boundaries.zip m.boundaryCyclic).take k).flatMap
              (fun p => (PlanarMeshWithBoundary.contourResult ops w p).2.1),
           ((m.boundaries.zip m.boundaryCyclic).take k).flatMap
              (fun p => (PlanarMeshWithBoundary.contourResult ops w p).2.2)) := by
  intro k
  induction k with
  | zero => intro _; simp [forLoop_zero]
  | succ k ih =>
    intro hk
    have hkb : k < m.boundaries.length := hk
    have hkc : k < m.boundaryCyclic.length := by omega
    have hb : m.boundaries[k]? = some m.boundaries[k] := List.getElem?_eq_getElem hkb
    have hc : m.boundaryCyclic[k]? = some m.boundaryCyclic[k] := List.getElem?_eq_getElem hkc
    have hz : (m.boundaries.zip m.boundaryCyclic)[k]? = some (m.boundaries[k], m.boundaryCyclic[k]) := by
      rw [List.getElem?_zip_eq_some]; exact ⟨hb, hc⟩
    rw [forLoop_succ, ih (Nat.le_of_lt hk)]
    simp only [PlanarMeshWithBoundary.offsetContourStep, List.get?_eq_getElem?, hc,
      List.getD_eq_getElem?_getD, hb, Option.getD_some, Option.bind_eq_bind, Option.some_bind,
      List.take_succ, hz, Option.toList_some, List.flatMap_append, List.flatMap_cons,
      List.flatMap_nil, List.append_nil, Option.pure_def]
    by_cases hcy : m.boundaryCyclic[k] = true
    · simp [PlanarMeshWithBoundary.contourResult, hcy]
    · have hfalse : m.boundaryCyclic[k] = false := by simpa using hcy
      have h2 := hopen k _ hb (by rw [hc, hfalse])
      simp [PlanarMeshWithBoundary.contourResult, hfalse, PlanarMeshWithBoundary.offsetOpen,
        Nat.not_lt.mpr h2]

/-- C6: `offsetBoundaryMesh(w)` on a patch whose flag list covers its contours and
whose open contours have at least two points returns a patch whose triangles,
contours and flags are those generated from the input contours, concatenated in
contour order; a cyclic contour with `n` points contributes exactly `2 * n`
triangles and exactly two contours, outer then inner, each with `n` points and
both flagged cyclic. -/
theorem offsetBoundaryMesh_cyclic_counts (ops : PlanarOps) (w : ℚ) (m : PlanarMeshWithBoundary)
    (hflags : m.boundaries.length ≤ m.boundaryCyclic.length)
    (hopen : ∀ (j : Nat) (bd : List vec2), m.boundaries[j]? = some bd →
      m.boundaryCyclic[j]? = some false → 2 ≤ bd.length) :
    m.offsetBoundaryMesh ops w = some
      (PlanarMeshWithBoundary.mk3
        ((m.boundaries.zip m.boundaryCyclic).flatMap
          (fun p => (PlanarMeshWithBoundary.contourResult ops w p).1))
        ((m.boundaries.zip m.boundaryCyclic).flatMap
          (fun p => (PlanarMeshWithBoundary.contourResult ops w p).2.1))
        ((m.boundaries.zip m.boundaryCyclic).flatMap
          (fun p => (PlanarMeshWithBoundary.contourResult ops w p).2.2))) ∧
    ∀ bd : List vec2,
      (PlanarMeshWithBoundary.contourResult ops w (bd, true)).1.length = 2 * bd.length ∧
      (PlanarMeshWithBoundary.contourResult ops w (bd, true)).2.1
        = [(PlanarMeshWithBoundary.cyclicPoints ops w bd).1,
           (PlanarMeshWithBoundary.cyclicPoints ops w bd).2] ∧
      (PlanarMeshWithBoundary.cyclicPoints ops w bd).1.length = bd.length ∧
      (PlanarMeshWithBoundary.cyclicPoints ops w bd).2.length = bd.length ∧
      (PlanarMeshWithBoundary.contourResult ops w (bd, true)).2.2 = [true, true] := by
  constructor
  · unfold PlanarMeshWithBoundary.offsetBoundaryMesh
    rw [PlanarMeshWithBoundary.offsetContour_loop ops w m hflags hopen _ (le_refl _)]
    have ht : (m.boundaries.zip m.boundaryCyclic).take m.boundaries.length
        = m.boundaries.zip m.boundaryCyclic := by
      apply List.take_of_length_le
      simp [List.length_zip]
    rw [ht]
    rfl
  · intro bd
    have hl := PlanarMeshWithBoundary.cyclicPoints_length ops w bd
    refine ⟨?_, rfl, hl.1, hl.2, rfl⟩
    simp [PlanarMeshWithBoundary.contourResult, PlanarMeshWithBoundary.offsetCyclic,
      PlanarMeshWithBoundary.cyclicTriangles_length, hl.1]

theorem unitSquarePatch_open_contours :
    ∀ (j : Nat) (bd : List vec2), unitSquarePatch.boundaries[j]? = some bd →
      unitSquarePatch.boundaryCyclic[j]? = some false → 2 ≤ bd.length := by
  intro j bd _ hc
  cases j with
  | zero => simp [unitSquarePatch, PlanarMeshWithBoundary.mk3] at hc
  | succ j => simp [unitSquarePatch, PlanarMeshWithBoundary.mk3] at hc

theorem offsetBoundaryMesh_cyclic_counts_witness :
    unitSquarePatch.boundaries.length ≤ unitSquarePatch.boundaryCyclic.length ∧
    (PlanarMeshWithBoundary.contourResult axisOps (1/10)
        ([⟨0, 0⟩, ⟨1, 0⟩, ⟨1, 1⟩, ⟨0, 1⟩], true)).1.length = 2 * 4 :=
  ⟨by decide,
   ((offsetBoundaryMesh_cyclic_counts axisOps (1/10) unitSquarePatch (by decide)
      unitSquarePatch_open_contours).2 [⟨0, 0⟩, ⟨1, 0⟩, ⟨1, 1⟩, ⟨0, 1⟩]).1⟩

/-- The unit square with the exact helpers `axisOps` and `w = 1/10`: the first
list of miter points registered by the cyclic branch; each point is at distance
`1/10` from the lines of its two adjacent edges. -/
theorem offsetCyclic_unitSquare_points :
    (PlanarMeshWithBoundary.cyclicPoints axisOps (1/10)
        [⟨0, 0⟩, ⟨1, 0⟩, ⟨1, 1⟩, ⟨0, 1⟩]).1
      = [⟨1/10, 1/10⟩, ⟨9/10, 1/10⟩, ⟨9/10, 9/10⟩, ⟨1/10, 9/10⟩] := by
  have p0 : PlanarMeshWithBoundary.prevIndex 0 4 = 3 := by decide
  have p1 : PlanarMeshWithBoundary.prevIndex 1 4 = 0 := by decide
  have p2 : PlanarMeshWithBoundary.prevIndex 2 4 = 1 := by decide
  have p3 : PlanarMeshWithBoundary.prevIndex 3 4 = 2 := by decide
  have n0 : PlanarMeshWithBoundary.nextIndex 0 4 = 1 := by decide
  have n1 : PlanarMeshWithBoundary.nextIndex 1 4 = 2 := by decide
  have n2 : PlanarMeshWithBoundary.nextIndex 2 4 = 3 := by decide
  have n3 : PlanarMeshWithBoundary.nextIndex 3 4 = 0 := by decide
  simp [PlanarMeshWithBoundary.cyclicPoints, forLoop_succ, forLoop_zero,
    PlanarMeshWithBoundary.miterPoints, p0, p1, p2, p3, n0, n1, n2, n3, axisOps, vec2.ext_iff]
  norm_num

/-! ### `sampleCurve` -/

theorem modifyAt_append_singleton {α : Type} (l : List α) (a : α) (g : α → α) :
    modifyAt (l ++ [a]) l.length g = l ++ [g a] :=
  modifyAt_append_cons l a [] g

/-- The sampling loop in closed form: after `k` iterations the list holds the
samples for the parameters `t0 + (t1 - t0) * i / n`, `i < k`, each with its
parameter stored. -/
theorem sampleCurve_loop (curve : SmoothParametricCurve) (width : ℚ → ℚ)
    (material : ℚ → MaterialPhong) (t0 t1 : ℚ) (n : Int) (k : Nat) :
    forLoop k
      (fun i samples =>
        let t := t0 + (t1 - t0) * (i : ℚ) / (n : ℚ)
        let pushed := samples ++
          [CurveSample.mk5 (curve.pos t) (curve.normal t) (curve.tangent t) (material t)
            (width t)]
        modifyAt pushed i (fun c => c.addExtra t))
      []
    = (List.range k).map
        (fun (i : Nat) => sampleAt curve width material (t0 + (t1 - t0) * (i : ℚ) / (n : ℚ))) := by
  induction k with
  | zero => rfl
  | succ k ih =>
    rw [forLoop_succ, ih]
    have hl : ((List.range k).map
        (fun (i : Nat) => sampleAt curve width material (t0 + (t1 - t0) * (i : ℚ) / (n : ℚ)))).length
        = k := by simp
    have := modifyAt_append_singleton
      ((List.range k).map
        (fun (i : Nat) => sampleAt curve width material (t0 + (t1 - t0) * (i : ℚ) / (n : ℚ))))
      (CurveSample.mk5 (curve.pos (t0 + (t1 - t0) * (k : ℚ) / (n : ℚ)))
        (curve.normal (t0 + (t1 - t0) * (k : ℚ) / (n : ℚ)))
        (curve.tangent (t0 + (t1 - t0) * (k : ℚ) / (n : ℚ)))
        (material (t0 + (t1 - t0) * (k : ℚ) / (n : ℚ)))
        (width (t0 + (t1 - t0) * (k : ℚ) / (n : ℚ))))
      (fun c => c.addExtra (t0 + (t1 - t0) * (k : ℚ) / (n : ℚ)))
    rw [hl] at this
    refine this.trans ?_
    rw [List.range_succ, List.map_append]
    rfl

theorem sampleLoop_eq (curve : SmoothParametricCurve) (width : ℚ → ℚ)
    (material : ℚ → MaterialPhong) (t0 t1 : ℚ) (n : Nat) :
    sampleLoop curve width material t0 t1 (n : Int)
      = (List.range n).map
          (fun (i : Nat) => sampleAt curve width material
            (t0 + (t1 - t0) * (i : ℚ) / ((n : Int) : ℚ))) := by
  unfold sampleLoop
  rw [Int.toNat_ofNat]
  exact sampleCurve_loop curve width material t0 t1 (n : Int) n

theorem sampleCurve_nonperiodic (curve : SmoothParametricCurve) (width : ℚ → ℚ)
    (material : ℚ → MaterialPhong) (t0 t1 : ℚ) (n : Nat) :
    sampleCurve curve width material t0 t1 (n : Int) false
      = some ((List.range n).map
          (fun (i : Nat) => sampleAt curve width material
            (t0 + (t1 - t0) * (i : ℚ) / ((n : Int) : ℚ)))) := by
  have hn : ¬ ((n : Int) < 0) := by omega
  simp only [sampleCurve, hn, if_false, sampleLoop_eq]
  rfl

theorem sampleCurve_periodic (curve : SmoothParametricCurve) (width : ℚ → ℚ)
    (material : ℚ → MaterialPhong) (t0 t1 : ℚ) (n : Nat) :
    sampleCurve curve width material t0 t1 (n : Int) true
      = some ((List.range n).map
          (fun (i : Nat) => sampleAt curve width material
            (t0 + (t1 - t0) * (i : ℚ) / ((n : Int) : ℚ)))
          ++ [sampleAt curve width material t0]) := by
  have hn : ¬ ((n : Int) < 0) := by omega
  have hl : ((List.range n).map
      (fun (i : Nat) => sampleAt curve width material
        (t0 + (t1 - t0) * (i : ℚ) / ((n : Int) : ℚ)))).length = n := by simp
  have hm := modifyAt_append_singleton
    ((List.range n).map
      (fun (i : Nat) => sampleAt curve width material
        (t0 + (t1 - t0) * (i : ℚ) / ((n : Int) : ℚ))))
    (CurveSample.mk5 (curve.pos t0) (curve.normal t0) (curve.tangent t0) (material t0)
      (width t0))
    (fun c => c.addExtra t0)
  rw [hl] at hm
  simp only [sampleCurve, hn, if_false, sampleLoop_eq, Int.toNat_ofNat, if_true, hm]
  simp [sampleAt]

/-- C8: for every `n ≥ 0`, `sampleCurve` returns `n + 1` samples when `periodic`
is true and `n` samples when it is false; when periodic and `n ≥ 1` the first and
the last sample are the same sample of the curve at `t0` (position, tangent,
normal, width, material and stored parameter `t0`). -/
theorem sampleCurve_length_and_closure (curve : SmoothParametricCurve) (width : ℚ → ℚ)
    (material : ℚ → MaterialPhong) (t0 t1 : ℚ) (n : Nat) :
    (∃ l, sampleCurve curve width material t0 t1 (n : Int) true = some l ∧
        l.length = n + 1 ∧
        (1 ≤ n → l[0]? = some (sampleAt curve width material t0) ∧
          l[n]? = some (sampleAt curve width material t0))) ∧
    (∃ l, sampleCurve curve width material t0 t1 (n : Int) false = some l ∧ l.length = n) ∧
    (sampleAt curve width material t0).position = curve.pos t0 ∧
    (sampleAt curve width material t0).tangent = curve.tangent t0 ∧
    (sampleAt curve width material t0).normal = curve.normal t0 ∧
    (sampleAt curve width material t0).width = width t0 ∧
    (sampleAt curve width material t0).readExtraLast = t0 := by
  refine ⟨⟨_, sampleCurve_periodic curve width material t0 t1 n, by simp, ?_⟩,
    ⟨_, sampleCurve_nonperiodic curve width material t0 t1 n, by simp⟩, rfl, rfl, rfl, rfl, rfl⟩
  intro hn
  constructor
  · rw [List.getElem?_append_left (by simp; omega)]
    simp [List.getElem?_range (show 0 < n by omega)]
  · rw [List.getElem?_append_right (by simp)]
    simp

/-! ### `SuperCurve::mesh` -/

theorem StdMap.length_insert {K V : Type} [LT K] [DecidableRel (fun a b : K => a < b)]
    (m : StdMap K V) (k : K) (v : V) : (StdMap.insert m k v).length = m.length + 1 := by
  induction m with
  | nil => rfl
  | cons p r ih =>
    obtain ⟨k', v'⟩ := p
    by_cases h : k < k' <;> simp [StdMap.insert, h, ih]

theorem StdMap.mem_insert {K V : Type} [LT K] [DecidableRel (fun a b : K => a < b)]
    (m : StdMap K V) (k : K) (v : V) (p : K × V) :
    p ∈ StdMap.insert m k v ↔ p = (k, v) ∨ p ∈ m := by
  induction m with
  | nil => simp [StdMap.insert]
  | cons q r ih =>
    obtain ⟨k', v'⟩ := q
    by_cases h : k < k'
    · simp [StdMap.insert, h]
    · simp only [StdMap.insert, h, if_false, List.mem_cons, ih]
      tauto

theorem StdMap.find_eq_none_of_keys {K V : Type} [DecidableEq K] (m : StdMap K V) (k : K)
    (h : ∀ p ∈ m, p.1 ≠ k) : StdMap.find m k = none := by
  induction m with
  | nil => rfl
  | cons q r ih =>
    obtain ⟨k', v'⟩ := q
    have h1 : k' ≠ k := h (k', v') (List.mem_cons_self _ _)
    simp only [StdMap.find, h1, if_false]
    exact ih (fun p hp => h p (List.mem_cons_of_mem _ hp))

theorem StdMap.assign_of_find_none {K V : Type} [DecidableEq K] [LT K]
    [DecidableRel (fun a b : K => a < b)] (m : StdMap K V) (k : K) (v : V)
    (h : StdMap.find m k = none) : StdMap.assign m k v = StdMap.insert m k v := by
  simp [StdMap.assign, StdMap.contains, h]

theorem StdMap.totalTriangles_of_pairs {K T : Type} (m : StdMap K (List T))
    (h : ∀ p ∈ m, p.2.length = 2) : StdMap.totalTriangles m = 2 * m.length := by
  induction m with
  | nil => rfl
  | cons q r ih =>
    have h1 := h q (List.mem_cons_self _ _)
    have h2 := ih (fun p hp => h p (List.mem_cons_of_mem _ hp))
    simp only [StdMap.totalTriangles, List.map_cons, List.sum_cons, List.length_cons] at h2 ⊢
    rw [h1, h2]; ring

theorem SuperCurve.meshStep_invariant (trig : TrigOps) (curveGroup : Nat → PolyGroupID)
    (hinj : Function.Injective curveGroup) (c : SuperCurve) (R : Int) (i j k : Nat)
    (hi : i + 1 < c.samples.length) (acc : Option SuperMesh)
    (h : CurveGroupsInv curveGroup k acc) :
    CurveGroupsInv curveGroup (k + 1) (acc.bind (SuperCurve.meshStep trig curveGroup c R i j)) := by
  obtain ⟨M, hM, hlen, hkeys, hvals⟩ := h
  have ha : c.samples.get? i = some c.samples[i] := by
    rw [List.get?_eq_getElem?]; exact List.getElem?_eq_getElem (by omega)
  have hb : c.samples.get? (i + 1) = some c.samples[i + 1] := by
    rw [List.get?_eq_getElem?]; exact List.getElem?_eq_getElem hi
  have hnone : StdMap.find M.embedded_curves (curveGroup M.embedded_curves.length) = none := by
    apply StdMap.find_eq_none_of_keys
    intro p hp heq
    obtain ⟨j', hj', hpj⟩ := hkeys p hp
    rw [hpj] at heq
    have := hinj heq
    omega
  subst hM
  simp only [Option.some_bind, SuperCurve.meshStep, ha, hb, Option.bind_eq_bind, Option.pure_def,
    SuperMesh.addEmbeddedCurve, SuperMesh.addEmbeddedCurveWithId,
    StdMap.assign_of_find_none _ _ _ hnone]
  refine ⟨_, rfl, ?_, ?_, ?_⟩
  · simp [StdMap.length_insert, hlen]
  · intro p hp
    rw [StdMap.mem_insert] at hp
    rcases hp with hp | hp
    · exact ⟨k, by omega, by rw [hp, hlen]⟩
    · obtain ⟨j', hj', hpj⟩ := hkeys p hp
      exact ⟨j', by omega, hpj⟩
  · intro p hp
    rw [StdMap.mem_insert] at hp
    rcases hp with hp | hp
    · rw [hp]; rfl
    · exact hvals p hp

theorem SuperCurve.mesh_inner_invariant (trig : TrigOps) (curveGroup : Nat → PolyGroupID)
    (hinj : Function.Injective curveGroup) (c : SuperCurve) (R : Int) (i k : Nat)
    (hi : i + 1 < c.samples.length) (acc : Option SuperMesh)
    (h : CurveGroupsInv curveGroup k acc) :
    CurveGroupsInv curveGroup (k + R.toNat)
      (forLoop R.toNat
        (fun j acc => acc.bind (SuperCurve.meshStep trig curveGroup c R i j)) acc) := by
  apply forLoop_invariant (fun j s => CurveGroupsInv curveGroup (k + j) s)
  · exact h
  · intro j s _ hs
    exact SuperCurve.meshStep_invariant trig curveGroup hinj c R i j (k + j) hi s hs

/-- C7: for a non-empty sample list and an injective `curveGroup`, `mesh(R)`
returns a mesh whose embedded-curve groups hold exactly
`2 * (number of samples - 1) * R` triangles in total (one group of two triangles
per generated pair, none overwritten); for samples produced by `sampleCurve` with
`n` steps and `periodic = true` this is `2 * n * R`. -/
theorem mesh_triangle_count (trig : TrigOps) (curveGroup : Nat → PolyGroupID)
    (hinj : Function.Injective curveGroup) (R : Int) :
    (∀ c : SuperCurve, c.samples ≠ [] →
      ∃ M, c.mesh trig curveGroup R = some M ∧
        M.embedded_curves.length = (c.samples.length - 1) * R.toNat ∧
        StdMap.totalTriangles M.embedded_curves
          = 2 * (c.samples.length - 1) * R.toNat) ∧
    (∀ (curve : SmoothParametricCurve) (width : ℚ → ℚ) (material : ℚ → MaterialPhong)
        (t0 t1 : ℚ) (n : Nat),
      ∃ c M, SuperCurve.ofCurve curve width material t0 t1 (n : Int) true = some c ∧
        c.mesh trig curveGroup R = some M ∧
        StdMap.totalTriangles M.embedded_curves = 2 * n * R.toNat) := by
  have key : ∀ c : SuperCurve, c.samples ≠ [] →
      ∃ M, c.mesh trig curveGroup R = some M ∧
        M.embedded_curves.length = (c.samples.length - 1) * R.toNat ∧
        StdMap.totalTriangles M.embedded_curves
          = 2 * (c.samples.length - 1) * R.toNat := by
    intro c hc
    have hpos : c.samples.length ≠ 0 := by
      intro h0; exact hc (List.length_eq_zero.mp h0)
    have hinv : CurveGroupsInv curveGroup ((c.samples.length - 1) * R.toNat)
        (c.mesh trig curveGroup R) := by
      unfold SuperCurve.mesh
      simp only [sizeMinusOne, hpos, if_false]
      apply forLoop_invariant (fun i s => CurveGroupsInv curveGroup (i * R.toNat) s)
      · exact ⟨SuperMesh.empty, rfl, by simp [SuperMesh.empty], by simp [SuperMesh.empty],
          by simp [SuperMesh.empty]⟩
      · intro i s hi hs
        have := SuperCurve.mesh_inner_invariant trig curveGroup hinj c R i (i * R.toNat)
          (by omega) s hs
        rw [Nat.succ_mul]
        exact this
    obtain ⟨M, hM, hlen, _, hvals⟩ := hinv
    refine ⟨M, hM, hlen, ?_⟩
    rw [StdMap.totalTriangles_of_pairs _ hvals, hlen, Nat.mul_assoc]
  refine ⟨key, ?_⟩
  intro curve width material t0 t1 n
  have hs := sampleCurve_periodic curve width material t0 t1 n
  have hne : ((List.range n).map
      (fun (i : Nat) => sampleAt curve width material (t0 + (t1 - t0) * (i : ℚ) / ((n : Int) : ℚ)))
      ++ [sampleAt curve width material t0]) ≠ [] := by simp
  obtain ⟨M, hM, _, htot⟩ := key
    { t0 := t0, t1 := t1,
      samples := (List.range n).map
        (fun (i : Nat) => sampleAt curve width material
          (t0 + (t1 - t0) * (i : ℚ) / ((n : Int) : ℚ)))
        ++ [sampleAt curve width material t0],
      _mesh := none } hne
  refine ⟨_, M, by simp only [SuperCurve.ofCurve, hs, Option.map_some'], hM, ?_⟩
  rw [htot]
  simp

theorem mesh_triangle_count_witness :
    Function.Injective (fun n : Nat => PolyGroupID.int (n : Int)) ∧
    ∃ M, twoSampleCurve.mesh linearTrig (fun n : Nat => PolyGroupID.int (n : Int)) 3 = some M ∧
      M.embedded_curves.length = (twoSampleCurve.samples.length - 1) * (3 : Int).toNat ∧
      StdMap.totalTriangles M.embedded_curves
        = 2 * (twoSampleCurve.samples.length - 1) * (3 : Int).toNat :=
  ⟨fun a b h => by simpa using h,
   (mesh_triangle_count linearTrig (fun n : Nat => PolyGroupID.int (n : Int))
      (fun a b h => by simpa using h) 3).1 twoSampleCurve (by simp [twoSampleCurve])⟩

/-! ### `SuperMesh::merge` -/

theorem StdMap.mem_of_find {K V : Type} [DecidableEq K] (m : StdMap K V) (k : K) (v : V)
    (h : StdMap.find m k = some v) : (k, v) ∈ m := by
  induction m with
  | nil => simp [StdMap.find] at h
  | cons q r ih =>
    obtain ⟨k', v'⟩ := q
    by_cases h1 : k' = k
    · have : v' = v := by simpa [StdMap.find, h1] using h
      simp [h1, this]
    · have h2 : StdMap.find r k = some v := by simpa [StdMap.find, h1] using h
      exact List.mem_cons_of_mem _ (ih h2)

theorem StdMap.length_assign_of_find_none {K V : Type} [DecidableEq K] [LT K]
    [DecidableRel (fun a b : K => a < b)] (m : StdMap K V) (k : K) (v : V)
    (h : StdMap.find m k = none) : (StdMap.assign m k v).length = m.length + 1 := by
  rw [StdMap.assign_of_find_none m k v h, StdMap.length_insert]

/-- Merging a map whose renamed keys are new and pairwise distinct: entries under
other keys are untouched, every merged entry is found under its renamed key, and
the sizes add up. -/
theorem StdMap.assignAll_fresh {K V : Type} [DecidableEq K] [LT K]
    [DecidableRel (fun a b : K => a < b)] (f : K → K) :
    ∀ (b a : StdMap K V), (StdMap.keys b).Nodup →
      (∀ k1 ∈ StdMap.keys b, ∀ k2 ∈ StdMap.keys b, f k1 = f k2 → k1 = k2) →
      (∀ k ∈ StdMap.keys b, StdMap.find a (f k) = none) →
      (∀ k, (∀ k2 ∈ StdMap.keys b, f k2 ≠ k) →
          StdMap.find (StdMap.assignAll f a b) k = StdMap.find a k) ∧
      (∀ p ∈ b, StdMap.find (StdMap.assignAll f a b) (f p.1) = some p.2) ∧
      (StdMap.assignAll f a b).length = a.length + b.length := by
  intro b
  induction b with
  | nil =>
    intro a _ _ _
    simp [StdMap.assignAll]
  | cons q r ih =>
    obtain ⟨k0, v0⟩ := q
    intro a hnd hinj hfresh
    have hnd2 : k0 ∉ StdMap.keys r ∧ (StdMap.keys r).Nodup := by
      simpa [StdMap.keys] using hnd
    have hk0 : k0 ∈ StdMap.keys ((k0, v0) :: r) := by simp [StdMap.keys]
    have hsub : ∀ k, k ∈ StdMap.keys r → k ∈ StdMap.keys ((k0, v0) :: r) := by
      intro k hk; simp only [StdMap.keys, List.map_cons, List.mem_cons]; exact Or.inr hk
    have hne : ∀ k ∈ StdMap.keys r, f k0 ≠ f k := by
      intro k hk heq
      have := hinj k0 hk0 k (hsub k hk) heq
      exact hnd2.1 (this ▸ hk)
    have hfresh2 : ∀ k ∈ StdMap.keys r, StdMap.find (StdMap.assign a (f k0) v0) (f k) = none := by
      intro k hk
      rw [StdMap.find_assign_other _ _ _ _ (hne k hk)]
      exact hfresh k (hsub k hk)
    obtain ⟨h1, h2, h3⟩ := ih (StdMap.assign a (f k0) v0) hnd2.2
      (fun k1 hk1 k2 hk2 => hinj k1 (hsub k1 hk1) k2 (hsub k2 hk2)) hfresh2
    have hunfold : StdMap.assignAll f a ((k0, v0) :: r)
        = StdMap.assignAll f (StdMap.assign a (f k0) v0) r := rfl
    rw [hunfold]
    refine ⟨?_, ?_, ?_⟩
    · intro k hk
      rw [h1 k (fun k2 hk2 => hk k2 (hsub k2 hk2))]
      exact StdMap.find_assign_other _ _ _ _ (hk k0 hk0)
    · intro p hp
      rcases List.mem_cons.mp hp with hp | hp
      · subst hp
        rw [h1 (f k0) (fun k2 hk2 => (hne k2 hk2).symm)]
        exact StdMap.find_assign_same _ _ _
      · exact h2 p hp
    · rw [h3, StdMap.length_assign_of_find_none _ _ _ (hfresh k0 hk0)]
      simp only [List.length_cons]
      omega

theorem StdMap.assignAll_disjoint {V : Type} (prefixed : PolyGroupID → String → PolyGroupID)
    (s : String) (a b : StdMap PolyGroupID V) (h : MergeFresh prefixed s a b) :
    MergedDisjoint prefixed s a b (StdMap.assignAll (fun id => prefixed id s) a b) := by
  obtain ⟨hnd, hinj, hfresh⟩ := h
  obtain ⟨h1, h2, h3⟩ := StdMap.assignAll_fresh (fun id => prefixed id s) b a hnd hinj hfresh
  refine ⟨?_, ?_, h3⟩
  · intro k v hk
    rw [h1 k, hk]
    intro k2 hk2 heq
    have := hfresh k2 hk2
    rw [heq, hk] at this
    exact Option.noConfusion this
  · intro k v hk
    exact h2 (k, v) (StdMap.mem_of_find b k v hk)

/-- C9 (as amended): if, for each of the four role maps and for the material
map, the other mesh holds each id once, prefixing with the drawn string keeps its
ids distinct and no id of this mesh equals the prefixed form of an id of the other
mesh, then after `merge` every group (and material) of this mesh is still found
under its id, every group (and material) of the other mesh is found under its
prefixed id, and the number of entries of each map is the sum of the two. -/
theorem merge_disjoint_of_fresh (prefixed : PolyGroupID → String → PolyGroupID) (s : String)
    (a b : SuperMesh)
    (hT : MergeFresh prefixed s a.triangleGroups b.triangleGroups)
    (hB : MergeFresh prefixed s a.boundaryGroups b.boundaryGroups)
    (hC : MergeFresh prefixed s a.embedded_curves b.embedded_curves)
    (hP : MergeFresh prefixed s a.embedded_points b.embedded_points)
    (hM : MergeFresh prefixed s a.materials b.materials) :
    MergedDisjoint prefixed s a.triangleGroups b.triangleGroups
      (SuperMesh.merge prefixed s a b).triangleGroups ∧
    MergedDisjoint prefixed s a.boundaryGroups b.boundaryGroups
      (SuperMesh.merge prefixed s a b).boundaryGroups ∧
    MergedDisjoint prefixed s a.embedded_curves b.embedded_curves
      (SuperMesh.merge prefixed s a b).embedded_curves ∧
    MergedDisjoint prefixed s a.embedded_points b.embedded_points
      (SuperMesh.merge prefixed s a b).embedded_points ∧
    MergedDisjoint prefixed s a.materials b.materials
      (SuperMesh.merge prefixed s a b).materials :=
  ⟨StdMap.assignAll_disjoint prefixed s _ _ hT, StdMap.assignAll_disjoint prefixed s _ _ hB,
   StdMap.assignAll_disjoint prefixed s _ _ hC, StdMap.assignAll_disjoint prefixed s _ _ hP,
   StdMap.assignAll_disjoint prefixed s _ _ hM⟩

theorem mergeFresh_nil {V : Type} (prefixed : PolyGroupID → String → PolyGroupID) (s : String)
    (a : StdMap PolyGroupID V) : MergeFresh prefixed s a [] := by
  simp [MergeFresh, StdMap.keys]

theorem mergeFresh_single {V : Type} (s : String) (v1 v2 : V) :
    MergeFresh prefixedModel s [(PolyGroupID.int 0, v1)] [(PolyGroupID.int 0, v2)] := by
  simp [MergeFresh, StdMap.keys, StdMap.find, prefixedModel]

theorem merge_disjoint_of_fresh_witness :
    MergeFresh prefixedModel "m1_" singleGroupMesh.triangleGroups singleGroupMesh.triangleGroups ∧
    MergedDisjoint prefixedModel "m1_" singleGroupMesh.triangleGroups
      singleGroupMesh.triangleGroups
      (SuperMesh.merge prefixedModel "m1_" singleGroupMesh singleGroupMesh).triangleGroups :=
  ⟨mergeFresh_single _ _ _,
   (merge_disjoint_of_fresh prefixedModel "m1_" singleGroupMesh singleGroupMesh
      (mergeFresh_single _ _ _) (mergeFresh_nil _ _ _) (mergeFresh_nil _ _ _)
      (mergeFresh_nil _ _ _) (mergeFresh_single _ _ _)).1⟩

/-- C9 (counterexample to the claim as stated): merging `collidingB` into
`collidingA` with the drawn string `"ab"`.  The id `"0"` of the other mesh is
prefixed to `"ab0"`, an id of this mesh; the merge overwrites the group `"ab0"`
(one triangle before, none after) and leaves one surface group, not two. -/
theorem merge_collision_counterexample :
    prefixedModel (PolyGroupID.str "0") "ab" = PolyGroupID.str "ab0" ∧
    StdMap.find collidingA.triangleGroups (PolyGroupID.str "ab0") = some [unitTriangle] ∧
    StdMap.find (SuperMesh.merge prefixedModel "ab" collidingA collidingB).triangleGroups
      (PolyGroupID.str "ab0") = some [] ∧
    (SuperMesh.merge prefixedModel "ab" collidingA collidingB).triangleGroups.length = 1 ∧
    collidingA.triangleGroups.length + collidingB.triangleGroups.length = 2 ∧
    ¬ MergedDisjoint prefixedModel "ab" collidingA.triangleGroups collidingB.triangleGroups
      (SuperMesh.merge prefixedModel "ab" collidingA collidingB).triangleGroups := by
  have hlen : (SuperMesh.merge prefixedModel "ab" collidingA collidingB).triangleGroups.length
      = 1 := rfl
  refine ⟨rfl, rfl, rfl, hlen, rfl, ?_⟩
  intro h
  have h3 := h.2.2
  rw [hlen] at h3
  exact absurd h3 (by decide)

/-! ### Translation and flattening -/

theorem TriangularMesh.translate_triangles (m : TriangularMesh) (v : vec3) :
    (m.translate v).triangles = m.triangles.map (fun t => t.add v) := by
  simp only [TriangularMesh.translate, forLoop_modifyAt]

theorem TriangularMesh.pushCorners_eq (positions : List vec3) (t : TriangleR3)
    (ht : 3 ≤ t.vertices.length) :
    TriangularMesh.pushCorners positions t
      = some (positions ++ [t.vertex 0, t.vertex 1, t.vertex 2]) := by
  have g0 : TriangleR3.get t 0 = some (t.vertex 0) := by
    simp [TriangleR3.get, TriangleR3.vertex,
      List.getElem?_eq_getElem (show 0 < t.vertices.length by omega)]
  have g1 : TriangleR3.get t 1 = some (t.vertex 1) := by
    simp [TriangleR3.get, TriangleR3.vertex,
      List.getElem?_eq_getElem (show 1 < t.vertices.length by omega)]
  have g2 : TriangleR3.get t 2 = some (t.vertex 2) := by
    simp [TriangleR3.get, TriangleR3.vertex,
      List.getElem?_eq_getElem (show 2 < t.vertices.length by omega)]
  simp [TriangularMesh.pushCorners, g0, g1, g2]

theorem TriangularMesh.positionBuffer_fold (ts : List TriangleR3)
    (h : ∀ t ∈ ts, 3 ≤ t.vertices.length) :
    ∀ acc : List vec3,
      ts.foldlM TriangularMesh.pushCorners acc
        = some (acc ++ ts.flatMap (fun t => [t.vertex 0, t.vertex 1, t.vertex 2])) := by
  induction ts with
  | nil => intro acc; simp
  | cons t r ih =>
    intro acc
    rw [List.foldlM_cons,
      TriangularMesh.pushCorners_eq acc t (h t (List.mem_cons_self _ _))]
    simp only [Option.bind_eq_bind, Option.some_bind]
    rw [ih (fun t2 ht2 => h t2 (List.mem_cons_of_mem _ ht2))]
    simp

theorem TriangleR3.add_vertex (t : TriangleR3) (v : vec3) :
    [(t.add v).vertex 0, (t.add v).vertex 1, (t.add v).vertex 2]
      = [t.vertex 0 + v, t.vertex 1 + v, t.vertex 2 + v] := rfl

theorem TriangularMesh.foldl_append_eq_flatMap {α β : Type} (g : α → List β) (l : List α) :
    ∀ acc : List β, l.foldl (fun acc a => acc ++ g a) acc = acc ++ l.flatMap g := by
  induction l with
  | nil => intro acc; simp
  | cons a r ih => intro acc; simp [ih]

/-- C10: for a mesh whose triangles have (at least) three vertices, the position
buffer of the mesh translated by `T` (with `translate` or `operator+`) is the
position buffer of the mesh with `T` added to every entry, and the normal, color
and uv buffers are the same after the translation as before. -/
theorem translate_flatten_commute (m : TriangularMesh) (T : vec3)
    (hwf : ∀ t ∈ m.triangles, 3 ≤ t.vertices.length) :
    ∃ buf, m.calculatePositionBuffer = some buf ∧
      (m.translate T).calculatePositionBuffer = some (buf.map (fun p => p + T)) ∧
      (m.add T).calculatePositionBuffer = some (buf.map (fun p => p + T)) ∧
      (m.add T).calculateNormalBuffer = m.calculateNormalBuffer ∧
      (m.add T).calculateColorBuffer = m.calculateColorBuffer ∧
      (m.add T).calculateUVBuffer = m.calculateUVBuffer := by
  have hpos : m.calculatePositionBuffer
      = some (m.triangles.flatMap (fun t => [t.vertex 0, t.vertex 1, t.vertex 2])) := by
    unfold TriangularMesh.calculatePositionBuffer
    rw [TriangularMesh.positionBuffer_fold m.triangles hwf []]
    simp
  have hwf2 : ∀ t ∈ (m.translate T).triangles, 3 ≤ t.vertices.length := by
    intro t ht
    rw [TriangularMesh.translate_triangles] at ht
    obtain ⟨t0, _, rfl⟩ := List.mem_map.mp ht
    simp [TriangleR3.add, TriangleR3.mkVNCU, TriangleR3.mkVNC, TriangleR3.mkVN]
  have hpos2 : (m.translate T).calculatePositionBuffer
      = some ((m.triangles.flatMap (fun t => [t.vertex 0, t.vertex 1, t.vertex 2])).map
          (fun p => p + T)) := by
    unfold TriangularMesh.calculatePositionBuffer
    rw [TriangularMesh.positionBuffer_fold _ hwf2 [], TriangularMesh.translate_triangles]
    simp only [List.nil_append, List.flatMap_map, TriangleR3.add_vertex, List.map_flatMap,
      List.map_cons, List.map_nil]
  refine ⟨_, hpos, hpos2, hpos2, ?_, ?_, ?_⟩
  · simp only [TriangularMesh.add, TriangularMesh.calculateNormalBuffer,
      TriangularMesh.translate_triangles, TriangularMesh.foldl_append_eq_flatMap,
      List.flatMap_map]
    rfl
  · simp only [TriangularMesh.add, TriangularMesh.calculateColorBuffer,
      TriangularMesh.translate_triangles, TriangularMesh.foldl_append_eq_flatMap,
      List.flatMap_map]
    rfl
  · simp only [TriangularMesh.add, TriangularMesh.calculateUVBuffer,
      TriangularMesh.translate_triangles, TriangularMesh.foldl_append_eq_flatMap,
      List.flatMap_map]
    rfl

theorem translate_flatten_commute_witness :
    (∀ t ∈ anchoredMesh.triangles, 3 ≤ t.vertices.length) ∧
    ∃ buf, anchoredMesh.calculatePositionBuffer = some buf ∧
      (anchoredMesh.translate ⟨1, 2, 3⟩).calculatePositionBuffer
        = some (buf.map (fun p => p + ⟨1, 2, 3⟩)) ∧
      (anchoredMesh.add ⟨1, 2, 3⟩).calculatePositionBuffer
        = some (buf.map (fun p => p + ⟨1, 2, 3⟩)) ∧
      (anchoredMesh.add ⟨1, 2, 3⟩).calculateNormalBuffer = anchoredMesh.calculateNormalBuffer ∧
      (anchoredMesh.add ⟨1, 2, 3⟩).calculateColorBuffer = anchoredMesh.calculateColorBuffer ∧
      (anchoredMesh.add ⟨1, 2, 3⟩).calculateUVBuffer = anchoredMesh.calculateUVBuffer :=
  ⟨by simp [anchoredMesh, TriangularMesh.ofTriangles, anchoredTriangle, TriangleR3.addExtraData,
      TriangleR3.mkVN],
   translate_flatten_commute anchoredMesh ⟨1, 2, 3⟩
    (by simp [anchoredMesh, TriangularMesh.ofTriangles, anchoredTriangle,
      TriangleR3.addExtraData, TriangleR3.mkVN])⟩

theorem TriangularMesh.applyMapBufferStep_partial (f : vec3 → vec3) (d : String)
    (m : TriangularMesh) (e : List vec4) (k : Nat) (hlen : e.length = m.posBuff.length)
    (hk : k < m.posBuff.length) :
    TriangularMesh.applyMapBufferStep f d k (TriangularMesh.applyMapBufferPartial f d m e k)
      = TriangularMesh.applyMapBufferPartial f d m e (k + 1) := by
  have hke : k < e.length := by omega
  have hce : e[k]? = some e[k] := List.getElem?_eq_getElem hke
  have hcp : m.posBuff[k]? = some m.posBuff[k] := List.getElem?_eq_getElem hk
  have hfind := StdMap.find_assign_same m.extraBuff d
    ((e.map (fun c => vec4.ofVec3 (f c.xyz) 0)).take k ++ e.drop k)
  have hge : ((e.map (fun c => vec4.ofVec3 (f c.xyz) 0)).take k ++ e.drop k).getD k 0
      = e[k] := by
    rw [getD_take_append_drop _ _ _ (by simp; omega)]
    simp [hce]
  have hgp : ((List.zipWith (fun p c => f c.xyz + (p - c.xyz)) m.posBuff e).take k
      ++ m.posBuff.drop k).getD k 0 = m.posBuff[k] := by
    rw [getD_take_append_drop _ _ _ (by simp; omega)]
    simp [hcp]
  have hse := set_take_append_drop (e.map (fun c => vec4.ofVec3 (f c.xyz) 0)) e k
    (vec4.ofVec3 (f e[k].xyz) 0) (by simp [hce]) hke
  have hsp := set_take_append_drop
    (List.zipWith (fun p c => f c.xyz + (p - c.xyz)) m.posBuff e) m.posBuff k
    (f e[k].xyz + (m.posBuff[k] - e[k].xyz))
    (by simp [List.getElem?_zipWith, hce, hcp]) hk
  simp only [TriangularMesh.applyMapBufferStep, TriangularMesh.applyMapBufferPartial]
  rw [StdMap.index_of_find _ _ _ _ hfind]
  simp only [hge, hgp, hse, hsp, StdMap.assign_assign]

theorem TriangularMesh.applyMapBuffer_loop (f : vec3 → vec3) (d : String) (m : TriangularMesh)
    (e : List vec4) (he : StdMap.find m.extraBuff d = some e)
    (hlen : e.length = m.posBuff.length) :
    ∀ k, k ≤ m.posBuff.length →
      forLoop k (TriangularMesh.applyMapBufferStep f d) m
        = TriangularMesh.applyMapBufferPartial f d m e k := by
  intro k
  induction k with
  | zero =>
    intro _
    simp [forLoop_zero, TriangularMesh.applyMapBufferPartial, StdMap.assign_of_find _ _ _ he]
  | succ k ih =>
    intro hk
    rw [forLoop_succ, ih (Nat.le_of_lt hk)]
    exact TriangularMesh.applyMapBufferStep_partial f d m e k hlen hk

/-- The cached buffers after `applyMap(f, customDomain)`, for a mesh whose anchor
buffer has the length of the position buffer: every cached position `p` with
anchor `c` becomes `f(c.xyz) + (p - c.xyz)` and the cached anchor becomes
`(f(c.xyz), 0)`. -/
theorem TriangularMesh.applyMapCustomDomain_buffers (f : vec3 → vec3) (d : String)
    (m : TriangularMesh) (e : List vec4) (he : StdMap.find m.extraBuff d = some e)
    (hlen : e.length = m.posBuff.length) :
    (TriangularMesh.applyMapCustomDomain f d m).posBuff
      = List.zipWith (fun p c => f c.xyz + (p - c.xyz)) m.posBuff e ∧
    StdMap.find (TriangularMesh.applyMapCustomDomain f d m).extraBuff d
      = some (e.map (fun c => vec4.ofVec3 (f c.xyz) 0)) := by
  have hloop := TriangularMesh.applyMapBuffer_loop f d
    { m with
      triangles := forLoop m.triangles.length
        (fun i ts => modifyAt ts i (fun t => forLoop 3 (TriangularMesh.applyMapCorner f d) t))
        m.triangles }
    e he hlen m.posBuff.length (le_refl _)
  unfold TriangularMesh.applyMapCustomDomain
  simp only []
  rw [hloop]
  have h1 := take_length_append_drop
    (List.zipWith (fun p c => f c.xyz + (p - c.xyz)) m.posBuff e) m.posBuff (by simp [hlen])
  have h3 := take_length_append_drop (e.map (fun c => vec4.ofVec3 (f c.xyz) 0)) e (by simp)
  rw [hlen] at h3
  simp only [TriangularMesh.applyMapBufferPartial, h1, h3, StdMap.find_assign_same]
  exact ⟨trivial, trivial⟩

/-- The corners of a triangle with three vertices after the triangle loop of
`applyMap(f, customDomain)`: corner `j` with anchor `a` moves from `p` to
`f(a) + (p - a)`. -/
theorem TriangularMesh.applyMap_triangle_vertices (f : vec3 → vec3) (d : String)
    (t : TriangleR3) (p0 p1 p2 : vec3) (hv : t.vertices = [p0, p1, p2]) :
    (forLoop 3 (TriangularMesh.applyMapCorner f d) t).vertices
      = [f ((t.getExtraData d).1.get 0).xyz + (p0 - ((t.getExtraData d).1.get 0).xyz),
         f ((t.getExtraData d).1.get 1).xyz + (p1 - ((t.getExtraData d).1.get 1).xyz),
         f ((t.getExtraData d).1.get 2).xyz + (p2 - ((t.getExtraData d).1.get 2).xyz)] := by
  have h := StdMap.find_index t.extraData d (⟨0, 0, 0⟩ : array3 vec4)
  simp only [forLoop_succ, forLoop_zero, TriangularMesh.applyMapCorner, TriangleR3.getExtraData,
    StdMap.index_of_find _ _ _ _ h, TriangleR3.vertex, hv]
  simp

/-- For every prefix helper and every drawn string there are two meshes whose
merge collides: the first holds a group under the prefixed form of an id of the
second. -/
theorem merge_collision_for_every_prefix (prefixed : PolyGroupID → String → PolyGroupID)
    (s : String) :
    ∃ a b : SuperMesh,
      ¬ MergedDisjoint prefixed s a.triangleGroups b.triangleGroups
        (SuperMesh.merge prefixed s a b).triangleGroups := by
  refine ⟨{ SuperMesh.empty with
            triangleGroups := [(prefixed (PolyGroupID.int 0) s, [unitTriangle])] },
          { SuperMesh.empty with triangleGroups := [(PolyGroupID.int 0, [])] }, ?_⟩
  intro h
  have h3 := h.2.2
  simp [SuperMesh.merge, StdMap.assignAll, StdMap.assign, StdMap.contains, StdMap.find,
    StdMap.replace, SuperMesh.empty] at h3

/-! ### Flattened buffers of `TriangularMesh` -/

theorem length_flatMap_three {α β : Type} (g : α → List β) (hg : ∀ a, (g a).length = 3) :
    ∀ l : List α, (l.flatMap g).length = 3 * l.length := by
  intro l
  induction l with
  | nil => rfl
  | cons a r ih => simp [List.flatMap_cons, hg, ih]; ring

theorem getElem?_flatMap_three {α β : Type} (g : α → List β) (hg : ∀ a, (g a).length = 3) :
    ∀ (l : List α) (i j : Nat) (a : α), l[i]? = some a → j < 3 →
      (l.flatMap g)[3 * i + j]? = (g a)[j]? := by
  intro l
  induction l with
  | nil => intro i j a h; simp at h
  | cons b r ih =>
    intro i j a h hj
    rw [List.flatMap_cons]
    cases i with
    | zero =>
      have hb : b = a := by simpa using h
      subst hb
      rw [List.getElem?_append_left (by rw [hg]; omega)]
      simp
    | succ i =>
      have hr : r[i]? = some a := by simpa using h
      rw [List.getElem?_append_right (by rw [hg]; omega), hg]
      have : 3 * (i + 1) + j - 3 = 3 * i + j := by omega
      rw [this]
      exact ih i j a hr hj

theorem list_three_getD {α : Type} (l : List α) (d : α) (h : l.length = 3) :
    [l.getD 0 d, l.getD 1 d, l.getD 2 d] = l := by
  match l, h with
  | [a, b, c], _ => rfl

theorem TriangularMesh.calculatePositionBuffer_eq (m : TriangularMesh)
    (hwf : ∀ t ∈ m.triangles, t.WellFormed) :
    m.calculatePositionBuffer = some (m.triangles.flatMap (fun t => t.vertices)) := by
  unfold TriangularMesh.calculatePositionBuffer
  rw [TriangularMesh.positionBuffer_fold m.triangles
    (fun t ht => by rw [(hwf t ht).1]) []]
  simp only [List.nil_append]
  congr 1
  apply List.flatMap_congr
  intro t ht
  exact list_three_getD t.vertices 0 (hwf t ht).1

theorem TriangularMesh.calculateNormalBuffer_eq (m : TriangularMesh)
    (hwf : ∀ t ∈ m.triangles, t.WellFormed) :
    m.calculateNormalBuffer = m.triangles.flatMap (fun t => t.normals) := by
  unfold TriangularMesh.calculateNormalBuffer
  rw [TriangularMesh.foldl_append_eq_flatMap]
  simp only [List.nil_append]
  apply List.flatMap_congr
  intro t ht
  exact list_three_getD t.normals 0 (hwf t ht).2.1

theorem TriangularMesh.calculateColorBuffer_eq (m : TriangularMesh)
    (hwf : ∀ t ∈ m.triangles, t.WellFormed) :
    m.calculateColorBuffer = m.triangles.flatMap (fun t => t.vertexColors) := by
  unfold TriangularMesh.calculateColorBuffer
  rw [TriangularMesh.foldl_append_eq_flatMap]
  simp only [List.nil_append]
  apply List.flatMap_congr
  intro t ht
  exact list_three_getD t.vertexColors 0 (hwf t ht).2.2.2

theorem TriangularMesh.calculateUVBuffer_eq (m : TriangularMesh)
    (hwf : ∀ t ∈ m.triangles, t.WellFormed) :
    m.calculateUVBuffer = m.triangles.flatMap (fun t => t.uvs) := by
  unfold TriangularMesh.calculateUVBuffer
  rw [TriangularMesh.foldl_append_eq_flatMap]
  simp only [List.nil_append]
  apply List.flatMap_congr
  intro t ht
  exact list_three_getD t.uvs 0 (hwf t ht).2.2.1

theorem TriangularMesh.positionBuffer_corners (m : TriangularMesh)
    (h : ∀ t ∈ m.triangles, 3 ≤ t.vertices.length) :
    m.calculatePositionBuffer
      = some (m.triangles.flatMap (fun t => [t.vertex 0, t.vertex 1, t.vertex 2])) := by
  unfold TriangularMesh.calculatePositionBuffer
  rw [TriangularMesh.positionBuffer_fold m.triangles h []]
  simp

theorem unitMesh_wellFormed : ∀ t ∈ unitMesh.triangles, t.WellFormed := by
  intro t ht
  have : t = unitTriangle := by simpa [unitMesh, TriangularMesh.ofTriangles] using ht
  subst this
  exact ⟨rfl, rfl, rfl, rfl⟩

theorem TriangularMesh.calculateNormalBuffer_corners (m : TriangularMesh) :
    m.calculateNormalBuffer = m.triangles.flatMap TriangleR3.cornerNormals := by
  unfold TriangularMesh.calculateNormalBuffer
  rw [TriangularMesh.foldl_append_eq_flatMap]; rfl

theorem TriangularMesh.calculateColorBuffer_corners (m : TriangularMesh) :
    m.calculateColorBuffer = m.triangles.flatMap TriangleR3.cornerColors := by
  unfold TriangularMesh.calculateColorBuffer
  rw [TriangularMesh.foldl_append_eq_flatMap]; rfl

theorem TriangularMesh.calculateUVBuffer_corners (m : TriangularMesh) :
    m.calculateUVBuffer = m.triangles.flatMap TriangleR3.cornerUVs := by
  unfold TriangularMesh.calculateUVBuffer
  rw [TriangularMesh.foldl_append_eq_flatMap]; rfl

/-- C11: for a mesh with `n` triangles, each with its four arrays of length 3, the
four `calculate...Buffer` methods return `3 * n` entries each, and entry
`3 * i + j` of each buffer is the attribute of corner `j` of triangle `i`. -/
theorem calculateBuffers_layout (m : TriangularMesh)
    (hwf : ∀ t ∈ m.triangles, t.WellFormed) :
    ∃ pos, m.calculatePositionBuffer = some pos ∧
      pos.length = 3 * m.triangles.length ∧
      m.calculateNormalBuffer.length = 3 * m.triangles.length ∧
      m.calculateColorBuffer.length = 3 * m.triangles.length ∧
      m.calculateUVBuffer.length = 3 * m.triangles.length ∧
      ∀ (i j : Nat) (t : TriangleR3), m.triangles[i]? = some t → j < 3 →
        pos[3 * i + j]? = t.vertices[j]? ∧
        m.calculateNormalBuffer[3 * i + j]? = t.normals[j]? ∧
        m.calculateColorBuffer[3 * i + j]? = t.vertexColors[j]? ∧
        m.calculateUVBuffer[3 * i + j]? = t.uvs[j]? ∧
        (t.vertices[j]?).isSome = true ∧ (t.normals[j]?).isSome = true ∧
        (t.vertexColors[j]?).isSome = true ∧ (t.uvs[j]?).isSome = true := by
  have hp : m.calculatePositionBuffer
      = some (m.triangles.flatMap TriangleR3.cornerPositions) :=
    TriangularMesh.positionBuffer_corners m (fun t ht => by rw [(hwf t ht).1])
  refine ⟨_, hp, ?_, ?_, ?_, ?_, ?_⟩
  · exact length_flatMap_three TriangleR3.cornerPositions (fun _ => rfl) _
  · rw [TriangularMesh.calculateNormalBuffer_corners]
    exact length_flatMap_three TriangleR3.cornerNormals (fun _ => rfl) _
  · rw [TriangularMesh.calculateColorBuffer_corners]
    exact length_flatMap_three TriangleR3.cornerColors (fun _ => rfl) _
  · rw [TriangularMesh.calculateUVBuffer_corners]
    exact length_flatMap_three TriangleR3.cornerUVs (fun _ => rfl) _
  · intro i j t hi hj
    have ht : t ∈ m.triangles := List.getElem?_mem hi
    obtain ⟨h1, h2, h3, h4⟩ := hwf t ht
    rw [TriangularMesh.calculateNormalBuffer_corners, TriangularMesh.calculateColorBuffer_corners,
      TriangularMesh.calculateUVBuffer_corners,
      getElem?_flatMap_three TriangleR3.cornerPositions (fun _ => rfl) _ i j t hi hj,
      getElem?_flatMap_three TriangleR3.cornerNormals (fun _ => rfl) _ i j t hi hj,
      getElem?_flatMap_three TriangleR3.cornerColors (fun _ => rfl) _ i j t hi hj,
      getElem?_flatMap_three TriangleR3.cornerUVs (fun _ => rfl) _ i j t hi hj]
    simp only [TriangleR3.cornerPositions, TriangleR3.cornerNormals, TriangleR3.cornerColors,
      TriangleR3.cornerUVs, TriangleR3.vertex, list_three_getD _ _ h1, list_three_getD _ _ h2,
      list_three_getD _ _ h3, list_three_getD _ _ h4]
    refine ⟨trivial, trivial, trivial, trivial, ?_, ?_, ?_, ?_⟩
    · rw [List.getElem?_eq_getElem (by omega)]; rfl
    · rw [List.getElem?_eq_getElem (by omega)]; rfl
    · rw [List.getElem?_eq_getElem (by omega)]; rfl
    · rw [List.getElem?_eq_getElem (by omega)]; rfl

theorem calculateBuffers_layout_witness :
    (∀ t ∈ unitMesh.triangles, t.WellFormed) ∧
    ∃ pos, unitMesh.calculatePositionBuffer = some pos ∧
      pos.length = 3 * unitMesh.triangles.length :=
  ⟨unitMesh_wellFormed,
   (calculateBuffers_layout unitMesh unitMesh_wellFormed).imp
     (fun _ h => ⟨h.1, h.2.1⟩)⟩

/-! ### Cache policy of `TriangularMesh` -/

theorem TriangularMesh.recomputeBuffers_eq (m : TriangularMesh)
    (h : ∀ t ∈ m.triangles, 3 ≤ t.vertices.length) :
    m.recomputeBuffers = some
      { m with
        posBuff := m.triangles.flatMap TriangleR3.cornerPositions
        normBuff := m.triangles.flatMap TriangleR3.cornerNormals
        colorBuff := m.triangles.flatMap TriangleR3.cornerColors
        uvBuff := m.triangles.flatMap TriangleR3.cornerUVs } := by
  have hp : m.calculatePositionBuffer
      = some (m.triangles.flatMap TriangleR3.cornerPositions) :=
    TriangularMesh.positionBuffer_corners m h
  simp only [TriangularMesh.recomputeBuffers, TriangularMesh.recomputeBuffersSel, hp, if_true,
    Option.map_some', Option.bind_eq_bind, Option.some_bind, Option.pure_def,
    TriangularMesh.calculateNormalBuffer_corners, TriangularMesh.calculateColorBuffer_corners,
    TriangularMesh.calculateUVBuffer_corners]

/-- C14: `precomputeBuffers` leaves a mesh with a non-empty `posBuff` as it is,
also after the triangles were translated (the four buffers keep the values they
had before the translation); `recomputeBuffers()` sets the four buffers to the
flattened attributes of the current triangles, and so does `precomputeBuffers`
when `posBuff` is empty. -/
theorem precomputeBuffers_cache_policy (m : TriangularMesh) (T : vec3) :
    (m.posBuff ≠ [] →
      m.precomputeBuffers = some m ∧
      (m.translate T).precomputeBuffers = some (m.translate T) ∧
      (m.translate T).posBuff = m.posBuff ∧ (m.translate T).normBuff = m.normBuff ∧
      (m.translate T).colorBuff = m.colorBuff ∧ (m.translate T).uvBuff = m.uvBuff) ∧
    ((∀ t ∈ m.triangles, 3 ≤ t.vertices.length) →
      m.recomputeBuffers = some
        { m with
          posBuff := m.triangles.flatMap TriangleR3.cornerPositions
          normBuff := m.triangles.flatMap TriangleR3.cornerNormals
          colorBuff := m.triangles.flatMap TriangleR3.cornerColors
          uvBuff := m.triangles.flatMap TriangleR3.cornerUVs } ∧
      (m.posBuff = [] → m.precomputeBuffers = m.recomputeBuffers)) := by
  constructor
  · intro hne
    have h1 : m.posBuff.isEmpty = false := by
      cases hp : m.posBuff with
      | nil => exact absurd hp hne
      | cons a r => rfl
    refine ⟨?_, ?_, rfl, rfl, rfl, rfl⟩
    · simp [TriangularMesh.precomputeBuffers, h1]
    · have h2 : (m.translate T).posBuff.isEmpty = false := h1
      simp [TriangularMesh.precomputeBuffers, h2]
  · intro h
    refine ⟨TriangularMesh.recomputeBuffers_eq m h, ?_⟩
    intro he
    simp [TriangularMesh.precomputeBuffers, he]

theorem precomputeBuffers_cache_policy_witness :
    cachedAnchorMesh.posBuff ≠ [] ∧
    cachedAnchorMesh.precomputeBuffers = some cachedAnchorMesh ∧
    (∀ t ∈ unitMesh.triangles, 3 ≤ t.vertices.length) ∧
    (unitMesh.posBuff = [] → unitMesh.precomputeBuffers = unitMesh.recomputeBuffers) :=
  ⟨by simp [cachedAnchorMesh],
   ((precomputeBuffers_cache_policy cachedAnchorMesh ⟨1, 2, 3⟩).1
      (by simp [cachedAnchorMesh])).1,
   fun t ht => by rw [(unitMesh_wellFormed t ht).1],
   ((precomputeBuffers_cache_policy unitMesh ⟨1, 2, 3⟩).2
      (fun t ht => by rw [(unitMesh_wellFormed t ht).1])).2⟩

/-! ### `MeshFamily1P` -/

theorem TriangularMesh.applyMapNormalCorner_vertices (f : vec3 → vec3)
    (f_normal : vec3 → vec3 → vec3) (t : TriangleR3) (h : t.vertices.length = 3) :
    (forLoop 3 (TriangularMesh.applyMapNormalCorner f f_normal) t).vertices
      = t.vertices.map f := by
  obtain ⟨vs, uvs, ns, cs, ex, mat⟩ := t
  match vs, h with
  | [p0, p1, p2], _ =>
    simp [forLoop_succ, forLoop_zero, TriangularMesh.applyMapNormalCorner, TriangleR3.vertex]

theorem TriangularMesh.applyMapNormal_triangles (f : vec3 → vec3)
    (f_normal : vec3 → vec3 → vec3) (m : TriangularMesh) :
    (m.applyMapNormal f f_normal).triangles
      = m.triangles.map (fun t => forLoop 3 (TriangularMesh.applyMapNormalCorner f f_normal) t) := by
  have h : ∀ (n : Nat) (m0 : TriangularMesh),
      (forLoop n (TriangularMesh.applyMapNormalBufferStep f f_normal) m0).triangles
        = m0.triangles := by
    intro n m0
    induction n with
    | zero => rfl
    | succ n ih => rw [forLoop_succ]; exact ih
  simp only [TriangularMesh.applyMapNormal, h, forLoop_modifyAt]

theorem TriangularMesh.applyMapNormal_posBuff (f : vec3 → vec3)
    (f_normal : vec3 → vec3 → vec3) (m : TriangularMesh) :
    (m.applyMapNormal f f_normal).posBuff = m.posBuff.map f := by
  have h : ∀ (k : Nat) (m0 : TriangularMesh), k ≤ m0.posBuff.length →
      (forLoop k (TriangularMesh.applyMapNormalBufferStep f f_normal) m0).posBuff
        = (m0.posBuff.map f).take k ++ m0.posBuff.drop k := by
    intro k m0
    induction k with
    | zero => intro _; simp [forLoop_zero]
    | succ k ih =>
      intro hk
      have hlt : k < m0.posBuff.length := hk
      rw [forLoop_succ]
      simp only [TriangularMesh.applyMapNormalBufferStep]
      rw [ih (Nat.le_of_lt hlt), getD_take_append_drop _ _ _ (by simp; omega)]
      exact set_take_append_drop (m0.posBuff.map f) m0.posBuff k _
        (by simp [List.getElem?_eq_getElem hlt]) hlt
  have h2 := h m.posBuff.length
    { m with
      triangles := forLoop m.triangles.length
        (fun i ts => modifyAt ts i
          (fun t => forLoop 3 (TriangularMesh.applyMapNormalCorner f f_normal) t))
        m.triangles } (le_refl _)
  unfold TriangularMesh.applyMapNormal
  simp only []
  rw [h2]
  exact take_length_append_drop (m.posBuff.map f) m.posBuff (by simp)

/-- C13: for a family built from general operators and currently at time `t`,
whose mesh has triangles with three vertices, `transformMesh(s)` replaces every
triangle vertex `p` and every cached position `p` by `F(t, s)(p)` and sets
`time()` to `s`; `meshDeformation(dt)` is `transformMesh(t + dt)`, so `time()`
becomes `t + dt`. -/
theorem transformMesh_positions (mesh : TriangularMesh) (F : ℚ → ℚ → vec3 → vec3)
    (Fn : ℚ → ℚ → vec3 → vec3 → vec3) (t s dt : ℚ)
    (hwf : ∀ tr ∈ mesh.triangles, tr.vertices.length = 3) :
    ((MeshFamily1P.ofOperators mesh F Fn t).transformMesh s).mesh.triangles.map
        (fun tr => tr.vertices)
      = mesh.triangles.map (fun tr => tr.vertices.map (F t s)) ∧
    ((MeshFamily1P.ofOperators mesh F Fn t).transformMesh s).mesh.posBuff
      = mesh.posBuff.map (F t s) ∧
    ((MeshFamily1P.ofOperators mesh F Fn t).transformMesh s).time = s ∧
    (MeshFamily1P.ofOperators mesh F Fn t).meshDeformation dt
      = (MeshFamily1P.ofOperators mesh F Fn t).transformMesh (t + dt) ∧
    ((MeshFamily1P.ofOperators mesh F Fn t).meshDeformation dt).time = t + dt := by
  refine ⟨?_, ?_, rfl, rfl, rfl⟩
  · simp only [MeshFamily1P.transformMesh, MeshFamily1P.ofOperators, Bool.false_eq_true, if_false,
      TriangularMesh.applyMapNormal_triangles, List.map_map]
    apply List.map_congr_left
    intro tr htr
    exact TriangularMesh.applyMapNormalCorner_vertices (F t s) (Fn t s) tr (hwf tr htr)
  · simp only [MeshFamily1P.transformMesh, MeshFamily1P.ofOperators, Bool.false_eq_true, if_false,
      TriangularMesh.applyMapNormal_posBuff]

theorem cachedUnitMesh_three_vertices :
    ∀ tr ∈ cachedUnitMesh.triangles, tr.vertices.length = 3 := by
  intro tr htr
  have : tr = unitTriangle := by
    simpa [cachedUnitMesh, unitMesh, TriangularMesh.ofTriangles] using htr
  subst this
  rfl

theorem transformMesh_positions_witness :
    (∀ tr ∈ cachedUnitMesh.triangles, tr.vertices.length = 3) ∧
    ((MeshFamily1P.ofOperators cachedUnitMesh slideOperator keepNormal 0).transformMesh
        2).mesh.posBuff
      = cachedUnitMesh.posBuff.map (slideOperator 0 2) :=
  ⟨cachedUnitMesh_three_vertices,
   (transformMesh_positions cachedUnitMesh slideOperator keepNormal 0 2 1
      cachedUnitMesh_three_vertices).2.1⟩


/-! ### `SuperMesh::merge` and the caches -/

/-- Claim C15, as stated, fails for the second mesh: merging the cached mesh
`cachedCurveMesh` into an empty mesh leaves the position buffer of
`cachedCurveMesh` with its one entry. -/
theorem merge_keeps_other_caches :
    (SuperMesh.mergeStates prefixedModel "ab" SuperMesh.empty
        cachedCurveMesh).2.stdAttributeBuffers.positions = [⟨1, 0, 0⟩] ∧
      ¬ ((SuperMesh.mergeStates prefixedModel "ab" SuperMesh.empty
        cachedCurveMesh).2.stdAttributeBuffers.positions = []) := by
  constructor
  · rfl
  · simp [SuperMesh.mergeStates, cachedCurveMesh]

/-- Claim C15 (amended): after `a.merge(b)` the standard attribute buffers
(positions, normals, colors, uvs) and the four material buffers of `a` are all
empty, for every prefix function, prefix string and pair of meshes; `b` is left
as it was, caches included. -/
theorem merge_clears_own_caches (prefixed : PolyGroupID → String → PolyGroupID)
    (prefix_rand : String) (a b : SuperMesh) :
    (SuperMesh.mergeStates prefixed prefix_rand a b).1.stdAttributeBuffers.positions = [] ∧
      (SuperMesh.mergeStates prefixed prefix_rand a b).1.stdAttributeBuffers.normals = [] ∧
      (SuperMesh.mergeStates prefixed prefix_rand a b).1.stdAttributeBuffers.colors = [] ∧
      (SuperMesh.mergeStates prefixed prefix_rand a b).1.stdAttributeBuffers.uvs = [] ∧
      (SuperMesh.mergeStates prefixed prefix_rand a b).1.materialBuffers.ambientColors = [] ∧
      (SuperMesh.mergeStates prefixed prefix_rand a b).1.materialBuffers.diffuseColors = [] ∧
      (SuperMesh.mergeStates prefixed prefix_rand a b).1.materialBuffers.specularColors = [] ∧
      (SuperMesh.mergeStates prefixed prefix_rand a b).1.materialBuffers.intencitiesAndShininess
        = [] ∧
      (SuperMesh.mergeStates prefixed prefix_rand a b).2 = b :=
  ⟨rfl, rfl, rfl, rfl, rfl, rfl, rfl, rfl, rfl⟩

/-! ### `flipNormals` -/

theorem v3_neg_neg (a : vec3) : -(-a) = a := by
  ext <;> simp

theorem TriangleR3.flipNormals_flipNormals (t : TriangleR3) (h : t.normals.length = 3) :
    t.flipNormals.flipNormals = t := by
  obtain ⟨vs, us, ns, cs, ed, mt⟩ := t
  match ns, h with
  | [a, b, c], _ => simp [TriangleR3.flipNormals, v3_neg_neg]

theorem TriangleR3.flipNormals_normals_length (t : TriangleR3) :
    t.flipNormals.normals.length = 3 := rfl

theorem TriangularMesh.flipNormals_triangles (m : TriangularMesh) :
    m.flipNormals.triangles = m.triangles.map (fun t => t.flipNormals) := by
  simp [TriangularMesh.flipNormals, forLoop_modifyAt]

/-- Claim C17: for a triangle with three normals, `flipNormals` applied twice
gives back the triangle itself (all fields), and for a mesh whose triangles have
three normals each, `TriangularMesh::flipNormals` applied twice gives back the
mesh, so every triangle is restored. -/
theorem flipNormals_involutive (t : TriangleR3) (m : TriangularMesh)
    (ht : t.normals.length = 3) (hm : ∀ tr ∈ m.triangles, tr.normals.length = 3) :
    t.flipNormals.flipNormals = t ∧ m.flipNormals.flipNormals = m ∧
      m.flipNormals.flipNormals.triangles = m.triangles := by
  have hmesh : m.flipNormals.flipNormals = m := by
    have h1 : m.flipNormals.flipNormals.triangles = m.triangles := by
      rw [TriangularMesh.flipNormals_triangles, TriangularMesh.flipNormals_triangles,
        List.map_map]
      conv_rhs => rw [← List.map_id m.triangles]
      apply List.map_congr_left
      intro tr htr
      exact TriangleR3.flipNormals_flipNormals tr (hm tr htr)
    obtain ⟨ts, pb, nb, cb, ub, eb⟩ := m
    simp only [TriangularMesh.flipNormals] at h1 ⊢
    simp only [TriangularMesh.mk.injEq, and_true]
    exact h1
  exact ⟨TriangleR3.flipNormals_flipNormals t ht, hmesh, by rw [hmesh]⟩

theorem flipNormals_involutive_witness :
    unitTriangle.flipNormals.flipNormals = unitTriangle ∧
      unitMesh.flipNormals.flipNormals = unitMesh ∧
      unitMesh.flipNormals.flipNormals.triangles = unitMesh.triangles :=
  flipNormals_involutive unitTriangle unitMesh rfl (by
    intro tr htr
    simp [unitMesh, TriangularMesh.ofTriangles] at htr
    subst htr
    rfl)


/-! ### `TriangleR3::operator<` -/

theorem TriangleR3.lexLt_irrefl (l : List ℚ) : TriangleR3.lexLt l l = false := by
  induction l with
  | nil => rfl
  | cons a r ih => simp [TriangleR3.lexLt, ih]

theorem TriangleR3.lt_of_second_vertex_eq (vecToVecHeHe : vec3 → List ℚ) (a b : TriangleR3)
    (h0 : a.vertex 0 ≠ b.vertex 0) (h1 : a.vertex 1 = b.vertex 1) :
    TriangleR3.lt vecToVecHeHe a b = false := by
  simp [TriangleR3.lt, h0, h1, TriangleR3.lexLt_irrefl]

/-- Claim C19 fails on the default triangle (three corners at the origin) against
the triangle with corners `(1,0,0)`, `(0,0,0)`, `(0,0,0)`: the first precedes the
second in the lexicographic order of the claim, but `operator<` answers `false`,
whatever the conversion `vecToVecHeHe` is, because it never compares the first
corners.  With the component-wise conversion the relation is not a strict weak
ordering either: the default triangle is incomparable with the second triangle,
the second with the triangle `(0,0,0)`, `(0,0,0)`, `(0,0,1)`, and yet the default
triangle is below that third one. -/
theorem lt_ignores_first_vertex :
    (∀ vecToVecHeHe : vec3 → List ℚ,
        TriangleR3.lt vecToVecHeHe TriangleR3.mk0 movedFirstCorner = false) ∧
      TriangleR3.lexPrecedes TriangleR3.mk0 movedFirstCorner = true ∧
      TriangleR3.lt components TriangleR3.mk0 movedFirstCorner = false ∧
      TriangleR3.lt components movedFirstCorner TriangleR3.mk0 = false ∧
      TriangleR3.lt components movedFirstCorner movedThirdCorner = false ∧
      TriangleR3.lt components movedThirdCorner movedFirstCorner = false ∧
      TriangleR3.lt components TriangleR3.mk0 movedThirdCorner = true := by
  have h01 : TriangleR3.mk0.vertex 0 ≠ movedFirstCorner.vertex 0 := by
    simp [TriangleR3.vertex, TriangleR3.mk0, movedFirstCorner, TriangleR3.mkVN]
  have h13 : movedFirstCorner.vertex 0 ≠ movedThirdCorner.vertex 0 := by
    simp [TriangleR3.vertex, movedThirdCorner, movedFirstCorner, TriangleR3.mkVN]
  refine ⟨fun conv => TriangleR3.lt_of_second_vertex_eq conv _ _ h01 rfl, ?_,
    TriangleR3.lt_of_second_vertex_eq _ _ _ h01 rfl,
    TriangleR3.lt_of_second_vertex_eq _ _ _ (Ne.symm h01) rfl,
    TriangleR3.lt_of_second_vertex_eq _ _ _ h13 rfl,
    TriangleR3.lt_of_second_vertex_eq _ _ _ (Ne.symm h13) rfl, ?_⟩
  · simp [TriangleR3.lexPrecedes, TriangleR3.vertex, TriangleR3.mk0, movedFirstCorner,
      TriangleR3.mkVN, TriangleR3.lexLt]
  · simp [TriangleR3.lt, TriangleR3.vertex, TriangleR3.mk0, movedThirdCorner,
      TriangleR3.mkVN, TriangleR3.lexLt, components]

/-! ### The length invariant of `TriangleR3` -/

theorem TriangleR3.constructors_wellFormed (ops : RealOps) (vertices normals : List vec3)
    (colors : List vec4) (uvs : List vec2) (normal : vec3) (color : vec4)
    (material : MaterialPhong) (hv : vertices.length = 3) (hn : normals.length = 3)
    (hc : colors.length = 3) (hu : uvs.length = 3) :
    TriangleR3.mk0.WellFormed ∧ (TriangleR3.mkV ops vertices).WellFormed ∧
      (TriangleR3.mkVN vertices normals).WellFormed ∧
      (TriangleR3.mkVC ops vertices colors).WellFormed ∧
      (TriangleR3.mkVn ops vertices normal).WellFormed ∧
      (TriangleR3.mkVU ops vertices uvs).WellFormed ∧
      (TriangleR3.mkVc ops vertices color).WellFormed ∧
      (TriangleR3.mkVNc vertices normals color).WellFormed ∧
      (TriangleR3.mkVnc ops vertices normal color).WellFormed ∧
      (TriangleR3.mkVNC vertices normals colors).WellFormed ∧
      (TriangleR3.mkVnC ops vertices normal colors).WellFormed ∧
      (TriangleR3.mkVNcU vertices normals color uvs).WellFormed ∧
      (TriangleR3.mkVncU ops vertices normal color uvs).WellFormed ∧
      (TriangleR3.mkVNCU vertices normals colors uvs).WellFormed ∧
      (TriangleR3.mkVnCU ops vertices normal colors uvs).WellFormed ∧
      (TriangleR3.mkVNCUM vertices normals colors uvs material).WellFormed := by
  simp [TriangleR3.WellFormed, TriangleR3.mk0, TriangleR3.mkV, TriangleR3.mkVN,
    TriangleR3.mkVC, TriangleR3.mkVn, TriangleR3.mkVU, TriangleR3.mkVc, TriangleR3.mkVNc,
    TriangleR3.mkVnc, TriangleR3.mkVNC, TriangleR3.mkVnC, TriangleR3.mkVNcU,
    TriangleR3.mkVncU, TriangleR3.mkVNCU, TriangleR3.mkVnCU, TriangleR3.mkVNCUM, hv, hn, hc,
    hu]

theorem TriangleR3.operations_wellFormed (ops : RealOps) (t : TriangleR3) (v : vec3)
    (M : mat4) (h : t.WellFormed) :
    (t.add v).WellFormed ∧ (t.mul M).WellFormed ∧ (t.recalculateNormal ops).WellFormed ∧
      t.flipNormals.WellFormed := by
  obtain ⟨hv, hn, hu, hc⟩ := h
  simp [TriangleR3.WellFormed, TriangleR3.add, TriangleR3.mul, TriangleR3.recalculateNormal,
    TriangleR3.flipNormals, TriangleR3.mkVNCU, TriangleR3.mkVNC, TriangleR3.mkVN,
    TriangleR3.mk0, hv, hn, hu, hc]

/-- Claim C20 fails for the two constructors that take a `MaterialPhong` without
colors and uvs, `TriangleR3(vertices, normal, material)` and
`TriangleR3(vertices, material)`: whatever they are given, three vertices
included, the triangle they build has no vertex, no normal, no uv and no color. -/
theorem material_constructors_leave_arrays_empty (vertices normal : List vec3)
    (material : MaterialPhong) :
    (TriangleR3.mkVM vertices material).vertices.length = 0 ∧
      (TriangleR3.mkVM vertices material).normals.length = 0 ∧
      (TriangleR3.mkVM vertices material).uvs.length = 0 ∧
      (TriangleR3.mkVM vertices material).vertexColors.length = 0 ∧
      (TriangleR3.mkVNM vertices normal material).vertices.length = 0 ∧
      (TriangleR3.mkVNM vertices normal material).normals.length = 0 ∧
      (TriangleR3.mkVNM vertices normal material).uvs.length = 0 ∧
      (TriangleR3.mkVNM vertices normal material).vertexColors.length = 0 ∧
      ¬ (TriangleR3.mkVM vertices material).WellFormed ∧
      ¬ (TriangleR3.mkVNM vertices normal material).WellFormed := by
  refine ⟨rfl, rfl, rfl, rfl, rfl, rfl, rfl, rfl, ?_, ?_⟩
  · intro h
    have hv : (TriangleR3.mkVM vertices material).vertices.length = 3 := h.1
    simp [TriangleR3.mkVM, TriangleR3.uninitialised] at hv
  · intro h
    have hv : (TriangleR3.mkVNM vertices normal material).vertices.length = 3 := h.1
    simp [TriangleR3.mkVNM, TriangleR3.uninitialised] at hv


/-! ### `TriangleR3::area` and `TriangleR3::recalculateNormal` -/

theorem RealOps.norm_eq_abs (ops : RealOps) (c : vec3) (d : ℚ) (hd : vec3.dot c c = d * d)
    (h : ops.EuclideanAt c) : ops.norm c = |d| := by
  obtain ⟨h0, h1⟩ := h
  have h2 : ops.norm c * ops.norm c = |d| * |d| := by
    rw [h1, hd, abs_mul_abs_self]
  exact (mul_self_inj h0 (abs_nonneg d)).1 h2

theorem vec3.dot_self_eq_zero (c : vec3) (h : vec3.dot c c = 0) : c = 0 := by
  have hx : c.x = 0 := by
    simp only [vec3.dot] at h
    nlinarith [sq_nonneg c.x, sq_nonneg c.y, sq_nonneg c.z]
  have hy : c.y = 0 := by
    simp only [vec3.dot] at h
    nlinarith [sq_nonneg c.x, sq_nonneg c.y, sq_nonneg c.z]
  have hz : c.z = 0 := by
    simp only [vec3.dot] at h
    nlinarith [sq_nonneg c.x, sq_nonneg c.y, sq_nonneg c.z]
  ext <;> simp [hx, hy, hz]

theorem normalise_unit (ops : RealOps) (c : vec3) (hc : c ≠ 0) (hs : ops.EuclideanAt c) :
    vec3.dot (normalise ops c) (normalise ops c) = 1 := by
  obtain ⟨_, h1⟩ := hs
  have hd : vec3.dot c c ≠ 0 := fun h => hc (vec3.dot_self_eq_zero c h)
  have hne : ops.norm c ≠ 0 := by
    intro h0
    rw [h0] at h1
    exact hd (by linarith)
  have e : vec3.dot (normalise ops c) (normalise ops c)
      = vec3.dot c c / (ops.norm c * ops.norm c) := by
    simp only [normalise, vec3.dot, vec3.v3_div_x, vec3.v3_div_y, vec3.v3_div_z]
    field_simp
  rw [e, h1, div_self hd]

/-- Claim C18: `area` is half the norm of `(v1 − v0) × (v2 − v0)`; for a triangle
in the plane `z = 0`, where `norm` is the Euclidean norm at that cross product,
it is half the absolute shoelace value
`|(x1 − x0)(y2 − y0) − (x2 − x0)(y1 − y0)|`; and for the corners `(0,0,0)`,
`(1,0,0)`, `(0,1,0)`, where `norm` is the Euclidean norm at their cross product
`(0,0,1)`, it is `1/2`. -/
theorem area_shoelace (ops : RealOps) (t : TriangleR3)
    (hz : (t.vertex 0).z = 0 ∧ (t.vertex 1).z = 0 ∧ (t.vertex 2).z = 0)
    (hs : ops.EuclideanAt (vec3.cross (t.vertex 1 - t.vertex 0) (t.vertex 2 - t.vertex 0)))
    (h1 : ops.EuclideanAt ⟨0, 0, 1⟩) :
    t.area ops
        = (1 / 2) * ops.norm (vec3.cross (t.vertex 1 - t.vertex 0) (t.vertex 2 - t.vertex 0)) ∧
      t.area ops = (1 / 2) * |t.shoelace| ∧
      unitTriangle.area ops = 1 / 2 := by
  obtain ⟨z0, z1, z2⟩ := hz
  refine ⟨rfl, ?_, ?_⟩
  · have hc : vec3.dot (vec3.cross (t.vertex 1 - t.vertex 0) (t.vertex 2 - t.vertex 0))
        (vec3.cross (t.vertex 1 - t.vertex 0) (t.vertex 2 - t.vertex 0))
        = t.shoelace * t.shoelace := by
      simp only [vec3.dot, vec3.cross, TriangleR3.shoelace, vec3.v3_sub_x, vec3.v3_sub_y,
        vec3.v3_sub_z, z0, z1, z2]
      ring
    simp only [TriangleR3.area, RealOps.norm_eq_abs ops _ _ hc hs]
  · have hu : vec3.cross (unitTriangle.vertex 1 - unitTriangle.vertex 0)
        (unitTriangle.vertex 2 - unitTriangle.vertex 0) = ⟨0, 0, 1⟩ := by
      ext <;> simp [vec3.cross, TriangleR3.vertex, unitTriangle, TriangleR3.mkVN]
    have hn : ops.norm ⟨0, 0, 1⟩ = |(1 : ℚ)| :=
      RealOps.norm_eq_abs ops _ 1 (by simp [vec3.dot]) h1
    simp only [TriangleR3.area, hu, hn]
    norm_num

theorem constantOneOps_euclidean : constantOneOps.EuclideanAt ⟨0, 0, 1⟩ := by
  simp [RealOps.EuclideanAt, constantOneOps, vec3.dot]

theorem unitTriangle_edgeCross :
    vec3.cross (unitTriangle.vertex 1 - unitTriangle.vertex 0)
      (unitTriangle.vertex 2 - unitTriangle.vertex 0) = ⟨0, 0, 1⟩ := by
  ext <;> simp [vec3.cross, TriangleR3.vertex, unitTriangle, TriangleR3.mkVN]

theorem unitTriangle_shoelace : unitTriangle.shoelace = 1 := by
  simp [TriangleR3.shoelace, TriangleR3.vertex, unitTriangle, TriangleR3.mkVN]

theorem area_shoelace_witness :
    constantOneOps.EuclideanAt ⟨0, 0, 1⟩ ∧
      unitTriangle.area constantOneOps = (1 / 2) * |unitTriangle.shoelace| ∧
      unitTriangle.area constantOneOps = 1 / 2 :=
  ⟨constantOneOps_euclidean,
    (area_shoelace constantOneOps unitTriangle ⟨rfl, rfl, rfl⟩
      (by rw [unitTriangle_edgeCross]; exact constantOneOps_euclidean)
      constantOneOps_euclidean).2⟩

theorem TriangleR3.recalculateNormal_mk0 (ops : RealOps) :
    (TriangleR3.mk0.recalculateNormal ops).normals = [0, 0, 0] := by
  have h : normalise ops
      (vec3.cross (TriangleR3.mk0.vertex 0 - TriangleR3.mk0.vertex 1)
        (TriangleR3.mk0.vertex 0 - TriangleR3.mk0.vertex 2)) = 0 := by
    ext <;> simp [normalise, vec3.cross, TriangleR3.vertex, TriangleR3.mk0]
  simp [TriangleR3.recalculateNormal, h]


/-! ### `recalculateNormal` with the division made explicit -/

theorem normaliseIn_rat (ops : RealOps) (v : vec3) (nn : vec3Over ℚ)
    (h : normaliseIn ℚ ops.norm v = some nn) :
    ops.norm v ≠ 0 ∧ normalise ops v = ⟨nn.x, nn.y, nn.z⟩ := by
  unfold normaliseIn at h
  by_cases h0 : ops.norm v = 0
  · rw [if_pos h0] at h
    exact Option.noConfusion h
  · rw [if_neg h0] at h
    have h1 := Option.some.inj h
    subst h1
    refine ⟨h0, ?_⟩
    ext <;> simp [normalise]

theorem normaliseIn_zero_norm (K : Type) [Field K] [DecidableEq K] (norm : vec3 → K)
    (v : vec3) (h : norm v = 0) : normaliseIn K norm v = none := by
  unfold normaliseIn
  rw [if_pos h]

theorem normaliseIn_unit (K : Type) [LinearOrderedField K] (norm : vec3 → K) (c : vec3)
    (hc : c ≠ 0) (hs : EuclideanNormAt K norm c) :
    ∃ n : vec3Over K, normaliseIn K norm c = some n ∧
      n.x * norm c = (c.x : K) ∧ n.y * norm c = (c.y : K) ∧ n.z * norm c = (c.z : K) ∧
      n.x * n.x + n.y * n.y + n.z * n.z = 1 := by
  obtain ⟨_, h1⟩ := hs
  have hd : vec3.dot c c ≠ 0 := fun h => hc (vec3.dot_self_eq_zero c h)
  have hdK : ((vec3.dot c c : ℚ) : K) ≠ 0 := by exact_mod_cast hd
  have hne : norm c ≠ 0 := by
    intro h0
    rw [h0, mul_zero] at h1
    exact hdK h1.symm
  have h2 : (c.x : K) * c.x + c.y * c.y + c.z * c.z = norm c * norm c := by
    rw [h1]
    simp only [vec3.dot]
    push_cast
    ring
  refine ⟨⟨(c.x : K) / norm c, (c.y : K) / norm c, (c.z : K) / norm c⟩, ?_, ?_, ?_, ?_, ?_⟩
  · unfold normaliseIn
    rw [if_neg hne]
  · field_simp
  · field_simp
  · field_simp
  · field_simp
    linear_combination h2

theorem TriangleR3.recalculateNormalIn_rat (ops : RealOps) (t : TriangleR3)
    (h : ops.norm t.faceCross ≠ 0) :
    t.recalculateNormalIn ℚ ops.norm
      = some ((t.recalculateNormal ops).normals.map (fun n => ⟨n.x, n.y, n.z⟩)) := by
  have e : normaliseIn ℚ ops.norm t.faceCross
      = some ⟨(normalise ops t.faceCross).x, (normalise ops t.faceCross).y,
          (normalise ops t.faceCross).z⟩ := by
    unfold normaliseIn
    rw [if_neg h]
    simp [normalise]
  unfold TriangleR3.recalculateNormalIn
  change Option.map _ (normaliseIn ℚ ops.norm t.faceCross) = _
  rw [e]
  rfl

/-- Claim C16, as stated, fails on a degenerate triangle.  For the default
triangle, whose three corners are the origin, the cross product is the zero
vector and its norm is zero: `normalise` divides zero by zero and the three
stored normals have no value (they are NaN in `float`).  The total rational
reading, in which that quotient is zero, stores three zero vectors: not unit
vectors either. -/
theorem recalculateNormal_degenerate_nan :
    TriangleR3.mk0.faceCross = 0 ∧
      axisNormOps.norm TriangleR3.mk0.faceCross = 0 ∧
      TriangleR3.mk0.recalculateNormalIn ℚ axisNormOps.norm = none ∧
      (TriangleR3.mk0.recalculateNormal axisNormOps).normals = [0, 0, 0] := by
  have hc : TriangleR3.mk0.faceCross = 0 := by
    ext <;> simp [TriangleR3.faceCross, vec3.cross, TriangleR3.vertex, TriangleR3.mk0]
  have hn : axisNormOps.norm TriangleR3.mk0.faceCross = 0 := by
    rw [hc]
    simp [axisNormOps]
  refine ⟨hc, hn, ?_, TriangleR3.recalculateNormal_mk0 axisNormOps⟩
  exact congrArg _ (normaliseIn_zero_norm ℚ axisNormOps.norm _ hn)

/-- Claim C16 (amended), in exact real arithmetic, with `norm` the Euclidean norm:
for every triangle that is not degenerate (`cross(v0 - v1, v0 - v2)` is not the
zero vector), `recalculateNormal` stores one vector three times, that vector is
the cross product divided by its norm, and its Euclidean length is `1`; for every
degenerate triangle the face normal is the quotient of zero by zero and the
stored normals have no value (NaN). -/
theorem recalculateNormal_unit_or_nan (norm : vec3 → ℝ)
    (hnorm : ∀ v, norm v = Real.sqrt ((vec3.dot v v : ℚ) : ℝ)) (t : TriangleR3) :
    (t.faceCross ≠ 0 →
        ∃ n : vec3Over ℝ, t.recalculateNormalIn ℝ norm = some [n, n, n] ∧
          n.x * norm t.faceCross = (t.faceCross.x : ℝ) ∧
          n.y * norm t.faceCross = (t.faceCross.y : ℝ) ∧
          n.z * norm t.faceCross = (t.faceCross.z : ℝ) ∧
          n.x * n.x + n.y * n.y + n.z * n.z = 1) ∧
      (t.faceCross = 0 → t.recalculateNormalIn ℝ norm = none) := by
  have hs : ∀ c : vec3, EuclideanNormAt ℝ norm c := by
    intro c
    have hnn : (0 : ℝ) ≤ ((vec3.dot c c : ℚ) : ℝ) := by
      have : (0 : ℚ) ≤ vec3.dot c c := by
        simp only [vec3.dot]
        nlinarith [mul_self_nonneg c.x, mul_self_nonneg c.y, mul_self_nonneg c.z]
      exact_mod_cast this
    refine ⟨?_, ?_⟩
    · rw [hnorm]; exact Real.sqrt_nonneg _
    · rw [hnorm]; exact Real.mul_self_sqrt hnn
  refine ⟨?_, ?_⟩
  · intro hc
    obtain ⟨n, h1, hx, hy, hz, hu⟩ := normaliseIn_unit ℝ norm t.faceCross hc (hs _)
    refine ⟨n, ?_, hx, hy, hz, hu⟩
    unfold TriangleR3.recalculateNormalIn
    change Option.map _ (normaliseIn ℝ norm t.faceCross) = _
    rw [h1]
    rfl
  · intro hc
    have h0 : norm t.faceCross = 0 := by
      rw [hnorm, hc]
      simp [vec3.dot]
    unfold TriangleR3.recalculateNormalIn
    change Option.map _ (normaliseIn ℝ norm t.faceCross) = _
    rw [normaliseIn_zero_norm ℝ norm _ h0]
    rfl

theorem slantTriangle_faceCross : slantTriangle.faceCross = ⟨0, -1, 1⟩ := by
  ext <;> simp [TriangleR3.faceCross, vec3.cross, TriangleR3.vertex, slantTriangle,
    TriangleR3.mkVN]

theorem recalculateNormal_unit_or_nan_witness :
    slantTriangle.faceCross ≠ 0 ∧
      ∃ n : vec3Over ℝ,
        slantTriangle.recalculateNormalIn ℝ (fun v => Real.sqrt ((vec3.dot v v : ℚ) : ℝ))
            = some [n, n, n] ∧
          n.x * n.x + n.y * n.y + n.z * n.z = 1 :=
  have h : slantTriangle.faceCross ≠ 0 := by
    rw [slantTriangle_faceCross]
    intro h0
    have := congrArg vec3.z h0
    simp at this
  ⟨h, ((recalculateNormal_unit_or_nan (fun v => Real.sqrt ((vec3.dot v v : ℚ) : ℝ))
      (fun _ => rfl) slantTriangle).1 h).imp (fun _ hn => ⟨hn.1, hn.2.2.2.2⟩)⟩

/-! ### `SuperMesh::precomputeBuffers` -/

theorem SuperMesh.pushTriangle_eq (tr : TriangleR3) (b : StdAttributeBuffers) :
    SuperMesh.pushTriangle tr b =
      { positions := b.positions ++ tr.cornerPositions
        normals := b.normals ++ tr.cornerNormals
        colors := b.colors ++ tr.cornerColors
        uvs := b.uvs ++ tr.cornerUVs } := by
  simp [SuperMesh.pushTriangle, forLoop_succ, forLoop_zero, TriangleR3.cornerPositions,
    TriangleR3.cornerNormals, TriangleR3.cornerColors, TriangleR3.cornerUVs]

theorem SuperMesh.foldl_pushTriangle (ts : List TriangleR3) (b : StdAttributeBuffers) :
    ts.foldl (fun s tr => SuperMesh.pushTriangle tr s) b =
      { positions := b.positions ++ ts.flatMap TriangleR3.cornerPositions
        normals := b.normals ++ ts.flatMap TriangleR3.cornerNormals
        colors := b.colors ++ ts.flatMap TriangleR3.cornerColors
        uvs := b.uvs ++ ts.flatMap TriangleR3.cornerUVs } := by
  induction ts generalizing b with
  | nil => simp
  | cons t r ih =>
    rw [List.foldl_cons, ih, SuperMesh.pushTriangle_eq]
    simp [List.append_assoc]

theorem SuperMesh.doPerRole_pushTriangle (groups : StdMap PolyGroupID (List TriangleR3))
    (b : StdAttributeBuffers) :
    SuperMesh.doPerRole groups SuperMesh.pushTriangle b =
      { positions := b.positions ++ groups.flatMap (fun g => g.2.flatMap TriangleR3.cornerPositions)
        normals := b.normals ++ groups.flatMap (fun g => g.2.flatMap TriangleR3.cornerNormals)
        colors := b.colors ++ groups.flatMap (fun g => g.2.flatMap TriangleR3.cornerColors)
        uvs := b.uvs ++ groups.flatMap (fun g => g.2.flatMap TriangleR3.cornerUVs) } := by
  induction groups generalizing b with
  | nil => simp [SuperMesh.doPerRole]
  | cons g r ih =>
    have step : SuperMesh.doPerRole (g :: r) SuperMesh.pushTriangle b
        = SuperMesh.doPerRole r SuperMesh.pushTriangle
            (g.2.foldl (fun s tr => SuperMesh.pushTriangle tr s) b) := rfl
    rw [step, ih, SuperMesh.foldl_pushTriangle]
    simp [List.append_assoc]

theorem SuperMesh.doPerTriangle_pushTriangle (m : SuperMesh) :
    m.doPerTriangle SuperMesh.pushTriangle ⟨[], [], [], []⟩ =
      { positions := m.allGroups.flatMap (fun g => g.2.flatMap TriangleR3.cornerPositions)
        normals := m.allGroups.flatMap (fun g => g.2.flatMap TriangleR3.cornerNormals)
        colors := m.allGroups.flatMap (fun g => g.2.flatMap TriangleR3.cornerColors)
        uvs := m.allGroups.flatMap (fun g => g.2.flatMap TriangleR3.cornerUVs) } := by
  simp [SuperMesh.doPerTriangle, SuperMesh.doPerRole_pushTriangle, SuperMesh.allGroups,
    List.append_assoc]

theorem SuperMesh.forLoop_pushMaterial (material : MaterialPhong) (n : Nat)
    (b : MaterialBuffers) :
    forLoop n (fun _ b => SuperMesh.pushMaterial material b) b =
      { ambientColors := b.ambientColors ++ List.replicate n material.ambientColor
        diffuseColors := b.diffuseColors ++ List.replicate n material.diffuseColor
        specularColors := b.specularColors ++ List.replicate n material.specularColor
        intencitiesAndShininess :=
          b.intencitiesAndShininess ++ List.replicate n material.packedIntensities } := by
  induction n with
  | zero => simp [forLoop_zero]
  | succ n ih =>
    rw [forLoop_succ, ih]
    simp [SuperMesh.pushMaterial, List.replicate_succ', MaterialPhong.packedIntensities,
      List.append_assoc]

theorem StdMap.index_fst {K V : Type} [DecidableEq K] [LT K]
    [DecidableRel (fun a b : K => a < b)] (m : StdMap K V) (k : K) (d : V) :
    (StdMap.index m k d).1 = (StdMap.find m k).getD d := by
  unfold StdMap.index
  cases h : StdMap.find m k <;> simp

theorem StdMap.index_index_fst {K V : Type} [DecidableEq K] [LT K]
    [DecidableRel (fun a b : K => a < b)] (m : StdMap K V) (k k2 : K) (d : V) :
    (StdMap.index (StdMap.index m k d).2 k2 d).1 = (StdMap.index m k2 d).1 := by
  rw [StdMap.index_fst, StdMap.index_fst]
  cases h : StdMap.find m k with
  | some v => simp [StdMap.index, h]
  | none =>
    have e : (StdMap.index m k d).2 = StdMap.assign m k d := by simp [StdMap.index, h]
    rw [e]
    by_cases hk : k = k2
    · subst hk
      simp [StdMap.find_assign_same, h]
    · rw [StdMap.find_assign_other m k k2 d hk]

theorem SuperMesh.materialRole_eq (groups : StdMap PolyGroupID (List TriangleR3))
    (mats : StdMap PolyGroupID MaterialPhong) (b : MaterialBuffers) :
    (∀ id, (StdMap.index (SuperMesh.materialRole groups (mats, b)).1 id
        MaterialPhong.default).1 = (StdMap.index mats id MaterialPhong.default).1) ∧
      (SuperMesh.materialRole groups (mats, b)).2 =
        { ambientColors := b.ambientColors ++ groups.flatMap (fun g =>
            List.replicate (3 * g.2.length)
              (StdMap.index mats g.1 MaterialPhong.default).1.ambientColor)
          diffuseColors := b.diffuseColors ++ groups.flatMap (fun g =>
            List.replicate (3 * g.2.length)
              (StdMap.index mats g.1 MaterialPhong.default).1.diffuseColor)
          specularColors := b.specularColors ++ groups.flatMap (fun g =>
            List.replicate (3 * g.2.length)
              (StdMap.index mats g.1 MaterialPhong.default).1.specularColor)
          intencitiesAndShininess := b.intencitiesAndShininess ++ groups.flatMap (fun g =>
            List.replicate (3 * g.2.length)
              (StdMap.index mats g.1 MaterialPhong.default).1.packedIntensities) } := by
  induction groups generalizing mats b with
  | nil => simp [SuperMesh.materialRole]
  | cons g r ih =>
    have step : SuperMesh.materialRole (g :: r) (mats, b)
        = SuperMesh.materialRole r
            ((StdMap.index mats g.1 MaterialPhong.default).2,
              forLoop (3 * g.2.length)
                (fun _ b => SuperMesh.pushMaterial
                  (StdMap.index mats g.1 MaterialPhong.default).1 b) b) := rfl
    rw [step]
    obtain ⟨h1, h2⟩ := ih (StdMap.index mats g.1 MaterialPhong.default).2
      (forLoop (3 * g.2.length)
        (fun _ b => SuperMesh.pushMaterial (StdMap.index mats g.1 MaterialPhong.default).1 b) b)
    refine ⟨fun id => ?_, ?_⟩
    · rw [h1 id, StdMap.index_index_fst]
    · rw [h2, SuperMesh.forLoop_pushMaterial]
      simp only [StdMap.index_index_fst, List.flatMap_cons, List.append_assoc]


theorem flatMap_congr_mem {α β : Type} (l : List α) (f g : α → List β)
    (h : ∀ a ∈ l, f a = g a) : l.flatMap f = l.flatMap g := by
  induction l with
  | nil => rfl
  | cons a r ih =>
    rw [List.flatMap_cons, List.flatMap_cons, h a (List.mem_cons_self a r),
      ih (fun x hx => h x (List.mem_cons_of_mem a hx))]

theorem StdMap.length_flatMap_blocks {K T β : Type} (groups : StdMap K (List T))
    (blk : K × List T → List β) (h : ∀ g ∈ groups, (blk g).length = 3 * g.2.length) :
    (groups.flatMap blk).length = 3 * StdMap.totalTriangles groups := by
  induction groups with
  | nil => rfl
  | cons g r ih =>
    have e : StdMap.totalTriangles (g :: r) = g.2.length + StdMap.totalTriangles r := by
      simp [StdMap.totalTriangles]
    rw [List.flatMap_cons, List.length_append, h g (List.mem_cons_self g r),
      ih (fun x hx => h x (List.mem_cons_of_mem g hx)), e]
    ring

theorem SuperMesh.totalTriangles_allGroups (m : SuperMesh) :
    StdMap.totalTriangles m.allGroups = m.totalTriangles := by
  simp only [StdMap.totalTriangles, SuperMesh.allGroups, SuperMesh.totalTriangles,
    List.map_append, List.sum_append]

theorem SuperMesh.materialRole_append (g1 g2 : StdMap PolyGroupID (List TriangleR3))
    (s : StdMap PolyGroupID MaterialPhong × MaterialBuffers) :
    SuperMesh.materialRole g2 (SuperMesh.materialRole g1 s) = SuperMesh.materialRole (g1 ++ g2) s := by
  simp [SuperMesh.materialRole, List.foldl_append]

theorem SuperMesh.precomputeBuffers_std (m : SuperMesh) (extra : Bool)
    (hp : m.stdAttributeBuffers.positions = []) :
    (m.precomputeBuffers true extra).stdAttributeBuffers =
      { positions := m.allGroups.flatMap (fun g => g.2.flatMap TriangleR3.cornerPositions)
        normals := m.allGroups.flatMap (fun g => g.2.flatMap TriangleR3.cornerNormals)
        colors := m.allGroups.flatMap (fun g => g.2.flatMap TriangleR3.cornerColors)
        uvs := m.allGroups.flatMap (fun g => g.2.flatMap TriangleR3.cornerUVs) } := by
  rw [← SuperMesh.doPerTriangle_pushTriangle]
  unfold SuperMesh.precomputeBuffers
  simp only [hp, List.length_nil, if_true]
  split_ifs <;> rfl

theorem SuperMesh.precomputeBuffers_material (m : SuperMesh) (extra : Bool)
    (ha : m.materialBuffers.ambientColors = []) :
    (m.precomputeBuffers true extra).materialBuffers =
      { ambientColors := m.allGroups.flatMap (fun g =>
          List.replicate (3 * g.2.length) (m.registeredMaterial g.1).ambientColor)
        diffuseColors := m.allGroups.flatMap (fun g =>
          List.replicate (3 * g.2.length) (m.registeredMaterial g.1).diffuseColor)
        specularColors := m.allGroups.flatMap (fun g =>
          List.replicate (3 * g.2.length) (m.registeredMaterial g.1).specularColor)
        intencitiesAndShininess := m.allGroups.flatMap (fun g =>
          List.replicate (3 * g.2.length) (m.registeredMaterial g.1).packedIntensities) } := by
  have h := (SuperMesh.materialRole_eq m.allGroups m.materials ⟨[], [], [], []⟩).2
  simp only [List.nil_append] at h
  have e : (m.precomputeBuffers true extra).materialBuffers
      = (SuperMesh.materialRole m.allGroups (m.materials, ⟨[], [], [], []⟩)).2 := by
    unfold SuperMesh.precomputeBuffers
    by_cases hp : m.stdAttributeBuffers.positions.length = 0
    · simp [hp, ha, SuperMesh.materialRole_append, SuperMesh.allGroups]
    · simp [hp, ha, SuperMesh.materialRole_append, SuperMesh.allGroups]
  rw [e, h]
  rfl

/-- Claim C12: on a composite mesh with empty position and ambient-color caches
and triangles that carry three vertices, normals, uvs and colors each,
`precomputeBuffers(true, extra)` builds the eight buffers as concatenations over
the groups in the order surface, boundary, embedded-curve, embedded-point, each
role in map order: the standard buffers hold the vertices, normals, colors and
uvs of the triangles of each group in turn, the material buffers hold, for each
group in turn, `3 ·` (number of its triangles) copies of the channel (ambient,
diffuse, specular color; packed intensities and shininess) of the material that
`materials[id]` gives for the group.  The block of a group has the same length
`3 ·` (number of its triangles) in all eight buffers, so entry `i` of a material
buffer belongs to the group that owns entry `i` of the position buffer, and all
eight buffers have length `3 ·` (total number of triangles). -/
theorem precomputeBuffers_role_order (m : SuperMesh) (extra : Bool)
    (hp : m.stdAttributeBuffers.positions = []) (ha : m.materialBuffers.ambientColors = [])
    (hw : ∀ g ∈ m.allGroups, ∀ t ∈ g.2, t.WellFormed) :
    (m.precomputeBuffers true extra).stdAttributeBuffers =
        { positions := m.allGroups.flatMap (fun g => g.2.flatMap (fun t => t.vertices))
          normals := m.allGroups.flatMap (fun g => g.2.flatMap (fun t => t.normals))
          colors := m.allGroups.flatMap (fun g => g.2.flatMap (fun t => t.vertexColors))
          uvs := m.allGroups.flatMap (fun g => g.2.flatMap (fun t => t.uvs)) } ∧
      (m.precomputeBuffers true extra).materialBuffers =
        { ambientColors := m.allGroups.flatMap (fun g =>
            List.replicate (3 * g.2.length) (m.registeredMaterial g.1).ambientColor)
          diffuseColors := m.allGroups.flatMap (fun g =>
            List.replicate (3 * g.2.length) (m.registeredMaterial g.1).diffuseColor)
          specularColors := m.allGroups.flatMap (fun g =>
            List.replicate (3 * g.2.length) (m.registeredMaterial g.1).specularColor)
          intencitiesAndShininess := m.allGroups.flatMap (fun g =>
            List.replicate (3 * g.2.length) (m.registeredMaterial g.1).packedIntensities) } ∧
      (∀ g ∈ m.allGroups,
        (g.2.flatMap (fun t => t.vertices)).length = 3 * g.2.length ∧
        (g.2.flatMap (fun t => t.normals)).length = 3 * g.2.length ∧
        (g.2.flatMap (fun t => t.vertexColors)).length = 3 * g.2.length ∧
        (g.2.flatMap (fun t => t.uvs)).length = 3 * g.2.length) ∧
      (m.precomputeBuffers true extra).stdAttributeBuffers.positions.length
        = 3 * m.totalTriangles ∧
      (m.precomputeBuffers true extra).stdAttributeBuffers.normals.length
        = 3 * m.totalTriangles ∧
      (m.precomputeBuffers true extra).stdAttributeBuffers.colors.length
        = 3 * m.totalTriangles ∧
      (m.precomputeBuffers true extra).stdAttributeBuffers.uvs.length
        = 3 * m.totalTriangles ∧
      (m.precomputeBuffers true extra).materialBuffers.ambientColors.length
        = 3 * m.totalTriangles ∧
      (m.precomputeBuffers true extra).materialBuffers.diffuseColors.length
        = 3 * m.totalTriangles ∧
      (m.precomputeBuffers true extra).materialBuffers.specularColors.length
        = 3 * m.totalTriangles ∧
      (m.precomputeBuffers true extra).materialBuffers.intencitiesAndShininess.length
        = 3 * m.totalTriangles := by
  have hv : ∀ g ∈ m.allGroups, g.2.flatMap TriangleR3.cornerPositions
      = g.2.flatMap (fun t => t.vertices) := fun g hg =>
    flatMap_congr_mem _ _ _ (fun t ht => list_three_getD t.vertices 0 (hw g hg t ht).1)
  have hn : ∀ g ∈ m.allGroups, g.2.flatMap TriangleR3.cornerNormals
      = g.2.flatMap (fun t => t.normals) := fun g hg =>
    flatMap_congr_mem _ _ _ (fun t ht => list_three_getD t.normals 0 (hw g hg t ht).2.1)
  have hu : ∀ g ∈ m.allGroups, g.2.flatMap TriangleR3.cornerUVs
      = g.2.flatMap (fun t => t.uvs) := fun g hg =>
    flatMap_congr_mem _ _ _ (fun t ht => list_three_getD t.uvs 0 (hw g hg t ht).2.2.1)
  have hc : ∀ g ∈ m.allGroups, g.2.flatMap TriangleR3.cornerColors
      = g.2.flatMap (fun t => t.vertexColors) := fun g hg =>
    flatMap_congr_mem _ _ _ (fun t ht => list_three_getD t.vertexColors 0 (hw g hg t ht).2.2.2)
  have lv : ∀ g ∈ m.allGroups, (g.2.flatMap (fun t => t.vertices)).length = 3 * g.2.length :=
    fun g hg => by
      rw [← hv g hg]; exact length_flatMap_three TriangleR3.cornerPositions (fun _ => rfl) g.2
  have ln : ∀ g ∈ m.allGroups, (g.2.flatMap (fun t => t.normals)).length = 3 * g.2.length :=
    fun g hg => by
      rw [← hn g hg]; exact length_flatMap_three TriangleR3.cornerNormals (fun _ => rfl) g.2
  have lc : ∀ g ∈ m.allGroups,
      (g.2.flatMap (fun t => t.vertexColors)).length = 3 * g.2.length :=
    fun g hg => by
      rw [← hc g hg]; exact length_flatMap_three TriangleR3.cornerColors (fun _ => rfl) g.2
  have lu : ∀ g ∈ m.allGroups, (g.2.flatMap (fun t => t.uvs)).length = 3 * g.2.length :=
    fun g hg => by
      rw [← hu g hg]; exact length_flatMap_three TriangleR3.cornerUVs (fun _ => rfl) g.2
  have hstd : (m.precomputeBuffers true extra).stdAttributeBuffers =
      { positions := m.allGroups.flatMap (fun g => g.2.flatMap (fun t => t.vertices))
        normals := m.allGroups.flatMap (fun g => g.2.flatMap (fun t => t.normals))
        colors := m.allGroups.flatMap (fun g => g.2.flatMap (fun t => t.vertexColors))
        uvs := m.allGroups.flatMap (fun g => g.2.flatMap (fun t => t.uvs)) } := by
    rw [SuperMesh.precomputeBuffers_std m extra hp, flatMap_congr_mem _ _ _ hv,
      flatMap_congr_mem _ _ _ hn, flatMap_congr_mem _ _ _ hc, flatMap_congr_mem _ _ _ hu]
  have hmat := SuperMesh.precomputeBuffers_material m extra ha
  have ht := SuperMesh.totalTriangles_allGroups m
  refine ⟨hstd, hmat, fun g hg => ⟨lv g hg, ln g hg, lc g hg, lu g hg⟩, ?_, ?_, ?_, ?_, ?_, ?_,
    ?_, ?_⟩
  · rw [hstd, ← ht]; exact StdMap.length_flatMap_blocks _ _ lv
  · rw [hstd, ← ht]; exact StdMap.length_flatMap_blocks _ _ ln
  · rw [hstd, ← ht]; exact StdMap.length_flatMap_blocks _ _ lc
  · rw [hstd, ← ht]; exact StdMap.length_flatMap_blocks _ _ lu
  · rw [hmat, ← ht]; exact StdMap.length_flatMap_blocks _ _ (fun g _ => List.length_replicate _ _)
  · rw [hmat, ← ht]; exact StdMap.length_flatMap_blocks _ _ (fun g _ => List.length_replicate _ _)
  · rw [hmat, ← ht]; exact StdMap.length_flatMap_blocks _ _ (fun g _ => List.length_replicate _ _)
  · rw [hmat, ← ht]; exact StdMap.length_flatMap_blocks _ _ (fun g _ => List.length_replicate _ _)


theorem twoRoleMesh_wellFormed : ∀ g ∈ twoRoleMesh.allGroups, ∀ t ∈ g.2, t.WellFormed := by
  intro g hg t ht
  simp only [SuperMesh.allGroups, twoRoleMesh, SuperMesh.empty, List.append_nil,
    List.cons_append, List.nil_append, List.mem_cons, List.mem_singleton,
    List.not_mem_nil, or_false] at hg
  rcases hg with rfl | rfl
  · simp only [List.mem_singleton] at ht
    subst ht
    exact ⟨rfl, rfl, rfl, rfl⟩
  · simp only [List.mem_singleton] at ht
    subst ht
    exact ⟨rfl, rfl, rfl, rfl⟩

theorem precomputeBuffers_role_order_witness :
    twoRoleMesh.stdAttributeBuffers.positions = [] ∧
      twoRoleMesh.materialBuffers.ambientColors = [] ∧
      (∀ g ∈ twoRoleMesh.allGroups, ∀ t ∈ g.2, t.WellFormed) ∧
      (twoRoleMesh.precomputeBuffers true false).stdAttributeBuffers.positions
        = [⟨0, 0, 0⟩, ⟨1, 0, 0⟩, ⟨0, 1, 0⟩, ⟨0, 0, 0⟩, ⟨0, 0, 0⟩, ⟨0, 0, 1⟩] ∧
      (twoRoleMesh.precomputeBuffers true false).materialBuffers.ambientColors
        = [⟨0, 0, 1, 1⟩, ⟨0, 0, 1, 1⟩, ⟨0, 0, 1, 1⟩, ⟨1, 0, 0, 1⟩, ⟨1, 0, 0, 1⟩, ⟨1, 0, 0, 1⟩] ∧
      (twoRoleMesh.precomputeBuffers true false).materialBuffers.ambientColors.length
        = 3 * twoRoleMesh.totalTriangles :=
  have h := precomputeBuffers_role_order twoRoleMesh false rfl rfl twoRoleMesh_wellFormed
  ⟨rfl, rfl, twoRoleMesh_wellFormed,
    by
      rw [h.1]
      simp [SuperMesh.allGroups, twoRoleMesh, SuperMesh.empty, unitTriangle, movedThirdCorner,
        TriangleR3.mkVN],
    by
      rw [h.2.1]
      simp [SuperMesh.allGroups, twoRoleMesh, SuperMesh.empty, SuperMesh.registeredMaterial,
        StdMap.index, StdMap.find, blueMaterial, MaterialPhong.default, List.replicate],
    h.2.2.2.2.2.2.2.1⟩


/-! ### The open branch of `offsetBoundaryMesh` -/

theorem PlanarMeshWithBoundary.offsetOpenCore_three (ops : PlanarOps) (w : ℚ) (A B C : vec2) :
    (PlanarMeshWithBoundary.offsetOpenCore ops w [A, B, C]).2 =
      ([PlanarMeshWithBoundary.openNearCap ops w [A, B, C] ++
          [(PlanarMeshWithBoundary.miterPoints ops w [A, B, C] 1).2,
           (PlanarMeshWithBoundary.miterPoints ops w [A, B, C] 2).2] ++
          PlanarMeshWithBoundary.openFarCap ops w [A, B, C] ++
          [(PlanarMeshWithBoundary.miterPoints ops w [A, B, C] 2).1,
           (PlanarMeshWithBoundary.miterPoints ops w [A, B, C] 1).1]], [true]) := by
  simp [PlanarMeshWithBoundary.offsetOpenCore, PlanarMeshWithBoundary.openNearCap,
    PlanarMeshWithBoundary.openFarCap, forLoop_succ, forLoop_zero]

/-- Claim C21 fails on every open contour of three points `A, B, C`: the one
contour that `offsetBoundaryMesh` registers (tagged cyclic) has twelve points,
not ten.  It is the near end-cap, the inner miter points of `B` and of the last
point `C` in order, the far end-cap, and the outer miter points of `C` and `B`
in reverse order; and the miter points of `C` are computed with the successor
index `(2 + 1) % 3 = 0`, i.e. from the edge joining `C` back to `A`. -/
theorem offsetOpen_wraps_last_edge (ops : PlanarOps) (w : ℚ) (A B C : vec2) :
    (∃ T, PlanarMeshWithBoundary.offsetBoundaryMesh ops w
        (PlanarMeshWithBoundary.mk3 [] [[A, B, C]] [false]) =
      some (PlanarMeshWithBoundary.mk3 T
        [PlanarMeshWithBoundary.openNearCap ops w [A, B, C] ++
          [(PlanarMeshWithBoundary.miterPoints ops w [A, B, C] 1).2,
           (PlanarMeshWithBoundary.miterPoints ops w [A, B, C] 2).2] ++
          PlanarMeshWithBoundary.openFarCap ops w [A, B, C] ++
          [(PlanarMeshWithBoundary.miterPoints ops w [A, B, C] 2).1,
           (PlanarMeshWithBoundary.miterPoints ops w [A, B, C] 1).1]] [true])) ∧
      (PlanarMeshWithBoundary.openNearCap ops w [A, B, C] ++
          [(PlanarMeshWithBoundary.miterPoints ops w [A, B, C] 1).2,
           (PlanarMeshWithBoundary.miterPoints ops w [A, B, C] 2).2] ++
          PlanarMeshWithBoundary.openFarCap ops w [A, B, C] ++
          [(PlanarMeshWithBoundary.miterPoints ops w [A, B, C] 2).1,
           (PlanarMeshWithBoundary.miterPoints ops w [A, B, C] 1).1]).length = 12 ∧
      PlanarMeshWithBoundary.nextIndex 2 3 = 0 ∧
      PlanarMeshWithBoundary.miterPoints ops w [A, B, C] 2 =
        (ops.intersectLines
            (B + ops.normalize (ops.orthogonalComplement (C - B)) * w)
            (C + ops.normalize (ops.orthogonalComplement (C - B)) * w)
            (C + ops.normalize (ops.orthogonalComplement (A - C)) * w)
            (A + ops.normalize (ops.orthogonalComplement (A - C)) * w),
         ops.intersectLines
            (B - ops.normalize (ops.orthogonalComplement (C - B)) * w)
            (C - ops.normalize (ops.orthogonalComplement (C - B)) * w)
            (C - ops.normalize (ops.orthogonalComplement (A - C)) * w)
            (A - ops.normalize (ops.orthogonalComplement (A - C)) * w)) := by
  have h0 : PlanarMeshWithBoundary.nextIndex 2 3 = 0 := by decide
  have h1 : PlanarMeshWithBoundary.prevIndex 2 3 = 1 := by decide
  refine ⟨⟨(PlanarMeshWithBoundary.offsetOpenCore ops w [A, B, C]).1, ?_⟩, ?_, h0, ?_⟩
  · have h3 := PlanarMeshWithBoundary.offsetOpenCore_three ops w A B C
    simp only [PlanarMeshWithBoundary.offsetBoundaryMesh, PlanarMeshWithBoundary.mk3,
      List.length_singleton, forLoop_succ, forLoop_zero,
      PlanarMeshWithBoundary.offsetContourStep, PlanarMeshWithBoundary.offsetOpen]
    simp [h3]
  · simp [PlanarMeshWithBoundary.openNearCap, PlanarMeshWithBoundary.openFarCap]
  · simp [PlanarMeshWithBoundary.miterPoints, h0, h1]


/-! ### `PlanarMeshWithBoundary::kerbBoundaryEmbedding` -/

theorem forLoop_append_eq_flatMap {β : Type} (g : Nat → List β) (k : Nat) (acc : List β) :
    forLoop k (fun i t => t ++ g i) acc = acc ++ (List.range k).flatMap g := by
  unfold forLoop
  exact TriangularMesh.foldl_append_eq_flatMap g (List.range k) acc

theorem PlanarMeshWithBoundary.kerbRows_loop_length (ops : KerbOps)
    (w h outerMargin skewness : ℚ) (bd : List vec2) (k : Nat) :
    (forLoop k
      (fun i (rows : List vec3 × List vec3 × List vec3 × List vec3) =>
        let p := PlanarMeshWithBoundary.kerbRowPoints ops w h outerMargin skewness bd i
        (rows.1 ++ [p.1], rows.2.1 ++ [p.2.1], rows.2.2.1 ++ [p.2.2.1],
          rows.2.2.2 ++ [p.2.2.2]))
      ([], [], [], [])).1.length = k := by
  induction k with
  | zero => rfl
  | succ k ih => rw [forLoop_succ]; simp [ih]

theorem PlanarMeshWithBoundary.kerbRows_length (ops : KerbOps) (w h outerMargin skewness : ℚ)
    (bd : List vec2) :
    (PlanarMeshWithBoundary.kerbRows ops w h outerMargin skewness bd).1.length = bd.length :=
  PlanarMeshWithBoundary.kerbRows_loop_length ops w h outerMargin skewness bd bd.length

theorem PlanarMeshWithBoundary.kerbTriangles_eq (ops : KerbOps) (w h outerMargin skewness : ℚ)
    (bd : List vec2) :
    PlanarMeshWithBoundary.kerbTriangles ops w h outerMargin skewness bd =
      (List.range (bd.length - 1)).flatMap
          (PlanarMeshWithBoundary.kerbBand ops bd
            (PlanarMeshWithBoundary.kerbRows ops w h outerMargin skewness bd))
        ++ PlanarMeshWithBoundary.kerbClosing ops bd
            (PlanarMeshWithBoundary.kerbRows ops w h outerMargin skewness bd) := by
  unfold PlanarMeshWithBoundary.kerbTriangles
  simp only [PlanarMeshWithBoundary.kerbRows_length, forLoop_append_eq_flatMap, List.nil_append]

theorem PlanarMeshWithBoundary.kerbBand_length (ops : KerbOps) (bd : List vec2)
    (rows : List vec3 × List vec3 × List vec3 × List vec3) (i : Nat) :
    (PlanarMeshWithBoundary.kerbBand ops bd rows i).length = 8 := rfl

theorem PlanarMeshWithBoundary.kerbClosing_length (ops : KerbOps) (bd : List vec2)
    (rows : List vec3 × List vec3 × List vec3 × List vec3) :
    (PlanarMeshWithBoundary.kerbClosing ops bd rows).length = 8 := rfl

theorem length_flatMap_const {α β : Type} (g : α → List β) (c : Nat)
    (hg : ∀ a, (g a).length = c) (l : List α) : (l.flatMap g).length = c * l.length := by
  induction l with
  | nil => rfl
  | cons a r ih => simp [List.flatMap_cons, hg, ih]; ring

theorem PlanarMeshWithBoundary.kerbTriangles_length (ops : KerbOps)
    (w h outerMargin skewness : ℚ) (bd : List vec2) (hbd : 1 ≤ bd.length) :
    (PlanarMeshWithBoundary.kerbTriangles ops w h outerMargin skewness bd).length
      = 8 * bd.length := by
  rw [PlanarMeshWithBoundary.kerbTriangles_eq, List.length_append,
    length_flatMap_const _ 8 (PlanarMeshWithBoundary.kerbBand_length ops bd _),
    PlanarMeshWithBoundary.kerbClosing_length, List.length_range]
  omega

theorem PlanarMeshWithBoundary.kerbContour_eq (ops : KerbOps) (w h outerMargin skewness : ℚ)
    (bd : List vec2) (hbd : 1 ≤ bd.length) :
    PlanarMeshWithBoundary.kerbContour ops w h outerMargin skewness bd =
      some (TriangularMesh.ofTriangles
        ((PlanarMeshWithBoundary.kerbTriangles ops w h outerMargin skewness bd).map
          (PlanarMeshWithBoundary.kerbFixNormal ops))) := by
  have h0 : ¬ bd.length = 0 := by omega
  simp only [PlanarMeshWithBoundary.kerbContour, h0, if_false, forLoop_modifyAt]

theorem PlanarMeshWithBoundary.kerbBoundaryEmbedding_loop (ops : KerbOps)
    (w h outerMargin skewness : ℚ) (m : PlanarMeshWithBoundary)
    (hne : ∀ bd ∈ m.boundaries, 1 ≤ bd.length) :
    ∀ k, k ≤ m.boundaries.length →
      forLoop k
        (fun j (acc : Option (List TriangularMesh)) => do
          let autMeshes ← acc
          let mesh ← PlanarMeshWithBoundary.kerbContour ops w h outerMargin skewness
            (m.boundaries.getD j [])
          pure (autMeshes ++ [mesh]))
        (some [])
      = some ((m.boundaries.take k).map (fun bd =>
          TriangularMesh.ofTriangles
            ((PlanarMeshWithBoundary.kerbTriangles ops w h outerMargin skewness bd).map
              (PlanarMeshWithBoundary.kerbFixNormal ops)))) := by
  intro k
  induction k with
  | zero => intro _; simp [forLoop_zero]
  | succ k ih =>
    intro hk
    have hkb : k < m.boundaries.length := hk
    have hb : m.boundaries[k]? = some m.boundaries[k] := List.getElem?_eq_getElem hkb
    have hmem : m.boundaries[k] ∈ m.boundaries := List.getElem_mem hkb
    rw [forLoop_succ, ih (Nat.le_of_lt hk)]
    simp only [List.getD_eq_getElem?_getD, hb, Option.getD_some,
      PlanarMeshWithBoundary.kerbContour_eq ops w h outerMargin skewness _ (hne _ hmem),
      Option.bind_eq_bind, Option.some_bind, Option.pure_def, List.take_succ,
      Option.toList_some, List.map_append, List.map_cons, List.map_nil]

theorem PlanarMeshWithBoundary.kerbBoundaryEmbedding_eq (ops : KerbOps)
    (w h outerMargin skewness : ℚ) (m : PlanarMeshWithBoundary)
    (hne : ∀ bd ∈ m.boundaries, 1 ≤ bd.length) :
    PlanarMeshWithBoundary.kerbBoundaryEmbedding ops w h outerMargin skewness m =
      some (m.boundaries.map (fun bd =>
        TriangularMesh.ofTriangles
          ((PlanarMeshWithBoundary.kerbTriangles ops w h outerMargin skewness bd).map
            (PlanarMeshWithBoundary.kerbFixNormal ops)))) := by
  unfold PlanarMeshWithBoundary.kerbBoundaryEmbedding
  rw [PlanarMeshWithBoundary.kerbBoundaryEmbedding_loop ops w h outerMargin skewness m hne _
    (le_refl _), List.take_length]

/-- Claim C22: for a patch whose contours each have at least one point,
`kerbBoundaryEmbedding` returns one mesh per contour, in contour order; the mesh
of a contour with `m` points holds the eight triangles of every pair of
consecutive contour vertices `(i, i + 1)`, `i < m - 1`, followed by the eight
triangles of the closing pair (last, first), each with its normals fixed: `8 · m`
triangles. -/
theorem kerbBoundaryEmbedding_triangle_count (ops : KerbOps) (w h outerMargin skewness : ℚ)
    (m : PlanarMeshWithBoundary) (hne : ∀ bd ∈ m.boundaries, 1 ≤ bd.length) :
    ∃ meshes, PlanarMeshWithBoundary.kerbBoundaryEmbedding ops w h outerMargin skewness m
        = some meshes ∧
      meshes.length = m.boundaries.length ∧
      ∀ (j : Nat) (bd : List vec2), m.boundaries[j]? = some bd →
        ∃ mesh, meshes[j]? = some mesh ∧
          mesh.triangles =
            ((List.range (bd.length - 1)).flatMap
                (PlanarMeshWithBoundary.kerbBand ops bd
                  (PlanarMeshWithBoundary.kerbRows ops w h outerMargin skewness bd))
              ++ PlanarMeshWithBoundary.kerbClosing ops bd
                  (PlanarMeshWithBoundary.kerbRows ops w h outerMargin skewness bd)).map
              (PlanarMeshWithBoundary.kerbFixNormal ops) ∧
          (∀ i, (PlanarMeshWithBoundary.kerbBand ops bd
            (PlanarMeshWithBoundary.kerbRows ops w h outerMargin skewness bd) i).length = 8) ∧
          (PlanarMeshWithBoundary.kerbClosing ops bd
            (PlanarMeshWithBoundary.kerbRows ops w h outerMargin skewness bd)).length = 8 ∧
          mesh.triangles.length = 8 * bd.length := by
  refine ⟨_, PlanarMeshWithBoundary.kerbBoundaryEmbedding_eq ops w h outerMargin skewness m hne,
    by simp, ?_⟩
  intro j bd hj
  have hmem : bd ∈ m.boundaries := List.getElem?_mem hj
  refine ⟨_, by rw [List.getElem?_map, hj]; rfl, ?_, fun _ => rfl, rfl, ?_⟩
  · simp only [TriangularMesh.ofTriangles, PlanarMeshWithBoundary.kerbTriangles_eq]
  · simp only [TriangularMesh.ofTriangles, List.length_map]
    exact PlanarMeshWithBoundary.kerbTriangles_length ops w h outerMargin skewness bd
      (hne bd hmem)


theorem unitSquarePatch_nonempty_contours : ∀ bd ∈ unitSquarePatch.boundaries, 1 ≤ bd.length := by
  intro bd hbd
  have h : bd = [⟨0, 0⟩, ⟨1, 0⟩, ⟨1, 1⟩, ⟨0, 1⟩] := by
    simpa [unitSquarePatch, PlanarMeshWithBoundary.mk3] using hbd
  rw [h]
  decide

theorem kerbBoundaryEmbedding_triangle_count_witness :
    (∀ bd ∈ unitSquarePatch.boundaries, 1 ≤ bd.length) ∧
      ∃ meshes, PlanarMeshWithBoundary.kerbBoundaryEmbedding axisKerbOps 1 1 1 0 unitSquarePatch
          = some meshes ∧
        meshes.length = unitSquarePatch.boundaries.length ∧
        ∃ mesh, meshes[0]? = some mesh ∧ mesh.triangles.length = 8 * 4 :=
  ⟨unitSquarePatch_nonempty_contours,
    (kerbBoundaryEmbedding_triangle_count axisKerbOps 1 1 1 0 unitSquarePatch
      unitSquarePatch_nonempty_contours).imp
      (fun _ hm => ⟨hm.1, hm.2.1,
        (hm.2.2 0 [⟨0, 0⟩, ⟨1, 0⟩, ⟨1, 1⟩, ⟨0, 1⟩] rfl).imp
          (fun _ hmesh => ⟨hmesh.1, hmesh.2.2.2.2⟩)⟩)⟩

theorem PlanarMeshWithBoundary.kerbFixNormal_normals (ops : KerbOps) (t : TriangleR3) :
    ∃ n, (PlanarMeshWithBoundary.kerbFixNormal ops t).normals = [n, n, n] ∧
      (n = normalise ops.real (PlanarMeshWithBoundary.kerbFixNormal ops t).faceCross ∨
        n = -normalise ops.real (PlanarMeshWithBoundary.kerbFixNormal ops t).faceCross) ∧
      0 ≤ n.z := by
  have hdot : ∀ v : vec3, vec3.dot v ⟨0, 0, 1⟩ = v.z := by
    intro v; simp [vec3.dot]
  have hr : (t.recalculateNormal ops.real).normals
      = [normalise ops.real t.faceCross, normalise ops.real t.faceCross,
          normalise ops.real t.faceCross] := rfl
  unfold PlanarMeshWithBoundary.kerbFixNormal
  simp only [hdot, hr, List.getD_cons_zero]
  by_cases hneg : (normalise ops.real t.faceCross).z < 0
  · rw [if_pos hneg]
    refine ⟨-normalise ops.real t.faceCross, ?_, Or.inr rfl, ?_⟩
    · simp [TriangleR3.flipNormals, hr]
    · have : (-normalise ops.real t.faceCross).z = -(normalise ops.real t.faceCross).z := rfl
      rw [this]
      linarith
  · rw [if_neg hneg]
    exact ⟨normalise ops.real t.faceCross, hr, Or.inl rfl, not_lt.mp hneg⟩


theorem PlanarMeshWithBoundary.kerbRows_loop_eq (ops : KerbOps)
    (w h outerMargin skewness : ℚ) (bd : List vec2) (k : Nat) :
    forLoop k
      (fun i (rows : List vec3 × List vec3 × List vec3 × List vec3) =>
        let p := PlanarMeshWithBoundary.kerbRowPoints ops w h outerMargin skewness bd i
        (rows.1 ++ [p.1], rows.2.1 ++ [p.2.1], rows.2.2.1 ++ [p.2.2.1],
          rows.2.2.2 ++ [p.2.2.2]))
      ([], [], [], [])
    = ((List.range k).map (fun i =>
          (PlanarMeshWithBoundary.kerbRowPoints ops w h outerMargin skewness bd i).1),
       (List.range k).map (fun i =>
          (PlanarMeshWithBoundary.kerbRowPoints ops w h outerMargin skewness bd i).2.1),
       (List.range k).map (fun i =>
          (PlanarMeshWithBoundary.kerbRowPoints ops w h outerMargin skewness bd i).2.2.1),
       (List.range k).map (fun i =>
          (PlanarMeshWithBoundary.kerbRowPoints ops w h outerMargin skewness bd i).2.2.2)) := by
  induction k with
  | zero => rfl
  | succ k ih => rw [forLoop_succ, ih]; simp [List.range_succ]

theorem PlanarMeshWithBoundary.kerbRows_eq (ops : KerbOps) (w h outerMargin skewness : ℚ)
    (bd : List vec2) :
    PlanarMeshWithBoundary.kerbRows ops w h outerMargin skewness bd
    = ((List.range bd.length).map (fun i =>
          (PlanarMeshWithBoundary.kerbRowPoints ops w h outerMargin skewness bd i).1),
       (List.range bd.length).map (fun i =>
          (PlanarMeshWithBoundary.kerbRowPoints ops w h outerMargin skewness bd i).2.1),
       (List.range bd.length).map (fun i =>
          (PlanarMeshWithBoundary.kerbRowPoints ops w h outerMargin skewness bd i).2.2.1),
       (List.range bd.length).map (fun i =>
          (PlanarMeshWithBoundary.kerbRowPoints ops w h outerMargin skewness bd i).2.2.2)) :=
  PlanarMeshWithBoundary.kerbRows_loop_eq ops w h outerMargin skewness bd bd.length

/-- With `outerMargin = 0` the fourth row of the kerb is the third row. -/
theorem PlanarMeshWithBoundary.kerbRows_outer_zero (ops : KerbOps) (w h skewness : ℚ)
    (bd : List vec2) :
    (PlanarMeshWithBoundary.kerbRows ops w h 0 skewness bd).2.2.2
      = (PlanarMeshWithBoundary.kerbRows ops w h 0 skewness bd).2.2.1 := by
  rw [PlanarMeshWithBoundary.kerbRows_eq]
  apply List.map_congr_left
  intro i _
  ext <;> simp [PlanarMeshWithBoundary.kerbRowPoints]

theorem TriangleR3.faceCross_mkV_repeat (ops : RealOps) (a b : vec3) :
    (TriangleR3.mkV ops [a, b, b]).faceCross = 0 ∧
      (TriangleR3.mkV ops [a, a, b]).faceCross = 0 := by
  refine ⟨?_, ?_⟩
  · ext <;> simp [TriangleR3.faceCross, vec3.cross, TriangleR3.vertex, TriangleR3.mkV]
  · ext <;> simp [TriangleR3.faceCross, vec3.cross, TriangleR3.vertex, TriangleR3.mkV]

theorem PlanarMeshWithBoundary.kerbFixNormal_faceCross (ops : KerbOps) (t : TriangleR3) :
    (PlanarMeshWithBoundary.kerbFixNormal ops t).faceCross = t.faceCross := by
  unfold PlanarMeshWithBoundary.kerbFixNormal
  simp only []
  split_ifs <;> rfl

theorem PlanarMeshWithBoundary.kerbBand_outer_degenerate (ops : KerbOps) (bd : List vec2)
    (rows : List vec3 × List vec3 × List vec3 × List vec3) (i : Nat)
    (hrows : rows.2.2.2 = rows.2.2.1) :
    (((PlanarMeshWithBoundary.kerbBand ops bd rows i).map
        (PlanarMeshWithBoundary.kerbFixNormal ops)).drop 6).map (fun t => t.faceCross)
      = [0, 0] := by
  simp [PlanarMeshWithBoundary.kerbBand, PlanarMeshWithBoundary.kerbFixNormal_faceCross, hrows,
    TriangleR3.faceCross_mkV_repeat]

/-- The first eight triangles of a kerb mesh of a contour with at least two points
are the band of the contour vertices `0` and `1`. -/
theorem PlanarMeshWithBoundary.kerbTriangles_take_eight (ops : KerbOps)
    (w h outerMargin skewness : ℚ) (bd : List vec2) (hbd : 2 ≤ bd.length) :
    ((PlanarMeshWithBoundary.kerbTriangles ops w h outerMargin skewness bd).map
        (PlanarMeshWithBoundary.kerbFixNormal ops)).take 8
      = (PlanarMeshWithBoundary.kerbBand ops bd
          (PlanarMeshWithBoundary.kerbRows ops w h outerMargin skewness bd) 0).map
          (PlanarMeshWithBoundary.kerbFixNormal ops) := by
  obtain ⟨k, hk⟩ : ∃ k, bd.length - 1 = k + 1 := ⟨bd.length - 2, by omega⟩
  rw [PlanarMeshWithBoundary.kerbTriangles_eq, hk, List.range_succ_eq_map, List.flatMap_cons,
    List.append_assoc, List.map_append]
  exact List.take_left' (by rw [List.length_map]; rfl)

theorem PlanarMeshWithBoundary.kerbBand_first (ops : KerbOps) (bd : List vec2)
    (rows : List vec3 × List vec3 × List vec3 × List vec3) (i : Nat) :
    ((PlanarMeshWithBoundary.kerbBand ops bd rows i).map
        (PlanarMeshWithBoundary.kerbFixNormal ops)).take 1
      = [PlanarMeshWithBoundary.kerbFixNormal ops
          (TriangleR3.mkV ops.real
            [⟨(bd.getD (PlanarMeshWithBoundary.wrapIndex i bd.length) 0).x,
                (bd.getD (PlanarMeshWithBoundary.wrapIndex i bd.length) 0).y, 0⟩,
              ⟨(bd.getD (PlanarMeshWithBoundary.nextIndex i bd.length) 0).x,
                (bd.getD (PlanarMeshWithBoundary.nextIndex i bd.length) 0).y, 0⟩,
              rows.1.getD (PlanarMeshWithBoundary.nextIndex i bd.length) 0])] := rfl

theorem TriangleR3.recalculateNormalIn_degenerate (K : Type) [Field K] [DecidableEq K]
    (norm : vec3 → K) (t : TriangleR3) (h : norm t.faceCross = 0) :
    t.recalculateNormalIn K norm = none := by
  unfold TriangleR3.recalculateNormalIn
  change Option.map _ (normaliseIn K norm t.faceCross) = _
  rw [normaliseIn_zero_norm K norm _ h]
  rfl

/-- Claim C23, as stated, fails when the kerb has degenerate triangles.  With
`outerMargin = 0` (the default of `BoundaryEmbeddingStyle`) the fourth row of
points is the third row, so the last two triangles of every band have two equal
corners: in the kerb of the unit square with `w = h = 1`, `outerMargin = 0`, the
seventh and the eighth triangle of the mesh have the zero vector as
`cross(v0 - v1, v0 - v2)`, and the face normal recomputed from it is the
quotient of zero by zero: it has no value (NaN in `float`, for which
`dot(normals[0], vec3(0, 0, 1)) < 0` is false), so the stored normals are not
equal to anything and have no non-negative `z`. -/
theorem kerb_zero_margin_nan_normals :
    (PlanarMeshWithBoundary.kerbBoundaryEmbedding axisKerbOps 1 1 0 0 unitSquarePatch).map
        (fun meshes => meshes.map (fun mesh =>
          ((mesh.triangles.take 8).drop 6).map (fun t =>
            (t.faceCross, t.recalculateNormalIn ℚ axisKerbOps.real.norm))))
      = some [[(0, none), (0, none)]] := by
  have hb : unitSquarePatch.boundaries = [[⟨0, 0⟩, ⟨1, 0⟩, ⟨1, 1⟩, ⟨0, 1⟩]] := rfl
  have h8 := PlanarMeshWithBoundary.kerbTriangles_take_eight axisKerbOps 1 1 0 0
    [⟨0, 0⟩, ⟨1, 0⟩, ⟨1, 1⟩, ⟨0, 1⟩] (by decide)
  have hd := PlanarMeshWithBoundary.kerbBand_outer_degenerate axisKerbOps
    [⟨0, 0⟩, ⟨1, 0⟩, ⟨1, 1⟩, ⟨0, 1⟩]
    (PlanarMeshWithBoundary.kerbRows axisKerbOps 1 1 0 0 [⟨0, 0⟩, ⟨1, 0⟩, ⟨1, 1⟩, ⟨0, 1⟩]) 0
    (PlanarMeshWithBoundary.kerbRows_outer_zero axisKerbOps 1 1 0 _)
  have hnorm : axisKerbOps.real.norm 0 = 0 := by simp [axisKerbOps, axisNormOps]
  have hpair : ∀ t : TriangleR3, t.faceCross = 0 →
      (t.faceCross, t.recalculateNormalIn ℚ axisKerbOps.real.norm)
        = ((0 : vec3), (none : Option (List (vec3Over ℚ)))) := by
    intro t ht
    rw [TriangleR3.recalculateNormalIn_degenerate ℚ _ t (by rw [ht]; exact hnorm), ht]
  rw [PlanarMeshWithBoundary.kerbBoundaryEmbedding_eq axisKerbOps 1 1 0 0 unitSquarePatch
    unitSquarePatch_nonempty_contours]
  simp only [hb, List.map_cons, List.map_nil, Option.map_some', TriangularMesh.ofTriangles]
  rw [h8]
  have hfun : (fun t : TriangleR3 => (t.faceCross, t.recalculateNormalIn ℚ axisKerbOps.real.norm))
      = (fun c : vec3 => (c, (normaliseIn ℚ axisKerbOps.real.norm c).map
          (fun faceNormal => [faceNormal, faceNormal, faceNormal])))
        ∘ (fun t : TriangleR3 => t.faceCross) := rfl
  rw [hfun, ← List.map_map, hd]
  simp only [List.map_cons, List.map_nil, normaliseIn_zero_norm ℚ _ 0 hnorm, Option.map_none']

/-- Claim C23 (amended): for a patch whose contours each have at least one point,
`kerbBoundaryEmbedding` returns meshes in which every triangle whose recomputed
face normal has a value (the norm of `cross(v0 - v1, v0 - v2)` is not zero: the
triangle is not degenerate) has one vector as its three normals, which is that
face normal or its negation, and whose `z` component is not negative. -/
theorem kerbBoundaryEmbedding_normals_up (ops : KerbOps) (w h outerMargin skewness : ℚ)
    (m : PlanarMeshWithBoundary) (hne : ∀ bd ∈ m.boundaries, 1 ≤ bd.length) :
    ∃ meshes, PlanarMeshWithBoundary.kerbBoundaryEmbedding ops w h outerMargin skewness m
        = some meshes ∧
      ∀ mesh ∈ meshes, ∀ t ∈ mesh.triangles, ∀ faceNormal : vec3Over ℚ,
        normaliseIn ℚ ops.real.norm t.faceCross = some faceNormal →
        ∃ n : vec3, t.normals = [n, n, n] ∧
          (n = ⟨faceNormal.x, faceNormal.y, faceNormal.z⟩ ∨
            n = -⟨faceNormal.x, faceNormal.y, faceNormal.z⟩) ∧
          0 ≤ n.z := by
  refine ⟨_, PlanarMeshWithBoundary.kerbBoundaryEmbedding_eq ops w h outerMargin skewness m hne,
    ?_⟩
  intro mesh hmesh t ht faceNormal hfn
  obtain ⟨bd, _, hbd⟩ := List.mem_map.mp hmesh
  subst hbd
  obtain ⟨t0, _, ht0⟩ := List.mem_map.mp ht
  subst ht0
  obtain ⟨n, h1, h2, h3⟩ := PlanarMeshWithBoundary.kerbFixNormal_normals ops t0
  rw [(normaliseIn_rat ops.real _ faceNormal hfn).2] at h2
  exact ⟨n, h1, h2, h3⟩

/-- The first triangle of the kerb of the unit square with `w = h = outerMargin = 1`
and no skew has the corners `(0,0,0)`, `(1,0,0)`, `(1,0,1)`; its recomputed face
normal has the value `(0, -1, 0)`. -/
theorem kerb_unit_square_first_normal :
    (PlanarMeshWithBoundary.kerbBoundaryEmbedding axisKerbOps 1 1 1 0 unitSquarePatch).map
        (fun meshes => meshes.map (fun mesh =>
          ((mesh.triangles.take 8).take 1).map (fun t =>
            normaliseIn ℚ axisKerbOps.real.norm t.faceCross)))
      = some [[some ⟨0, -1, 0⟩]] := by
  have hb : unitSquarePatch.boundaries = [[⟨0, 0⟩, ⟨1, 0⟩, ⟨1, 1⟩, ⟨0, 1⟩]] := rfl
  have h8 := PlanarMeshWithBoundary.kerbTriangles_take_eight axisKerbOps 1 1 1 0
    [⟨0, 0⟩, ⟨1, 0⟩, ⟨1, 1⟩, ⟨0, 1⟩] (by decide)
  have hn : PlanarMeshWithBoundary.nextIndex 0 4 = 1 := by decide
  have hw0 : PlanarMeshWithBoundary.wrapIndex 0 4 = 0 := by decide
  have hw1 : PlanarMeshWithBoundary.wrapIndex 1 4 = 1 := by decide
  rw [PlanarMeshWithBoundary.kerbBoundaryEmbedding_eq axisKerbOps 1 1 1 0 unitSquarePatch
    unitSquarePatch_nonempty_contours]
  simp only [hb, List.map_cons, List.map_nil, Option.map_some', TriangularMesh.ofTriangles]
  have hrow : (PlanarMeshWithBoundary.kerbRows axisKerbOps 1 1 1 0
      [⟨0, 0⟩, ⟨1, 0⟩, ⟨1, 1⟩, ⟨0, 1⟩]).1.getD 1 0 = ⟨1, 0, 1⟩ := by
    rw [PlanarMeshWithBoundary.kerbRows_eq]
    simp [List.range_succ, PlanarMeshWithBoundary.kerbRowPoints, hw1, vec3.ext_iff]
  have hc : (TriangleR3.mkV axisKerbOps.real [⟨0, 0, 0⟩, ⟨1, 0, 0⟩, ⟨1, 0, 1⟩]).faceCross
      = ⟨0, -1, 0⟩ := by
    ext <;> simp [TriangleR3.faceCross, vec3.cross, TriangleR3.vertex, TriangleR3.mkV]
  rw [h8, PlanarMeshWithBoundary.kerbBand_first]
  simp only [List.map_cons, List.map_nil, PlanarMeshWithBoundary.kerbFixNormal_faceCross,
    List.length_cons, List.length_nil, hn, hw0, hrow]
  simp only [List.getD_cons_zero, List.getD_cons_succ, hc]
  simp [normaliseIn, axisKerbOps, axisNormOps]

theorem kerbBoundaryEmbedding_normals_up_witness :
    (∀ bd ∈ unitSquarePatch.boundaries, 1 ≤ bd.length) ∧
      (PlanarMeshWithBoundary.kerbBoundaryEmbedding axisKerbOps 1 1 1 0 unitSquarePatch).map
          (fun meshes => meshes.map (fun mesh =>
            ((mesh.triangles.take 8).take 1).map (fun t =>
              normaliseIn ℚ axisKerbOps.real.norm t.faceCross)))
        = some [[some ⟨0, -1, 0⟩]] ∧
      ∃ meshes, PlanarMeshWithBoundary.kerbBoundaryEmbedding axisKerbOps 1 1 1 0 unitSquarePatch
          = some meshes ∧
        ∀ mesh ∈ meshes, ∀ t ∈ mesh.triangles, ∀ faceNormal : vec3Over ℚ,
          normaliseIn ℚ axisKerbOps.real.norm t.faceCross = some faceNormal →
          ∃ n : vec3, t.normals = [n, n, n] ∧
            (n = ⟨faceNormal.x, faceNormal.y, faceNormal.z⟩ ∨
              n = -⟨faceNormal.x, faceNormal.y, faceNormal.z⟩) ∧
            0 ≤ n.z :=
  ⟨unitSquarePatch_nonempty_contours, kerb_unit_square_first_normal,
    kerbBoundaryEmbedding_normals_up axisKerbOps 1 1 1 0 unitSquarePatch
      unitSquarePatch_nonempty_contours⟩

/-- Claim C28, as stated, fails for the unsupported variants: for a style of type
`PIPE` on the unit square patch, `stylisedBoundaryEmbedding` returns one kerb
mesh with 32 triangles, the same result as `kerbBoundaryEmbedding` with the four
dimensions of the style, not an empty list. -/
theorem stylisedBoundaryEmbedding_pipe_not_empty :
    pipeStyle.type = BoundaryEmbeddingType.PIPE ∧
      (PlanarMeshWithBoundary.stylisedBoundaryEmbedding axisKerbOps pipeStyle
          unitSquarePatch).map (fun meshes => meshes.map (fun mesh => mesh.triangles.length))
        = some [32] ∧
      PlanarMeshWithBoundary.stylisedBoundaryEmbedding axisKerbOps pipeStyle unitSquarePatch
        = PlanarMeshWithBoundary.kerbBoundaryEmbedding axisKerbOps 1 1 1 0 unitSquarePatch := by
  have h := PlanarMeshWithBoundary.kerbBoundaryEmbedding_eq axisKerbOps pipeStyle.width
    pipeStyle.height pipeStyle.outerMargin pipeStyle.skewness unitSquarePatch
    unitSquarePatch_nonempty_contours
  refine ⟨rfl, ?_, rfl⟩
  unfold PlanarMeshWithBoundary.stylisedBoundaryEmbedding
  rw [h]
  have hb : unitSquarePatch.boundaries = [[⟨0, 0⟩, ⟨1, 0⟩, ⟨1, 1⟩, ⟨0, 1⟩]] := rfl
  simp only [hb, List.map_cons, List.map_nil, Option.map_some', TriangularMesh.ofTriangles,
    List.length_map]
  rw [PlanarMeshWithBoundary.kerbTriangles_length axisKerbOps _ _ _ _ _ (by decide)]
  rfl

/-- Claim C28 (amended): `stylisedBoundaryEmbedding` does not read `style.type`;
for every style, of the variant `KERB` or of any other variant, it returns what
`kerbBoundaryEmbedding` returns for the width, height, outer margin and skewness
of the style. -/
theorem stylisedBoundaryEmbedding_ignores_type (ops : KerbOps) (style : BoundaryEmbeddingStyle)
    (variant : BoundaryEmbeddingType) (m : PlanarMeshWithBoundary) :
    PlanarMeshWithBoundary.stylisedBoundaryEmbedding ops style m =
        PlanarMeshWithBoundary.kerbBoundaryEmbedding ops style.width style.height
          style.outerMargin style.skewness m ∧
      PlanarMeshWithBoundary.stylisedBoundaryEmbedding ops { style with type := variant } m =
        PlanarMeshWithBoundary.stylisedBoundaryEmbedding ops style m := by
  refine ⟨?_, ?_⟩
  · rfl
  · rfl

/-! ### The `"curvePoint"` extra of `SuperCurve::mesh` -/

theorem SuperCurve.meshStep_eq (trig : TrigOps) (curveGroup : Nat → PolyGroupID)
    (c : SuperCurve) (radialSegments : Int) (i j : Nat) (mesh : SuperMesh)
    (sa sb : CurveSample) (ha : c.samples[i]? = some sa) (hb : c.samples[i + 1]? = some sb) :
    SuperCurve.meshStep trig curveGroup c radialSegments i j mesh
      = some (mesh.addEmbeddedCurve curveGroup
          (SuperCurve.stepTriangles trig c radialSegments i j sa sb) sa.material) := by
  simp only [SuperCurve.meshStep, List.get?_eq_getElem?, ha, hb, Option.bind_eq_bind,
    Option.some_bind, Option.pure_def, SuperCurve.stepTriangles]

theorem SuperCurve.stepTriangles_curvePoint (trig : TrigOps) (c : SuperCurve)
    (radialSegments : Int) (i j : Nat) (sa sb : CurveSample) :
    curvePointExtras (SuperCurve.stepTriangles trig c radialSegments i j sa sb) =
      [some ⟨vec4.ofVec3 sa.position (c.t0 + (c.t1 - c.t0) * (i : ℚ) / (c.samples.length : ℚ)),
          vec4.ofVec3 sa.position (c.t0 + (c.t1 - c.t0) * (i : ℚ) / (c.samples.length : ℚ)),
          vec4.ofVec3 sb.position (c.t0 + (c.t1 - c.t0) * (i : ℚ) / (c.samples.length : ℚ)
            + (c.t1 - c.t0) / (c.samples.length : ℚ))⟩,
       some ⟨vec4.ofVec3 sb.position (c.t0 + (c.t1 - c.t0) * (i : ℚ) / (c.samples.length : ℚ)
            + (c.t1 - c.t0) / (c.samples.length : ℚ)),
          vec4.ofVec3 sa.position (c.t0 + (c.t1 - c.t0) * (i : ℚ) / (c.samples.length : ℚ)),
          vec4.ofVec3 sb.position (c.t0 + (c.t1 - c.t0) * (i : ℚ) / (c.samples.length : ℚ)
            + (c.t1 - c.t0) / (c.samples.length : ℚ))⟩] := by
  simp [curvePointExtras, SuperCurve.stepTriangles, TriangleR3.addExtraData, TriangleR3.mkVN,
    TriangleR3.mk0, StdMap.assign, StdMap.contains, StdMap.find, StdMap.insert]

theorem SuperCurve.stepTriangles_vertices (trig : TrigOps) (c : SuperCurve)
    (radialSegments : Int) (i j : Nat) (sa sb : CurveSample) :
    (SuperCurve.stepTriangles trig c radialSegments i j sa sb).map (fun t => t.vertices) =
      [[sa.position + sa.width *
            (trig.cos (trig.TAU * (j : ℚ) / (radialSegments : ℚ)) * sa.normal
              + trig.sin (trig.TAU * (j : ℚ) / (radialSegments : ℚ)) * sa.getBinormal),
        sa.position + sa.width *
            (trig.cos (trig.TAU * ((j : ℚ) + 1) / (radialSegments : ℚ)) * sa.normal
              + trig.sin (trig.TAU * ((j : ℚ) + 1) / (radialSegments : ℚ)) * sa.getBinormal),
        sb.position + sb.width *
            (trig.cos (trig.TAU * (j : ℚ) / (radialSegments : ℚ)) * sb.normal
              + trig.sin (trig.TAU * (j : ℚ) / (radialSegments : ℚ)) * sb.getBinormal)],
       [sb.position + sb.width *
            (trig.cos (trig.TAU * (j : ℚ) / (radialSegments : ℚ)) * sb.normal
              + trig.sin (trig.TAU * (j : ℚ) / (radialSegments : ℚ)) * sb.getBinormal),
        sa.position + sa.width *
            (trig.cos (trig.TAU * ((j : ℚ) + 1) / (radialSegments : ℚ)) * sa.normal
              + trig.sin (trig.TAU * ((j : ℚ) + 1) / (radialSegments : ℚ)) * sa.getBinormal),
        sb.position + sb.width *
            (trig.cos (trig.TAU * ((j : ℚ) + 1) / (radialSegments : ℚ)) * sb.normal
              + trig.sin (trig.TAU * ((j : ℚ) + 1) / (radialSegments : ℚ)) * sb.getBinormal)]] :=
  rfl


theorem sampleCurve_periodic_two (curve : SmoothParametricCurve) (width : ℚ → ℚ)
    (material : ℚ → MaterialPhong) :
    sampleCurve curve width material 0 1 2 true =
      some [sampleAt curve width material 0, sampleAt curve width material (1 / 2),
        sampleAt curve width material 0] := by
  have h := sampleCurve_periodic curve width material 0 1 2
  have e0 : (0 : ℚ) + (1 - 0) * ((0 : Nat) : ℚ) / (((2 : Nat) : Int) : ℚ) = 0 := by norm_num
  have e1 : (0 : ℚ) + (1 - 0) * ((1 : Nat) : ℚ) / (((2 : Nat) : Int) : ℚ) = 1 / 2 := by norm_num
  have hr : List.range 2 = [0, 1] := rfl
  rw [hr] at h
  simp only [List.map_cons, List.map_nil, e0, e1, List.cons_append, List.nil_append] at h
  exact h

/-- Claim C24 fails for periodic curves.  For every curve sampled periodically on
`[0, 1]` with `n = 2`, the samples store the parameters `0`, `1/2` and (closing
sample) `0`, but `SuperCurve::mesh` recomputes the parameter written to
`"curvePoint"` from `samples.size() = 3`: the vertices offset from the second
sample carry `1/3` instead of `1/2`, and those offset from the closing sample
carry `2/3` instead of `0`.  The anchor positions are those of the samples. -/
theorem mesh_curvePoint_parameter_periodic (curve : SmoothParametricCurve) (width : ℚ → ℚ)
    (material : ℚ → MaterialPhong) (trig : TrigOps) (curveGroup : Nat → PolyGroupID) :
    ∃ c, SuperCurve.ofCurve curve width material 0 1 2 true = some c ∧
      c.samples = [sampleAt curve width material 0, sampleAt curve width material (1 / 2),
        sampleAt curve width material 0] ∧
      c.samples.map CurveSample.readExtraLast = [0, 1 / 2, 0] ∧
      c.mesh trig curveGroup 1 = some
        ((SuperMesh.empty.addEmbeddedCurve curveGroup
            (SuperCurve.stepTriangles trig c 1 0 0 (sampleAt curve width material 0)
              (sampleAt curve width material (1 / 2))) (material 0)).addEmbeddedCurve curveGroup
          (SuperCurve.stepTriangles trig c 1 1 0 (sampleAt curve width material (1 / 2))
            (sampleAt curve width material 0)) (material (1 / 2))) ∧
      curvePointExtras (SuperCurve.stepTriangles trig c 1 0 0 (sampleAt curve width material 0)
          (sampleAt curve width material (1 / 2))) =
        [some ⟨vec4.ofVec3 (curve.pos 0) 0, vec4.ofVec3 (curve.pos 0) 0,
            vec4.ofVec3 (curve.pos (1 / 2)) (1 / 3)⟩,
         some ⟨vec4.ofVec3 (curve.pos (1 / 2)) (1 / 3), vec4.ofVec3 (curve.pos 0) 0,
            vec4.ofVec3 (curve.pos (1 / 2)) (1 / 3)⟩] ∧
      curvePointExtras (SuperCurve.stepTriangles trig c 1 1 0
          (sampleAt curve width material (1 / 2)) (sampleAt curve width material 0)) =
        [some ⟨vec4.ofVec3 (curve.pos (1 / 2)) (1 / 3), vec4.ofVec3 (curve.pos (1 / 2)) (1 / 3),
            vec4.ofVec3 (curve.pos 0) (2 / 3)⟩,
         some ⟨vec4.ofVec3 (curve.pos 0) (2 / 3), vec4.ofVec3 (curve.pos (1 / 2)) (1 / 3),
            vec4.ofVec3 (curve.pos 0) (2 / 3)⟩] := by
  refine ⟨⟨0, 1, [sampleAt curve width material 0, sampleAt curve width material (1 / 2),
    sampleAt curve width material 0], none⟩, ?_, rfl, ?_, ?_, ?_, ?_⟩
  · simp only [SuperCurve.ofCurve, sampleCurve_periodic_two, Option.map_some']
  · simp [sampleAt, CurveSample.readExtraLast, CurveSample.addExtra, CurveSample.mk5]
  · have h2 : sizeMinusOne 3 = 2 := by decide
    have h1 : (1 : Int).toNat = 1 := rfl
    simp only [SuperCurve.mesh, List.length_cons, List.length_nil, Nat.zero_add, Nat.reduceAdd,
      h2, h1, forLoop_succ, forLoop_zero, Option.some_bind, Option.bind_eq_bind]
    rw [SuperCurve.meshStep_eq trig curveGroup
      ⟨0, 1, [sampleAt curve width material 0, sampleAt curve width material (1 / 2),
        sampleAt curve width material 0], none⟩ 1 0 0 SuperMesh.empty
      (sampleAt curve width material 0) (sampleAt curve width material (1 / 2)) rfl rfl]
    simp only [Option.some_bind]
    rw [SuperCurve.meshStep_eq trig curveGroup
      ⟨0, 1, [sampleAt curve width material 0, sampleAt curve width material (1 / 2),
        sampleAt curve width material 0], none⟩ 1 1 0 _
      (sampleAt curve width material (1 / 2)) (sampleAt curve width material 0) rfl rfl]
    rfl
  · rw [SuperCurve.stepTriangles_curvePoint]
    simp [sampleAt, CurveSample.addExtra, CurveSample.mk5]
  · rw [SuperCurve.stepTriangles_curvePoint]
    simp [sampleAt, CurveSample.addExtra, CurveSample.mk5]
    norm_num


/-! ### Planar and extra-domain families -/

theorem TriangularMesh.applyMap_corners (f : vec3 → vec3) (t : TriangleR3)
    (h : t.vertices.length = 3) :
    forLoop 3 (fun j (t : TriangleR3) => { t with vertices := t.vertices.set j (f (t.vertex j)) }) t
      = { t with vertices := t.vertices.map f } := by
  obtain ⟨vs, uvs, ns, cs, ex, mat⟩ := t
  match vs, h with
  | [p0, p1, p2], _ => simp [forLoop_succ, forLoop_zero, TriangleR3.vertex]

theorem TriangularMesh.applyMap_buffers (f : vec3 → vec3) (m : TriangularMesh) :
    ∀ k, k ≤ m.posBuff.length →
      forLoop k
        (fun i (m : TriangularMesh) => { m with posBuff := m.posBuff.set i (f (m.posBuff.getD i 0)) })
        m
      = { m with posBuff := (m.posBuff.map f).take k ++ m.posBuff.drop k } := by
  intro k
  induction k with
  | zero => intro _; simp [forLoop_zero]
  | succ k ih =>
    intro hk
    have hlt : k < m.posBuff.length := hk
    rw [forLoop_succ, ih (Nat.le_of_lt hlt)]
    simp only []
    rw [getD_take_append_drop _ _ _ (by simp; omega)]
    rw [set_take_append_drop (m.posBuff.map f) m.posBuff k _
      (by simp [List.getElem?_eq_getElem hlt]) hlt]

theorem TriangularMesh.applyMap_eq (f : vec3 → vec3) (m : TriangularMesh)
    (hwf : ∀ tr ∈ m.triangles, tr.vertices.length = 3) :
    m.applyMap f =
      { m with
        triangles := m.triangles.map (fun tr => { tr with vertices := tr.vertices.map f })
        posBuff := m.posBuff.map f } := by
  have hb := TriangularMesh.applyMap_buffers f
    { m with
      triangles := forLoop m.triangles.length
        (fun i ts => modifyAt ts i (fun t =>
          forLoop 3 (fun j t => { t with vertices := t.vertices.set j (f (t.vertex j)) }) t))
        m.triangles } m.posBuff.length (le_refl _)
  unfold TriangularMesh.applyMap
  simp only []
  rw [hb, forLoop_modifyAt]
  have h1 := take_length_append_drop (m.posBuff.map f) m.posBuff (by simp)
  have h2 : m.triangles.map (fun t =>
      forLoop 3 (fun j (t : TriangleR3) =>
        { t with vertices := t.vertices.set j (f (t.vertex j)) }) t)
      = m.triangles.map (fun tr => { tr with vertices := tr.vertices.map f }) :=
    List.map_congr_left (fun tr htr => TriangularMesh.applyMap_corners f tr (hwf tr htr))
  simp only [h1, h2]

theorem MeshFamily1P.planarLift_eq (q : vec2 → vec2) (shift p : vec3) :
    MeshFamily1P.planarLift q shift p =
      ⟨(q ⟨p.x - shift.x, p.y - shift.y⟩).x + shift.x,
       (q ⟨p.x - shift.x, p.y - shift.y⟩).y + shift.y, shift.z⟩ := by
  ext <;> simp [MeshFamily1P.planarLift]

/-- Claim C25, as stated, fails for a vertex off the embedding plane: with the
family that moves no point of the plane and the zero embedding shift,
`transformMesh` maps the corner `(0, 0, 1)` of `raisedMesh` to `(0, 0, 0)`; its
`z` component is not kept. -/
theorem planar_transformMesh_flattens_z :
    raisedMesh.triangles.map (fun tr => tr.vertices) = [[⟨0, 0, 0⟩, ⟨0, 0, 0⟩, ⟨0, 0, 1⟩]] ∧
      ((MeshFamily1P.ofPlanar raisedMesh keepPlanePoint 0 0).transformMesh 1).mesh.triangles.map
          (fun tr => tr.vertices) = [[⟨0, 0, 0⟩, ⟨0, 0, 0⟩, ⟨0, 0, 0⟩]] := by
  have hwf : ∀ tr ∈ raisedMesh.triangles, tr.vertices.length = 3 := by
    intro tr htr
    have : tr = movedThirdCorner := by
      simpa [raisedMesh, TriangularMesh.ofTriangles] using htr
    subst this
    rfl
  refine ⟨rfl, ?_⟩
  simp only [MeshFamily1P.transformMesh, MeshFamily1P.ofPlanar, if_true,
    TriangularMesh.applyMap_eq _ _ hwf]
  simp [raisedMesh, TriangularMesh.ofTriangles, movedThirdCorner, TriangleR3.mkVN,
    MeshFamily1P.planarLift_eq, keepPlanePoint]

/-- Claim C25 (amended): for a family built with the planar constructor from a
family `F` of maps of the plane and an embedding shift, on a mesh whose triangles
have three vertices, `transformMesh(s)` replaces every triangle vertex and every
cached position `(x, y, z)` by `(x′, y′, shift.z)` with
`(x′, y′) = F(t, s)((x, y) − shift.xy) + shift.xy`, so `z` is kept exactly when
the vertex lies in the plane `z = shift.z`; the triangles are otherwise unchanged
(normals included), the cached normal buffer is unchanged and `time()` is `s`. -/
theorem planar_transformMesh_positions (mesh : TriangularMesh) (F : ℚ → ℚ → vec2 → vec2)
    (shift : vec3) (t s : ℚ) (hwf : ∀ tr ∈ mesh.triangles, tr.vertices.length = 3) :
    ((MeshFamily1P.ofPlanar mesh F shift t).transformMesh s).mesh.triangles
        = mesh.triangles.map (fun tr =>
            { tr with vertices := tr.vertices.map (MeshFamily1P.planarLift (F t s) shift) }) ∧
      ((MeshFamily1P.ofPlanar mesh F shift t).transformMesh s).mesh.triangles.map
          (fun tr => tr.normals) = mesh.triangles.map (fun tr => tr.normals) ∧
      ((MeshFamily1P.ofPlanar mesh F shift t).transformMesh s).mesh.posBuff
        = mesh.posBuff.map (MeshFamily1P.planarLift (F t s) shift) ∧
      ((MeshFamily1P.ofPlanar mesh F shift t).transformMesh s).mesh.normBuff = mesh.normBuff ∧
      ((MeshFamily1P.ofPlanar mesh F shift t).transformMesh s).time = s ∧
      (∀ p : vec3, MeshFamily1P.planarLift (F t s) shift p =
        ⟨(F t s ⟨p.x - shift.x, p.y - shift.y⟩).x + shift.x,
         (F t s ⟨p.x - shift.x, p.y - shift.y⟩).y + shift.y, shift.z⟩) ∧
      (∀ p : vec3, p.z = shift.z → (MeshFamily1P.planarLift (F t s) shift p).z = p.z) := by
  have e : ((MeshFamily1P.ofPlanar mesh F shift t).transformMesh s).mesh
      = { mesh with
          triangles := mesh.triangles.map (fun tr =>
            { tr with vertices := tr.vertices.map (MeshFamily1P.planarLift (F t s) shift) })
          posBuff := mesh.posBuff.map (MeshFamily1P.planarLift (F t s) shift) } := by
    simp only [MeshFamily1P.transformMesh, MeshFamily1P.ofPlanar, if_true,
      TriangularMesh.applyMap_eq _ _ hwf]
  refine ⟨by rw [e], ?_, by rw [e], by rw [e], rfl,
    MeshFamily1P.planarLift_eq (F t s) shift, ?_⟩
  · rw [e]
    simp only [List.map_map]
    rfl
  · intro p hp
    rw [MeshFamily1P.planarLift_eq, hp]

theorem raisedMesh_three_vertices : ∀ tr ∈ raisedMesh.triangles, tr.vertices.length = 3 := by
  intro tr htr
  have : tr = movedThirdCorner := by
    simpa [raisedMesh, TriangularMesh.ofTriangles] using htr
  subst this
  rfl

theorem planar_transformMesh_positions_witness :
    (∀ tr ∈ raisedMesh.triangles, tr.vertices.length = 3) ∧
      ((MeshFamily1P.ofPlanar raisedMesh keepPlanePoint 0 0).transformMesh 1).mesh.triangles.map
          (fun tr => tr.normals) = raisedMesh.triangles.map (fun tr => tr.normals) ∧
      ((MeshFamily1P.ofPlanar raisedMesh keepPlanePoint 0 0).transformMesh 1).time = 1 :=
  ⟨raisedMesh_three_vertices,
    (planar_transformMesh_positions raisedMesh keepPlanePoint 0 0 1
      raisedMesh_three_vertices).2.1,
    (planar_transformMesh_positions raisedMesh keepPlanePoint 0 0 1
      raisedMesh_three_vertices).2.2.2.2.1⟩


theorem MeshFamily1PExtraDomain.transformMesh_planar (mesh : TriangularMesh) (domain : String)
    (F : ℚ → ℚ → vec2 → vec2) (shift : vec3) (t s : ℚ) :
    ((MeshFamily1PExtraDomain.ofPlanar mesh domain F shift t).transformMesh s).mesh
        = TriangularMesh.applyMapCustomDomain (MeshFamily1P.planarLift (F t s) shift) domain mesh ∧
      ((MeshFamily1PExtraDomain.ofPlanar mesh domain F shift t).transformMesh s)._t = s :=
  ⟨rfl, rfl⟩

/-- Claim C26 fails for a family built from a general 3D time operator: for such
a family `transformMesh(s)` calls the overload `applyMap(f, f_normal, domain)`,
whose body is empty, so the mesh is left as it was and only the stored time
becomes `s`.  On `anchoredMesh` (corners `(0,0,0)`, `(1,0,0)`, `(0,1,0)`, anchors
at the origin) with the operator that translates by the elapsed time, the
corners after `transformMesh(2)` from time `0` are the old ones, not
`F(0, 2)(a) + (p − a) = p + (2, 0, 0)`. -/
theorem extraDomain_general_operator_noop :
    (∀ (mesh : TriangularMesh) (domain : String) (F : ℚ → ℚ → vec3 → vec3)
        (Fn : ℚ → ℚ → vec3 → vec3 → vec3) (t s : ℚ),
        ((MeshFamily1PExtraDomain.ofOperators mesh domain F Fn t).transformMesh s).mesh = mesh ∧
        ((MeshFamily1PExtraDomain.ofOperators mesh domain F Fn t).transformMesh s)._t = s) ∧
      ((MeshFamily1PExtraDomain.ofOperators anchoredMesh "anchor" slideOperator keepNormal
          0).transformMesh 2).mesh.triangles.map (fun tr => tr.vertices)
        = [[⟨0, 0, 0⟩, ⟨1, 0, 0⟩, ⟨0, 1, 0⟩]] ∧
      [slideOperator 0 2 ⟨0, 0, 0⟩ + ((⟨0, 0, 0⟩ : vec3) - ⟨0, 0, 0⟩),
        slideOperator 0 2 ⟨0, 0, 0⟩ + ((⟨1, 0, 0⟩ : vec3) - ⟨0, 0, 0⟩),
        slideOperator 0 2 ⟨0, 0, 0⟩ + ((⟨0, 1, 0⟩ : vec3) - ⟨0, 0, 0⟩)]
        = [⟨2, 0, 0⟩, ⟨3, 0, 0⟩, ⟨2, 1, 0⟩] := by
  refine ⟨fun _ _ _ _ _ _ => ⟨rfl, rfl⟩, rfl, ?_⟩
  simp [slideOperator, vec3.ext_iff]
  norm_num

/-! ### `SuperMesh::actOnEmbeddedCurve` on the other roles -/

/-- Claim C27 fails on a mesh without any embedded curve: `cachedSurfaceMesh` has
one surface group, its standard buffers are those that `precomputeBuffers`
builds, and whatever the three entries of its `"curvePoint"` buffer are,
`actOnEmbeddedCurve` with the translation by one unit along `x` moves all three
cached positions of the surface group.  The loop of `actOnEmbeddedCurve` runs
over every entry of the position buffer, whatever the role of the triangle it
came from; the triangles themselves are not touched. -/
theorem actOnEmbeddedCurve_moves_surface_entries (c0 c1 c2 : vec4) :
    (cachedSurfaceMesh c0 c1 c2).embedded_curves = [] ∧
      (cachedSurfaceMesh c0 c1 c2).stdAttributeBuffers
        = (singleGroupMesh.precomputeBuffers true false).stdAttributeBuffers ∧
      (cachedSurfaceMesh c0 c1 c2).stdAttributeBuffers.positions
        = [⟨0, 0, 0⟩, ⟨1, 0, 0⟩, ⟨0, 1, 0⟩] ∧
      ((cachedSurfaceMesh c0 c1 c2).actOnEmbeddedCurve
          shiftXEndomorphism).stdAttributeBuffers.positions
        = [⟨1, 0, 0⟩, ⟨2, 0, 0⟩, ⟨1, 1, 0⟩] ∧
      ((cachedSurfaceMesh c0 c1 c2).actOnEmbeddedCurve shiftXEndomorphism).triangleGroups
        = (cachedSurfaceMesh c0 c1 c2).triangleGroups := by
  have h := SuperMesh.actOnEmbeddedCurve_eq shiftXEndomorphism (cachedSurfaceMesh c0 c1 c2)
    [c0, c1, c2] rfl rfl rfl
  refine ⟨rfl, ?_, rfl, ?_, ?_⟩
  · rw [SuperMesh.precomputeBuffers_std singleGroupMesh false rfl]
    simp [cachedSurfaceMesh, singleGroupMesh, SuperMesh.empty, SuperMesh.allGroups,
      TriangleR3.cornerPositions, TriangleR3.cornerNormals, TriangleR3.cornerColors,
      TriangleR3.cornerUVs, TriangleR3.vertex, unitTriangle, TriangleR3.mkVN, TriangleR3.mk0]
  · rw [h]
    simp [cachedSurfaceMesh, shiftXEndomorphism, shiftX, vec4.xyz, vec3.ext_iff]
    ring
  · rw [h]

/-! ### `SuperPencilCurve::transformMesh` -/

/-- Claim C29, as stated, fails for the ambient case: the pencil over
`twoSampleCurve` with only the translation by one unit along `x` installed keeps
its two samples at the origin after `transformMesh(1)`; they are not mapped to
`(1, 0, 0)`. -/
theorem pencil_ambient_keeps_samples :
    shiftedPencil._parametric_operator.isNone = true ∧
      shiftedPencil.samples.map (fun sample => sample.position) = [⟨0, 0, 0⟩, ⟨0, 0, 0⟩] ∧
      (shiftedPencil.transformMesh 1).samples.map (fun sample => sample.position)
        = [⟨0, 0, 0⟩, ⟨0, 0, 0⟩] ∧
      (shiftXFamily 0 1).f ⟨0, 0, 0⟩ = ⟨1, 0, 0⟩ := by
  refine ⟨rfl, rfl, rfl, ?_⟩
  simp [shiftXFamily, shiftXEndomorphism, shiftX, vec3.ext_iff]

/-- Claim C29 (amended): `transformMesh(s)` on a pencil curve at time `t` sets the
stored time to `s`.  When an ambient family `F` is installed it applies
`actOnEmbeddedCurve(F(t, s))` to the associated mesh, if there is one, and that
branch writes no sample; without an ambient family the associated mesh is left
as it is.  When a parametric family is installed, with or without an ambient
family, it sets the position, tangent and normal of each sample to those of
`family(s)` at the parameter stored in the sample and leaves width, material and
stored parameter unchanged; without a parametric family the samples are left as
they are. -/
theorem pencil_transformMesh_effect (c : SuperPencilCurve) (s : ℚ) :
    (c.transformMesh s).time = s ∧
      (∀ F, c._ambient_operator = some F →
        (c.transformMesh s)._mesh
          = c._mesh.map (fun mesh => mesh.actOnEmbeddedCurve (F c._t s))) ∧
      (c._ambient_operator = none → (c.transformMesh s)._mesh = c._mesh) ∧
      (∀ family, c._parametric_operator = some family →
        (c.transformMesh s).samples
            = c.samples.map (fun sample =>
                { sample with
                  position := (family s).pos sample.readExtraLast
                  tangent := (family s).tangent sample.readExtraLast
                  normal := (family s).normal sample.readExtraLast }) ∧
          (c.transformMesh s).samples.map
              (fun sample => (sample.width, sample.material, sample.extraInfo))
            = c.samples.map (fun sample => (sample.width, sample.material, sample.extraInfo))) ∧
      (c._parametric_operator = none → (c.transformMesh s).samples = c.samples) := by
  obtain ⟨sc, t, a, p⟩ := c
  refine ⟨rfl, ?_, ?_, ?_, ?_⟩
  · intro F hF
    have ha : a = some F := hF
    subst ha
    cases p <;> rfl
  · intro hF
    have ha : a = none := hF
    subst ha
    cases p <;> rfl
  · intro family hp
    have hp2 : p = some family := hp
    subst hp2
    have e : ((SuperPencilCurve.mk sc t a (some family)).transformMesh s).samples
        = sc.samples.map (fun sample =>
            { sample with
              position := (family s).pos sample.readExtraLast
              tangent := (family s).tangent sample.readExtraLast
              normal := (family s).normal sample.readExtraLast }) := by
      cases a <;> rfl
    refine ⟨e, ?_⟩
    rw [e, List.map_map]
    rfl
  · intro hp
    have hp2 : p = none := hp
    subst hp2
    cases a <;> rfl

theorem pencil_transformMesh_effect_witness :
    doublePencil._ambient_operator = some shiftXFamily ∧
      doublePencil._parametric_operator = some raisedLineFamily ∧
      (doublePencil.transformMesh 1).samples
        = doublePencil.samples.map (fun sample =>
            { sample with
              position := (raisedLineFamily 1).pos sample.readExtraLast
              tangent := (raisedLineFamily 1).tangent sample.readExtraLast
              normal := (raisedLineFamily 1).normal sample.readExtraLast }) ∧
      (doublePencil.transformMesh 1)._mesh
        = doublePencil._mesh.map
            (fun mesh => mesh.actOnEmbeddedCurve (shiftXFamily doublePencil._t 1)) :=
  ⟨rfl, rfl, ((pencil_transformMesh_effect doublePencil 1).2.2.2.1 raisedLineFamily rfl).1,
    (pencil_transformMesh_effect doublePencil 1).2.1 shiftXFamily rfl⟩

/-! ### Polygroup ids and the material map -/

theorem SuperMesh.addBdGroupWithId_material (m : SuperMesh) (k : PolyGroupID)
    (triangles : List TriangleR3) (material : MaterialPhong) :
    (m.addBdGroupWithId k triangles material).triangleGroups = m.triangleGroups ∧
      (m.addBdGroupWithId k triangles material).registeredMaterial k = material := by
  refine ⟨rfl, ?_⟩
  simp [SuperMesh.registeredMaterial, SuperMesh.addBdGroupWithId, StdMap.index_fst,
    StdMap.find_assign_same]

/-- Claim C30, as stated, fails: on `singleGroupMesh`, whose surface group `0` has
the default material (ambient color `(1, 0, 0, 1)`), adding a boundary group with
the same id `0` and `blueMaterial` leaves the surface triangles as they are but
makes `blueMaterial` the material registered for `0`, and `precomputeBuffers`
fills the three material-buffer entries of the surface group with the ambient
color `(0, 0, 1, 1)` of `blueMaterial`. -/
theorem addBdGroup_overwrites_surface_material :
    singleGroupMesh.registeredMaterial (PolyGroupID.int 0) = MaterialPhong.default ∧
      MaterialPhong.default.ambientColor = ⟨1, 0, 0, 1⟩ ∧
      (singleGroupMesh.addBdGroupWithId (PolyGroupID.int 0) [movedThirdCorner]
          blueMaterial).triangleGroups = singleGroupMesh.triangleGroups ∧
      (singleGroupMesh.addBdGroupWithId (PolyGroupID.int 0) [movedThirdCorner]
          blueMaterial).registeredMaterial (PolyGroupID.int 0) = blueMaterial ∧
      ((singleGroupMesh.addBdGroupWithId (PolyGroupID.int 0) [movedThirdCorner]
          blueMaterial).precomputeBuffers true false).materialBuffers.ambientColors.take 3
        = [⟨0, 0, 1, 1⟩, ⟨0, 0, 1, 1⟩, ⟨0, 0, 1, 1⟩] := by
  refine ⟨?_, rfl, rfl, ?_, ?_⟩
  · simp [SuperMesh.registeredMaterial, singleGroupMesh, SuperMesh.empty, StdMap.index,
      StdMap.find]
  · exact (SuperMesh.addBdGroupWithId_material _ _ _ _).2
  · rw [SuperMesh.precomputeBuffers_material _ false rfl]
    simp [SuperMesh.allGroups, SuperMesh.addBdGroupWithId, singleGroupMesh, SuperMesh.empty,
      SuperMesh.registeredMaterial, StdMap.index, StdMap.find, StdMap.assign, StdMap.contains,
      StdMap.replace, StdMap.insert, blueMaterial, MaterialPhong.default, List.replicate]

/-- Claim C30 (amended): the four roles keep their triangles in four maps but
share the one map `materials`, keyed by polygroup id.  Adding a boundary-strip,
embedded-curve or embedded-point group under an id `k` leaves the surface groups
as they are, makes the given material the one registered for `k` (for a surface
group with the id `k` too), and leaves the material registered for every other
id as it was. -/
theorem materials_shared_across_roles (m : SuperMesh) (k : PolyGroupID)
    (triangles : List TriangleR3) (material : MaterialPhong) :
    ((m.addBdGroupWithId k triangles material).triangleGroups = m.triangleGroups ∧
        (m.addBdGroupWithId k triangles material).registeredMaterial k = material ∧
        ∀ k2, k ≠ k2 →
          (m.addBdGroupWithId k triangles material).registeredMaterial k2
            = m.registeredMaterial k2) ∧
      ((m.addEmbeddedCurveWithId k triangles material).triangleGroups = m.triangleGroups ∧
        (m.addEmbeddedCurveWithId k triangles material).registeredMaterial k = material ∧
        ∀ k2, k ≠ k2 →
          (m.addEmbeddedCurveWithId k triangles material).registeredMaterial k2
            = m.registeredMaterial k2) ∧
      ((m.addEmbeddedPointWithId k triangles material).triangleGroups = m.triangleGroups ∧
        (m.addEmbeddedPointWithId k triangles material).registeredMaterial k = material ∧
        ∀ k2, k ≠ k2 →
          (m.addEmbeddedPointWithId k triangles material).registeredMaterial k2
            = m.registeredMaterial k2) := by
  refine ⟨⟨rfl, ?_, ?_⟩, ⟨rfl, ?_, ?_⟩, ⟨rfl, ?_, ?_⟩⟩
  · exact (SuperMesh.addBdGroupWithId_material m k triangles material).2
  · intro k2 hne
    simp only [SuperMesh.registeredMaterial, SuperMesh.addBdGroupWithId, StdMap.index_fst]
    rw [StdMap.find_assign_other m.materials k k2 material hne]
  · simp [SuperMesh.registeredMaterial, SuperMesh.addEmbeddedCurveWithId, StdMap.index_fst,
      StdMap.find_assign_same]
  · intro k2 hne
    simp only [SuperMesh.registeredMaterial, SuperMesh.addEmbeddedCurveWithId, StdMap.index_fst]
    rw [StdMap.find_assign_other m.materials k k2 material hne]
  · simp [SuperMesh.registeredMaterial, SuperMesh.addEmbeddedPointWithId, StdMap.index_fst,
      StdMap.find_assign_same]
  · intro k2 hne
    simp only [SuperMesh.registeredMaterial, SuperMesh.addEmbeddedPointWithId, StdMap.index_fst]
    rw [StdMap.find_assign_other m.materials k k2 material hne]

theorem materials_shared_across_roles_witness :
    PolyGroupID.int 1 ≠ PolyGroupID.int 0 ∧
      (singleGroupMesh.addBdGroupWithId (PolyGroupID.int 1) [movedThirdCorner]
          blueMaterial).registeredMaterial (PolyGroupID.int 0)
        = singleGroupMesh.registeredMaterial (PolyGroupID.int 0) :=
  ⟨by decide,
    (materials_shared_across_roles singleGroupMesh (PolyGroupID.int 1) [movedThirdCorner]
      blueMaterial).1.2.2 (PolyGroupID.int 0) (by decide)⟩

/-! ### Translation and transformation of triangles drop the extras -/

theorem TriangularMesh.transform_triangles (m : TriangularMesh) (M : mat4) :
    (m.transform M).triangles = m.triangles.map (fun t => t.mul M) := by
  simp [TriangularMesh.transform, forLoop_modifyAt]

/-- Claim C35: `operator+` and `operator*` return a triangle with the colors and
uvs of the operand, an empty `extraData` map and no material, whatever the
operand carried; so after `TriangularMesh::translate` and after
`TriangularMesh::transform` the mesh has as many triangles as before and each of
them has an empty `extraData` map and no material. -/
theorem add_mul_drop_extras (t : TriangleR3) (m : TriangularMesh) (v : vec3) (M : mat4) :
    ((t.add v).vertexColors = t.vertexColors ∧ (t.add v).uvs = t.uvs ∧
        (t.add v).extraData = [] ∧ (t.add v).material = none) ∧
      ((t.mul M).vertexColors = t.vertexColors ∧ (t.mul M).uvs = t.uvs ∧
        (t.mul M).extraData = [] ∧ (t.mul M).material = none) ∧
      ((m.translate v).triangles.length = m.triangles.length ∧
        ∀ tr ∈ (m.translate v).triangles, tr.extraData = [] ∧ tr.material = none) ∧
      ((m.transform M).triangles.length = m.triangles.length ∧
        ∀ tr ∈ (m.transform M).triangles, tr.extraData = [] ∧ tr.material = none) := by
  refine ⟨⟨rfl, rfl, rfl, rfl⟩, ⟨rfl, rfl, rfl, rfl⟩, ⟨?_, ?_⟩, ⟨?_, ?_⟩⟩
  · rw [TriangularMesh.translate_triangles, List.length_map]
  · intro tr htr
    rw [TriangularMesh.translate_triangles] at htr
    obtain ⟨t0, _, rfl⟩ := List.mem_map.mp htr
    exact ⟨rfl, rfl⟩
  · rw [TriangularMesh.transform_triangles, List.length_map]
  · intro tr htr
    rw [TriangularMesh.transform_triangles] at htr
    obtain ⟨t0, _, rfl⟩ := List.mem_map.mp htr
    exact ⟨rfl, rfl⟩

/-! ### Barycentric coordinates of a point off the plane -/

theorem vec3.dot_cross_left (a b : vec3) : vec3.dot a (vec3.cross a b) = 0 := by
  simp only [vec3.dot, vec3.cross]; ring

theorem vec3.dot_cross_right (a b : vec3) : vec3.dot b (vec3.cross a b) = 0 := by
  simp only [vec3.dot, vec3.cross]; ring

theorem vec3.eq_zero_of_orthogonal (d a b : vec3) (hn : vec3.cross a b ≠ 0)
    (ha : vec3.dot d a = 0) (hb : vec3.dot d b = 0) (hc : vec3.dot d (vec3.cross a b) = 0) :
    d = 0 := by
  have hcross : vec3.cross d (vec3.cross a b) = 0 := by
    simp only [vec3.dot] at ha hb
    ext
    · simp only [vec3.cross, vec3.v3_zero_x]
      linear_combination a.x * hb - b.x * ha
    · simp only [vec3.cross, vec3.v3_zero_y]
      linear_combination a.y * hb - b.y * ha
    · simp only [vec3.cross, vec3.v3_zero_z]
      linear_combination a.z * hb - b.z * ha
  have hl := vec3.lagrange d (vec3.cross a b)
  rw [hcross, hc] at hl
  have h0 : vec3.dot (0 : vec3) 0 = 0 := by simp [vec3.dot]
  rw [h0] at hl
  have hpos := vec3.dot_self_pos hn
  have hd : vec3.dot d d = 0 := by
    have : vec3.dot d d * vec3.dot (vec3.cross a b) (vec3.cross a b) = 0 := by linarith
    rcases mul_eq_zero.mp this with h | h
    · exact h
    · exact absurd h (ne_of_gt hpos)
  exact vec3.dot_self_eq_zero d hd


theorem TriangleR3.barycentric_offset (t : TriangleR3) (P : vec3) :
    t.barycentricToWorld (t.worldToBarycentric P) - t.vertex 0
      = (t.worldToBarycentric P).y * (t.vertex 1 - t.vertex 0)
        + (t.worldToBarycentric P).z * (t.vertex 2 - t.vertex 0) := by
  ext <;>
    simp only [TriangleR3.barycentricToWorld, TriangleR3.worldToBarycentric, vec3.get,
      vec3.v3_sub_x, vec3.v3_sub_y, vec3.v3_sub_z, vec3.v3_add_x, vec3.v3_add_y, vec3.v3_add_z,
      vec3.v3_smul_x, vec3.v3_smul_y, vec3.v3_smul_z] <;>
    ring

theorem TriangleR3.barycentric_residual (t : TriangleR3) (P : vec3) :
    P - t.barycentricToWorld (t.worldToBarycentric P)
      = (P - t.vertex 0) - ((t.worldToBarycentric P).y * (t.vertex 1 - t.vertex 0)
          + (t.worldToBarycentric P).z * (t.vertex 2 - t.vertex 0)) := by
  rw [← TriangleR3.barycentric_offset]
  ext <;> simp only [vec3.v3_sub_x, vec3.v3_sub_y, vec3.v3_sub_z] <;> ring

theorem vec3.dot_residual (d a b c : vec3) (v w : ℚ) :
    vec3.dot (d - (v * a + w * b)) c = vec3.dot d c - v * vec3.dot a c - w * vec3.dot b c := by
  simp only [vec3.dot, vec3.v3_sub_x, vec3.v3_sub_y, vec3.v3_sub_z, vec3.v3_add_x, vec3.v3_add_y,
    vec3.v3_add_z, vec3.v3_smul_x, vec3.v3_smul_y, vec3.v3_smul_z]
  ring

theorem vec3.dot_comm_v (a b : vec3) : vec3.dot a b = vec3.dot b a := by
  simp only [vec3.dot]; ring

theorem TriangleR3.barycentric_residual_orthogonal (t : TriangleR3) (P : vec3)
    (hnd : vec3.LinearIndep (t.vertex 1 - t.vertex 0) (t.vertex 2 - t.vertex 0)) :
    vec3.dot (P - t.barycentricToWorld (t.worldToBarycentric P)) (t.vertex 1 - t.vertex 0) = 0 ∧
      vec3.dot (P - t.barycentricToWorld (t.worldToBarycentric P)) (t.vertex 2 - t.vertex 0)
        = 0 := by
  have hden := vec3.dot_self_pos (vec3.cross_ne_zero_of_linearIndep hnd)
  rw [← vec3.lagrange] at hden
  have hden' := ne_of_gt hden
  have hy : (t.worldToBarycentric P).y =
      (vec3.dot (t.vertex 2 - t.vertex 0) (t.vertex 2 - t.vertex 0)
          * vec3.dot (P - t.vertex 0) (t.vertex 1 - t.vertex 0)
        - vec3.dot (t.vertex 1 - t.vertex 0) (t.vertex 2 - t.vertex 0)
          * vec3.dot (P - t.vertex 0) (t.vertex 2 - t.vertex 0))
      / (vec3.dot (t.vertex 1 - t.vertex 0) (t.vertex 1 - t.vertex 0)
          * vec3.dot (t.vertex 2 - t.vertex 0) (t.vertex 2 - t.vertex 0)
        - vec3.dot (t.vertex 1 - t.vertex 0) (t.vertex 2 - t.vertex 0)
          * vec3.dot (t.vertex 1 - t.vertex 0) (t.vertex 2 - t.vertex 0)) := rfl
  have hz : (t.worldToBarycentric P).z =
      (vec3.dot (t.vertex 1 - t.vertex 0) (t.vertex 1 - t.vertex 0)
          * vec3.dot (P - t.vertex 0) (t.vertex 2 - t.vertex 0)
        - vec3.dot (t.vertex 1 - t.vertex 0) (t.vertex 2 - t.vertex 0)
          * vec3.dot (P - t.vertex 0) (t.vertex 1 - t.vertex 0))
      / (vec3.dot (t.vertex 1 - t.vertex 0) (t.vertex 1 - t.vertex 0)
          * vec3.dot (t.vertex 2 - t.vertex 0) (t.vertex 2 - t.vertex 0)
        - vec3.dot (t.vertex 1 - t.vertex 0) (t.vertex 2 - t.vertex 0)
          * vec3.dot (t.vertex 1 - t.vertex 0) (t.vertex 2 - t.vertex 0)) := rfl
  have hc : vec3.dot (t.vertex 2 - t.vertex 0) (t.vertex 1 - t.vertex 0)
      = vec3.dot (t.vertex 1 - t.vertex 0) (t.vertex 2 - t.vertex 0) := vec3.dot_comm_v _ _
  constructor
  · rw [TriangleR3.barycentric_residual, vec3.dot_residual, hy, hz, hc]
    field_simp
    ring
  · rw [TriangleR3.barycentric_residual, vec3.dot_residual, hy, hz]
    field_simp
    ring

/-- Claim C36 (amended), in exact arithmetic, every operation without rounding:
for a triangle whose edge vectors `v1 - v0` and `v2 - v0` are
linearly independent and every point `P`, the components of
`worldToBarycentric(P)` sum to 1, and `Q = barycentricToWorld(worldToBarycentric(P))`
is the orthogonal projection of `P` onto the plane of the triangle: `Q - v0` is a
combination of the two edges (so it is orthogonal to their cross product),
`P - Q` is orthogonal to both edges, and `Q = P` when `P` lies in the plane. -/
theorem barycentric_projection (t : TriangleR3) (P : vec3)
    (hnd : vec3.LinearIndep (t.vertex 1 - t.vertex 0) (t.vertex 2 - t.vertex 0)) :
    (t.worldToBarycentric P).x + (t.worldToBarycentric P).y + (t.worldToBarycentric P).z = 1 ∧
      t.barycentricToWorld (t.worldToBarycentric P) - t.vertex 0
        = (t.worldToBarycentric P).y * (t.vertex 1 - t.vertex 0)
          + (t.worldToBarycentric P).z * (t.vertex 2 - t.vertex 0) ∧
      vec3.dot (t.barycentricToWorld (t.worldToBarycentric P) - t.vertex 0)
          (vec3.cross (t.vertex 1 - t.vertex 0) (t.vertex 2 - t.vertex 0)) = 0 ∧
      vec3.dot (P - t.barycentricToWorld (t.worldToBarycentric P)) (t.vertex 1 - t.vertex 0)
        = 0 ∧
      vec3.dot (P - t.barycentricToWorld (t.worldToBarycentric P)) (t.vertex 2 - t.vertex 0)
        = 0 ∧
      (vec3.dot (P - t.vertex 0) (vec3.cross (t.vertex 1 - t.vertex 0) (t.vertex 2 - t.vertex 0))
          = 0 → t.barycentricToWorld (t.worldToBarycentric P) = P) := by
  have horth := TriangleR3.barycentric_residual_orthogonal t P hnd
  have hplane : vec3.dot (t.barycentricToWorld (t.worldToBarycentric P) - t.vertex 0)
      (vec3.cross (t.vertex 1 - t.vertex 0) (t.vertex 2 - t.vertex 0)) = 0 := by
    rw [TriangleR3.barycentric_offset]
    have h1 := vec3.dot_cross_left (t.vertex 1 - t.vertex 0) (t.vertex 2 - t.vertex 0)
    have h2 := vec3.dot_cross_right (t.vertex 1 - t.vertex 0) (t.vertex 2 - t.vertex 0)
    simp only [vec3.dot, vec3.v3_add_x, vec3.v3_add_y, vec3.v3_add_z, vec3.v3_smul_x,
      vec3.v3_smul_y, vec3.v3_smul_z] at h1 h2 ⊢
    linear_combination (t.worldToBarycentric P).y * h1 + (t.worldToBarycentric P).z * h2
  refine ⟨?_, TriangleR3.barycentric_offset t P, hplane, horth.1, horth.2, ?_⟩
  · simp only [TriangleR3.worldToBarycentric]
    ring
  · intro hP
    have hres : vec3.dot (P - t.barycentricToWorld (t.worldToBarycentric P))
        (vec3.cross (t.vertex 1 - t.vertex 0) (t.vertex 2 - t.vertex 0)) = 0 := by
      simp only [vec3.dot, vec3.v3_sub_x, vec3.v3_sub_y, vec3.v3_sub_z] at hP hplane ⊢
      linear_combination hP - hplane
    have hzero := vec3.eq_zero_of_orthogonal _ _ _ (vec3.cross_ne_zero_of_linearIndep hnd)
      horth.1 horth.2 hres
    have hx := congrArg vec3.x hzero
    have hy := congrArg vec3.y hzero
    have hz := congrArg vec3.z hzero
    simp only [vec3.v3_sub_x, vec3.v3_sub_y, vec3.v3_sub_z, vec3.v3_zero_x, vec3.v3_zero_y,
      vec3.v3_zero_z] at hx hy hz
    ext <;> linarith

theorem barycentric_projection_witness :
    vec3.LinearIndep (unitTriangle.vertex 1 - unitTriangle.vertex 0)
        (unitTriangle.vertex 2 - unitTriangle.vertex 0) ∧
      vec3.dot
        ((⟨1, 2, 3⟩ : vec3) - unitTriangle.barycentricToWorld
          (unitTriangle.worldToBarycentric ⟨1, 2, 3⟩))
        (unitTriangle.vertex 1 - unitTriangle.vertex 0) = 0 ∧
      vec3.dot
        ((⟨1, 2, 3⟩ : vec3) - unitTriangle.barycentricToWorld
          (unitTriangle.worldToBarycentric ⟨1, 2, 3⟩))
        (unitTriangle.vertex 2 - unitTriangle.vertex 0) = 0 :=
  ⟨unitTriangle_linearIndep,
    (barycentric_projection unitTriangle ⟨1, 2, 3⟩ unitTriangle_linearIndep).2.2.2.1,
    (barycentric_projection unitTriangle ⟨1, 2, 3⟩ unitTriangle_linearIndep).2.2.2.2.1⟩


/-! ### The far end-cap of an open contour -/

/-- Claim C32 fails: the far end-cap is built with the perpendicular of the near
end.  For every contour its corners are `b ∓ w·n1` and these plus `w·d`, with
`d` the far end tangent but `n1 = orthogonalComplement(normalize(b_0 - b_1))`.
For the bent contour `(0,0)`, `(1,0)`, `(1,1)` and `w = 1` the corners are
`(1,2)`, `(1,3)`, `(1,1)`, `(1,0)`, four points on one line, while the square of
the claim is `(2,1)`, `(2,2)`, `(0,2)`, `(0,1)`; and these corners are the ones
in the contour that the open branch registers. -/
theorem farCap_uses_near_normal :
    (∀ (ops : PlanarOps) (w : ℚ) (bd : List vec2),
        PlanarMeshWithBoundary.openFarCap ops w bd =
          [bd.getD (bd.length - 1) 0
              - ops.orthogonalComplement (ops.normalize (bd.getD 0 0 - bd.getD 1 0)) * w,
           bd.getD (bd.length - 1) 0
              - ops.orthogonalComplement (ops.normalize (bd.getD 0 0 - bd.getD 1 0)) * w
              + ops.normalize (bd.getD (bd.length - 1) 0 - bd.getD (bd.length - 2) 0) * w,
           bd.getD (bd.length - 1) 0
              + ops.orthogonalComplement (ops.normalize (bd.getD 0 0 - bd.getD 1 0)) * w
              + ops.normalize (bd.getD (bd.length - 1) 0 - bd.getD (bd.length - 2) 0) * w,
           bd.getD (bd.length - 1) 0
              + ops.orthogonalComplement (ops.normalize (bd.getD 0 0 - bd.getD 1 0)) * w]) ∧
      PlanarMeshWithBoundary.openFarCap axisOps 1 bentContour
        = [⟨1, 2⟩, ⟨1, 3⟩, ⟨1, 1⟩, ⟨1, 0⟩] ∧
      PlanarMeshWithBoundary.specFarCap axisOps 1 bentContour
        = [⟨2, 1⟩, ⟨2, 2⟩, ⟨0, 2⟩, ⟨0, 1⟩] ∧
      (PlanarMeshWithBoundary.offsetOpenCore axisOps 1 bentContour).2.1.map
          (fun contour => (contour.drop 6).take 4)
        = [PlanarMeshWithBoundary.openFarCap axisOps 1 bentContour] := by
  refine ⟨fun _ _ _ => rfl, ?_, ?_, ?_⟩
  · simp [PlanarMeshWithBoundary.openFarCap, bentContour, axisOps, vec2.ext_iff]
    norm_num
  · simp [PlanarMeshWithBoundary.specFarCap, bentContour, axisOps, vec2.ext_iff]
    norm_num
  · have h := PlanarMeshWithBoundary.offsetOpenCore_three axisOps 1 ⟨0, 0⟩ ⟨1, 0⟩ ⟨1, 1⟩
    have hc : bentContour = [⟨0, 0⟩, ⟨1, 0⟩, ⟨1, 1⟩] := rfl
    rw [hc, h]
    simp [PlanarMeshWithBoundary.openNearCap, PlanarMeshWithBoundary.openFarCap]

/-! ### Cache consistency of `applyMap(f, f_normal)` -/

/-- Claim C33 fails: the triangle loop of `applyMap(f, f_normal)` overwrites the
vertex before it calls `f_normal`, the buffer loop calls `f_normal` before it
overwrites the cached position.  On `cachedUnitMesh`, whose caches are the
flattened triangle attributes, with `f` the translation by one unit along `x`
and `f_normal(p, n) = p`, the positions stay consistent but the triangle normals
become the new positions `(1,0,0)`, `(2,0,0)`, `(1,1,0)` while the cached normals
become the old positions `(0,0,0)`, `(1,0,0)`, `(0,1,0)`. -/
theorem applyMapNormal_cache_disagrees :
    cachedUnitMesh.posBuff = cachedUnitMesh.triangles.flatMap TriangleR3.cornerPositions ∧
      cachedUnitMesh.normBuff = cachedUnitMesh.triangles.flatMap TriangleR3.cornerNormals ∧
      (cachedUnitMesh.applyMapNormal shiftX positionAsNormal).posBuff
        = (cachedUnitMesh.applyMapNormal shiftX positionAsNormal).triangles.flatMap
            TriangleR3.cornerPositions ∧
      (cachedUnitMesh.applyMapNormal shiftX positionAsNormal).triangles.flatMap
          TriangleR3.cornerNormals = [⟨1, 0, 0⟩, ⟨2, 0, 0⟩, ⟨1, 1, 0⟩] ∧
      (cachedUnitMesh.applyMapNormal shiftX positionAsNormal).normBuff
        = [⟨0, 0, 0⟩, ⟨1, 0, 0⟩, ⟨0, 1, 0⟩] := by
  have ht : (cachedUnitMesh.applyMapNormal shiftX positionAsNormal).triangles
      = [{ unitTriangle with
            vertices := [⟨1, 0, 0⟩, ⟨2, 0, 0⟩, ⟨1, 1, 0⟩]
            normals := [⟨1, 0, 0⟩, ⟨2, 0, 0⟩, ⟨1, 1, 0⟩] }] := by
    rw [TriangularMesh.applyMapNormal_triangles]
    simp [cachedUnitMesh, unitMesh, TriangularMesh.ofTriangles, forLoop_succ, forLoop_zero,
      TriangularMesh.applyMapNormalCorner, TriangleR3.vertex, unitTriangle, TriangleR3.mkVN,
      TriangleR3.mk0, shiftX, positionAsNormal, vec3.ext_iff]
    norm_num
  have hp : (cachedUnitMesh.applyMapNormal shiftX positionAsNormal).posBuff
      = [⟨1, 0, 0⟩, ⟨2, 0, 0⟩, ⟨1, 1, 0⟩] := by
    rw [TriangularMesh.applyMapNormal_posBuff]
    simp [cachedUnitMesh, shiftX, vec3.ext_iff]
    norm_num
  refine ⟨rfl, rfl, ?_, ?_, ?_⟩
  · rw [hp, ht]
    rfl
  · rw [ht]
    rfl
  · simp [TriangularMesh.applyMapNormal, cachedUnitMesh, unitMesh, TriangularMesh.ofTriangles,
      forLoop_succ, forLoop_zero, TriangularMesh.applyMapNormalBufferStep, positionAsNormal]

/-! ### `actOnEmbeddedCurve` and the triangles -/

theorem SuperMesh.actOnEmbeddedCurve_groups (f : SpaceEndomorphism) (m : SuperMesh) :
    (m.actOnEmbeddedCurve f).triangleGroups = m.triangleGroups ∧
      (m.actOnEmbeddedCurve f).boundaryGroups = m.boundaryGroups ∧
      (m.actOnEmbeddedCurve f).embedded_curves = m.embedded_curves ∧
      (m.actOnEmbeddedCurve f).embedded_points = m.embedded_points := by
  have h : ∀ n : Nat,
      (forLoop n (SuperMesh.actOnEmbeddedCurveStep f) m).triangleGroups = m.triangleGroups ∧
      (forLoop n (SuperMesh.actOnEmbeddedCurveStep f) m).boundaryGroups = m.boundaryGroups ∧
      (forLoop n (SuperMesh.actOnEmbeddedCurveStep f) m).embedded_curves = m.embedded_curves ∧
      (forLoop n (SuperMesh.actOnEmbeddedCurveStep f) m).embedded_points
        = m.embedded_points := by
    intro n
    induction n with
    | zero => exact ⟨rfl, rfl, rfl, rfl⟩
    | succ n ih => rw [forLoop_succ]; exact ih
  exact h _

/-- Claim C34 fails: `actOnEmbeddedCurve` writes the caches only; the loop over
the embedded-curve triangles is commented out.  For every mesh and map the four
role maps are the same after the call as before.  On `cachedTubeMesh`, whose
caches agree with its one embedded-curve triangle, after the translation by one
unit along `x` the cached positions are `(1,0,0)`, `(2,0,0)`, `(1,1,0)` and the
cached anchors are at `(1,0,0)`, while the triangle still has the corners
`(0,0,0)`, `(1,0,0)`, `(0,1,0)` and anchors at the origin. -/
theorem actOnEmbeddedCurve_triangles_stale :
    (∀ (f : SpaceEndomorphism) (m : SuperMesh),
        (m.actOnEmbeddedCurve f).embedded_curves = m.embedded_curves) ∧
      cachedTubeMesh.stdAttributeBuffers.positions
        = cachedTubeMesh.allGroups.flatMap (fun g => g.2.flatMap TriangleR3.cornerPositions) ∧
      (cachedTubeMesh.actOnEmbeddedCurve shiftXEndomorphism).stdAttributeBuffers.positions
        = [⟨1, 0, 0⟩, ⟨2, 0, 0⟩, ⟨1, 1, 0⟩] ∧
      StdMap.find (cachedTubeMesh.actOnEmbeddedCurve shiftXEndomorphism).extraBuff "curvePoint"
        = some [⟨1, 0, 0, 1/2⟩, ⟨1, 0, 0, 1/2⟩, ⟨1, 0, 0, 1/2⟩] ∧
      (cachedTubeMesh.actOnEmbeddedCurve shiftXEndomorphism).allGroups.flatMap
          (fun g => g.2.flatMap TriangleR3.cornerPositions)
        = [⟨0, 0, 0⟩, ⟨1, 0, 0⟩, ⟨0, 1, 0⟩] ∧
      (cachedTubeMesh.actOnEmbeddedCurve shiftXEndomorphism).embedded_curves.map
          (fun g => curvePointExtras g.2)
        = [[some ⟨⟨0, 0, 0, 1/2⟩, ⟨0, 0, 0, 1/2⟩, ⟨0, 0, 0, 1/2⟩⟩]] := by
  have hg := SuperMesh.actOnEmbeddedCurve_groups shiftXEndomorphism cachedTubeMesh
  have h := SuperMesh.actOnEmbeddedCurve_eq shiftXEndomorphism cachedTubeMesh
    [⟨0, 0, 0, 1/2⟩, ⟨0, 0, 0, 1/2⟩, ⟨0, 0, 0, 1/2⟩] rfl rfl rfl
  refine ⟨fun f m => (SuperMesh.actOnEmbeddedCurve_groups f m).2.2.1, rfl, ?_, ?_, ?_, ?_⟩
  · rw [h]
    simp [cachedTubeMesh, shiftXEndomorphism, shiftX, vec4.xyz, vec3.ext_iff]
    norm_num
  · rw [h]
    simp [cachedTubeMesh, SuperMesh.empty, StdMap.find_assign_same, shiftXEndomorphism, shiftX,
      vec4.xyz, vec4.ofVec3]
  · simp only [SuperMesh.allGroups, hg.1, hg.2.1, hg.2.2.1, hg.2.2.2]
    rfl
  · rw [hg.2.2.1]
    simp [cachedTubeMesh, curvePointExtras, curveAnchoredTriangle, TriangleR3.addExtraData,
      unitTriangle, TriangleR3.mkVN, TriangleR3.mk0, StdMap.assign, StdMap.contains,
      StdMap.find, StdMap.insert]


/-! ### `SuperMesh::doPerTriangle(id, f)` -/

theorem SuperMesh.doPerTriangleId_other_roles (m : SuperMesh) (id : PolyGroupID)
    (f : TriangleR3 → TriangleR3) :
    (m.doPerTriangleId id f).boundaryGroups = m.boundaryGroups ∧
      (m.doPerTriangleId id f).embedded_curves = m.embedded_curves ∧
      (m.doPerTriangleId id f).embedded_points = m.embedded_points := by
  unfold SuperMesh.doPerTriangleId
  simp only []
  split_ifs <;> exact ⟨rfl, rfl, rfl⟩

/-- Claim C37 fails: the four loops of `doPerTriangle(id, f)` all run over
`triangleGroups[id]`, so the boundary, embedded-curve and embedded-point groups
are never touched, for every mesh, id and `f`.  On a mesh whose only group is the
boundary group `"bd0"`, `f` is applied to no triangle and the surface role gains
an empty group `"bd0"`.  On a mesh with a surface group and a boundary group of
the same id `0`, `f` (the translation by one unit along `x`) is applied twice to
the surface triangle, whose corners move by two units, and not at all to the
boundary triangle. -/
theorem doPerTriangleId_wrong_role :
    (∀ (m : SuperMesh) (id : PolyGroupID) (f : TriangleR3 → TriangleR3),
        (m.doPerTriangleId id f).boundaryGroups = m.boundaryGroups ∧
        (m.doPerTriangleId id f).embedded_curves = m.embedded_curves ∧
        (m.doPerTriangleId id f).embedded_points = m.embedded_points) ∧
      boundaryOnlyMesh.triangleGroups = [] ∧
      (boundaryOnlyMesh.doPerTriangleId (PolyGroupID.str "bd0") shiftTriangle).triangleGroups
        = [(PolyGroupID.str "bd0", [])] ∧
      (boundaryOnlyMesh.doPerTriangleId (PolyGroupID.str "bd0") shiftTriangle).boundaryGroups
        = [(PolyGroupID.str "bd0", [unitTriangle])] ∧
      (sharedIdMesh.doPerTriangleId (PolyGroupID.int 0) shiftTriangle).triangleGroups.map
          (fun g => (g.1, g.2.map (fun tr => tr.vertices)))
        = [(PolyGroupID.int 0, [[⟨2, 0, 0⟩, ⟨3, 0, 0⟩, ⟨2, 1, 0⟩]])] ∧
      (sharedIdMesh.doPerTriangleId (PolyGroupID.int 0) shiftTriangle).boundaryGroups
        = [(PolyGroupID.int 0, [movedThirdCorner])] := by
  refine ⟨SuperMesh.doPerTriangleId_other_roles, rfl, ?_,
    (SuperMesh.doPerTriangleId_other_roles _ _ _).1, ?_,
    (SuperMesh.doPerTriangleId_other_roles _ _ _).1⟩
  · simp [SuperMesh.doPerTriangleId, boundaryOnlyMesh, SuperMesh.empty, StdMap.contains,
      StdMap.find, SuperMesh.applyToGroup, StdMap.index, StdMap.assign, StdMap.insert,
      StdMap.replace]
  · simp [SuperMesh.doPerTriangleId, sharedIdMesh, SuperMesh.empty, StdMap.contains,
      StdMap.find, SuperMesh.applyToGroup, StdMap.index, StdMap.assign, StdMap.insert,
      StdMap.replace, shiftTriangle, TriangleR3.add, TriangleR3.vertex, TriangleR3.mkVNCU,
      TriangleR3.mkVNC, TriangleR3.mkVN, TriangleR3.mk0, unitTriangle, vec3.ext_iff]
    norm_num

/-! ### `SuperMesh::addPolyGroup(triangles, material)` -/

/-- Claim C38, as stated, fails when the group count is already used as an id: a
mesh whose only surface group has the id `1` gets the id
`static_cast<int>(size) = 1` for the new group, and the new triangles and
material replace the old ones; the number of surface groups stays `1`. -/
theorem addPolyGroup_replaces_group :
    oneGroupAtOne.triangleGroups = [(PolyGroupID.int 1, [unitTriangle])] ∧
      oneGroupAtOne.registeredMaterial (PolyGroupID.int 1) = MaterialPhong.default ∧
      (oneGroupAtOne.addPolyGroup [movedThirdCorner] blueMaterial).triangleGroups
        = [(PolyGroupID.int 1, [movedThirdCorner])] ∧
      (oneGroupAtOne.addPolyGroup [movedThirdCorner] blueMaterial).triangleGroups.length = 1 ∧
      (oneGroupAtOne.addPolyGroup [movedThirdCorner] blueMaterial).registeredMaterial
          (PolyGroupID.int 1) = blueMaterial := by
  have h1 : oneGroupAtOne.triangleGroups = [(PolyGroupID.int 1, [unitTriangle])] := by
    simp [oneGroupAtOne, SuperMesh.addPolyGroupWithId, SuperMesh.empty, StdMap.assign,
      StdMap.contains, StdMap.find, StdMap.insert]
  have h2 : (oneGroupAtOne.addPolyGroup [movedThirdCorner] blueMaterial).triangleGroups
      = [(PolyGroupID.int 1, [movedThirdCorner])] := by
    simp [SuperMesh.addPolyGroup, SuperMesh.addPolyGroupWithId, h1, StdMap.assign,
      StdMap.contains, StdMap.find, StdMap.replace]
  refine ⟨h1, ?_, h2, by rw [h2]; rfl, ?_⟩
  · simp [SuperMesh.registeredMaterial, oneGroupAtOne, SuperMesh.addPolyGroupWithId,
      SuperMesh.empty, StdMap.index_fst, StdMap.find_assign_same]
  · simp [SuperMesh.registeredMaterial, SuperMesh.addPolyGroup, SuperMesh.addPolyGroupWithId,
      StdMap.index_fst, h1, StdMap.find_assign_same]

/-- Claim C38 (amended): when the number of surface groups, taken as an integer
id, is not yet the id of a surface group, `addPolyGroup(triangles, material)`
adds one surface group under that id with the given triangles and material, and
every surface group present before still maps to the same triangles and the same
material. -/
theorem addPolyGroup_keeps_groups (m : SuperMesh) (triangles : List TriangleR3)
    (material : MaterialPhong)
    (hfresh : StdMap.find m.triangleGroups (PolyGroupID.int (m.triangleGroups.length : Int))
      = none) :
    (m.addPolyGroup triangles material).triangleGroups.length = m.triangleGroups.length + 1 ∧
      StdMap.find (m.addPolyGroup triangles material).triangleGroups
          (PolyGroupID.int (m.triangleGroups.length : Int)) = some triangles ∧
      (m.addPolyGroup triangles material).registeredMaterial
          (PolyGroupID.int (m.triangleGroups.length : Int)) = material ∧
      ∀ (k : PolyGroupID) (ts : List TriangleR3), StdMap.find m.triangleGroups k = some ts →
        StdMap.find (m.addPolyGroup triangles material).triangleGroups k = some ts ∧
        (m.addPolyGroup triangles material).registeredMaterial k = m.registeredMaterial k := by
  refine ⟨?_, ?_, ?_, ?_⟩
  · exact StdMap.length_assign_of_find_none _ _ _ hfresh
  · exact StdMap.find_assign_same _ _ _
  · simp [SuperMesh.registeredMaterial, SuperMesh.addPolyGroup, SuperMesh.addPolyGroupWithId,
      StdMap.index_fst, StdMap.find_assign_same]
  · intro k ts hk
    have hne : PolyGroupID.int (m.triangleGroups.length : Int) ≠ k := by
      intro h
      rw [h, hk] at hfresh
      exact Option.noConfusion hfresh
    refine ⟨?_, ?_⟩
    · have := StdMap.find_assign_other m.triangleGroups _ k triangles hne
      simp only [SuperMesh.addPolyGroup, SuperMesh.addPolyGroupWithId]
      rw [this, hk]
    · simp only [SuperMesh.registeredMaterial, SuperMesh.addPolyGroup,
        SuperMesh.addPolyGroupWithId, StdMap.index_fst]
      rw [StdMap.find_assign_other m.materials _ k material hne]

theorem addPolyGroup_keeps_groups_witness :
    StdMap.find singleGroupMesh.triangleGroups
        (PolyGroupID.int (singleGroupMesh.triangleGroups.length : Int)) = none ∧
      (singleGroupMesh.addPolyGroup [movedThirdCorner] blueMaterial).triangleGroups.length
        = singleGroupMesh.triangleGroups.length + 1 :=
  have h : StdMap.find singleGroupMesh.triangleGroups
      (PolyGroupID.int (singleGroupMesh.triangleGroups.length : Int)) = none := by
    simp [singleGroupMesh, SuperMesh.empty, StdMap.find]
  ⟨h, (addPolyGroup_keeps_groups singleGroupMesh [movedThirdCorner] blueMaterial h).1⟩

/-! ### `SuperPencilPlanar::deformMesh` -/

/-- Claim C39 fails for the stored time: `deformMesh(dt)` calls
`transformMesh(_t + dt)`, which sets the stored time to `t + dt`, and then adds
`dt` once more.  For every pencil the mesh after `deformMesh(dt)` is the mesh
after `transformMesh(t + dt)`, but the stored time is `t + dt + dt`; for a pencil
at time `0` and `dt = 1` it is `2`, while the mesh was moved to time `1`. -/
theorem deformMesh_advances_time_twice :
    (∀ (ops : BiholomorphismOps) (P : SuperPencilPlanar) (dt : ℚ),
        (SuperPencilPlanar.deformMesh ops P dt).toSuperMesh
          = (SuperPencilPlanar.transformMesh ops P (P._t + dt)).toSuperMesh ∧
        (SuperPencilPlanar.transformMesh ops P (P._t + dt))._t = P._t + dt ∧
        (SuperPencilPlanar.deformMesh ops P dt)._t = P._t + dt + dt) ∧
      (SuperPencilPlanar.transformMesh plainBiholomorphismOps restingPencil (0 + 1))._t = 1 ∧
      (SuperPencilPlanar.deformMesh plainBiholomorphismOps restingPencil 1)._t = 2 := by
  refine ⟨fun _ _ _ => ⟨rfl, rfl, rfl⟩, ?_, ?_⟩
  · simp [SuperPencilPlanar.transformMesh]
  · simp [SuperPencilPlanar.deformMesh, SuperPencilPlanar.transformMesh, restingPencil]
    norm_num

/-! ### `SuperCurve::mesh` on short sample lists -/

theorem forLoop_first {σ : Type} (n : Nat) (body : Nat → σ → σ) (s : σ) :
    forLoop (n + 1) body s = forLoop n (fun i => body (i + 1)) (body 0 s) := by
  unfold forLoop
  rw [List.range_succ_eq_map, List.foldl_cons, List.foldl_map]

theorem forLoop_none {α : Type} (n : Nat) (body : Nat → Option α → Option α)
    (h : ∀ i, body i none = none) : forLoop n body none = none := by
  induction n with
  | zero => rfl
  | succ n ih => rw [forLoop_succ, ih, h]

/-- Claim C40 fails for an empty sample list: `sampleCurve` with `n = 0` and
`periodic = false` returns no sample, `samples.size() - 1` is then `2^64 - 1` in
`size_t` arithmetic, and the first iteration of `mesh(1)` reads `samples[0]` of
the empty vector (the model has no value for that read, and `mesh` has none
either).  With a single sample (`n = 0`, `periodic = true`) the loop does not run
and `mesh` returns a mesh without groups. -/
theorem mesh_empty_samples_out_of_bounds (trig : TrigOps) (curveGroup : Nat → PolyGroupID)
    (curve : SmoothParametricCurve) (width : ℚ → ℚ) (material : ℚ → MaterialPhong)
    (t0 t1 : ℚ) :
    SuperCurve.ofCurve curve width material t0 t1 0 false = some ⟨t0, t1, [], none⟩ ∧
      sizeMinusOne 0 = 2 ^ 64 - 1 ∧
      SuperCurve.meshStep trig curveGroup ⟨t0, t1, [], none⟩ 1 0 0 SuperMesh.empty = none ∧
      SuperCurve.mesh trig curveGroup ⟨t0, t1, [], none⟩ 1 = none ∧
      SuperCurve.ofCurve curve width material t0 t1 0 true
        = some ⟨t0, t1, [sampleAt curve width material t0], none⟩ ∧
      SuperCurve.mesh trig curveGroup ⟨t0, t1, [sampleAt curve width material t0], none⟩ 1
        = some SuperMesh.empty := by
  have hstep : SuperCurve.meshStep trig curveGroup ⟨t0, t1, [], none⟩ 1 0 0 SuperMesh.empty
      = none := by
    simp [SuperCurve.meshStep]
  refine ⟨?_, rfl, hstep, ?_, ?_, ?_⟩
  · have h := sampleCurve_nonperiodic curve width material t0 t1 0
    simp only [List.range_zero, List.map_nil] at h
    simp only [SuperCurve.ofCurve]
    rw [show (0 : Int) = ((0 : Nat) : Int) from rfl, h]
    rfl
  · have hs : sizeMinusOne ([] : List CurveSample).length = (2 ^ 64 - 2) + 1 := by decide
    have h1 : (1 : Int).toNat = 1 := rfl
    unfold SuperCurve.mesh
    simp only [hs, h1]
    rw [forLoop_first]
    simp only [forLoop_succ, forLoop_zero, Option.some_bind, Option.bind_eq_bind, hstep]
    exact forLoop_none _ _ (fun i => rfl)
  · have h := sampleCurve_periodic curve width material t0 t1 0
    simp only [List.range_zero, List.map_nil, List.nil_append] at h
    simp only [SuperCurve.ofCurve]
    rw [show (0 : Int) = ((0 : Nat) : Int) from rfl, h]
    rfl
  · rfl


/-! ### Ribbon construction -/

theorem TriangularMesh.recalculateNormals_triangles (ops : RealOps) (m : TriangularMesh) :
    (m.recalculateNormals ops).triangles = m.triangles.map (fun t => t.recalculateNormal ops) := by
  simp only [TriangularMesh.recalculateNormals]
  exact forLoop_modifyAt _ _

theorem TriangularMesh.length_segmentSextet (ops : RibbonOps) (h_middle w_middle w_side : ℚ)
    (before a b after : Complex) :
    (TriangularMesh.segmentSextet ops h_middle w_middle w_side before a b after).length = 6 := rfl

theorem TriangularMesh.ribbonSextet_length (ops : RibbonOps) (h_middle w_middle w_side : ℚ)
    (points : List Complex) (i : Nat) (hi : i + 2 < points.length) :
    ∃ s, TriangularMesh.ribbonSextet ops h_middle w_middle w_side points i = some s ∧
      s.length = 6 := by
  have h0 : i - 1 < points.length := by omega
  have h1 : i < points.length := by omega
  have h2 : i + 1 < points.length := by omega
  refine ⟨_, ?_, TriangularMesh.length_segmentSextet ops h_middle w_middle w_side
    (points.get ⟨i - 1, h0⟩) (points.get ⟨i, h1⟩) (points.get ⟨i + 1, h2⟩)
    (points.get ⟨i + 2, hi⟩)⟩
  simp only [TriangularMesh.ribbonSextet, List.get?_eq_get h0, List.get?_eq_get h1,
    List.get?_eq_get h2, List.get?_eq_get hi, Option.some_bind]

theorem TriangularMesh.ribbonTriangles_length (ops : RibbonOps) (h_middle w_middle w_side : ℚ)
    (points : List Complex) :
    ∃ ts, TriangularMesh.ribbonTriangles ops h_middle w_middle w_side points = some ts ∧
      ts.length = 6 * (points.length - 3) := by
  unfold TriangularMesh.ribbonTriangles
  refine forLoop_invariant
    (fun k (acc : Option (List TriangleR3)) => ∃ ts, acc = some ts ∧ ts.length = 6 * k)
    _ _ _ ⟨[], rfl, rfl⟩ ?_
  rintro k acc hk ⟨ts, rfl, hts⟩
  obtain ⟨s, hs, hlen⟩ := TriangularMesh.ribbonSextet_length ops h_middle w_middle w_side
    points (k + 1) (by omega)
  refine ⟨ts ++ s, ?_, ?_⟩
  · simp only [Option.some_bind, hs, Option.map_some']
  · rw [List.length_append, hts, hlen]; ring

theorem TriangularMesh.ribbonPoints_length (ops : RibbonOps) (curve : ComplexCurve)
    (nSegments : Int) (hP : 2 ≤ (curve.sample nSegments).length) :
    ∃ points, TriangularMesh.ribbonPoints ops curve nSegments = some points ∧
      points.length = (curve.sample nSegments).length + 2 := by
  unfold TriangularMesh.ribbonPoints
  have h0 : 0 < (curve.sample nSegments).length := by omega
  have h1 : 1 < (curve.sample nSegments).length := by omega
  cases hc : curve.cyclic
  · have e1 : (curve.sample nSegments).length + 1 - 1
        < (ops.cadd (ops.csub ((curve.sample nSegments).get ⟨0, h0⟩)
            ((curve.sample nSegments).get ⟨1, h1⟩)) ((curve.sample nSegments).get ⟨0, h0⟩)
          :: curve.sample nSegments).length := by
      simp
    have e2 : (curve.sample nSegments).length + 1 - 2
        < (ops.cadd (ops.csub ((curve.sample nSegments).get ⟨0, h0⟩)
            ((curve.sample nSegments).get ⟨1, h1⟩)) ((curve.sample nSegments).get ⟨0, h0⟩)
          :: curve.sample nSegments).length := by
      simp; omega
    simp only [Bool.false_eq_true, if_false, List.get?_eq_get h0, List.get?_eq_get h1,
      Option.some_bind, List.length_cons, List.get?_eq_get e1, List.get?_eq_get e2]
    exact ⟨_, rfl, by simp⟩
  · have e1 : 1 < (curve.sample nSegments ++ [(curve.sample nSegments).get ⟨0, h0⟩]).length := by
      simp; omega
    simp only [if_true, List.get?_eq_get h0, Option.some_bind, List.get?_eq_get e1]
    exact ⟨_, rfl, by simp⟩

/-- The ribbon constructor returns a mesh of `6·(P−1)` triangles for `P ≥ 2`
sample points, for an open and for a cyclic curve alike. -/
theorem TriangularMesh.ofComplexCurve_length (ops : RibbonOps) (curve : ComplexCurve)
    (nSegments : Int) (h_middle w_middle w_side : ℚ) (hn : 0 ≤ 4 * nSegments + 4)
    (hP : 2 ≤ (curve.sample nSegments).length) :
    ∃ mesh, TriangularMesh.ofComplexCurve ops curve nSegments h_middle w_middle w_side
        = some mesh ∧
      mesh.triangles.length = 6 * ((curve.sample nSegments).length - 1) := by
  obtain ⟨points, hp, hlen⟩ := TriangularMesh.ribbonPoints_length ops curve nSegments hP
  obtain ⟨ts, hts, htl⟩ := TriangularMesh.ribbonTriangles_length ops h_middle w_middle w_side
    points
  refine ⟨(TriangularMesh.ofTriangles ts).recalculateNormals ops.real, ?_, ?_⟩
  · simp only [TriangularMesh.ofComplexCurve, not_lt.mpr hn, if_false, hp, Option.some_bind,
      hts, Option.map_some']
  · rw [TriangularMesh.recalculateNormals_triangles, List.length_map]
    simp only [TriangularMesh.ofTriangles]
    rw [htl, hlen]
    congr 1

/-- Claim C31 fails for closed curves: the loop of the ribbon constructor starts
at the index `1` of the padded points `p_0, …, p_{P−1}, p_0, p_1`, so a cyclic
curve gets the segments `p_1 → p_2`, …, `p_{P−1} → p_0` and no sextet for the
segment from the first sample to the second.  For the closed curve with the three
samples `A`, `B`, `C` the mesh holds twelve triangles, not eighteen: the sextet of
`B → C` followed by the sextet of `C → A`, with recalculated normals.  The open
curve with the same samples gets the twelve triangles of `A → B` and `B → C`. -/
theorem ribbon_cyclic_misses_first_segment (ops : RibbonOps) (nSegments : Nat)
    (h_middle w_middle w_side : ℚ) :
    (TriangularMesh.ofComplexCurve ops triangleLoop nSegments h_middle w_middle w_side).map
        (fun mesh => mesh.triangles)
      = some ((TriangularMesh.segmentSextet ops h_middle w_middle w_side
            cornerA cornerB cornerC cornerA
          ++ TriangularMesh.segmentSextet ops h_middle w_middle w_side
            cornerB cornerC cornerA cornerB).map (fun t => t.recalculateNormal ops.real)) ∧
      (TriangularMesh.ofComplexCurve ops triangleLoop nSegments h_middle w_middle w_side).map
        (fun mesh => mesh.triangles.length) = some 12 ∧
      (TriangularMesh.ofComplexCurve ops triangleArc nSegments h_middle w_middle w_side).map
        (fun mesh => mesh.triangles)
      = some ((TriangularMesh.segmentSextet ops h_middle w_middle w_side
            (ops.cadd (ops.csub cornerA cornerB) cornerA) cornerA cornerB cornerC
          ++ TriangularMesh.segmentSextet ops h_middle w_middle w_side
            cornerA cornerB cornerC (ops.csub (ops.cadd cornerC cornerC) cornerB)).map
          (fun t => t.recalculateNormal ops.real)) := by
  have hn : ¬ (4 * (nSegments : Int) + 4 < 0) := by omega
  have hloop : TriangularMesh.ofComplexCurve ops triangleLoop nSegments h_middle w_middle w_side
      = some ((TriangularMesh.ofTriangles
          (TriangularMesh.segmentSextet ops h_middle w_middle w_side
              cornerA cornerB cornerC cornerA
            ++ TriangularMesh.segmentSextet ops h_middle w_middle w_side
              cornerB cornerC cornerA cornerB)).recalculateNormals ops.real) := by
    simp [TriangularMesh.ofComplexCurve, hn, TriangularMesh.ribbonPoints, triangleLoop,
      TriangularMesh.ribbonTriangles, TriangularMesh.ribbonSextet, forLoop_succ, forLoop_zero]
  have harc : TriangularMesh.ofComplexCurve ops triangleArc nSegments h_middle w_middle w_side
      = some ((TriangularMesh.ofTriangles
          (TriangularMesh.segmentSextet ops h_middle w_middle w_side
              (ops.cadd (ops.csub cornerA cornerB) cornerA) cornerA cornerB cornerC
            ++ TriangularMesh.segmentSextet ops h_middle w_middle w_side
              cornerA cornerB cornerC (ops.csub (ops.cadd cornerC cornerC) cornerB)
            )).recalculateNormals ops.real) := by
    simp [TriangularMesh.ofComplexCurve, hn, TriangularMesh.ribbonPoints, triangleArc,
      TriangularMesh.ribbonTriangles, TriangularMesh.ribbonSextet, forLoop_succ, forLoop_zero]
  refine ⟨?_, ?_, ?_⟩
  · rw [hloop, Option.map_some', TriangularMesh.recalculateNormals_triangles]
    rfl
  · rw [hloop, Option.map_some', TriangularMesh.recalculateNormals_triangles, List.length_map]
    rfl
  · rw [harc, Option.map_some', TriangularMesh.recalculateNormals_triangles]
    rfl


/-! ### Rounding to `float` -/

theorem floatSpacing_eq (x : ℚ) (e : Int) (he : -126 ≤ e) (hlo : 2 ^ e ≤ |x|)
    (hhi : |x| < 2 ^ (e + 1)) : floatSpacing x = 2 ^ (e - 23) := by
  have hpos : 0 < |x| := lt_of_lt_of_le (by positivity) hlo
  have h1 : e ≤ Int.log 2 |x| := by
    rw [← Int.zpow_le_iff_le_log (by norm_num) hpos]
    simpa using hlo
  have h2 : Int.log 2 |x| < e + 1 := by
    rw [← Int.lt_zpow_iff_log_lt (by norm_num) hpos]
    simpa using hhi
  have h3 : Int.log 2 |x| = e := by omega
  unfold floatSpacing
  rw [h3, max_eq_left he]

theorem roundHalfEven_intCast (n : Int) : roundHalfEven (n : ℚ) = n := by
  simp [roundHalfEven]

theorem roundFloat_zero : roundFloat 0 = 0 := by
  simp [roundFloat, roundHalfEven]

/-- A number `n * 2 ^ (e - 23)` of magnitude in `[2 ^ e, 2 ^ (e + 1))`, with
`e ≥ -126`, is a `float`: rounding returns it. -/
theorem roundFloat_exact (x : ℚ) (e n : Int) (he : -126 ≤ e) (hlo : 2 ^ e ≤ |x|)
    (hhi : |x| < 2 ^ (e + 1)) (hx : x = n * 2 ^ (e - 23)) : roundFloat x = x := by
  unfold roundFloat
  rw [floatSpacing_eq x e he hlo hhi]
  have hq : (2 : ℚ) ^ (e - 23) ≠ 0 := by positivity
  have hdiv : x / 2 ^ (e - 23) = (n : ℚ) := by rw [hx]; field_simp
  rw [hdiv, roundHalfEven_intCast, hx]

/-- Rounding of a number of magnitude in `[2 ^ e, 2 ^ (e + 1))`, with `e ≥ -126`:
the multiple of `2 ^ (e - 23)` nearest to it. -/
theorem roundFloat_eq (x : ℚ) (e n : Int) (he : -126 ≤ e) (hlo : 2 ^ e ≤ |x|)
    (hhi : |x| < 2 ^ (e + 1)) (hn : roundHalfEven (x / 2 ^ (e - 23)) = n) :
    roundFloat x = n * 2 ^ (e - 23) := by
  unfold roundFloat
  rw [floatSpacing_eq x e he hlo hhi, hn]

theorem roundFloat_one : roundFloat 1 = 1 :=
  roundFloat_exact 1 0 8388608 (by norm_num) (by norm_num) (by norm_num) (by norm_num)

theorem roundFloat_neg_one : roundFloat (-1) = -1 :=
  roundFloat_exact (-1) 0 (-8388608) (by norm_num) (by norm_num) (by norm_num) (by norm_num)

theorem roundFloat_two : roundFloat 2 = 2 :=
  roundFloat_exact 2 1 8388608 (by norm_num) (by norm_num) (by norm_num) (by norm_num)

theorem roundFloat_three : roundFloat 3 = 3 :=
  roundFloat_exact 3 1 12582912 (by norm_num) (by norm_num) (by norm_num) (by norm_num)

theorem roundFloat_six : roundFloat 6 = 6 :=
  roundFloat_exact 6 2 12582912 (by norm_num) (by norm_num) (by norm_num) (by norm_num)

theorem roundFloat_nine : roundFloat 9 = 9 :=
  roundFloat_exact 9 3 9437184 (by norm_num) (by norm_num) (by norm_num) (by norm_num)

theorem roundFloat_eighteen : roundFloat 18 = 18 :=
  roundFloat_exact 18 4 9437184 (by norm_num) (by norm_num) (by norm_num) (by norm_num)

/-- The integer `2 ^ 24 + 1` lies half-way between the `float`s `2 ^ 24` and
`2 ^ 24 + 2`; it is rounded to `2 ^ 24`, whose significand is even. -/
theorem roundFloat_two_pow_24_succ : roundFloat 16777217 = 16777216 := by
  have hf : ⌊(16777217 : ℚ) / 2 ^ ((24 : Int) - 23)⌋ = 8388608 := by
    rw [Int.floor_eq_iff]; norm_num
  have hn : roundHalfEven ((16777217 : ℚ) / 2 ^ ((24 : Int) - 23)) = 8388608 := by
    unfold roundHalfEven
    rw [hf]
    norm_num
  rw [roundFloat_eq 16777217 24 8388608 (by norm_num) (by norm_num) (by norm_num) hn]
  norm_num

/-- The `float` nearest to `2/3` is `11184811 / 2 ^ 24`. -/
theorem roundFloat_two_thirds : roundFloat (2 / 3) = 11184811 / 16777216 := by
  have hf : ⌊(2 / 3 : ℚ) / 2 ^ ((-1 : Int) - 23)⌋ = 11184810 := by
    rw [Int.floor_eq_iff]; norm_num
  have hn : roundHalfEven ((2 / 3 : ℚ) / 2 ^ ((-1 : Int) - 23)) = 11184811 := by
    unfold roundHalfEven
    rw [hf]
    norm_num
  have h := roundFloat_eq (2 / 3) (-1) 11184811 (by norm_num)
    (by rw [abs_of_pos (by norm_num)]; norm_num) (by rw [abs_of_pos (by norm_num)]; norm_num) hn
  rw [h]
  norm_num

/-- The number `-1 - 11184811 / 2 ^ 24` lies half-way between two `float`s; it is
rounded to `-13981014 / 2 ^ 23`, whose significand is even. -/
theorem roundFloat_first_coordinate :
    roundFloat (-(27962027 / 16777216)) = -(6990507 / 4194304) := by
  have hf : ⌊(-(27962027 / 16777216) : ℚ) / 2 ^ ((0 : Int) - 23)⌋ = -13981014 := by
    rw [Int.floor_eq_iff]; norm_num
  have hn : roundHalfEven ((-(27962027 / 16777216) : ℚ) / 2 ^ ((0 : Int) - 23))
      = -13981014 := by
    unfold roundHalfEven
    rw [hf]
    norm_num
  have h := roundFloat_eq (-(27962027 / 16777216)) 0 (-13981014) (by norm_num)
    (by rw [abs_of_neg (by norm_num)]; norm_num) (by rw [abs_of_neg (by norm_num)]; norm_num) hn
  rw [h]
  norm_num

theorem TriangleR3.worldToBarycentricRounded_id (t : TriangleR3) (point : vec3) :
    t.worldToBarycentricRounded (fun x => x) point = t.worldToBarycentric point := rfl

theorem SuperMesh.actOnEmbeddedCurveRounded_id (f : SpaceEndomorphism) (m : SuperMesh) :
    m.actOnEmbeddedCurveRounded (fun x => x) f = m.actOnEmbeddedCurve f := rfl


theorem roundFloat_third_sum : roundFloat (1398101 / 4194304) = 1398101 / 4194304 :=
  roundFloat_exact (1398101 / 4194304) (-2) 11184808 (by norm_num)
    (by rw [abs_of_pos (by norm_num)]; norm_num) (by rw [abs_of_pos (by norm_num)]; norm_num)
    (by norm_num)

theorem roundFloat_below_one : roundFloat (16777215 / 16777216) = 16777215 / 16777216 :=
  roundFloat_exact (16777215 / 16777216) (-1) 16777215 (by norm_num)
    (by rw [abs_of_pos (by norm_num)]; norm_num) (by rw [abs_of_pos (by norm_num)]; norm_num)
    (by norm_num)

/-- Claim C36, as stated, fails in `float` arithmetic.  The triangle `(1,1,0)`,
`(2,1,0)`, `(1,4,0)` is not degenerate (the cross product of its edges is
`(0,0,3)`).  For the point `(3,3,0)` the exact coordinates are `(-5/3, 2, 2/3)`;
with every operation rounded to `float` the third coordinate is
`11184811 / 2 ^ 24`, the first is `-13981014 / 2 ^ 23`, and the three sum to
`1 - 2 ^ (-24)`, also when the sum is taken in `float`. -/
theorem worldToBarycentric_float_sum :
    vec3.cross (tallTriangle.vertex 1 - tallTriangle.vertex 0)
        (tallTriangle.vertex 2 - tallTriangle.vertex 0) = ⟨0, 0, 3⟩ ∧
      tallTriangle.worldToBarycentric ⟨3, 3, 0⟩ = ⟨-5 / 3, 2, 2 / 3⟩ ∧
      tallTriangle.worldToBarycentricRounded roundFloat ⟨3, 3, 0⟩
        = ⟨-6990507 / 4194304, 2, 11184811 / 16777216⟩ ∧
      (tallTriangle.worldToBarycentricRounded roundFloat ⟨3, 3, 0⟩).x
          + (tallTriangle.worldToBarycentricRounded roundFloat ⟨3, 3, 0⟩).y
          + (tallTriangle.worldToBarycentricRounded roundFloat ⟨3, 3, 0⟩).z
        = 1 - 1 / 16777216 ∧
      roundFloat
          (roundFloat ((tallTriangle.worldToBarycentricRounded roundFloat ⟨3, 3, 0⟩).x
            + (tallTriangle.worldToBarycentricRounded roundFloat ⟨3, 3, 0⟩).y)
          + (tallTriangle.worldToBarycentricRounded roundFloat ⟨3, 3, 0⟩).z)
        = 1 - 1 / 16777216 := by
  have hr : tallTriangle.worldToBarycentricRounded roundFloat ⟨3, 3, 0⟩
      = ⟨-6990507 / 4194304, 2, 11184811 / 16777216⟩ := by
    norm_num [TriangleR3.worldToBarycentricRounded, vec3.dotRounded, vec3.subRounded,
      TriangleR3.vertex, tallTriangle, TriangleR3.mkVN, TriangleR3.mk0, roundFloat_zero,
      roundFloat_one, roundFloat_neg_one, roundFloat_two, roundFloat_three, roundFloat_six,
      roundFloat_nine, roundFloat_eighteen, roundFloat_two_thirds, roundFloat_first_coordinate]
  refine ⟨?_, ?_, hr, ?_, ?_⟩
  · simp [vec3.cross, TriangleR3.vertex, tallTriangle, TriangleR3.mkVN, TriangleR3.mk0,
      vec3.ext_iff]
    norm_num
  · simp [TriangleR3.worldToBarycentric, vec3.dot, TriangleR3.vertex, tallTriangle,
      TriangleR3.mkVN, TriangleR3.mk0, vec3.ext_iff]
    norm_num
  · rw [hr]
    norm_num
  · rw [hr]
    norm_num [roundFloat_third_sum, roundFloat_below_one]

/-- Claim C4, as stated, fails in `float` arithmetic.  The cached vertex
`(1, 0, 0)` of `farAnchorMesh` has the anchor `(2 ^ 24, 0, 0)`.  Under the
identity map the exact computation leaves the mesh as it is, but the sum
`f(a) + p` has the component `2 ^ 24 + 1`, which is rounded to `2 ^ 24`, and
the difference with the anchor is `0`: the cached position becomes `(0, 0, 0)`
while the anchor and the normal stay, so `position - anchor` is not preserved. -/
theorem actOnEmbeddedCurve_float_identity_moves :
    farAnchorMesh.stdAttributeBuffers.positions = [⟨1, 0, 0⟩] ∧
      StdMap.find farAnchorMesh.extraBuff "curvePoint" = some [⟨16777216, 0, 0, 0⟩] ∧
      (farAnchorMesh.actOnEmbeddedCurve identityEndomorphism).stdAttributeBuffers.positions
        = [⟨1, 0, 0⟩] ∧
      (farAnchorMesh.actOnEmbeddedCurveRounded roundFloat
          identityEndomorphism).stdAttributeBuffers.positions = [⟨0, 0, 0⟩] ∧
      (farAnchorMesh.actOnEmbeddedCurveRounded roundFloat
          identityEndomorphism).stdAttributeBuffers.normals = [⟨0, 0, 1⟩] ∧
      StdMap.find (farAnchorMesh.actOnEmbeddedCurveRounded roundFloat
          identityEndomorphism).extraBuff "curvePoint" = some [⟨16777216, 0, 0, 0⟩] := by
  refine ⟨rfl, rfl, ?_, ?_, ?_, ?_⟩
  · simp [SuperMesh.actOnEmbeddedCurve, forLoop_succ, forLoop_zero,
      SuperMesh.actOnEmbeddedCurveStep, farAnchorMesh, SuperMesh.empty, StdMap.index,
      StdMap.find, identityEndomorphism, vec4.xyz, vec3.ext_iff]
  · norm_num [SuperMesh.actOnEmbeddedCurveRounded, forLoop_succ, forLoop_zero,
      SuperMesh.actOnEmbeddedCurveStepRounded, farAnchorMesh, SuperMesh.empty, StdMap.index,
      StdMap.find, identityEndomorphism, vec4.xyz, vec3.addRounded, vec3.subRounded,
      vec3.ext_iff, roundFloat_zero, roundFloat_two_pow_24_succ]
  · norm_num [SuperMesh.actOnEmbeddedCurveRounded, forLoop_succ, forLoop_zero,
      SuperMesh.actOnEmbeddedCurveStepRounded, farAnchorMesh, SuperMesh.empty, StdMap.index,
      StdMap.find, identityEndomorphism, vec4.xyz, mat3.mulVecRounded, mat3.one,
      vec3.addRounded, vec3.scaleRounded, vec3.ext_iff, roundFloat_zero, roundFloat_one]
  · simp [SuperMesh.actOnEmbeddedCurveRounded, forLoop_succ, forLoop_zero,
      SuperMesh.actOnEmbeddedCurveStepRounded, farAnchorMesh, SuperMesh.empty, StdMap.index,
      StdMap.find, StdMap.assign, StdMap.contains, StdMap.replace, identityEndomorphism,
      vec4.xyz, vec4.ofVec3]

end Shading
